import Mathlib

/-!
# CSpydr semantic validator: scopes, alias expansion, type equality, layout, calls,
entry point, literals, enumerations, return analysis, unused locals, traversal order,
operand types, member access, pipes

A shallow embedding of `src/compiler/parser/validator.c` and of the traversal
`src/compiler/ast/ast_iterator.c` (with the data model of `src/compiler/ast/ast.h` and the
error table of `src/compiler/error/error.c`).

Conventions of the embedding

* C pointers to tree data become values; a nullable pointer becomes an `Option`, and
  dereferencing `NULL` is an outcome of its own.  The token of a declaration and the file
  of a token are always present and are plain values.  So is the identifier of a
  declaration: every declaration that reaches a scope has had `obj->id->callee` read by
  `scope_add_obj` or `using_end` before, and the members of namespaces and enumerations
  are read the same way without a test, which leaves the test `obj->id &&` of
  `search_in_current_scope` always true.
* The linked list of scopes (`VScope_T.prev`) is an inductive chain.  The pointer
  `v->global_scope` is only ever `NULL` or the outermost scope of the chain
  (`validate_ast` sets it right after pushing the first scope and clears it after
  popping that scope), so the validator state keeps a flag and reads the scope off
  the chain: pushes made through `current_scope` stay visible through it.
* `throw_error` prints one diagnostic and, when the error table says `force_exit`,
  ends the process.  A run therefore yields the list of printed diagnostics and an
  outcome: a returned value, process exit, a `NULL` dereference, or no result.
* Recursion that the C code does not bound (`search_identifier`, `expand_typedef`,
  `get_type_size`) takes a fuel argument counting the call depth; running out of fuel
  is the outcome `diverge`.
* A function that writes into the tree (`get_type_size`, `type_end`, `call`,
  `check_main_fn`) yields the nodes it wrote.  Fields that only refer to another part of
  the tree (`called_obj`, `referenced_obj`, `return_buffer`, `expr->call`) are not
  represented.
* Functions that recurse over the tree itself (`stmt_returns_value`, the traversal
  functions of ast_iterator.c) are structural recursions, with one function for each
  pointer and list that the C code walks.
* A C union is one field per storage slot and type of content; a C string is the list of
  its `char` values before the terminating NUL.
* The traversal yields the list of the callback invocations it makes, in order; the
  callbacks are functions of their own and are not run by the traversal functions.
* ast_iterator.c names kinds that ast.h does not declare (`TY_TEMPLATE`,
  `TY_OPAQUE_STRUCT`, `TY_TUPLE`, `ND_LLONG`, `ND_VA_ARG`, `ND_ENUM_MEMBER`); they are
  kinds of the model, after those of ast.h.  Its name for the kind of function types is
  `TY_LAMBDA`, that of ast.h and validator.c is `TY_FN`.
* An object that the C code reaches through several pointers (a local variable is in
  the list `locals` of its block and in the scope that `block_start` filled from that
  list) is a value at each place; a function that writes to such an object yields the
  object as written.
* A member of a node or declaration that the data model does not hold and that one
  callback reads (`fn->va_area`, `with->obj`) is an argument of that callback.
* What validator.c calls but the sources at hand do not define (size macros, `align_to`,
  `const_i64`, `is_variadic`, `ast_type_to_str`, `init_ast_obj`, `init_ast_node`, the
  table `primitives`, the global configuration) is a field of `Platform`.
-/

set_option autoImplicit false

namespace CSpydr

/-! ## Data model (ast.h, token.h) -/

/-- Type kinds: `ASTTypeKind_T` of ast.h, followed by the three kinds that the switch of
`ast_type` in ast_iterator.c names and ast.h does not declare (`TY_TEMPLATE`,
`TY_OPAQUE_STRUCT`, `TY_TUPLE`).  The kind of function types is `TY_FN` in ast.h and
validator.c and `TY_LAMBDA` in ast_iterator.c. -/
inductive ASTTypeKind where
  | TY_I8 | TY_I16 | TY_I32 | TY_I64
  | TY_U8 | TY_U16 | TY_U32 | TY_U64
  | TY_F32 | TY_F64 | TY_F80
  | TY_BOOL | TY_VOID | TY_CHAR
  | TY_PTR | TY_ARR | TY_STRUCT | TY_ENUM
  | TY_FN
  | TY_UNDEF | TY_TYPEOF
  | TY_TEMPLATE | TY_OPAQUE_STRUCT | TY_TUPLE
  deriving DecidableEq, Repr, Inhabited

/-- Declaration kinds, `ASTObjKind_T` of ast.h. -/
inductive ASTObjKind where
  | OBJ_GLOBAL | OBJ_LOCAL | OBJ_FUNCTION | OBJ_FN_ARG
  | OBJ_TYPEDEF | OBJ_NAMESPACE | OBJ_ENUM_MEMBER | OBJ_LAMBDA
  deriving DecidableEq, Repr, Inhabited

/-- Node kinds: `ASTNodeKind_T` of ast.h, in its order, followed by the three kinds that
the switch of `ast_node` in ast_iterator.c names and ast.h does not declare (`ND_LLONG`,
`ND_VA_ARG`, `ND_ENUM_MEMBER`). -/
inductive ASTNodeKind where
  | ND_NOOP
  | ND_ID
  | ND_INT | ND_LONG | ND_ULONG | ND_FLOAT | ND_DOUBLE | ND_BOOL | ND_CHAR | ND_STR | ND_NIL
  | ND_ARRAY | ND_STRUCT
  | ND_ADD | ND_SUB | ND_MUL | ND_DIV | ND_MOD
  | ND_NEG | ND_BIT_NEG | ND_NOT | ND_REF | ND_DEREF
  | ND_EQ | ND_NE | ND_GT | ND_GE | ND_LT | ND_LE
  | ND_AND | ND_OR
  | ND_LSHIFT | ND_RSHIFT | ND_XOR | ND_BIT_OR | ND_BIT_AND
  | ND_INC | ND_DEC
  | ND_CLOSURE | ND_ASSIGN
  | ND_MEMBER | ND_CALL | ND_INDEX | ND_CAST
  | ND_SIZEOF | ND_ALIGNOF
  | ND_PIPE | ND_HOLE | ND_LAMBDA
  | ND_ELSE_EXPR
  | ND_TYPE_EXPR
  | ND_BLOCK | ND_IF | ND_TERNARY | ND_LOOP | ND_WHILE | ND_FOR | ND_MATCH | ND_MATCH_TYPE
  | ND_CASE | ND_CASE_TYPE | ND_RETURN | ND_EXPR_STMT | ND_BREAK | ND_CONTINUE | ND_LEN
  | ND_USING | ND_WITH | ND_STRUCT_MEMBER
  | ND_ASM
  | ND_LLONG | ND_VA_ARG | ND_ENUM_MEMBER
  deriving DecidableEq, Repr, Inhabited

/-- Source file of a token: `File_T` with its two path fields. -/
structure File where
  path : String := ""
  short_path : Option String := none
  deriving DecidableEq, Repr, Inhabited

/-- Token position, `Token_T` of token.h: `line` and `pos` are `u32`, zero based. -/
structure Token where
  line : Nat := 0
  pos : Nat := 0
  source : File := {}
  deriving DecidableEq, Repr, Inhabited

/-- Qualified name, `ASTIdentifier_T`: local name, optional outer path, global anchor. -/
inductive ASTIdentifier where
  | mk (tok : Token) (callee : String) (outer : Option ASTIdentifier) (global_scope : Bool)
  deriving Repr, Inhabited

namespace ASTIdentifier

def tok : ASTIdentifier → Token
  | mk t _ _ _ => t

def callee : ASTIdentifier → String
  | mk _ c _ _ => c

def outer : ASTIdentifier → Option ASTIdentifier
  | mk _ _ o _ => o

def global_scope : ASTIdentifier → Bool
  | mk _ _ _ g => g

end ASTIdentifier

/-- Plain fields of `ASTType_T`.  The pointer `tok` is `NULL` for some types (those of the
`primitives` table); `has_tok` tells whether it is set.  The code reads the token without a
test wherever the type comes from the parser. -/
structure TypeInfo where
  kind : ASTTypeKind
  tok : Token := {}
  has_tok : Bool := true
  size : Int := 0
  align : Int := 0
  id : Option ASTIdentifier := none
  is_constant : Bool := false
  is_union : Bool := false
  is_vla : Bool := false
  is_variadic : Bool := false
  deriving Repr, Inhabited

/-- Plain fields of `ASTObj_T`. -/
structure ObjInfo where
  kind : ASTObjKind
  tok : Token := {}
  id : ASTIdentifier
  referenced : Bool := false
  is_extern : Bool := false
  is_entry_point : Bool := false
  no_return : Bool := false
  ignore_unused : Bool := false
  deriving Repr, Inhabited

/-- Plain fields of `ASTNode_T`; `offset` shares its storage with the literal value.  The
members `int_val` and `str_val` of the same union are kept apart: a node kind reads the
member it wrote.  A string `str_val` is the list of its `char` values before the
terminating NUL. -/
structure NodeInfo where
  kind : ASTNodeKind
  tok : Token := {}
  id : Option ASTIdentifier := none
  offset : Int := 0
  int_val : Int := 0
  str_val : List Int := []
  deriving Repr, Inhabited

mutual
/-- Type, `ASTType_T`.  The C union `arg_types / num_indices / members` is one field per
reading.  The list `members` of an aggregate holds nodes, the field `members` here; the
list `members` of an enumeration holds declarations, the field `enum_members` here. -/
inductive ASTType where
  | mk (info : TypeInfo) (base : Option ASTType) (num_indices : Option ASTNode)
      (members : List ASTNode) (enum_members : List ASTObj) (arg_types : List ASTType)
/-- Declaration, `ASTObj_T`. -/
inductive ASTObj where
  | mk (info : ObjInfo) (data_type : Option ASTType) (objs : List ASTObj)
      (args : List ASTObj) (return_type : Option ASTType) (value : Option ASTNode)
      (body : Option ASTNode)
/-- Node, `ASTNode_T`, with the children the embedded functions read.  The C unions are one
field per storage slot and type of content: `left` is also `condition`; `body` is also
`if_branch`, `return_val` and `default_case`; `init_stmt` is also `else_branch`; `args` is
also `cases`; `stmts` (in the storage of `body`) and `locals` (in the storage of `args`)
are fields of their own.  Fields that point back into the tree (`called_obj`,
`referenced_obj`, `call`) are not represented. -/
inductive ASTNode where
  | mk (info : NodeInfo) (data_type : Option ASTType) (expr : Option ASTNode)
      (args : List ASTNode) (left : Option ASTNode) (right : Option ASTNode)
      (body : Option ASTNode) (init_stmt : Option ASTNode) (stmts : List ASTNode)
      (locals : List ASTObj)
end

namespace ASTType

def info : ASTType → TypeInfo
  | mk i _ _ _ _ _ => i

def base : ASTType → Option ASTType
  | mk _ b _ _ _ _ => b

def num_indices : ASTType → Option ASTNode
  | mk _ _ n _ _ _ => n

def members : ASTType → List ASTNode
  | mk _ _ _ m _ _ => m

def enum_members : ASTType → List ASTObj
  | mk _ _ _ _ e _ => e

def arg_types : ASTType → List ASTType
  | mk _ _ _ _ _ a => a

def kind (t : ASTType) : ASTTypeKind := t.info.kind

def size (t : ASTType) : Int := t.info.size

def id (t : ASTType) : Option ASTIdentifier := t.info.id

/-- The assignment `type->size = s`. -/
def set_size : ASTType → Int → ASTType
  | mk i b n m e a, s => mk { i with size := s } b n m e a

/-- The assignment `type->align = align`. -/
def set_align : ASTType → Int → ASTType
  | mk i b n m e a, align => mk { i with align := align } b n m e a

/-- The assignment `type->is_vla = true`. -/
def set_is_vla : ASTType → ASTType
  | mk i b n m e a => mk { i with is_vla := true } b n m e a

/-- The base type replaced (sizes and offsets were written into it). -/
def set_base : ASTType → ASTType → ASTType
  | mk i _ n m e a, b => mk i (some b) n m e a

/-- The members of the aggregate replaced (their sizes and offsets were written). -/
def set_members : ASTType → List ASTNode → ASTType
  | mk i b n _ e a, m => mk i b n m e a

end ASTType

namespace ASTObj

def info : ASTObj → ObjInfo
  | mk i _ _ _ _ _ _ => i

def data_type : ASTObj → Option ASTType
  | mk _ d _ _ _ _ _ => d

def objs : ASTObj → List ASTObj
  | mk _ _ o _ _ _ _ => o

def args : ASTObj → List ASTObj
  | mk _ _ _ a _ _ _ => a

def return_type : ASTObj → Option ASTType
  | mk _ _ _ _ r _ _ => r

def value : ASTObj → Option ASTNode
  | mk _ _ _ _ _ v _ => v

def body : ASTObj → Option ASTNode
  | mk _ _ _ _ _ _ b => b

/-- The assignment `obj->data_type = ty`. -/
def set_data_type : ASTObj → Option ASTType → ASTObj
  | mk i _ o a r v b, ty => mk i ty o a r v b

/-- The call `list_push(obj->objs, pushed)`. -/
def push_obj : ASTObj → ASTObj → ASTObj
  | mk i d o a r v b, pushed => mk i d (o ++ [pushed]) a r v b

/-- The assignment `obj->is_entry_point = true`. -/
def set_entry_point : ASTObj → ASTObj
  | mk i d o a r v b => mk { i with is_entry_point := true } d o a r v b

/-- The assignment `obj->referenced = true`. -/
def set_referenced : ASTObj → ASTObj
  | mk i d o a r v b => mk { i with referenced := true } d o a r v b

/-- The assignment `obj->value = node`. -/
def set_value : ASTObj → ASTNode → ASTObj
  | mk i d o a r _ b, node => mk i d o a r (some node) b

def kind (o : ASTObj) : ASTObjKind := o.info.kind

def tok (o : ASTObj) : Token := o.info.tok

def id (o : ASTObj) : ASTIdentifier := o.info.id

end ASTObj

namespace ASTNode

def info : ASTNode → NodeInfo
  | mk i _ _ _ _ _ _ _ _ _ => i

def data_type : ASTNode → Option ASTType
  | mk _ d _ _ _ _ _ _ _ _ => d

def expr : ASTNode → Option ASTNode
  | mk _ _ e _ _ _ _ _ _ _ => e

def args : ASTNode → List ASTNode
  | mk _ _ _ a _ _ _ _ _ _ => a

def left : ASTNode → Option ASTNode
  | mk _ _ _ _ l _ _ _ _ _ => l

def right : ASTNode → Option ASTNode
  | mk _ _ _ _ _ r _ _ _ _ => r

def body : ASTNode → Option ASTNode
  | mk _ _ _ _ _ _ b _ _ _ => b

def init_stmt : ASTNode → Option ASTNode
  | mk _ _ _ _ _ _ _ s _ _ => s

def stmts : ASTNode → List ASTNode
  | mk _ _ _ _ _ _ _ _ s _ => s

def locals : ASTNode → List ASTObj
  | mk _ _ _ _ _ _ _ _ _ l => l

/-- The member `condition`, in the storage of `left`. -/
def condition (n : ASTNode) : Option ASTNode := n.left

/-- The member `else_branch`, in the storage of `init_stmt`. -/
def else_branch (n : ASTNode) : Option ASTNode := n.init_stmt

/-- The member `return_val`, in the storage of `body`. -/
def return_val (n : ASTNode) : Option ASTNode := n.body

/-- The member `default_case`, in the storage of `body`. -/
def default_case (n : ASTNode) : Option ASTNode := n.body

/-- The member `cases`, in the storage of `args`. -/
def cases (n : ASTNode) : List ASTNode := n.args

def kind (n : ASTNode) : ASTNodeKind := n.info.kind

def tok (n : ASTNode) : Token := n.info.tok

def offset (n : ASTNode) : Int := n.info.offset

/-- The assignment `node->data_type = ty`. -/
def set_data_type : ASTNode → Option ASTType → ASTNode
  | mk i _ e a l r b s st lo, ty => mk i ty e a l r b s st lo

/-- A write to the plain fields of a node. -/
def set_info : ASTNode → NodeInfo → ASTNode
  | mk _ d e a l r b s st lo, i => mk i d e a l r b s st lo

end ASTNode

/-! ## Diagnostics (error.c) -/

/-- Error kinds used by validator.c (`ErrorType_T`). -/
inductive ErrorType where
  | ERR_SYNTAX_ERROR | ERR_SYNTAX_ERROR_UNCR | ERR_SYNTAX_WARNING
  | ERR_UNDEFINED | ERR_UNDEFINED_UNCR
  | ERR_REDEFINITION | ERR_REDEFINITION_UNCR
  | ERR_UNUSED | ERR_ILLEGAL_TYPE_CAST | ERR_TYPE_CAST_WARN
  | ERR_TYPE_ERROR | ERR_TYPE_ERROR_UNCR
  | ERR_CALL_ERROR | ERR_CONST_ASSIGN | ERR_NORETURN | ERR_UNREACHABLE
  | ERR_MISC | ERR_INTERNAL
  deriving DecidableEq, Repr, Inhabited

/-- The `force_exit` column of `error_types` in error.c.  The table has designated
initializers for eight kinds; every other entry is zero-initialised, so its flag is false. -/
def force_exit : ErrorType → Bool
  | .ERR_SYNTAX_ERROR => true
  | .ERR_SYNTAX_WARNING => false
  | .ERR_UNDEFINED => true
  | .ERR_REDEFINITION => false
  | .ERR_ILLEGAL_TYPE_CAST => true
  | .ERR_TYPE_CAST_WARN => false
  | .ERR_INTERNAL => true
  | .ERR_MISC => false
  | _ => false

/-- One variadic argument of a `throw_error` call. -/
inductive FmtArg where
  | str (s : String)
  | num (n : Int)
  | obj_kind (k : ASTObjKind)
  deriving DecidableEq, Repr

/-- One call of `throw_error`: kind, anchor token, format string and arguments. -/
structure Diagnostic where
  ty : ErrorType
  tok : Token
  format : String
  args : List FmtArg
  deriving DecidableEq, Repr

/-- How a call ends. -/
inductive Outcome (α : Type) where
  | ok (a : α)
  | exited
  | segv
  | diverge
  deriving Repr

/-- A run of validator code: the diagnostics printed, in order, and how the run ended. -/
structure Run (α : Type) where
  log : List Diagnostic
  out : Outcome α
  deriving Repr

namespace Run

def ret {α : Type} (a : α) : Run α := ⟨[], .ok a⟩

def andThen {α β : Type} (x : Run α) (f : α → Run β) : Run β :=
  match x.out with
  | .ok a => ⟨x.log ++ (f a).log, (f a).out⟩
  | .exited => ⟨x.log, .exited⟩
  | .segv => ⟨x.log, .segv⟩
  | .diverge => ⟨x.log, .diverge⟩

/-- Dereference of a `NULL` pointer. -/
def null_deref {α : Type} : Run α := ⟨[], .segv⟩

/-- The call depth budget is used up. -/
def no_fuel {α : Type} : Run α := ⟨[], .diverge⟩

/-- The value a run returned, if it returned. -/
def value? {α : Type} (x : Run α) : Option α :=
  match x.out with
  | .ok a => some a
  | _ => none

/-- The run came back to its caller. -/
def returns {α : Type} (x : Run α) : Bool :=
  match x.out with
  | .ok _ => true
  | _ => false

/-- The run printed a diagnostic of kind `ty`. -/
def reports {α : Type} (x : Run α) (ty : ErrorType) : Bool :=
  x.log.any (fun d => d.ty == ty)

end Run

instance : Monad Run where
  pure := Run.ret
  bind := Run.andThen

/-- The function `throw_error` of error.c: print, then exit if the kind forces it. -/
def throw_error (ty : ErrorType) (tok : Token) (format : String) (args : List FmtArg) :
    Run Unit :=
  ⟨[⟨ty, tok, format, args⟩], if force_exit ty then .exited else .ok ()⟩

/-! ## Type equality (validator.c, lines 605-622) -/

/-- The function `types_equal`; the result `none` stands for the dereference of a `NULL`
base or identifier. -/
def types_equal : ASTType → ASTType → Option Bool
  | .mk i1 b1 _ _ _ _, .mk i2 b2 _ _ _ _ =>
    if i1.kind ≠ i2.kind then some false
    else
      match i1.kind with
      | .TY_ARR | .TY_PTR =>
        match b1, b2 with
        | some x, some y => types_equal x y
        | _, _ => none
      | .TY_UNDEF =>
        match i1.id, i2.id with
        | some a, some b => some (a.callee == b.callee)
        | _, _ => none
      | _ => some true

/-! ## Scopes (validator.c, lines 25-44 and 292-419) -/

/-- Scope record, `VScope_T`. -/
inductive VScope where
  | mk (prev : Option VScope) (objs : List ASTObj) (id : Option ASTIdentifier)

namespace VScope

def prev : VScope → Option VScope
  | mk p _ _ => p

def objs : VScope → List ASTObj
  | mk _ o _ => o

def id : VScope → Option ASTIdentifier
  | mk _ _ i => i

/-- The call `list_push(scope->objs, obj)`. -/
def push : VScope → ASTObj → VScope
  | mk p o i, obj => mk p (o ++ [obj]) i

/-- Outermost scope of a chain. -/
def root : VScope → VScope
  | mk none o i => mk none o i
  | mk (some p) _ _ => root p

end VScope

/-- Validator state, `Validator_T`, as far as the embedded functions use it: the scopes,
the function being validated (`v->current_function`) and the innermost pipe expression
being validated (`v->current_pipe`).  The pipe node is held in the state in which the
pointer was stored. -/
structure Validator where
  current_scope : Option VScope := none
  has_global_scope : Bool := false
  scope_depth : Nat := 0
  current_function : Option ASTObj := none
  main_function_found : Bool := false
  current_pipe : Option ASTNode := none

/-- A registered exit function, `ASTExitFnHandle_T`. -/
structure ASTExitFnHandle where
  tok : Token := {}
  fn : Option ASTObj := none
  type : Option ASTType := none

/-- The program `v->ast`, an `ASTProg_T`, as far as the embedded functions use it; the list
`type_exit_fns` is `NULL` until an exit function is registered. -/
structure ASTProg where
  entry_point : Option ASTObj := none
  type_exit_fns : Option (List ASTExitFnHandle) := none

/-- The pointer `v->global_scope`. -/
def Validator.global_scope (v : Validator) : Option VScope :=
  if v.has_global_scope then v.current_scope.map VScope.root else none

def search_in_current_scope (scope : VScope) (id : String) : Option ASTObj :=
  scope.objs.find? (fun obj => obj.id.callee == id)

/-- The recursion of `search_in_scope` below a scope that is not `NULL`. -/
def search_in_scope_from : VScope → String → Option ASTObj
  | VScope.mk prev objs sid, id =>
    match search_in_current_scope (VScope.mk prev objs sid) id with
    | some found => some found
    | none =>
      match prev with
      | none => none
      | some p => search_in_scope_from p id

def search_in_scope (scope : Option VScope) (id : String) : Option ASTObj :=
  match scope with
  | none => none
  | some scope => search_in_scope_from scope id

/-- The loop over `members` / `objs` inside `search_identifier`. -/
def find_named (objs : List ASTObj) (callee : String) : Option ASTObj :=
  objs.find? (fun obj => obj.id.callee == callee)

mutual
def search_identifier : Nat → Validator → Option VScope → Option ASTIdentifier →
    Run (Option ASTObj)
  | 0, _, _, _ => Run.no_fuel
  | fuel + 1, v, scope, id =>
    match scope, id with
    | none, _ => pure none
    | some _, none => pure none
    | some scope, some id =>
      let scope : Option VScope := if id.global_scope then v.global_scope else some scope
      match id.outer with
      | some outer => do
        let outer_obj ← search_identifier fuel v scope (some outer)
        match outer_obj with
        | none => pure none
        | some outer_obj =>
          match outer_obj.kind with
          | .OBJ_TYPEDEF => do
            let expanded ← expand_typedef fuel v outer_obj.data_type
            match expanded with
            | none => Run.null_deref
            | some expanded =>
              let found :=
                if expanded.kind = .TY_ENUM then find_named expanded.enum_members id.callee
                else none
              match found with
              | some member => pure (some member)
              | none => do
                throw_error .ERR_UNDEFINED outer.tok "type `%s` has no member called `%s`"
                  [.str outer_obj.id.callee, .str id.callee]
                pure none
          | .OBJ_NAMESPACE => pure (find_named outer_obj.objs id.callee)
          | _ => pure none
      | none =>
        match scope with
        | none => Run.null_deref
        | some scope =>
          match search_in_current_scope scope id.callee with
          | some found => pure (some found)
          | none => search_identifier fuel v scope.prev (some id)

def expand_typedef : Nat → Validator → Option ASTType → Run (Option ASTType)
  | 0, _, _ => Run.no_fuel
  | fuel + 1, v, type =>
    match type with
    | none => pure none
    | some type =>
      if type.kind ≠ .TY_UNDEF then pure (some type)
      else do
        let ty_def ← search_identifier fuel v v.current_scope type.id
        match type.id, ty_def with
        | none, _ => Run.null_deref
        | some tid, none => do
          throw_error .ERR_TYPE_ERROR type.info.tok "undefined data type `%s`" [.str tid.callee]
          Run.null_deref
        | some tid, some ty_def => do
          if ty_def.kind ≠ .OBJ_TYPEDEF then
            throw_error .ERR_TYPE_ERROR type.info.tok
              "identifier `%s` references object of kind `%s`, expect type"
              [.str tid.callee, .obj_kind ty_def.kind]
          match ty_def.data_type with
          | none => Run.null_deref
          | some dt =>
            if dt.kind = .TY_UNDEF then expand_typedef fuel v (some dt) else pure (some dt)
end

/-- The function `begin_scope`: push a fresh scope; `scope_depth` is a `u32`. -/
def begin_scope (v : Validator) (id : Option ASTIdentifier) : Validator :=
  { v with
    current_scope := some (VScope.mk v.current_scope [] id)
    scope_depth := (v.scope_depth + 1) % 2 ^ 32 }

/-- The function `end_scope`: pop the current scope; `scope_depth` is a `u32`. -/
def end_scope (v : Validator) : Run Validator :=
  match v.current_scope with
  | none => Run.null_deref
  | some scope =>
    pure { v with
      current_scope := scope.prev
      scope_depth := (v.scope_depth + 2 ^ 32 - 1) % 2 ^ 32 }

/-- The file name `throw_error` callers print for a token. -/
def Token.file (t : Token) : String :=
  match t.source.short_path with
  | some p => p
  | none => t.source.path

def scope_add_obj (v : Validator) (obj : ASTObj) : Run Validator :=
  match v.current_scope with
  | none => Run.null_deref
  | some scope => do
    match search_in_current_scope scope obj.id.callee with
    | some found =>
      throw_error .ERR_REDEFINITION obj.id.tok
        "redefinition of %s `%s`.\nfirst defined in %s at line %u as %s."
        [.obj_kind obj.kind, .str obj.id.callee, .str found.tok.file,
         .num ((found.tok.line + 1) % 2 ^ 32), .obj_kind found.kind]
    | none => pure ()
    pure { v with current_scope := some (scope.push obj) }

/-- The loop of `begin_obj_scope`. -/
def scope_add_objs : Validator → List ASTObj → Run Validator
  | v, [] => pure v
  | v, obj :: rest => do
    let v ← scope_add_obj v obj
    scope_add_objs v rest

def begin_obj_scope (v : Validator) (id : Option ASTIdentifier) (objs : List ASTObj) :
    Run Validator :=
  scope_add_objs (begin_scope v id) objs

/-- The function `id_use`, the traversal callback for an identifier use. -/
def id_use (fuel : Nat) (v : Validator) (id : ASTIdentifier) : Run Unit := do
  let found ← search_identifier fuel v v.current_scope (some id)
  match found with
  | none => throw_error .ERR_UNDEFINED id.tok "undefined identifier `%s`." [.str id.callee]
  | some _ => pure ()


/-- The loop of `using_end` over the members of the namespace `found`. -/
def using_end_loop (tok : Token) (found : ASTObj) : Validator → List ASTObj → Run Validator
  | v, [] => pure v
  | v, obj :: rest =>
    match v.current_scope with
    | none => Run.null_deref
    | some scope =>
      match search_in_current_scope scope obj.id.callee with
      | some _ => do
        throw_error .ERR_REDEFINITION_UNCR tok
          "namespace `%s` is trying to implement a %s `%s`, \nwhich is already defined in this scope"
          [.str found.id.callee, .obj_kind obj.kind, .str obj.id.callee]
        using_end_loop tok found v rest
      | none => using_end_loop tok found { v with current_scope := some (scope.push obj) } rest

/-- The function `using_end`, the end callback of a `using` statement. -/
def using_end (fuel : Nat) (v : Validator) (using_node : ASTNode) : Run Validator := do
  let found ← search_identifier fuel v v.current_scope using_node.info.id
  match using_node.info.id with
  | none => Run.null_deref
  | some uid =>
    match found with
    | none => do
      throw_error .ERR_UNDEFINED_UNCR uid.tok "using undefined namespace `%s`" [.str uid.callee]
      pure v
    | some found =>
      if found.kind ≠ .OBJ_NAMESPACE then do
        throw_error .ERR_UNDEFINED_UNCR uid.tok
          "`%s` is a %s, can only have namespaces for `using`"
          [.str uid.callee, .obj_kind found.kind]
        pure v
      else using_end_loop using_node.info.tok found v found.objs

/-! ## Layout (validator.c, lines 624-634 and 2009-2098) -/

/-- What validator.c takes from parts of the repository that are not among the sources: the
size macros of `ast/types.h`, the helper `align_to`, the constant evaluator `const_i64`
of `optimizer/constexpr.h` (which may end the process itself), the test
`global.ct == CT_ASM` on the global configuration, the table `primitives`, and the helpers
`init_ast_obj`, `init_ast_node`, `is_variadic` and `ast_type_to_str` (the latter also
applied to `NULL`). -/
structure Platform where
  I8_S : Int
  I16_S : Int
  I32_S : Int
  I64_S : Int
  U8_S : Int
  U16_S : Int
  U32_S : Int
  U64_S : Int
  F32_S : Int
  F64_S : Int
  F80_S : Int
  BOOL_S : Int
  VOID_S : Int
  CHAR_S : Int
  ENUM_S : Int
  PTR_S : Int
  align_to : Int → Int → Int
  const_i64 : ASTNode → Run Int
  ct_asm : Bool
  primitives : ASTTypeKind → ASTType
  init_ast_obj : ASTObjKind → Token → ASTObj
  init_ast_node : ASTNodeKind → Token → ASTNode
  is_variadic : ASTType → Bool
  ast_type_to_str : Option ASTType → String

/-- Conversion to a signed integer of `w` bits (two's complement). -/
def wrap (w : Nat) (x : Int) : Int := (x + 2 ^ (w - 1)) % 2 ^ w - 2 ^ (w - 1)

/-- Conversion to `i32`. -/
def i32 (x : Int) : Int := wrap 32 x

/-- Conversion to `i64`. -/
def i64 (x : Int) : Int := wrap 64 x

/-- The value of `floor(log(n)/log(2))` for `n ≥ 1`, computed by halving. -/
def floor_log2 : Nat → Nat → Nat
  | 0, _ => 0
  | fuel + 1, n => if 2 ≤ n then floor_log2 fuel (n / 2) + 1 else 0

/-- The expression `MAX(pow(2, floor(log(size)/log(2))), least)` of `align_type`, with the
`double` operations read over the reals.  For `size ≥ 1` the power is the largest power of
two not above `size`.  For `size = 0` the logarithm is minus infinity and the power is 0;
for `size < 0` the logarithm is NaN, which compares false; `MAX(a, b)` being
`a > b ? a : b`, both cases yield `least`. -/
def align_of_size (size least : Int) : Int :=
  if 1 ≤ size then max (2 ^ floor_log2 size.toNat size.toNat) least else least

/-- The function `align_type`; `none` stands for the dereference of a `NULL` base. -/
def align_type (ty : ASTType) : Option Int :=
  match ty.kind with
  | .TY_ARR | .TY_PTR =>
    match ty.base with
    | none => none
    | some base => some (align_of_size base.size 8)
  | _ => some (align_of_size ty.size 1)

/-- The loop of `get_union_size`, `biggest` being an `i32`. -/
def get_union_size_loop : Int → List ASTNode → Run Int
  | biggest, [] => pure biggest
  | biggest, member :: rest =>
    match member.data_type with
    | none => Run.null_deref
    | some ty => get_union_size_loop (if ty.size > biggest then ty.size else biggest) rest

def get_union_size (u_type : ASTType) : Run Int :=
  get_union_size_loop 0 u_type.members

/-- The assignments `member->data_type = ty` and `member->offset = offset`. -/
def ASTNode.placed (member : ASTNode) (ty : ASTType) (offset : Int) : ASTNode :=
  .mk { member.info with offset := offset } (some ty) member.expr member.args member.left
    member.right member.body member.init_stmt member.stmts member.locals

/-- The loop of `get_struct_size`: `bits` is the running `i64`, `size_of` the call
`get_type_size(v, ...)`.  It yields the final `bits` and the members as written. -/
def get_struct_size_loop (P : Platform) (size_of : ASTType → Run (Int × ASTType)) :
    Int → List ASTNode → Run (Int × List ASTNode)
  | bits, [] => pure (bits, [])
  | bits, member :: rest =>
    match member.data_type with
    | none => Run.null_deref
    | some ty => do
      let sized ← size_of ty
      let ty := sized.2.set_size sized.1
      match align_type ty with
      | none => Run.null_deref
      | some align => do
        let bits := i64 (P.align_to bits (i32 (align * 8)))
        let offset := Int.tdiv bits 8
        let bits := i64 (bits + i32 (sized.1 * 8))
        let done ← get_struct_size_loop P size_of bits rest
        pure (done.1, member.placed ty offset :: done.2)

mutual
def get_struct_size (P : Platform) : Nat → Validator → ASTType → Run (Int × ASTType)
  | 0, _, _ => Run.no_fuel
  | fuel + 1, v, s_type => do
    let done ← get_struct_size_loop P (get_type_size P fuel v) 0 s_type.members
    match align_type s_type with
    | none => Run.null_deref
    | some align =>
      pure (i32 (Int.tdiv (i64 (P.align_to done.1 (i32 (align * 8)))) 8),
        s_type.set_members done.2)

/-- The function `get_type_size`: it yields the size, and the type with the sizes and
offsets written into it. -/
def get_type_size (P : Platform) : Nat → Validator → ASTType → Run (Int × ASTType)
  | 0, _, _ => Run.no_fuel
  | fuel + 1, v, type =>
    match type.kind with
    | .TY_I8 => pure (P.I8_S, type)
    | .TY_U8 => pure (P.U8_S, type)
    | .TY_CHAR => pure (P.CHAR_S, type)
    | .TY_BOOL => pure (P.BOOL_S, type)
    | .TY_I16 => pure (P.I16_S, type)
    | .TY_U16 => pure (P.U16_S, type)
    | .TY_I32 => pure (P.I32_S, type)
    | .TY_U32 => pure (P.U32_S, type)
    | .TY_ENUM => pure (P.ENUM_S, type)
    | .TY_I64 => pure (P.I64_S, type)
    | .TY_U64 => pure (P.U64_S, type)
    | .TY_F32 => pure (P.F32_S, type)
    | .TY_F64 => pure (P.F64_S, type)
    | .TY_F80 => pure (P.F80_S, type)
    | .TY_VOID => pure (P.VOID_S, type)
    | .TY_PTR | .TY_FN => pure (P.PTR_S, type)
    | .TY_TYPEOF =>
      match type.num_indices with
      | none => Run.null_deref
      | some node => do
        let expanded ← expand_typedef fuel v node.data_type
        match expanded with
        | none => Run.null_deref
        | some expanded => do
          let sized ← get_type_size P fuel v expanded
          pure (sized.1, type)
    | .TY_UNDEF => do
      let expanded ← expand_typedef fuel v (some type)
      match expanded with
      | none => Run.null_deref
      | some expanded => do
        let sized ← get_type_size P fuel v expanded
        pure (sized.1, type)
    | .TY_ARR =>
      match type.num_indices with
      | some node => do
        let len ← P.const_i64 node
        if len < 1 then
          throw_error .ERR_TYPE_ERROR node.info.tok
            "cannot get array type with negative index size (%ld)" [.num len]
        match type.base with
        | none => Run.null_deref
        | some base => do
          let sized ← get_type_size P fuel v base
          pure (i32 (i64 (sized.1 * len)), type.set_base sized.2)
      | none => pure (0, type)
    | .TY_STRUCT =>
      if type.info.is_union then do
        let size ← get_union_size type
        pure (size, type)
      else get_struct_size P fuel v type
    | _ => pure (0, type)
end

/-- The function `type_end`.  It yields the type as written and, when the type is an alias
(so that `exp` is another object, the aliased type), the aliased type as written.  For a
type that is no alias `exp` is the type itself, so that `align_type(exp)` reads the size
stored the line before. -/
def type_end (P : Platform) (fuel : Nat) (v : Validator) (type : ASTType) :
    Run (ASTType × Option ASTType) := do
  let exp ← expand_typedef fuel v (some type)
  match exp with
  | none => Run.null_deref
  | some exp =>
    let vla : Bool := exp.kind == .TY_ARR && exp.num_indices.isNone
    let exp := if vla then exp.set_is_vla else exp
    let type := if vla then type.set_is_vla else type
    let _ ← expand_typedef fuel v (some type)
    let sized ← get_type_size P fuel v exp
    if type.kind ≠ .TY_UNDEF then
      let type := sized.2.set_size sized.1
      match align_type type with
      | none => Run.null_deref
      | some align => pure (type.set_align align, none)
    else
      let type := type.set_size sized.1
      match align_type sized.2 with
      | none => Run.null_deref
      | some align => pure (type.set_align align, some (sized.2.set_align align))

/-! ## Calls (validator.c, lines 1033-1036 and 1100-1166) -/

def compatible (_v : Validator) (_a _b : Option ASTType) : Bool := true

/-- The loop of `call` over the parameter types, `i` being the index.  With fewer arguments
than parameters the loop reads `call->args->items[i]` past the end of the list and
dereferences what it finds; this is modelled as a crash. -/
def call_args_loop (P : Platform) (v : Validator) : Nat → List ASTType → List ASTNode → Run Unit
  | _, [], _ => pure ()
  | _, _ :: _, [] => Run.null_deref
  | i, expected_arg :: expected, arg :: args => do
    if !compatible v (some expected_arg) arg.data_type then
      throw_error .ERR_CALL_ERROR arg.info.tok
        "call argument %ld expects type `%s`, got `%s`"
        [.num (i + 1), .str (P.ast_type_to_str (some expected_arg)),
         .str (P.ast_type_to_str arg.data_type)]
    call_args_loop P v (i + 1) expected args

/-- The type `call` stores in the call node for a callee of type `call_type`:
`call_type->base ? call_type->base : primitives[TY_VOID]`. -/
def call_result_type (P : Platform) (call_type : ASTType) : ASTType :=
  match call_type.base with
  | some base => base
  | none => P.primitives .TY_VOID

/-- The comparison of `call` between the number of parameters and of arguments. -/
def call_arity (P : Platform) (call_type : ASTType) (call : ASTNode) : Run Unit :=
  let expected_arg_num := call_type.arg_types.length
  let received_arg_num := call.args.length
  if P.is_variadic call_type && decide (received_arg_num < expected_arg_num) then
    throw_error .ERR_CALL_ERROR call.info.tok
      "type `%s` expects %lu or more call arguments, got %lu"
      [.str (P.ast_type_to_str (some call_type)), .num expected_arg_num,
       .num received_arg_num]
  else if !P.is_variadic call_type && decide (received_arg_num ≠ expected_arg_num) then
    throw_error .ERR_CALL_ERROR call.info.tok
      "type `%s` expects %lu call arguments, got %lu"
      [.str (P.ast_type_to_str (some call_type)), .num expected_arg_num,
       .num received_arg_num]
  else pure ()

/-- The end of `call`: under the assembly back end a call that returns an aggregate gets a
buffer, a local pushed onto the objects of the current function. -/
def call_return_buffer (P : Platform) (fuel : Nat) (v : Validator) (call : ASTNode) :
    Run (Validator × ASTNode) :=
  if P.ct_asm then
    match call.data_type with
    | none => pure (v, call)
    | some data_type => do
      let expanded ← expand_typedef fuel v (some data_type)
      match expanded with
      | none => Run.null_deref
      | some expanded =>
        if expanded.kind = .TY_STRUCT then
          let ret_buf := (P.init_ast_obj .OBJ_LOCAL call.info.tok).set_data_type
            (some data_type)
          match v.current_function with
          | none => Run.null_deref
          | some fn =>
            pure ({ v with current_function := some (fn.push_obj ret_buf) }, call)
        else pure (v, call)
  else pure (v, call)

/-- The function `call`.  It yields the validator (whose current function may have received
a return buffer) and the call node with its resolved type.  The references `called_obj`,
`return_buffer` and `expr->call` are not represented. -/
def call (P : Platform) (fuel : Nat) (v : Validator) (call : ASTNode) :
    Run (Validator × ASTNode) :=
  match call.expr with
  | none => Run.null_deref
  | some expr => do
    let call_type ← expand_typedef fuel v expr.data_type
    match call_type with
    | none => do
      throw_error .ERR_TYPE_ERROR call.info.tok
        "could not resolve data type of expression trying to call" []
      Run.null_deref
    | some call_type =>
      if call_type.kind ≠ .TY_FN then do
        throw_error .ERR_TYPE_ERROR call.info.tok "cannot call expression of data type `%s`"
          [.str (P.ast_type_to_str (some call_type))]
        pure (v, call)
      else do
        let call := call.set_data_type (some (call_result_type P call_type))
        call_arity P call_type call
        call_args_loop P v 0 call_type.arg_types call.args
        call_return_buffer P fuel v call

/-! ## The entry point (validator.c, lines 710-758) -/

/-- The test of `check_main_fn` on the only parameter of `main`: true when the type is
rejected. -/
def main_arg_mismatch (arg_type : ASTType) : Bool :=
  arg_type.kind != .TY_PTR ||
    match arg_type.base with
    | none => true
    | some base =>
      base.kind != .TY_PTR ||
        match base.base with
        | none => true
        | some base_base => base_base.kind != .TY_CHAR

/-- The test of `check_main_fn` on the second of two parameters of `main`: true when the
type is rejected; `none` stands for the dereference of a `NULL` base, which this test does
not guard against. -/
def main_arg1_mismatch (arg1_type : ASTType) : Option Bool :=
  if arg1_type.kind ≠ .TY_PTR then some true
  else
    match arg1_type.base with
    | none => none
    | some base =>
      if base.kind ≠ .TY_PTR then some true
      else
        match base.base with
        | none => none
        | some base_base => some (base_base.kind != .TY_CHAR)

/-- The test of `check_main_fn` on the return type: `return_type` is the expanded type,
`written` the type as declared. -/
def check_main_return (main_fn : ASTObj) (return_type written : ASTType) : Run Unit :=
  if return_type.kind ≠ .TY_I32 then
    throw_error .ERR_TYPE_ERROR_UNCR
      (if written.info.has_tok then written.info.tok else main_fn.tok)
      "expect type `i32` as return type for function `main`" []
  else pure ()

/-- The `switch` of `check_main_fn` over the number of parameters. -/
def check_main_args (fuel : Nat) (v : Validator) (main_fn : ASTObj) : Run Unit :=
  match main_fn.args with
  | [] => pure ()
  | [arg] => do
    let arg_type ← expand_typedef fuel v arg.data_type
    match arg_type with
    | none => Run.null_deref
    | some arg_type =>
      if main_arg_mismatch arg_type then
        throw_error .ERR_TYPE_ERROR_UNCR arg.tok
          "expect argument of function `main` to be `&&char`" []
      else pure ()
  | [arg0, arg1] => do
    let arg0_type ← expand_typedef fuel v arg0.data_type
    match arg0_type with
    | none => Run.null_deref
    | some arg0_type =>
      if arg0_type.kind ≠ .TY_I32 then
        throw_error .ERR_TYPE_ERROR_UNCR arg0.tok
          "expect first argument of function `main` to be `i32`" []
      else do
        let arg1_type ← expand_typedef fuel v arg1.data_type
        match arg1_type with
        | none => Run.null_deref
        | some arg1_type =>
          match main_arg1_mismatch arg1_type with
          | none => Run.null_deref
          | some true =>
            throw_error .ERR_TYPE_ERROR_UNCR arg1.tok
              "expect first argument of function `main` to be `&&char`" []
          | some false => pure ()
  | _ =>
    throw_error .ERR_UNDEFINED_UNCR main_fn.tok
      "expect 0 or 2 arguments for function `main`, got %ld" [.num main_fn.args.length]

/-- The function `check_main_fn`, `ast` being the program `v->ast`.  It yields the program,
in which the entry point is recorded, and the function, flagged as entry point. -/
def check_main_fn (fuel : Nat) (v : Validator) (ast : ASTProg) (main_fn : ASTObj) :
    Run (ASTProg × ASTObj) :=
  let main_fn := main_fn.set_entry_point
  let ast := { ast with entry_point := some main_fn }
  do
    let return_type ← expand_typedef fuel v main_fn.return_type
    match return_type, main_fn.return_type with
    | some return_type, some written => do
      check_main_return main_fn return_type written
      check_main_args fuel v main_fn
      pure (ast, main_fn)
    | _, _ => Run.null_deref

/-- The scopes of the chain that starts at a scope, innermost first. -/
def VScope.chain_from : VScope → List VScope
  | VScope.mk prev objs sid =>
    VScope.mk prev objs sid ::
      (match prev with
       | none => []
       | some p => VScope.chain_from p)

/-- The scopes of a chain, innermost first. -/
def VScope.chain (scope : Option VScope) : List VScope :=
  match scope with
  | none => []
  | some s => s.chain_from

/-- An unqualified identifier at line `line`. -/
def ident (callee : String) (line : Nat := 0) : ASTIdentifier :=
  .mk { line := line } callee none false

/-- A declaration of kind `kind` named `callee`, declared at line `line` of file `path`. -/
def decl (kind : ASTObjKind) (callee : String) (line : Nat) (path : String := "main.csp")
    (data_type : Option ASTType := none) (objs : List ASTObj := []) : ASTObj :=
  .mk { kind := kind, tok := { line := line, source := { path := path } },
        id := .mk { line := line, source := { path := path } } callee none false }
    data_type objs [] none none none


/-- Sample data: a file scope holding a global `x` (line 2) and a function `f` (line 5). -/
def sample_outer_x : ASTObj := decl .OBJ_GLOBAL "x" 2

def sample_f : ASTObj := decl .OBJ_FUNCTION "f" 5

/-- Sample data: a local `x` declared at line 7. -/
def sample_inner_x : ASTObj := decl .OBJ_LOCAL "x" 7

def sample_file_scope : VScope := VScope.mk none [sample_outer_x, sample_f] none

def sample_validator : Validator :=
  { current_scope := some sample_file_scope, has_global_scope := true, scope_depth := 1 }

/-- The qualified identifier `outer::callee`. -/
def qualified (outer : ASTIdentifier) (callee : String) : ASTIdentifier :=
  .mk {} callee (some outer) false

/-- Sample data: `namespace ns { y; namespace deep { x } }` next to the global `x`. -/
def sample_ns_y : ASTObj := decl .OBJ_GLOBAL "y" 11

def sample_deep_x : ASTObj := decl .OBJ_GLOBAL "x" 13

def sample_deep : ASTObj := decl .OBJ_NAMESPACE "deep" 12 "main.csp" none [sample_deep_x]

def sample_ns : ASTObj := decl .OBJ_NAMESPACE "ns" 10 "main.csp" none [sample_ns_y, sample_deep]

def sample_ns_validator : Validator :=
  { current_scope := some (VScope.mk none [sample_outer_x, sample_ns] none),
    has_global_scope := true, scope_depth := 1 }

/-- The alias reference type named `name` (kind `TY_UNDEF`), at line `line`. -/
def alias_ref (name : String) (line : Nat := 0) : ASTType :=
  .mk { kind := .TY_UNDEF, tok := { line := line }, id := some (ident name line) } none none [] [] []

/-- A type of kind `kind` without children. -/
def plain (kind : ASTTypeKind) (size : Int := 0) : ASTType :=
  .mk { kind := kind, size := size } none none [] [] []

/-- The enumeration type with the members `members`. -/
def enum_of (members : List ASTObj) : ASTType :=
  .mk { kind := .TY_ENUM } none none [] members []

/-- Sample data: `type T: U;` with no declaration of `U`, and
`type Color: enum { red, green }`. -/
def sample_T : ASTObj := decl .OBJ_TYPEDEF "T" 3 "main.csp" (some (alias_ref "U" 3))

def sample_red : ASTObj := decl .OBJ_ENUM_MEMBER "red" 4

def sample_green : ASTObj := decl .OBJ_ENUM_MEMBER "green" 4

def sample_Color : ASTObj :=
  decl .OBJ_TYPEDEF "Color" 4 "main.csp" (some (enum_of [sample_red, sample_green]))

def sample_alias_validator : Validator :=
  { current_scope := some (VScope.mk none [sample_T, sample_Color] none),
    has_global_scope := true, scope_depth := 1 }

/-- Sample data: the statement `using ns;` at line 20. -/
def sample_using : ASTNode :=
  .mk { kind := .ND_USING, tok := { line := 20 }, id := some (ident "ns" 20) } none none []
    none none none none [] []

/-- The relation `AliasChain v k n t r`: the chain of typedefs at the type `t` resolves:
after `n` alias steps it reaches the type `r`, which is no alias reference; at every step
the name of the alias is looked up from the current scope (the lookup returning within
fuel `k`) and found to be a type alias, whose declared type is the next link. -/
inductive AliasChain (v : Validator) (k : Nat) : Nat → ASTType → ASTType → Prop where
  | done (t : ASTType) : t.kind ≠ .TY_UNDEF → AliasChain v k 0 t t
  | step (t : ASTType) (td : ASTObj) (dt r : ASTType) (n : Nat) :
      t.kind = .TY_UNDEF →
      (search_identifier k v v.current_scope t.id).out = .ok (some td) →
      td.kind = .OBJ_TYPEDEF →
      td.data_type = some dt →
      AliasChain v k n dt r →
      AliasChain v k (n + 1) t r

/-- The relation `AliasChainEnds v k n t`: the chain of aliases at the alias reference `t`
is finite: after `n` steps from an alias to the alias reference its declaration names, it
reaches an alias reference whose lookup (returning or failing within fuel `k`) yields no
further alias reference. -/
inductive AliasChainEnds (v : Validator) (k : Nat) : Nat → ASTType → Prop where
  | stop (t : ASTType) :
      (search_identifier k v v.current_scope t.id).out ≠ .diverge →
      (∀ td dt, (search_identifier k v v.current_scope t.id).out = .ok (some td) →
        td.data_type = some dt → dt.kind ≠ .TY_UNDEF) →
      AliasChainEnds v k 0 t
  | step (t : ASTType) (td : ASTObj) (dt : ASTType) (n : Nat) :
      (search_identifier k v v.current_scope t.id).out = .ok (some td) →
      td.data_type = some dt →
      dt.kind = .TY_UNDEF →
      AliasChainEnds v k n dt →
      AliasChainEnds v k (n + 1) t

/-- Sample data: `type Meters: Len; type Len: i32;`. -/
def sample_Len : ASTObj := decl .OBJ_TYPEDEF "Len" 2 "main.csp" (some (plain .TY_I32 4))

def sample_Meters : ASTObj := decl .OBJ_TYPEDEF "Meters" 1 "main.csp" (some (alias_ref "Len" 1))

def sample_chain_validator : Validator :=
  { current_scope := some (VScope.mk none [sample_Meters, sample_Len] none),
    has_global_scope := true, scope_depth := 1 }

/-- Sample data: `type A: A;`. -/
def sample_A : ASTObj := decl .OBJ_TYPEDEF "A" 1 "main.csp" (some (alias_ref "A" 1))

def sample_cycle_validator : Validator :=
  { current_scope := some (VScope.mk none [sample_A] none),
    has_global_scope := true, scope_depth := 1 }

/-- Sample data: `type B: C; type C: B;`. -/
def sample_B : ASTObj := decl .OBJ_TYPEDEF "B" 1 "main.csp" (some (alias_ref "C" 1))

def sample_C : ASTObj := decl .OBJ_TYPEDEF "C" 2 "main.csp" (some (alias_ref "B" 2))

def sample_mutual_validator : Validator :=
  { current_scope := some (VScope.mk none [sample_B, sample_C] none),
    has_global_scope := true, scope_depth := 1 }

/-- The pointer type with base `base`. -/
def pointer_to (base : ASTType) : ASTType :=
  .mk { kind := .TY_PTR, size := 8 } (some base) none [] [] []

/-- Sample data: `namespace std { type File: i32; }  type File: std::File;`. -/
def sample_std_File : ASTObj := decl .OBJ_TYPEDEF "File" 2 "main.csp" (some (plain .TY_I32 4))

def sample_std : ASTObj := decl .OBJ_NAMESPACE "std" 1 "main.csp" none [sample_std_File]

/-- The declared type of the outer alias `File`: the alias reference `std::File`. -/
def sample_File_target : ASTType :=
  .mk { kind := .TY_UNDEF, id := some (qualified (ident "std") "File") } none none [] [] []

def sample_File : ASTObj := decl .OBJ_TYPEDEF "File" 4 "main.csp" (some sample_File_target)

def sample_File_validator : Validator :=
  { current_scope := some (VScope.mk none [sample_std, sample_File] none),
    has_global_scope := true, scope_depth := 1 }

/-- Modelled from the spec: `align_to`, whose definition is not among the sources, "rounds
up" its first argument to a multiple of its second ("the final offset rounded up to the
aggregate's alignment"). -/
def align_to_model (n align : Int) : Int := (n + align - 1) / align * align

/-- Sample data: a platform with the usual sizes (1, 2, 4 and 8 bytes for the integer
widths, 8-byte pointers), the rounding `align_to_model`, and array lengths read off the
node's value field. -/
def sample_platform : Platform :=
  { I8_S := 1, I16_S := 2, I32_S := 4, I64_S := 8, U8_S := 1, U16_S := 2, U32_S := 4,
    U64_S := 8, F32_S := 4, F64_S := 8, F80_S := 16, BOOL_S := 1, VOID_S := 1, CHAR_S := 1,
    ENUM_S := 4, PTR_S := 8, align_to := align_to_model,
    const_i64 := fun node => pure node.offset,
    ct_asm := true,
    primitives := fun kind => plain kind,
    init_ast_obj := fun kind tok =>
      .mk { kind := kind, tok := tok, id := ident "" } none [] [] none none none,
    init_ast_node := fun kind tok =>
      .mk { kind := kind, tok := tok } none none [] none none none none [] [],
    is_variadic := fun ty => ty.info.is_variadic,
    ast_type_to_str := fun ty =>
      match ty with
      | none => "(null)"
      | some ty => if ty.kind = .TY_FN then "fn" else "type" }

/-- A struct member named `name` of type `ty`. -/
def struct_member (name : String) (ty : ASTType) : ASTNode :=
  .mk { kind := .ND_STRUCT_MEMBER, id := some (ident name) } (some ty) none []
    none none none none [] []

/-- Sample data: `struct { a: i32, b: i8, c: i32 }`, not yet sized. -/
def sample_struct : ASTType :=
  .mk { kind := .TY_STRUCT } none none
    [struct_member "a" (plain .TY_I32), struct_member "b" (plain .TY_I8),
     struct_member "c" (plain .TY_I32)] [] []

/-- Sample data: `sample_struct` as `get_struct_size` leaves it. -/
def sample_struct_laid_out : ASTType :=
  .mk { kind := .TY_STRUCT } none none
    [.mk { kind := .ND_STRUCT_MEMBER, id := some (ident "a"), offset := 0 }
       (some (plain .TY_I32 4)) none [] none none none none [] [],
     .mk { kind := .ND_STRUCT_MEMBER, id := some (ident "b"), offset := 4 }
       (some (plain .TY_I8 1)) none [] none none none none [] [],
     .mk { kind := .ND_STRUCT_MEMBER, id := some (ident "c"), offset := 8 }
       (some (plain .TY_I32 4)) none [] none none none none [] []] [] []

/-! ## The aggregate layout rule, in the words of the specification -/

/-- The number `r` is `x` rounded up to a multiple of `a`. -/
def rounds_up (x a r : Int) : Prop := a ∣ r ∧ x ≤ r ∧ r < x + a

/-- The relation `layout_rule start members final`: each member sits at the running offset
(initially `start`) rounded up to a multiple of the alignment of its type, the running
offset then advances by the size of its type, and `final` is the running offset after the
last member. -/
def layout_rule : Int → List ASTNode → Int → Prop
  | start, [], final => final = start
  | start, member :: rest, final =>
    ∃ ty align, member.data_type = some ty ∧ align_type ty = some align ∧
      rounds_up start align member.offset ∧
      layout_rule (member.offset + ty.size) rest final

/-- The relation `sized_by size_of member written`: `written` is `member` with the size
that `size_of` returns for its type stored in that type, and with some offset. -/
def sized_by (size_of : ASTType → Run (Int × ASTType)) (member written : ASTNode) : Prop :=
  ∃ ty size ty1, member.data_type = some ty ∧ (size_of ty).out = .ok (size, ty1) ∧
    written.data_type = some (ty1.set_size size) ∧
    written.info = { member.info with offset := written.offset }

/-- The sum of the sizes and alignments of the members: a bound on the bytes laid out. -/
def layout_weight : List ASTNode → Int
  | [] => 0
  | member :: rest =>
    (match member.data_type with
     | some ty => ty.size + (align_type ty).getD 0
     | none => 0) + layout_weight rest

/-- A union type with the members `members`. -/
def union_of (members : List ASTNode) : ASTType :=
  .mk { kind := .TY_STRUCT, is_union := true } none none members [] []

/-- Sample data: `union { a: i8, b: i32, c: i16 }` with the member types already sized. -/
def sample_union : ASTType :=
  union_of [struct_member "a" (plain .TY_I8 1), struct_member "b" (plain .TY_I32 4),
    struct_member "c" (plain .TY_I16 2)]

/-- The array type `base[len]`; the length is an integer literal, whose value shares its
storage with the field `offset`. -/
def array_of (base : ASTType) (len : Int) : ASTType :=
  .mk { kind := .TY_ARR } (some base)
    (some (.mk { kind := .ND_INT, offset := len } none none [] none none none none [] []))
    [] [] []

/-- The array type `base[]`, without a length. -/
def flexible_array_of (base : ASTType) : ASTType :=
  .mk { kind := .TY_ARR } (some base) none [] [] []

/-- A non-union aggregate type with the members `members`, not yet sized. -/
def struct_of (members : List ASTNode) : ASTType :=
  .mk { kind := .TY_STRUCT } none none members [] []

/-- Sample data: `struct { a: i32, b: i8 }`, not yet sized. -/
def sample_pair : ASTType :=
  struct_of [struct_member "a" (plain .TY_I32), struct_member "b" (plain .TY_I8)]

/-- Sample data: `struct { inner: struct { a: i32, b: i8 }, c: i8 }`, not yet sized. -/
def sample_nested : ASTType :=
  struct_of [struct_member "inner" sample_pair, struct_member "c" (plain .TY_I8)]

/-- What a run of `type_end` stored in the type: size, alignment and member offsets. -/
def stored_layout (r : Run (ASTType × Option ASTType)) : Option (Int × Int × List Int) :=
  r.value?.map (fun ended =>
    (ended.1.size, ended.1.info.align, ended.1.members.map ASTNode.offset))

/-- Two passes of `type_end` over a type, the second over the type as the first left it. -/
def type_end_twice (P : Platform) (fuel : Nat) (v : Validator) (type : ASTType) :
    Run (ASTType × Option ASTType) := do
  let ended ← type_end P fuel v type
  type_end P fuel v ended.1

/-- Sample data: `union { a: i8, b: i8[3] }` with the member types already sized. -/
def sample_union_3 : ASTType :=
  union_of [struct_member "a" (plain .TY_I8 1),
    struct_member "b" ((array_of (plain .TY_I8 1) 3).set_size 3)]

/-- A function type with the parameter types `arg_types` and the return type `ret`. -/
def fn_type (arg_types : List ASTType) (ret : Option ASTType) (variadic : Bool := false) :
    ASTType :=
  .mk { kind := .TY_FN, size := 8, is_variadic := variadic } ret none [] [] arg_types

/-- A call `f(args)` of an identifier `f` whose type is `callee_type`. -/
def call_of (callee_type : ASTType) (args : List ASTNode) : ASTNode :=
  .mk { kind := .ND_CALL } none
    (some (.mk { kind := .ND_ID, id := some (ident "f") } (some callee_type) none []
      none none none none [] [])) args none none none none [] []

/-- An `i32` literal as an argument. -/
def int_lit (value : Int) : ASTNode :=
  .mk { kind := .ND_INT, offset := value } (some (plain .TY_I32 4)) none []
    none none none none [] []

/-- Sample data: the type of `fn f(a: i32, b: i32): i32`. -/
def sample_fn2 : ASTType :=
  fn_type [plain .TY_I32 4, plain .TY_I32 4] (some (plain .TY_I32 4))

/-- Sample data: the type of `fn g(fmt: &char, args: ...): i32`. -/
def sample_variadic : ASTType :=
  fn_type [pointer_to (plain .TY_CHAR 1)] (some (plain .TY_I32 4)) true


/-- Sample data: the type of `fn f(a: i32): i32`. -/
def sample_fn1 : ASTType := fn_type [plain .TY_I32 4] (some (plain .TY_I32 4))

/-- Sample data: an argument expression of the aggregate type
`struct { a: i32, b: i8, c: i32 }`. -/
def sample_aggregate_arg : ASTNode :=
  .mk { kind := .ND_ID, id := some (ident "s") } (some sample_struct_laid_out) none []
    none none none none [] []

/-- In the words of the specification: the type is a pointer to a pointer to a character. -/
def ptr_ptr_char (t : ASTType) : Bool :=
  t.kind == .TY_PTR &&
    match t.base with
    | none => false
    | some base =>
      base.kind == .TY_PTR &&
        match base.base with
        | none => false
        | some base_base => base_base.kind == .TY_CHAR

/-- A function `fn callee(args): return_type` declared at line `line`. -/
def fn_decl (callee : String) (line : Nat) (args : List ASTObj) (return_type : ASTType) :
    ASTObj :=
  .mk { kind := .OBJ_FUNCTION, tok := { line := line, source := { path := "main.csp" } },
        id := .mk { line := line, source := { path := "main.csp" } } callee none false }
    none [] args (some return_type) none none

/-- Sample data: the function of the test input `fn main(): i32 { ret 0; }`. -/
def sample_main : ASTObj := fn_decl "main" 1 [] (plain .TY_I32 4)

/-- Sample data: the parameters `argc: i32` and `argv: &&char`. -/
def sample_argc : ASTObj := decl .OBJ_FN_ARG "argc" 1 "main.csp" (some (plain .TY_I32 4))

def sample_argv : ASTObj :=
  decl .OBJ_FN_ARG "argv" 1 "main.csp" (some (pointer_to (pointer_to (plain .TY_CHAR 1))))

/-- Sample data: the function of the test input
`fn main(argc: i32, argv: &&char): i32 { ret 0; }`. -/
def sample_main_argv : ASTObj := fn_decl "main" 1 [sample_argc, sample_argv] (plain .TY_I32 4)

/-- Sample data: `fn main(argv: &&char): i32`, `fn main(): i64`, `fn main(argc: i64): i32`,
`fn main(argc: i32, argv: &char): i32` and `fn main(a: i32, b: i32, c: i32): i32`. -/
def sample_main_one : ASTObj := fn_decl "main" 1 [sample_argv] (plain .TY_I32 4)

def sample_main_i64 : ASTObj := fn_decl "main" 1 [] (plain .TY_I64 8)

def sample_main_bad_one : ASTObj :=
  fn_decl "main" 1 [decl .OBJ_FN_ARG "argc" 1 "main.csp" (some (plain .TY_I64 8))]
    (plain .TY_I32 4)

def sample_main_bad_two : ASTObj :=
  fn_decl "main" 1
    [sample_argc, decl .OBJ_FN_ARG "argv" 1 "main.csp" (some (pointer_to (plain .TY_CHAR 1)))]
    (plain .TY_I32 4)

def sample_main_three : ASTObj :=
  fn_decl "main" 1 [sample_argc, sample_argc, sample_argc] (plain .TY_I32 4)

/-! ## Literals (validator.c, lines 1754-1834) -/

/-- The value of a `char` constant of the C source (ASCII). -/
def c_char (c : Char) : Int := c.toNat

/-- The code of the backslash, of the double quote and of the single quote. -/
def c_backslash : Int := 92

def c_double_quote : Int := 34

def c_single_quote : Int := 39

/-- The read `s[i]` of a C string: the terminating NUL follows the last character. -/
def str_at (s : List Int) (i : Nat) : Int := s.getD i 0

/-- The `switch` of `string_lit`: true for the cases that `continue`. -/
def string_lit_escape (c : Int) : Bool :=
  c == c_char 'a' || c == c_char 'b' || c == c_char 't' || c == c_char 'v' ||
  c == c_char 'n' || c == c_char 'r' || c == c_char 'f' || c == c_double_quote ||
  c == c_single_quote || c == c_backslash || c == c_char '0'

/-- The loop of `string_lit` from index `i` on; the first argument bounds the number of
iterations. -/
def string_lit_loop (tok : Token) (s : List Int) : Nat → Nat → Run Unit
  | 0, _ => Run.no_fuel
  | fuel + 1, i =>
    if i < s.length then
      if str_at s i = c_backslash then
        if string_lit_escape (str_at s (i + 1)) then string_lit_loop tok s fuel (i + 1 + 1)
        else
          throw_error .ERR_SYNTAX_ERROR_UNCR tok
            "invalid escape sequence `\\%c` found in string literal"
            [.num (str_at s (i + 1))]
      else string_lit_loop tok s fuel (i + 1)
    else pure ()

/-- The function `string_lit`.  The loop runs at most `strlen` times. -/
def string_lit (str : ASTNode) : Run Unit :=
  string_lit_loop str.tok str.info.str_val (str.info.str_val.length + 1) 0

/-- The `switch` of `char_lit`: the character an escape denotes, `none` for `default`. -/
def char_lit_escape (c : Int) : Option Int :=
  if c = c_char 'a' then some 7
  else if c = c_char 'b' then some 8
  else if c = c_char 't' then some 9
  else if c = c_char 'v' then some 11
  else if c = c_char 'n' then some 10
  else if c = c_char 'r' then some 13
  else if c = c_char 'f' then some 12
  else if c = c_single_quote then some c_single_quote
  else if c = c_double_quote then some c_double_quote
  else if c = c_backslash then some c_backslash
  else if c = c_char '0' then some 0
  else none

/-- The assignments `free(ch->str_val); ch->int_val = c;`: the string is gone. -/
def ASTNode.set_int_val (ch : ASTNode) (c : Int) : ASTNode :=
  ch.set_info { ch.info with int_val := c, str_val := [] }

/-- The function `char_lit`; it yields the node as written. -/
def char_lit (ch : ASTNode) : Run ASTNode :=
  let c := str_at ch.info.str_val 0
  if c = c_backslash then
    match char_lit_escape (str_at ch.info.str_val 1) with
    | some c => pure (ch.set_int_val c)
    | none => do
      throw_error .ERR_SYNTAX_ERROR_UNCR ch.tok
        "invalid escape sequence `\\%c` found in char literal"
        [.num (str_at ch.info.str_val 1)]
      pure ch
  else pure (ch.set_int_val c)

/-- In the words of the specification: the escapes a literal may hold. -/
def escape_whitelist : List Int :=
  [c_char 'a', c_char 'b', c_char 't', c_char 'v', c_char 'n', c_char 'r', c_char 'f',
   c_double_quote, c_single_quote, c_backslash, c_char '0']

/-- In the words of the specification: scanning left to right and consuming each backslash
together with the character after it, some backslash is followed by a character outside
the whitelist (or by nothing). -/
def has_rejected_escape : List Int → Bool
  | [] => false
  | c :: rest =>
    if c = c_backslash then
      match rest with
      | [] => true
      | e :: rest => if e ∈ escape_whitelist then has_rejected_escape rest else true
    else has_rejected_escape rest

/-- A literal node of kind `kind` with the text `text`. -/
def literal (kind : ASTNodeKind) (text : String) : ASTNode :=
  .mk { kind := kind, str_val := text.toList.map c_char } none none []
    none none none none [] []

/-- In the words of the specification: the whitelisted escapes of a character literal and
the codes of the characters they denote. -/
def escape_table : List (Int × Int) :=
  [(c_char 'a', 7), (c_char 'b', 8), (c_char 't', 9), (c_char 'n', 10), (c_char 'v', 11),
   (c_char 'f', 12), (c_char 'r', 13), (c_char '0', 0), (c_single_quote, 39),
   (c_double_quote, 34), (c_backslash, 92)]

/-! ## The end of the pass (validator.c, lines 251-290 and 811-819) -/

/-- The counters `global.emitted_errors` and `global.emitted_warnings`, which the code
prints with `%u`: unsigned 32-bit numbers. -/
structure Globals where
  emitted_errors : Nat := 0
  emitted_warnings : Nat := 0
  deriving DecidableEq, Repr

/-- The lines `validate_ast` prints through `LOG_ERROR`, `LOG_ERROR_F` and `LOG_WARN_F`. -/
inductive Summary where
  | missing_entrypoint
  | errors_and_warnings (errors warnings : Nat)
  | errors (errors : Nat)
  | warnings (warnings : Nat)
  deriving DecidableEq, Repr

/-- How `validate_ast` ends: the lines printed, the counters, and whether `exit(1)` is
called. -/
structure PassEnd where
  printed : List Summary
  globals : Globals
  exits : Bool
  deriving DecidableEq, Repr

/-- The function `init_validator`: everything zero. -/
def init_validator : Validator := {}

/-- The first statement of `fn_end`: a function named `main` is recorded and checked. -/
def fn_end_main (fuel : Nat) (v : Validator) (ast : ASTProg) (fn : ASTObj) :
    Run (Validator × ASTProg × ASTObj) :=
  if fn.id.callee = "main" then do
    let v := { v with main_function_found := true }
    let checked ← check_main_fn fuel v ast fn
    pure (v, checked.1, checked.2)
  else pure (v, ast, fn)

/-- The end of `validate_ast`, from the test of `v.main_function_found` on. -/
def validate_ast_end (v : Validator) (g : Globals) : PassEnd :=
  let missing := !v.main_function_found
  let printed : List Summary := if missing then [.missing_entrypoint] else []
  let g : Globals :=
    if missing then { g with emitted_errors := (g.emitted_errors + 1) % 2 ^ 32 } else g
  if g.emitted_errors ≠ 0 ∧ g.emitted_warnings ≠ 0 then
    ⟨printed ++ [.errors_and_warnings g.emitted_errors g.emitted_warnings], g, true⟩
  else if g.emitted_errors ≠ 0 then
    ⟨printed ++ [.errors g.emitted_errors], g, true⟩
  else if g.emitted_warnings ≠ 0 then
    ⟨printed ++ [.warnings g.emitted_warnings], g, false⟩
  else ⟨printed, g, false⟩

/-! ## Enumerations (validator.c, lines 1942-1962) -/

/-- The assignments `value->int_val = x; value->kind = ND_INT;`. -/
def ASTNode.set_enum_value (value : ASTNode) (x : Int) : ASTNode :=
  value.set_info { value.info with int_val := x, kind := .ND_INT }

/-- The write of the members of an enumeration. -/
def ASTType.set_enum_members : ASTType → List ASTObj → ASTType
  | .mk i b n m _ a, e => .mk i b n m e a

/-- The loop of `enum_type` from index `i` on; `prev` is the value `int_val` of the member
before (read only when `i` is not 0).  It yields the members as written. -/
def enum_type_loop (P : Platform) : Nat → Int → List ASTObj → Run (List ASTObj)
  | _, _, [] => pure []
  | i, prev, member :: rest =>
    match member.value with
    | none => Run.null_deref
    | some value => do
      let x ←
        (if value.kind ≠ .ND_NOOP then (P.const_i64 value).andThen (fun c => pure (i32 c))
         else pure (if i ≠ 0 then i32 (prev + 1) else 0) : Run Int)
      let done ← enum_type_loop P (i + 1) x rest
      pure (member.set_value (value.set_enum_value x) :: done)

/-- The function `enum_type`; it yields the validator and the type as written. -/
def enum_type (P : Platform) (v : Validator) (e_type : ASTType) :
    Run (Validator × ASTType) := do
  let v ← begin_obj_scope v none e_type.enum_members
  let v ← end_scope v
  let members ← enum_type_loop P 0 0 e_type.enum_members
  pure (v, e_type.set_enum_members members)

/-- The value `member->value->int_val` of a member. -/
def ASTObj.int_val (member : ASTObj) : Int :=
  match member.value with
  | some value => value.info.int_val
  | none => 0

/-- The member has an explicit initializer: `member->value->kind != ND_NOOP`. -/
def ASTObj.has_initializer (member : ASTObj) : Bool :=
  match member.value with
  | some value => value.kind != .ND_NOOP
  | none => false

/-- In the words of the specification: a member with an explicit initializer has the value
given by the constant evaluator, truncated to 32 bits, and a member without one has the
value of its predecessor plus one, or 0 if it is the first member.  Here `const_of` is the
result of the constant evaluator, `prev` the value of the predecessor, `before` the members
as declared and `values` their values afterwards. -/
def enum_values_rule (const_of : ASTNode → Int) : Option Int → List ASTObj → List Int → Prop
  | _, [], [] => True
  | prev, member :: rest, x :: xs =>
    (match member.value with
     | none => False
     | some value =>
       x = (if value.kind ≠ .ND_NOOP then i32 (const_of value)
            else match prev with
              | none => 0
              | some p => i32 (p + 1))) ∧
    enum_values_rule const_of (some x) rest xs
  | _, _, _ => False

/-- An enumeration member `name`, with the initializer `init` if any; its value node is as
the parser leaves it (`ND_NOOP` without an initializer). -/
def enum_member (name : String) (init : Option Int := none) : ASTObj :=
  .mk { kind := .OBJ_ENUM_MEMBER, id := ident name } none [] [] none
    (some (match init with
      | some c => .mk { kind := .ND_INT, offset := c } none none [] none none none none [] []
      | none => .mk { kind := .ND_NOOP } none none [] none none none none [] []))
    none

/-- Sample data: `enum { a, b, c = 10, d, e }`. -/
def sample_enum : ASTType :=
  enum_of [enum_member "a", enum_member "b", enum_member "c" (some 10), enum_member "d",
    enum_member "e"]

/-! ## The tree iterator (ast_iterator.c) -/

/-- The callback table `ASTIteratorList_T`, as far as ast_iterator.c reads it; `fn` is the
type of the callbacks, and an absent slot is `NULL`. -/
structure ASTIteratorList (fn : Type) where
  node_start_fns : ASTNodeKind → Option fn := fun _ => none
  node_end_fns : ASTNodeKind → Option fn := fun _ => none
  type_fns : ASTTypeKind → Option fn := fun _ => none
  obj_start_fns : ASTObjKind → Option fn := fun _ => none
  obj_end_fns : ASTObjKind → Option fn := fun _ => none
  id_def_fn : Option fn := none
  id_use_fn : Option fn := none

/-- One invocation of a callback by the iterator: the slot it was taken from, the callback
and its argument. -/
inductive Visit (fn : Type) where
  | node_start (f : fn) (node : ASTNode)
  | node_end (f : fn) (node : ASTNode)
  | type_fn (f : fn) (type : ASTType)
  | obj_start (f : fn) (obj : ASTObj)
  | obj_end (f : fn) (obj : ASTObj)
  | id_def (f : fn) (id : ASTIdentifier)
  | id_use (f : fn) (id : ASTIdentifier)

/-- The macro `list_fn(fn, ast, custom_args)` for an argument that is not `NULL`: the
callback is invoked if the slot holds one. -/
def list_fn {fn α : Type} (visit : fn → α → Visit fn) (slot : Option fn) (ast : α) :
    List (Visit fn) :=
  match slot with
  | some f => [visit f ast]
  | none => []

/-- The function `ast_id`. -/
def ast_id {fn : Type} (list : ASTIteratorList fn) (is_definition : Bool)
    (id : Option ASTIdentifier) : List (Visit fn) :=
  match id with
  | none => []
  | some id =>
    if is_definition then list_fn Visit.id_def list.id_def_fn id
    else list_fn Visit.id_use list.id_use_fn id

/-- The node kind whose number is that of a declaration kind: `ast_node`, handed a
declaration, reads its member `kind` as an `ASTNodeKind_T`. -/
def ASTObjKind.as_node_kind : ASTObjKind → ASTNodeKind
  | .OBJ_GLOBAL => .ND_NOOP
  | .OBJ_LOCAL => .ND_ID
  | .OBJ_FUNCTION => .ND_INT
  | .OBJ_FN_ARG => .ND_LONG
  | .OBJ_TYPEDEF => .ND_ULONG
  | .OBJ_NAMESPACE => .ND_FLOAT
  | .OBJ_ENUM_MEMBER => .ND_DOUBLE
  | .OBJ_LAMBDA => .ND_BOOL

/-- A declaration read as a node.  The entries of the list `members` of an enumeration are
declarations (`enum_type` of validator.c reads them as `ASTObj_T`), and the `TY_ENUM` case
of `ast_type` passes them to `ast_node`.  Both structures begin with the members `kind`
and `tok`, so the node has the kind with the number of the declaration kind and the token
of the declaration.  For all these node kinds but `ND_ID` (the number of `OBJ_LOCAL`) the
switch of `ast_node` reads no further member; the further members are left empty here. -/
def ASTObj.as_node (obj : ASTObj) : ASTNode :=
  .mk { kind := obj.kind.as_node_kind, tok := obj.tok } none none [] none none none none [] []

/-- The call `ast_node(list, type->members->items[i], custom_args)` of the `TY_ENUM` case,
on an entry that is a declaration: the start and the end callback of the node kind that
the entry is read as, with nothing between them. -/
def ast_member_as_node {fn : Type} (list : ASTIteratorList fn) (obj : ASTObj) :
    List (Visit fn) :=
  list_fn Visit.node_start (list.node_start_fns obj.as_node.kind) obj.as_node ++
    list_fn Visit.node_end (list.node_end_fns obj.as_node.kind) obj.as_node

/-- The loop of the `TY_ENUM` case of `ast_type` over the entries of an enumeration. -/
def ast_members_as_nodes {fn : Type} (list : ASTIteratorList fn) :
    List ASTObj → List (Visit fn)
  | [] => []
  | obj :: rest => ast_member_as_node list obj ++ ast_members_as_nodes list rest

mutual
/-- The function `ast_type`.  The traversal functions yield the callback invocations in
order; the callbacks themselves are not run, so the trace is that of a traversal whose
callbacks leave the tree as it is.  The case that ast_iterator.c writes as `TY_LAMBDA` is
the case of function types, `TY_FN`.  The `TY_OPAQUE_STRUCT` case calls
`ast_id(list, type->id, false, custom_args)`: the identifier stands in the place of the
flag `is_definition` and `false` in the place of the identifier. -/
def ast_type {fn : Type} (list : ASTIteratorList fn) : ASTType → List (Visit fn)
  | .mk info base num_indices members enum_members arg_types =>
    match info.kind with
    | .TY_I8 | .TY_I16 | .TY_I32 | .TY_I64 | .TY_U8 | .TY_U16 | .TY_U32 | .TY_U64
    | .TY_F32 | .TY_F64 | .TY_F80 | .TY_BOOL | .TY_CHAR | .TY_VOID | .TY_UNDEF
    | .TY_TEMPLATE =>
      list_fn Visit.type_fn (list.type_fns info.kind)
        (.mk info base num_indices members enum_members arg_types)
    | .TY_PTR =>
      ast_type_ptr list base ++
        list_fn Visit.type_fn (list.type_fns .TY_PTR)
          (.mk info base num_indices members enum_members arg_types)
    | .TY_ARR =>
      ast_type_ptr list base ++ ast_node_ptr list num_indices ++
        list_fn Visit.type_fn (list.type_fns .TY_ARR)
          (.mk info base num_indices members enum_members arg_types)
    | .TY_OPAQUE_STRUCT =>
      ast_id list info.id.isSome none ++
        list_fn Visit.type_fn (list.type_fns .TY_OPAQUE_STRUCT)
          (.mk info base num_indices members enum_members arg_types)
    | .TY_ENUM =>
      ast_members_as_nodes list enum_members ++
        list_fn Visit.type_fn (list.type_fns .TY_ENUM)
          (.mk info base num_indices members enum_members arg_types)
    | .TY_STRUCT =>
      ast_nodes list members ++
        list_fn Visit.type_fn (list.type_fns .TY_STRUCT)
          (.mk info base num_indices members enum_members arg_types)
    | .TY_FN =>
      ast_type_ptr list base ++ ast_types list arg_types ++
        list_fn Visit.type_fn (list.type_fns .TY_FN)
          (.mk info base num_indices members enum_members arg_types)
    | .TY_TUPLE =>
      ast_types list arg_types ++
        list_fn Visit.type_fn (list.type_fns .TY_TUPLE)
          (.mk info base num_indices members enum_members arg_types)
    | _ => []

/-- A loop `for(i ...) ast_type(list, types->items[i], custom_args)`. -/
def ast_types {fn : Type} (list : ASTIteratorList fn) : List ASTType → List (Visit fn)
  | [] => []
  | type :: rest => ast_type list type ++ ast_types list rest

/-- The call `ast_type(list, type, custom_args)` on a pointer that may be `NULL`. -/
def ast_type_ptr {fn : Type} (list : ASTIteratorList fn) : Option ASTType → List (Visit fn)
  | none => []
  | some type => ast_type list type

/-- The function `ast_obj`. -/
def ast_obj {fn : Type} (list : ASTIteratorList fn) : ASTObj → List (Visit fn)
  | .mk info data_type objs args return_type value body =>
    list_fn Visit.obj_start (list.obj_start_fns info.kind)
        (.mk info data_type objs args return_type value body) ++
      (match info.kind with
       | .OBJ_FUNCTION =>
         ast_type_ptr list return_type ++ ast_id list true (some info.id) ++
           ast_objs list args ++ ast_node_ptr list body
       | .OBJ_FN_ARG => ast_id list true (some info.id) ++ ast_type_ptr list data_type
       | .OBJ_NAMESPACE => ast_id list true (some info.id) ++ ast_objs list objs
       | .OBJ_TYPEDEF => ast_id list true (some info.id) ++ ast_type_ptr list data_type
       | .OBJ_LOCAL | .OBJ_GLOBAL =>
         ast_id list true (some info.id) ++ ast_type_ptr list data_type
       | _ => []) ++
      list_fn Visit.obj_end (list.obj_end_fns info.kind)
        (.mk info data_type objs args return_type value body)

/-- A loop `for(i ...) ast_obj(list, objs->items[i], custom_args)`. -/
def ast_objs {fn : Type} (list : ASTIteratorList fn) : List ASTObj → List (Visit fn)
  | [] => []
  | obj :: rest => ast_obj list obj ++ ast_objs list rest

/-- The function `ast_node`.  For a lambda the list in the storage of `args` holds
declarations, the field `locals` here.  The case `ND_VA_ARG` falls through into the case of
`ND_EXPR_STMT`. -/
def ast_node {fn : Type} (list : ASTIteratorList fn) : ASTNode → List (Visit fn)
  | .mk info data_type expr args left right body init_stmt stmts locals =>
    list_fn Visit.node_start (list.node_start_fns info.kind)
        (.mk info data_type expr args left right body init_stmt stmts locals) ++
      (match info.kind with
       | .ND_NOOP | .ND_BREAK | .ND_CONTINUE => []
       | .ND_ID => ast_type_ptr list data_type ++ ast_id list false info.id
       | .ND_INT | .ND_LONG | .ND_LLONG | .ND_FLOAT | .ND_DOUBLE | .ND_BOOL | .ND_CHAR
       | .ND_STR | .ND_NIL => []
       | .ND_ADD | .ND_SUB | .ND_MUL | .ND_DIV | .ND_MOD | .ND_EQ | .ND_NE | .ND_GT | .ND_GE
       | .ND_LT | .ND_LE | .ND_AND | .ND_OR | .ND_LSHIFT | .ND_RSHIFT | .ND_XOR | .ND_BIT_OR
       | .ND_BIT_AND | .ND_ASSIGN =>
         ast_node_ptr list left ++ ast_node_ptr list right ++ ast_type_ptr list data_type
       | .ND_MEMBER =>
         ast_node_ptr list left ++
           (match data_type with
            | some type => ast_node_ptr list right ++ ast_type list type
            | none => [])
       | .ND_NEG | .ND_BIT_NEG | .ND_NOT | .ND_REF | .ND_DEREF =>
         ast_node_ptr list right ++ ast_type_ptr list data_type
       | .ND_INC | .ND_DEC => ast_node_ptr list left ++ ast_type_ptr list data_type
       | .ND_CLOSURE => ast_node_ptr list expr ++ ast_type_ptr list data_type
       | .ND_CALL => ast_node_ptr list expr ++ ast_type_ptr list data_type ++ ast_nodes list args
       | .ND_INDEX =>
         ast_node_ptr list left ++ ast_node_ptr list expr ++ ast_type_ptr list data_type
       | .ND_CAST => ast_node_ptr list left ++ ast_type_ptr list data_type
       | .ND_LEN | .ND_SIZEOF => ast_node_ptr list expr ++ ast_type_ptr list data_type
       | .ND_BLOCK => ast_objs list locals ++ ast_nodes list stmts
       | .ND_IF | .ND_CASE | .ND_WHILE => ast_node_ptr list left ++ ast_node_ptr list body
       | .ND_LOOP => ast_node_ptr list body
       | .ND_FOR =>
         ast_node_ptr list init_stmt ++ ast_node_ptr list left ++ ast_node_ptr list expr ++
           ast_node_ptr list body
       | .ND_MATCH => ast_node_ptr list body ++ ast_nodes list args ++ ast_node_ptr list body
       | .ND_RETURN => ast_node_ptr list body
       | .ND_VA_ARG => ast_type_ptr list data_type ++ ast_node_ptr list expr
       | .ND_EXPR_STMT | .ND_ASM => ast_node_ptr list expr
       | .ND_LAMBDA => ast_objs list locals ++ ast_type_ptr list data_type ++ ast_node_ptr list body
       | .ND_ARRAY | .ND_STRUCT => ast_nodes list args ++ ast_type_ptr list data_type
       | .ND_STRUCT_MEMBER => ast_id list true info.id ++ ast_type_ptr list data_type
       | .ND_ENUM_MEMBER => ast_id list true info.id ++ ast_node_ptr list expr
       | _ => []) ++
      list_fn Visit.node_end (list.node_end_fns info.kind)
        (.mk info data_type expr args left right body init_stmt stmts locals)

/-- The call `ast_node(list, node, custom_args)` on a pointer that may be `NULL`. -/
def ast_node_ptr {fn : Type} (list : ASTIteratorList fn) : Option ASTNode → List (Visit fn)
  | none => []
  | some node => ast_node list node

/-- A loop `for(i ...) ast_node(list, nodes->items[i], custom_args)`. -/
def ast_nodes {fn : Type} (list : ASTIteratorList fn) : List ASTNode → List (Visit fn)
  | [] => []
  | node :: rest => ast_node list node ++ ast_nodes list rest
end

/-- The function `ast_iterate` over the declarations `ast->objs`. -/
def ast_iterate {fn : Type} (list : ASTIteratorList fn) (objs : List ASTObj) :
    List (Visit fn) :=
  ast_objs list objs

/-! ## The callback table of the validator (validator.c, lines 143-249) -/

/-- The callbacks that `main_iterator_list` registers. -/
inductive Callback where
  | id_use | id_def
  | fn_start | fn_end | namespace_start | namespace_end | typedef_start | typedef_end
  | global_start | global_end | local_start | local_end | fn_arg_start | fn_arg_end
  | enum_member_end
  | block_start | block_end | return_end | for_start | for_end | case_end | match_type_end
  | using_end | with_start | with_end | expr_stmt
  | call | identifier | closure | reference | dereference | member | bin_operation | modulo
  | negate | bitwise_negate | not | equals | lt_gt | and_or | bitwise_op | inc_dec | index_
  | cast | assignment_start | assignment_end | struct_lit | array_lit | ternary | else_expr
  | len | type_expr | pipe_start | pipe_end | hole | lambda_start | lambda_end
  | string_lit | char_lit
  | struct_type | enum_type | undef_type | typeof_type
  deriving DecidableEq, Repr

/-- The table `main_iterator_list`.  Its entries `type_begin`, `type_end` and
`iterate_over_right_members` are not read by ast_iterator.c. -/
def main_iterator_list : ASTIteratorList Callback where
  node_start_fns
    | .ND_BLOCK => some .block_start
    | .ND_FOR => some .for_start
    | .ND_ASSIGN => some .assignment_start
    | .ND_WITH => some .with_start
    | .ND_PIPE => some .pipe_start
    | .ND_LAMBDA => some .lambda_start
    | _ => none
  node_end_fns
    | .ND_BLOCK => some .block_end
    | .ND_RETURN => some .return_end
    | .ND_FOR => some .for_end
    | .ND_CASE => some .case_end
    | .ND_MATCH_TYPE => some .match_type_end
    | .ND_USING => some .using_end
    | .ND_WITH => some .with_end
    | .ND_EXPR_STMT => some .expr_stmt
    | .ND_ID => some .identifier
    | .ND_CALL => some .call
    | .ND_REF => some .reference
    | .ND_DEREF => some .dereference
    | .ND_MEMBER => some .member
    | .ND_ADD | .ND_SUB | .ND_MUL | .ND_DIV => some .bin_operation
    | .ND_MOD => some .modulo
    | .ND_NEG => some .negate
    | .ND_BIT_NEG => some .bitwise_negate
    | .ND_NOT => some .not
    | .ND_EQ | .ND_NE => some .equals
    | .ND_LT | .ND_LE | .ND_GT | .ND_GE => some .lt_gt
    | .ND_AND | .ND_OR => some .and_or
    | .ND_XOR | .ND_LSHIFT | .ND_RSHIFT | .ND_BIT_OR | .ND_BIT_AND => some .bitwise_op
    | .ND_INC | .ND_DEC => some .inc_dec
    | .ND_INDEX => some .index_
    | .ND_CAST => some .cast
    | .ND_ASSIGN => some .assignment_end
    | .ND_STRUCT => some .struct_lit
    | .ND_ARRAY => some .array_lit
    | .ND_TERNARY => some .ternary
    | .ND_ELSE_EXPR => some .else_expr
    | .ND_CLOSURE => some .closure
    | .ND_LEN => some .len
    | .ND_TYPE_EXPR => some .type_expr
    | .ND_PIPE => some .pipe_end
    | .ND_LAMBDA => some .lambda_end
    | .ND_HOLE => some .hole
    | .ND_STR => some .string_lit
    | .ND_CHAR => some .char_lit
    | _ => none
  type_fns
    | .TY_STRUCT => some .struct_type
    | .TY_ENUM => some .enum_type
    | .TY_UNDEF => some .undef_type
    | .TY_TYPEOF => some .typeof_type
    | _ => none
  obj_start_fns
    | .OBJ_FUNCTION => some .fn_start
    | .OBJ_NAMESPACE => some .namespace_start
    | .OBJ_TYPEDEF => some .typedef_start
    | .OBJ_GLOBAL => some .global_start
    | .OBJ_LOCAL => some .local_start
    | .OBJ_FN_ARG => some .fn_arg_start
    | _ => none
  obj_end_fns
    | .OBJ_FUNCTION => some .fn_end
    | .OBJ_NAMESPACE => some .namespace_end
    | .OBJ_TYPEDEF => some .typedef_end
    | .OBJ_GLOBAL => some .global_end
    | .OBJ_LOCAL => some .local_end
    | .OBJ_FN_ARG => some .fn_arg_end
    | .OBJ_ENUM_MEMBER => some .enum_member_end
    | _ => none
  id_def_fn := some .id_def
  id_use_fn := some .id_use

/-! ## Comparisons and logical operators (validator.c, lines 493-565 and 1337-1371) -/

/-- The first lines of `is_number`, `v_is_integer` and `is_ptr`: `NULL` stays `NULL`, an
alias is expanded. -/
def expanded_operand (fuel : Nat) (v : Validator) (type : Option ASTType) :
    Run (Option ASTType) :=
  match type with
  | none => pure none
  | some type =>
    if type.kind = .TY_UNDEF then expand_typedef fuel v (some type) else pure (some type)

def is_number (fuel : Nat) (v : Validator) (type : Option ASTType) : Run Bool := do
  let type ← expanded_operand fuel v type
  match type with
  | none => pure false
  | some type =>
    match type.kind with
    | .TY_I8 | .TY_I16 | .TY_I32 | .TY_I64 | .TY_U8 | .TY_U16 | .TY_U32 | .TY_U64
    | .TY_F32 | .TY_F64 | .TY_F80 | .TY_CHAR | .TY_ENUM => pure true
    | _ => pure false

def is_ptr (fuel : Nat) (v : Validator) (type : Option ASTType) : Run Bool := do
  let type ← expanded_operand fuel v type
  match type with
  | none => pure false
  | some type => pure (type.kind == .TY_PTR)

/-- The callback `not`. -/
def not (P : Platform) (node : ASTNode) : ASTNode :=
  node.set_data_type (some (P.primitives .TY_BOOL))

def equals (P : Platform) (node : ASTNode) : ASTNode :=
  node.set_data_type (some (P.primitives .TY_BOOL))

/-- The test `!is_number(v, type) && !is_ptr(v, type)` of `lt_gt`. -/
def lt_gt_rejects (fuel : Nat) (v : Validator) (type : Option ASTType) : Run Bool := do
  let number ← is_number fuel v type
  if number then pure false
  else do
    let ptr ← is_ptr fuel v type
    pure (!ptr)

/-- The part of `lt_gt` after the test of the left operand. -/
def lt_gt_right (P : Platform) (fuel : Nat) (v : Validator) (op : ASTNode) : Run ASTNode :=
  match op.right with
  | none => Run.null_deref
  | some right => do
    let rejects ← lt_gt_rejects fuel v right.data_type
    if rejects then do
      throw_error .ERR_TYPE_ERROR op.tok "right: expect integer or pointer type" []
      pure op
    else pure (op.set_data_type (some (P.primitives .TY_BOOL)))

/-- The callback `lt_gt`; it yields the node as written. -/
def lt_gt (P : Platform) (fuel : Nat) (v : Validator) (op : ASTNode) : Run ASTNode :=
  match op.left with
  | none => Run.null_deref
  | some left => do
    let rejects ← lt_gt_rejects fuel v left.data_type
    if rejects then do
      throw_error .ERR_TYPE_ERROR op.tok "left: expect integer or pointer type" []
      pure op
    else lt_gt_right P fuel v op

/-- The callback `and_or`; it yields the node as written. -/
def and_or (op : ASTNode) : Run ASTNode :=
  match op.left with
  | none => Run.null_deref
  | some left => pure (op.set_data_type left.data_type)

/-- A binary expression of kind `kind` with the operands `left` and `right`. -/
def binary (kind : ASTNodeKind) (left right : ASTNode) : ASTNode :=
  .mk { kind := kind } none none [] (some left) (some right) none none [] []

/-! ## Return analysis (validator.c, lines 771-809 and 837-838) -/

/-- The diagnostic of `stmt_returns_value` for the statements `rest` that follow a
returning statement of a block: `node->stmts->size - i > 1`. -/
def unreachable_after (rest : List ASTNode) : Run Unit :=
  match rest with
  | next :: _ => throw_error .ERR_UNREACHABLE next.tok "unreachable code after return statement" []
  | [] => pure ()

mutual
/-- The function `stmt_returns_value`; it yields the flag it returns. -/
def stmt_returns_value : ASTNode → Run Bool
  | .mk info _ _ args _ _ body init_stmt stmts _ =>
    match info.kind with
    | .ND_RETURN => pure true
    | .ND_BLOCK => stmt_returns_value_stmts stmts
    | .ND_IF =>
      (stmt_returns_value_ptr body).andThen fun if_returns =>
        if if_returns && init_stmt.isSome then stmt_returns_value_ptr init_stmt
        else pure false
    | .ND_LOOP | .ND_FOR | .ND_WHILE => stmt_returns_value_ptr body
    | .ND_MATCH =>
      match body with
      | none => pure false
      | some (.mk _ _ _ _ _ _ default_body _ _ _) =>
        (stmt_returns_value_cases args).andThen fun cases_return =>
          if cases_return = args.length then stmt_returns_value_ptr default_body
          else pure false
    | _ => pure false

/-- The call `stmt_returns_value(node)` on a pointer that may be `NULL`. -/
def stmt_returns_value_ptr : Option ASTNode → Run Bool
  | none => Run.null_deref
  | some node => stmt_returns_value node

/-- The loop of `stmt_returns_value` over the statements of a block. -/
def stmt_returns_value_stmts : List ASTNode → Run Bool
  | [] => pure false
  | stmt :: rest =>
    (stmt_returns_value stmt).andThen fun returns =>
      if returns then (unreachable_after rest).andThen fun _ => pure true
      else stmt_returns_value_stmts rest

/-- The loop of `stmt_returns_value` over the cases of a match statement: the number
`cases_return` of cases whose body returns. -/
def stmt_returns_value_cases : List ASTNode → Run Nat
  | [] => pure 0
  | .mk _ _ _ _ _ _ body _ _ _ :: rest =>
    (stmt_returns_value_ptr body).andThen fun returns =>
      (stmt_returns_value_cases rest).andThen fun cases_return =>
        pure (if returns then cases_return + 1 else cases_return)
end

/-- The test of `fn_end` on the body of a function whose expanded return type is
`return_type`. -/
def fn_end_returns (fn : ASTObj) (return_type : ASTType) : Run Unit :=
  if return_type.kind ≠ .TY_VOID ∧ fn.info.is_extern = false ∧ fn.info.no_return = false then
    (stmt_returns_value_ptr fn.body).andThen fun returns =>
      if returns then pure ()
      else
        throw_error .ERR_NORETURN fn.tok "function `%s` does not return a value"
          [.str fn.id.callee]
  else pure ()

/-- The ways control can leave a statement. -/
inductive Completion where
  | falls | returns | breaks | continues
  deriving DecidableEq, Repr

/-- In the words of the specification: how the control paths through a loop end, given how
the paths through its body end; `may_skip` says that the body may run zero times. -/
def loop_paths (may_skip : Bool) (body : List Completion) : List Completion :=
  (if may_skip || body.contains .breaks then [Completion.falls] else []) ++
    (if body.contains .returns then [Completion.returns] else [])

mutual
/-- In the words of the specification: the ways in which the control paths through a
statement end, every condition being able to go either way.  A `while` or `for` loop may
run zero times; a loop is left by `break` or `return`; a match statement without default
case may match no case. -/
def control_paths : ASTNode → List Completion
  | .mk info _ _ args _ _ body init_stmt stmts _ =>
    match info.kind with
    | .ND_RETURN => [.returns]
    | .ND_BREAK => [.breaks]
    | .ND_CONTINUE => [.continues]
    | .ND_BLOCK => control_paths_stmts stmts
    | .ND_IF =>
      control_paths_ptr body ++
        (match init_stmt with
         | none => [.falls]
         | some else_branch => control_paths else_branch)
    | .ND_WHILE | .ND_FOR => loop_paths true (control_paths_ptr body)
    | .ND_LOOP => loop_paths false (control_paths_ptr body)
    | .ND_MATCH =>
      control_paths_cases args ++
        (match body with
         | none => [.falls]
         | some (.mk _ _ _ _ _ _ default_body _ _ _) => control_paths_ptr default_body)
    | _ => [.falls]

def control_paths_ptr : Option ASTNode → List Completion
  | none => [.falls]
  | some node => control_paths node

def control_paths_stmts : List ASTNode → List Completion
  | [] => [.falls]
  | stmt :: rest =>
    (control_paths stmt).filter (fun c => c != .falls) ++
      (if (control_paths stmt).contains .falls then control_paths_stmts rest else [])

def control_paths_cases : List ASTNode → List Completion
  | [] => []
  | .mk _ _ _ _ _ _ body _ _ _ :: rest => control_paths_ptr body ++ control_paths_cases rest
end

mutual
/-- The statement has no `while` loop, no `for` loop and no `break`, and every `continue`
in it stands inside a `loop` statement; `in_loop` says that the statement itself stands
inside one. -/
def exit_free : ASTNode → Bool → Bool
  | .mk info _ _ args _ _ body init_stmt stmts _, in_loop =>
    match info.kind with
    | .ND_WHILE | .ND_FOR | .ND_BREAK => false
    | .ND_CONTINUE => in_loop
    | .ND_LOOP => exit_free_ptr body true
    | .ND_BLOCK => exit_free_nodes stmts in_loop
    | .ND_IF => exit_free_ptr body in_loop && exit_free_ptr init_stmt in_loop
    | .ND_MATCH =>
      exit_free_cases args in_loop &&
        (match body with
         | none => true
         | some (.mk _ _ _ _ _ _ default_body _ _ _) => exit_free_ptr default_body in_loop)
    | _ => true

def exit_free_ptr : Option ASTNode → Bool → Bool
  | none, _ => true
  | some node, in_loop => exit_free node in_loop

def exit_free_nodes : List ASTNode → Bool → Bool
  | [], _ => true
  | node :: rest, in_loop => exit_free node in_loop && exit_free_nodes rest in_loop

def exit_free_cases : List ASTNode → Bool → Bool
  | [], _ => true
  | .mk _ _ _ _ _ _ body _ _ _ :: rest, in_loop =>
    exit_free_ptr body in_loop && exit_free_cases rest in_loop
end

mutual
/-- The statement has no `loop` statement, except inside `while` and `for` loops, which are
not looked into. -/
def loop_stmt_free : ASTNode → Bool
  | .mk info _ _ args _ _ body init_stmt stmts _ =>
    match info.kind with
    | .ND_LOOP => false
    | .ND_BLOCK => loop_stmt_free_nodes stmts
    | .ND_IF => loop_stmt_free_ptr body && loop_stmt_free_ptr init_stmt
    | .ND_MATCH =>
      loop_stmt_free_cases args &&
        (match body with
         | none => true
         | some (.mk _ _ _ _ _ _ default_body _ _ _) => loop_stmt_free_ptr default_body)
    | _ => true

def loop_stmt_free_ptr : Option ASTNode → Bool
  | none => true
  | some node => loop_stmt_free node

def loop_stmt_free_nodes : List ASTNode → Bool
  | [] => true
  | node :: rest => loop_stmt_free node && loop_stmt_free_nodes rest

def loop_stmt_free_cases : List ASTNode → Bool
  | [] => true
  | .mk _ _ _ _ _ _ body _ _ _ :: rest => loop_stmt_free_ptr body && loop_stmt_free_cases rest
end

/-- A statement of kind `kind` without children. -/
def stmt (kind : ASTNodeKind) (line : Nat := 0) : ASTNode :=
  .mk { kind := kind, tok := { line := line } } none none [] none none none none [] []

/-- The block `{ stmts }`. -/
def block (stmts : List ASTNode) (locals : List ASTObj := []) : ASTNode :=
  .mk { kind := .ND_BLOCK } none none [] none none none none stmts locals

/-- The function object `fn` with the body `body`. -/
def ASTObj.with_body : ASTObj → ASTNode → ASTObj
  | .mk info data_type objs args return_type value _, body =>
    .mk info data_type objs args return_type value (some body)

/-- The diagnostics that `stmt_returns_value` prints on the statements, in order. -/
def stmt_logs : List ASTNode → List Diagnostic
  | [] => []
  | s :: rest => (stmt_returns_value s).log ++ stmt_logs rest

/-- Sample data: the block `{ ret 1; f(); g(); }`, the statements on lines 1 to 3. -/
def sample_dead_code : ASTNode :=
  block [stmt .ND_RETURN 1, stmt .ND_EXPR_STMT 2, stmt .ND_EXPR_STMT 3]

/-- The assignment `id->outer = outer`. -/
def ASTIdentifier.set_outer : ASTIdentifier → Option ASTIdentifier → ASTIdentifier
  | .mk tok callee _ global_scope, outer => .mk tok callee outer global_scope

/-- The list `block->locals` replaced by the objects in their present state. -/
def ASTNode.set_locals : ASTNode → List ASTObj → ASTNode
  | .mk i d e a l r b s st _, locals => .mk i d e a l r b s st locals

/-- The last lines of `identifier`: the node takes the type of the object if it has none,
and the outer path of the object if the object has one. -/
def identifier_resolved (id : ASTNode) (referenced_obj : ASTObj) : Run ASTNode :=
  let id := if id.data_type.isNone then id.set_data_type referenced_obj.data_type else id
  if referenced_obj.id.outer.isSome then
    match id.info.id with
    | none => Run.null_deref
    | some name =>
      pure (id.set_info { id.info with id := some (name.set_outer referenced_obj.id.outer) })
  else pure id

/-- The function `identifier`, the end callback of an `ND_ID` node.  It yields the object
`*referenced_obj` in the state in which the call leaves it (`none` when no object was
found) and the node in the state in which the call leaves it.  The object is the one that
the scope holds; for a local variable that is the object in the list `locals` of its
block, which `block_start` put into the scope. -/
def identifier (fuel : Nat) (v : Validator) (id : ASTNode) : Run (Option ASTObj × ASTNode) :=
  (search_identifier fuel v v.current_scope id.info.id).andThen fun referenced_obj =>
    match referenced_obj with
    | none =>
      match id.info.id with
      | none => Run.null_deref
      | some name =>
        (throw_error .ERR_UNDEFINED name.tok "refferring to undefined identifier `%s`"
          [.str name.callee]).andThen fun _ => pure (none, id)
    | some referenced_obj =>
      match referenced_obj.kind with
      | .OBJ_GLOBAL | .OBJ_FUNCTION | .OBJ_ENUM_MEMBER =>
        (identifier_resolved id referenced_obj).andThen fun id =>
          pure (some referenced_obj, id)
      | .OBJ_LOCAL | .OBJ_FN_ARG =>
        (identifier_resolved id referenced_obj.set_referenced).andThen fun id =>
          pure (some referenced_obj.set_referenced, id)
      | _ =>
        match id.info.id with
        | none => Run.null_deref
        | some name =>
          (throw_error .ERR_TYPE_ERROR name.tok
            "identifier `%s` is of kind %s, expect variable or function name"
            [.str name.callee, .obj_kind referenced_obj.kind]).andThen fun _ =>
              pure (some referenced_obj, id)

/-- The callback `block_start`. -/
def block_start (v : Validator) (block : ASTNode) : Run Validator :=
  begin_obj_scope v none block.locals

/-- The diagnostic of `block_end` for the local variable `var`. -/
def unused_local (var : ASTObj) : Diagnostic :=
  ⟨.ERR_UNUSED, var.tok, "unused local variable `%s`", [.str var.id.callee]⟩

/-- The loop of `block_end` over `block->locals`. -/
def block_end_loop (v : Validator) : List ASTObj → Run Unit
  | [] => pure ()
  | var :: rest =>
    if var.info.referenced then block_end_loop v rest
    else
      match v.current_function with
      | none => Run.null_deref
      | some current_function =>
        if current_function.info.ignore_unused then block_end_loop v rest
        else
          (throw_error .ERR_UNUSED var.tok "unused local variable `%s`"
            [.str var.id.callee]).andThen fun _ => block_end_loop v rest

/-- The callback `block_end`. -/
def block_end (v : Validator) (block : ASTNode) : Run Validator :=
  (end_scope v).andThen fun v =>
    (block_end_loop v block.locals).andThen fun _ => pure v

/-- The callback of an invocation. -/
def Visit.callback {fn : Type} : Visit fn → fn
  | .node_start f _ | .node_end f _ | .type_fn f _ | .obj_start f _ | .obj_end f _
  | .id_def f _ | .id_use f _ => f

/-- Sample data: the local variable of `let x: i32;` at line 2. -/
def sample_local_x : ASTObj := decl .OBJ_LOCAL "x" 2 "main.csp" (some (plain .TY_I32 4))

/-- Sample data: the identifier node `x` at line 3. -/
def sample_id_x : ASTNode :=
  .mk { kind := .ND_ID, tok := { line := 3 }, id := some (ident "x" 3) } none none []
    none none none none [] []

/-- Sample data: the assignment `x = 1` at line 3. -/
def sample_assign_x : ASTNode :=
  .mk { kind := .ND_ASSIGN, tok := { line := 3 } } none none []
    (some sample_id_x) (some (int_lit 1)) none none [] []

/-- Sample data: the statement `x = 1;`. -/
def sample_assign_stmt : ASTNode :=
  .mk { kind := .ND_EXPR_STMT, tok := { line := 3 } } none (some sample_assign_x) []
    none none none none [] []

/-- Sample data: the block `{ let x: i32; x = 1; }`, in which `x` is never read. -/
def sample_block_x : ASTNode := block [sample_assign_stmt] [sample_local_x]

/-- Sample data: the function `fn f() { let x: i32; x = 1; }`. -/
def sample_fn_x : ASTObj :=
  (fn_decl "f" 1 [] (plain .TY_VOID)).with_body sample_block_x

/-- Sample data: the state in which the traversal reaches the body of `sample_fn_x`: the
file scope and the scope that `fn_start` opened. -/
def sample_fn_x_validator : Validator :=
  { current_scope := some (VScope.mk (some (VScope.mk none [sample_fn_x] none)) []
      (some sample_fn_x.id)),
    has_global_scope := true, scope_depth := 2, current_function := some sample_fn_x }

/-- Sample data: the state after `block_start` on `sample_block_x`. -/
def sample_block_x_validator : Validator :=
  { current_scope := some (VScope.mk
      (some (VScope.mk (some (VScope.mk none [sample_fn_x] none)) [] (some sample_fn_x.id)))
      [sample_local_x] none),
    has_global_scope := true, scope_depth := 3, current_function := some sample_fn_x }

/-! ## Nesting of the callback invocations -/

/-- An open pair of start and end callbacks: the kind of the node or declaration. -/
inductive Bracket where
  | node (kind : ASTNodeKind)
  | obj (kind : ASTObjKind)
  deriving DecidableEq, Repr

/-- In the words of the specification: the start and end invocations of a trace are well
nested.  The trace is read from left to right with the stack of the pairs that are open.
A start invocation opens a pair if the table has an end callback for the kind; an end
invocation, if the table has a start callback for the kind, must close the pair that was
opened last, and that pair must be of its kind.  Invocations for types and identifiers
have no partner. -/
def well_nested_from {fn : Type} (list : ASTIteratorList fn) :
    List Bracket → List (Visit fn) → Bool
  | stack, [] => stack.isEmpty
  | stack, .node_start _ node :: rest =>
    if (list.node_end_fns node.kind).isSome then
      well_nested_from list (.node node.kind :: stack) rest
    else well_nested_from list stack rest
  | stack, .node_end _ node :: rest =>
    if (list.node_start_fns node.kind).isSome then
      match stack with
      | top :: stack => top = .node node.kind && well_nested_from list stack rest
      | [] => false
    else well_nested_from list stack rest
  | stack, .obj_start _ obj :: rest =>
    if (list.obj_end_fns obj.kind).isSome then
      well_nested_from list (.obj obj.kind :: stack) rest
    else well_nested_from list stack rest
  | stack, .obj_end _ obj :: rest =>
    if (list.obj_start_fns obj.kind).isSome then
      match stack with
      | top :: stack => top = .obj obj.kind && well_nested_from list stack rest
      | [] => false
    else well_nested_from list stack rest
  | stack, _ :: rest => well_nested_from list stack rest

/-- In the words of the specification: a whole trace is well nested. -/
def well_nested {fn : Type} (list : ASTIteratorList fn) (trace : List (Visit fn)) : Bool :=
  well_nested_from list [] trace

/-- A trace that leaves the stack of open pairs as it found it, whatever follows. -/
def Balanced {fn : Type} (list : ASTIteratorList fn) (trace : List (Visit fn)) : Prop :=
  ∀ (stack : List Bracket) (rest : List (Visit fn)),
    well_nested_from list stack (trace ++ rest) = well_nested_from list stack rest

/-- A table with a callback in every slot: the callback is named after the slot. -/
def full_iterator_list : ASTIteratorList String where
  node_start_fns := fun _ => some "node_start"
  node_end_fns := fun _ => some "node_end"
  type_fns := fun _ => some "type"
  obj_start_fns := fun _ => some "obj_start"
  obj_end_fns := fun _ => some "obj_end"
  id_def_fn := some "id_def"
  id_use_fn := some "id_use"

/-- Sample data: the namespace `namespace n { fn f() { let x: i32; x = 1; } }`. -/
def sample_namespace_n : ASTObj := decl .OBJ_NAMESPACE "n" 1 "main.csp" none [sample_fn_x]

/-! ## Classification of types (validator.c, lines 493-551) -/

/-- The function `v_is_integer`. -/
def v_is_integer (fuel : Nat) (v : Validator) (type : Option ASTType) : Run Bool := do
  let type ← expanded_operand fuel v type
  match type with
  | none => pure false
  | some type =>
    match type.kind with
    | .TY_I8 | .TY_I16 | .TY_I32 | .TY_I64 | .TY_U8 | .TY_U16 | .TY_U32 | .TY_U64
    | .TY_CHAR | .TY_ENUM => pure true
    | _ => pure false

/-- In the words of the specification: the eight integer kinds. -/
def integer_kinds : List ASTTypeKind :=
  [.TY_I8, .TY_I16, .TY_I32, .TY_I64, .TY_U8, .TY_U16, .TY_U32, .TY_U64]

/-- In the words of the specification: the three float kinds. -/
def float_kinds : List ASTTypeKind := [.TY_F32, .TY_F64, .TY_F80]

/-- In the words of the specification: a numeric type is of an integer kind, of a float
kind, a character or an enumeration. -/
def numeric (kind : ASTTypeKind) : Bool :=
  decide (kind ∈ integer_kinds ++ float_kinds ++ [.TY_CHAR, .TY_ENUM])

/-- In the words of the specification: an integer-like type is a numeric type that is not
of a float kind. -/
def integer_like (kind : ASTTypeKind) : Bool :=
  numeric kind && !decide (kind ∈ float_kinds)

/-- Sample data: `type Meters: Len; type Len: i32;` is in scope in `sample_chain_validator`;
`type Ratio: f64;` in a scope of its own. -/
def sample_Ratio : ASTObj := decl .OBJ_TYPEDEF "Ratio" 1 "main.csp" (some (plain .TY_F64 8))

def sample_Ratio_validator : Validator :=
  { current_scope := some (VScope.mk none [sample_Ratio] none), has_global_scope := true,
    scope_depth := 1 }

/-! ## Well-formed types -/

/-- A type as the parser builds it: a pointer or array type has a base type, which is
well formed, and an alias reference has an identifier.  On such types `types_equal`
dereferences no `NULL` pointer. -/
def ASTType.well_formed : ASTType → Bool
  | .mk info base _ _ _ _ =>
    match info.kind with
    | .TY_ARR | .TY_PTR =>
      match base with
      | some base => base.well_formed
      | none => false
    | .TY_UNDEF => info.id.isSome
    | _ => true

/-- Sample data: `struct { a: i32 }` and `union { x: i8, y: i64 }`. -/
def sample_record_a : ASTType :=
  .mk { kind := .TY_STRUCT } none none [struct_member "a" (plain .TY_I32 4)] [] []

def sample_union_xy : ASTType :=
  union_of [struct_member "x" (plain .TY_I8 1), struct_member "y" (plain .TY_I64 8)]

/-! ## Sample data for the traversal -/

/-- The token line of the argument of an invocation. -/
def Visit.line {fn : Type} : Visit fn → Nat
  | .node_start _ node | .node_end _ node => node.tok.line
  | .type_fn _ type => type.info.tok.line
  | .obj_start _ obj | .obj_end _ obj => obj.tok.line
  | .id_def _ id | .id_use _ id => id.tok.line

/-- The node `node` with its token at line `line`. -/
def ASTNode.at_line (node : ASTNode) (line : Nat) : ASTNode :=
  node.set_info { node.info with tok := { line := line } }

/-- Sample data: the type `typeof x`. -/
def sample_typeof : ASTType :=
  .mk { kind := .TY_TYPEOF } none (some sample_id_x) [] [] []

/-- Sample data: the statement `if c { ret 1; } else { ret 2; }`: the statement and its
condition on line 1, the first branch and its return statement on line 2, the else branch
and its return statement on line 4. -/
def sample_if_lines : ASTNode :=
  .mk { kind := .ND_IF, tok := { line := 1 } } none none [] (some (stmt .ND_BOOL 1)) none
    (some ((block [stmt .ND_RETURN 2]).at_line 2))
    (some ((block [stmt .ND_RETURN 4]).at_line 4)) [] []

/-- Sample data: the statement `match x { 1 => ret 1; _ => ret 0; }`: the statement on
line 10, its condition `x` on line 11, the case `1` on line 12 with its body on line 13,
the default case on line 14 with its body on line 15. -/
def sample_match_lines : ASTNode :=
  .mk { kind := .ND_MATCH, tok := { line := 10 } } none none
    [.mk { kind := .ND_CASE, tok := { line := 12 } } none none [] (some (stmt .ND_INT 12))
      none (some (stmt .ND_RETURN 13)) none [] []]
    (some (stmt .ND_ID 11)) none
    (some (.mk { kind := .ND_CASE, tok := { line := 14 } } none none [] none none
      (some (stmt .ND_RETURN 15)) none [] []))
    none [] []

/-- The assignment `node->left = left`. -/
def ASTNode.set_left : ASTNode → Option ASTNode → ASTNode
  | .mk i d e a _ r b s st lo, left => .mk i d e a left r b s st lo

/-- The assignment `node->right = right`. -/
def ASTNode.set_right : ASTNode → Option ASTNode → ASTNode
  | .mk i d e a l _ b s st lo, right => .mk i d e a l right b s st lo

/-- The test `expand_typedef(v, type)->base` of `bin_operation`. -/
def expanded_base (fuel : Nat) (v : Validator) (type : Option ASTType) : Run Bool :=
  (expand_typedef fuel v type).andThen fun expanded =>
    match expanded with
    | none => Run.null_deref
    | some expanded => pure expanded.base.isSome

/-- The condition of the swap in `bin_operation`:
`op->kind == ND_ADD && expand_typedef(v, left)->base && !expand_typedef(v, right)->base`. -/
def bin_operation_swaps (fuel : Nat) (v : Validator) (op left right : ASTNode) : Run Bool :=
  if op.kind = .ND_ADD then
    (expanded_base fuel v left.data_type).andThen fun left_base =>
      if left_base then
        (expanded_base fuel v right.data_type).andThen fun right_base => pure (!right_base)
      else pure false
  else pure false

/-- The part of `bin_operation` after the test of the left operand. -/
def bin_operation_right (fuel : Nat) (v : Validator) (op left : ASTNode) : Run ASTNode :=
  match op.right with
  | none => Run.null_deref
  | some right =>
    (lt_gt_rejects fuel v right.data_type).andThen fun rejects =>
      if rejects then
        (throw_error .ERR_TYPE_ERROR op.tok "right: expect integer or pointer type" []).andThen
          fun _ => pure op
      else
        (bin_operation_swaps fuel v op left right).andThen fun swaps =>
          if swaps then
            pure (((op.set_left (some right)).set_right (some left)).set_data_type
              left.data_type)
          else pure (op.set_data_type right.data_type)

/-- The callback `bin_operation`; it yields the node as written. -/
def bin_operation (fuel : Nat) (v : Validator) (op : ASTNode) : Run ASTNode :=
  match op.left with
  | none => Run.null_deref
  | some left =>
    (lt_gt_rejects fuel v left.data_type).andThen fun rejects =>
      if rejects then
        (throw_error .ERR_TYPE_ERROR op.tok "left: expect integer or pointer type" []).andThen
          fun _ => pure op
      else bin_operation_right fuel v op left

/-- In a type as the parser builds it, the pointer and array types are the ones with a
base type. -/
def ASTType.base_iff_indirect (type : ASTType) : Prop :=
  type.base.isSome = true ↔ type.kind = .TY_PTR ∨ type.kind = .TY_ARR

/-- An expression of kind `kind` and type `type`, at line `line`. -/
def typed (kind : ASTNodeKind) (type : ASTType) (line : Nat := 0) : ASTNode :=
  .mk { kind := kind, tok := { line := line } } (some type) none [] none none none none [] []

/-- Sample data: the operands `p` of type `&i32` and `1` of type `i32`. -/
def sample_operand_p : ASTNode := typed .ND_ID (pointer_to (plain .TY_I32 4)) 1

def sample_operand_1 : ASTNode := typed .ND_INT (plain .TY_I32 4) 2

/-! ## Member access (validator.c, lines 452-491 and 1235-1263) -/

/-- The assignment `node->body = body`. -/
def ASTNode.set_body : ASTNode → Option ASTNode → ASTNode
  | .mk i d e a l r _ s st lo, body => .mk i d e a l r body s st lo

/-- The `while` loop of `find_member_in_type`, with the flag `is_ptr`; it yields the type
at which the loop stops.  The loop body runs at most four times (an alias, a pointer, an
alias, a pointer at which it breaks), since `expand_typedef` returns no alias reference;
`steps` counts the tests of the loop condition. -/
def find_member_loop (fuel : Nat) (v : Validator) : Nat → ASTType → Bool → Run ASTType
  | 0, _, _ => Run.no_fuel
  | steps + 1, type, is_ptr =>
    if type.kind = .TY_PTR then
      if is_ptr then pure type
      else
        match type.base with
        | none => Run.null_deref
        | some base => find_member_loop fuel v steps base true
    else if type.kind = .TY_UNDEF then
      (expand_typedef fuel v (some type)).andThen fun expanded =>
        match expanded with
        | none => Run.null_deref
        | some expanded => find_member_loop fuel v steps expanded is_ptr
    else pure type

/-- The `for` loop of `find_member_in_type` over the members. -/
def find_member_named (id : Option ASTIdentifier) : List ASTNode → Run (Option ASTNode)
  | [] => pure none
  | member :: rest =>
    match member.info.id, id with
    | some member_id, some id =>
      if member_id.callee = id.callee then pure (some member)
      else find_member_named (some id) rest
    | _, _ => Run.null_deref

/-- The function `find_member_in_type`. -/
def find_member_in_type (P : Platform) (fuel : Nat) (v : Validator) (type : ASTType)
    (id : ASTNode) : Run (Option ASTNode) :=
  if id.kind ≠ .ND_ID then pure none
  else
    (find_member_loop fuel v fuel type false).andThen fun type =>
      if type.kind ≠ .TY_STRUCT then
        (throw_error .ERR_TYPE_ERROR id.tok "cannot get member of type `%s`"
          [.str (P.ast_type_to_str (some type))]).andThen fun _ => pure none
      else find_member_named id.info.id type.members

/-- The part of `member` after the member was found. -/
def member_found (P : Platform) (fuel : Nat) (v : Validator) (node left : ASTNode)
    (left_type : ASTType) (found : ASTNode) : Run ASTNode :=
  (is_ptr fuel v (some left_type)).andThen fun ptr =>
    if ptr then
      pure (((node.set_data_type found.data_type).set_body (some found)).set_left
        (some (((P.init_ast_node .ND_DEREF left.tok).set_data_type left_type.base).set_right
          (some left))))
    else pure ((node.set_data_type found.data_type).set_body (some found))

/-- The callback `member`; it yields the node as written. -/
def member (P : Platform) (fuel : Nat) (v : Validator) (node : ASTNode) : Run ASTNode :=
  match node.left, node.right with
  | some left, some right =>
    match left.data_type with
    | none =>
      match right.info.id with
      | none => Run.null_deref
      | some right_id =>
        (throw_error .ERR_TYPE_CAST_WARN left.tok "could not resolve data type for `%s`"
          [.str right_id.callee]).andThen fun _ => pure node
    | some left_type =>
      (find_member_in_type P fuel v left_type right).andThen fun found =>
        match found with
        | none =>
          match right.info.id with
          | none => Run.null_deref
          | some right_id =>
            (throw_error .ERR_TYPE_ERROR node.tok "type `%s` has no member named `%s`"
              [.str (P.ast_type_to_str (some left_type)), .str right_id.callee]).andThen
                fun _ => pure node
        | some found => member_found P fuel v node left left_type found
  | _, _ => Run.null_deref

/-- In the words of the specification: the member named `name` of the aggregate. -/
def member_named (name : String) (members : List ASTNode) : Option ASTNode :=
  members.find? fun member => member.info.id.map ASTIdentifier.callee == some name

/-- The member expression `left.name`. -/
def member_of (left : ASTNode) (name : String) : ASTNode :=
  .mk { kind := .ND_MEMBER } none none [] (some left)
    (some (.mk { kind := .ND_ID, id := some (ident name) } none none [] none none none none
      [] []))
    none none [] []

/-- Sample data: `type Pair: struct { a: i32, b: i8 };` in scope, and the expressions
`s` of type `Pair`, `p` of type `&Pair` and `q` of type `&&Pair`. -/
def sample_Pair_type : ASTType :=
  .mk { kind := .TY_STRUCT } none none
    [struct_member "a" (plain .TY_I32 4), struct_member "b" (plain .TY_I8 1)] [] []

def sample_Pair : ASTObj := decl .OBJ_TYPEDEF "Pair" 1 "main.csp" (some sample_Pair_type)

def sample_Pair_validator : Validator :=
  { current_scope := some (VScope.mk none [sample_Pair] none), has_global_scope := true,
    scope_depth := 1 }

def sample_s : ASTNode := typed .ND_ID (alias_ref "Pair") 3

def sample_p : ASTNode := typed .ND_ID (pointer_to (alias_ref "Pair")) 4

def sample_q : ASTNode := typed .ND_ID (pointer_to (pointer_to (alias_ref "Pair"))) 5

/-- Sample data: `type PairPtr: &Pair;` in scope as well, and the expression `r` of type
`PairPtr`. -/
def sample_PairPtr : ASTObj :=
  decl .OBJ_TYPEDEF "PairPtr" 2 "main.csp" (some (pointer_to (alias_ref "Pair")))

def sample_PairPtr_validator : Validator :=
  { current_scope := some (VScope.mk none [sample_Pair, sample_PairPtr] none),
    has_global_scope := true, scope_depth := 1 }

def sample_r : ASTNode := typed .ND_ID (alias_ref "PairPtr") 6

/-! ## Pipes (validator.c, lines 1682-1714) -/

/-- The assignment `node->expr = expr`. -/
def ASTNode.set_expr : ASTNode → Option ASTNode → ASTNode
  | .mk i d _ a l r b s st lo, expr => .mk i d expr a l r b s st lo

/-- The callback `pipe_start`: the pipe saves the enclosing pipe in its member `expr` and
becomes the current pipe.  It yields the state and the node as the call leaves them. -/
def pipe_start (v : Validator) (pipe : ASTNode) : Validator × ASTNode :=
  let pipe := pipe.set_expr v.current_pipe
  ({ v with current_pipe := some pipe }, pipe)

/-- The callback `pipe_end`, called with the node as the validation of the operands left
it.  When the right operand is a hole, `*pipe = *pipe->left` copies every member of the
left operand into the node, the member `expr` among them, and the last statement reads
`pipe->expr` after that copy. -/
def pipe_end (v : Validator) (pipe : ASTNode) : Run (Validator × ASTNode) :=
  match pipe.right with
  | none => Run.null_deref
  | some right =>
    let pipe := pipe.set_data_type right.data_type
    if right.kind = .ND_HOLE then
      (throw_error .ERR_SYNTAX_WARNING pipe.tok "unnecessary `|>` expression" []).andThen
        fun _ =>
          match pipe.left with
          | none => Run.null_deref
          | some left => pure ({ v with current_pipe := left.expr }, left)
    else pure ({ v with current_pipe := pipe.expr }, pipe)

/-- The callback `hole`; it yields the node as the call leaves it.  The pipe is read as the
state holds it. -/
def hole (v : Validator) (hole : ASTNode) : Run ASTNode :=
  match v.current_pipe with
  | none =>
    (throw_error .ERR_SYNTAX_ERROR hole.tok "hole expression not in pipe" []).andThen
      fun _ => Run.null_deref
  | some pipe =>
    match pipe.left with
    | none => Run.null_deref
    | some left =>
      (if left.data_type.isNone then
        throw_error .ERR_TYPE_ERROR_UNCR hole.tok
          "cannot resolve data type of pipe input expression" []
       else pure ()).andThen fun _ => pure (hole.set_data_type left.data_type)

/-- The expression `left |> right` at line `line`. -/
def pipe_of (left right : ASTNode) (line : Nat := 0) : ASTNode :=
  .mk { kind := .ND_PIPE, tok := { line := line } } none none [] (some left) (some right)
    none none [] []

/-- Sample data: `x |> (y |> _) + _` with `x: i32` at line 1 and `y: i64`; the inner pipe
is at line 2 and the last hole at line 3. -/
def sample_pipe_x : ASTNode := typed .ND_ID (plain .TY_I32 4) 1

def sample_pipe_y : ASTNode := typed .ND_ID (plain .TY_I64 8) 2

def sample_inner_pipe : ASTNode := pipe_of sample_pipe_y (stmt .ND_HOLE 2) 2

def sample_outer_pipe : ASTNode :=
  pipe_of sample_pipe_x
    (.mk { kind := .ND_ADD, tok := { line := 2 } } none none [] (some sample_inner_pipe)
      (some (stmt .ND_HOLE 3)) none none [] []) 1

/-- Sample data: the state after `pipe_start` on the outer pipe. -/
def sample_in_outer_pipe : Validator := (pipe_start init_validator sample_outer_pipe).1

/-- Sample data: the state and the inner pipe after `pipe_start` on the inner pipe. -/
def sample_in_inner_pipe : Validator × ASTNode :=
  pipe_start sample_in_outer_pipe sample_inner_pipe

/-- Sample data: the inner pipe after the validation of its operands: the hole has the
type of `y`. -/
def sample_inner_pipe_validated : ASTNode :=
  sample_in_inner_pipe.2.set_right (some (typed .ND_HOLE (plain .TY_I64 8) 2))

/-- Sample data: `x |> y` inside the outer pipe, after `pipe_start`. -/
def sample_plain_pipe : Validator × ASTNode :=
  pipe_start sample_in_outer_pipe (pipe_of sample_pipe_x sample_pipe_y 2)

/-! ## Scope callbacks (validator.c, lines 642-653, 760-769, 811-866, 1003-1013, 1068-1091
and 1716-1752) -/

/-- The loop of `find_exit_fn`. -/
def find_exit_fn_loop : List ASTExitFnHandle → Option ASTType → Run (Option ASTExitFnHandle)
  | [], _ => pure none
  | handle :: rest, ty =>
    match handle.type, ty with
    | some handle_type, some type =>
      match types_equal handle_type type with
      | none => Run.null_deref
      | some true => pure (some handle)
      | some false => find_exit_fn_loop rest ty
    | _, _ => Run.null_deref

/-- The function `find_exit_fn`. -/
def find_exit_fn (ast : ASTProg) (ty : Option ASTType) : Run (Option ASTExitFnHandle) :=
  match ast.type_exit_fns with
  | none => pure none
  | some handles => find_exit_fn_loop handles ty

/-- The callback `fn_start`.  The model of a declaration does not hold the member `va_area`;
it is the argument `va_area`. -/
def fn_start (v : Validator) (fn : ASTObj) (va_area : Option ASTObj) : Run Validator :=
  let v := { begin_scope v (some fn.id) with current_function := some fn }
  match fn.data_type with
  | none => Run.null_deref
  | some data_type =>
    if data_type.info.is_variadic ∧ fn.info.is_extern = false then
      match va_area with
      | none => Run.null_deref
      | some va_area => scope_add_obj v va_area
    else pure v

/-- The loop of `fn_end` over the parameters. -/
def fn_end_args (fn : ASTObj) : List ASTObj → Run Unit
  | [] => pure ()
  | arg :: rest =>
    match arg.data_type with
    | none => Run.null_deref
    | some data_type =>
      (if data_type.info.is_vla ∧ rest.isEmpty = false then
        throw_error .ERR_TYPE_ERROR_UNCR arg.tok "argument of type `vla` has to be the last" []
       else pure ()).andThen fun _ =>
        (if arg.info.referenced = false ∧ fn.info.is_extern = false ∧
            fn.info.ignore_unused = false then
          throw_error .ERR_UNUSED arg.tok "unused function argument `%s`"
            [.str arg.id.callee]
         else pure ()).andThen fun _ => fn_end_args fn rest

/-- The test of `fn_end` and of `lambda_end` on the expanded return type; `written` is the
token printed when the type has none.  The branch for an aggregate of more than 16 bytes
writes the member `return_ptr`, which the model does not hold, and calls `get_type_size`
on a fresh pointer type, which returns the size of a pointer. -/
def check_return_type (return_type : ASTType) (tok : Token) : Run Unit :=
  if return_type.kind = .TY_ARR then
    throw_error .ERR_TYPE_ERROR_UNCR tok "cannot return an array type from a function" []
  else pure ()

/-- The callback `fn_end`; it yields the validator state, the program and the declaration
as the call leaves them.  The call of `gen_id_path`, which writes the path of the enclosing
scopes into the identifier of the function, is left out. -/
def fn_end (fuel : Nat) (v : Validator) (ast : ASTProg) (fn : ASTObj) :
    Run (Validator × ASTProg × ASTObj) :=
  (fn_end_main fuel v ast fn).andThen fun checked =>
    let v := checked.1
    let fn := checked.2.2
    (expand_typedef fuel v fn.return_type).andThen fun return_type =>
      match return_type, fn.return_type with
      | some return_type, some written =>
        (check_return_type return_type
          (if written.info.has_tok then written.info.tok else fn.tok)).andThen fun _ =>
          (end_scope v).andThen fun v =>
            (fn_end_returns fn return_type).andThen fun _ =>
              let v := { v with current_function := none }
              (fn_end_args fn fn.args).andThen fun _ =>
                (if v.scope_depth = 1 ∧ fn.id.callee = "_start" then
                  throw_error .ERR_MISC fn.id.tok
                    "cannot name a function \"_start\" in global scope" []
                 else pure ()).andThen fun _ => pure (v, checked.2.1, fn)
      | _, _ => Run.null_deref

/-- The callback `namespace_start`. -/
def namespace_start (v : Validator) (namespace_obj : ASTObj) : Run Validator :=
  begin_obj_scope v (some namespace_obj.id) namespace_obj.objs

/-- The callback `namespace_end`. -/
def namespace_end (v : Validator) (_namespace_obj : ASTObj) : Run Validator :=
  end_scope v

/-- The callback `for_start`. -/
def for_start (v : Validator) (for_stmt : ASTNode) : Run Validator :=
  begin_obj_scope v none for_stmt.locals

/-- The callback `for_end`. -/
def for_end (v : Validator) (_for_stmt : ASTNode) : Run Validator :=
  end_scope v

/-- The callback `with_start`.  The member `obj` of the statement, which the model of a
node does not hold, is the argument `obj`. -/
def with_start (v : Validator) (obj : Option ASTObj) : Run Validator :=
  match obj with
  | none => Run.null_deref
  | some obj => scope_add_obj (begin_scope v none) obj

/-- The diagnostics of `with_end`, which read `with->obj->tok`. -/
def with_error (obj : Option ASTObj) (ty : ErrorType) (format : String)
    (args : ASTObj → List FmtArg) : Run Unit :=
  match obj with
  | none => Run.null_deref
  | some obj => throw_error ty obj.tok format (args obj)

/-- The callback `with_end`; it yields the validator state and the function stored in
`with->exit_fn`.  The member `obj` of the statement is the argument `obj`. -/
def with_end (P : Platform) (v : Validator) (ast : ASTProg) (with_stmt : ASTNode)
    (obj : Option ASTObj) : Run (Validator × Option ASTObj) :=
  match with_stmt.condition with
  | none => Run.null_deref
  | some condition =>
    (if condition.data_type.isNone then
      with_error obj .ERR_TYPE_ERROR "could not resolve data type for `%s`"
        fun obj => [.str obj.id.callee]
     else pure ()).andThen fun _ =>
      (find_exit_fn ast condition.data_type).andThen fun handle =>
        match handle with
        | none =>
          (with_error obj .ERR_TYPE_ERROR_UNCR
            "type `%s` does not have a registered exit function.\nRegister one by using the `exit_fn` compiler directive"
            fun _ => [.str (P.ast_type_to_str condition.data_type)]).andThen fun _ =>
              Run.null_deref
        | some handle => (end_scope v).andThen fun v => pure (v, handle.fn)

/-- The callback `lambda_start`, as far as the validator state goes; it also writes a
running number into the node. -/
def lambda_start (v : Validator) (_lambda : ASTNode) : Validator :=
  begin_scope v none

/-- The callback `lambda_end`, as far as the validator state goes; with `CT_ASM` it also
pushes a fresh global onto the objects of the program and writes the members `stack_ptr`
and `return_ptr` of the node. -/
def lambda_end (P : Platform) (fuel : Nat) (v : Validator) (lambda : ASTNode) :
    Run Validator :=
  (end_scope v).andThen fun v =>
    if P.ct_asm then
      match lambda.data_type with
      | none => Run.null_deref
      | some data_type =>
        (expand_typedef fuel v data_type.base).andThen fun return_type =>
          match return_type with
          | none => Run.null_deref
          | some return_type =>
            (check_return_type return_type
              (if return_type.info.has_tok then return_type.info.tok
               else lambda.tok)).andThen fun _ => pure v
    else pure v

/-- The scopes of `w` are those of `v`: the same depth, and an innermost scope with the
same enclosing scopes and the same identifier, which may hold other objects. -/
def same_scopes (v w : Validator) : Prop :=
  w.scope_depth = v.scope_depth ∧
  w.current_scope.map VScope.prev = v.current_scope.map VScope.prev ∧
  w.current_scope.map VScope.id = v.current_scope.map VScope.id

/-- In `w` one scope is on top of the scopes of `v`. -/
def pushes_scope (v w : Validator) : Prop :=
  w.scope_depth = (v.scope_depth + 1) % 2 ^ 32 ∧
  w.current_scope.map VScope.prev = some v.current_scope

/-- The scopes of `w` are those of `v` without the innermost one. -/
def pops_scope (v w : Validator) : Prop :=
  w.scope_depth = (v.scope_depth + 2 ^ 32 - 1) % 2 ^ 32 ∧
  v.current_scope.map VScope.prev = some w.current_scope

/-- The counter `scope_depth` is the number of scopes on the stack, as a `u32`. -/
def scopes_counted (v : Validator) : Prop :=
  v.scope_depth = (VScope.chain v.current_scope).length % 2 ^ 32

/-- What a callback of the validator does to the stack of scopes: 1 for the six callbacks
that call `begin_scope` or `begin_obj_scope` and leave the scope open, -1 for the six that
call `end_scope` only, 0 for the others, which call neither or, like `struct_type` and
`enum_type`, close the scope they open. -/
def Callback.scope_effect : Callback → Int
  | .fn_start | .namespace_start | .block_start | .for_start | .with_start
  | .lambda_start => 1
  | .fn_end | .namespace_end | .block_end | .for_end | .with_end | .lambda_end => -1
  | _ => 0

/-- One callback takes the scopes from `v` to `w`. -/
def scope_step (f : Callback) (v w : Validator) : Prop :=
  if f.scope_effect = 1 then pushes_scope v w
  else if f.scope_effect = -1 then pops_scope v w
  else same_scopes v w

/-- The callbacks of a trace, run in order, take the scopes from `v` to `w`. -/
def scope_trace : List (Visit Callback) → Validator → Validator → Prop
  | [], v, w => w = v
  | visit :: rest, v, w => ∃ u, scope_step visit.callback v u ∧ scope_trace rest u w

/-- A trace of callbacks that leaves the scopes as it finds them. -/
def scope_neutral (trace : List (Visit Callback)) : Prop :=
  ∀ v w : Validator, v.scope_depth < 2 ^ 32 → scope_trace trace v w → same_scopes v w

/-- A property of traces that holds for the empty trace, for the invocations of the
callbacks for types and identifiers, for two traces in a row, and for a trace between the
start and end callbacks of a node or a declaration. -/
structure TraceClosed {fn : Type} (list : ASTIteratorList fn) (Q : List (Visit fn) → Prop) :
    Prop where
  nil : Q []
  append : ∀ a b, Q a → Q b → Q (a ++ b)
  type_fn : ∀ kind type, Q (list_fn Visit.type_fn (list.type_fns kind) type)
  id : ∀ is_definition id, Q (ast_id list is_definition id)
  node : ∀ node inner, Q inner →
    Q (list_fn Visit.node_start (list.node_start_fns node.kind) node ++ inner ++
        list_fn Visit.node_end (list.node_end_fns node.kind) node)
  obj : ∀ obj inner, Q inner →
    Q (list_fn Visit.obj_start (list.obj_start_fns obj.kind) obj ++ inner ++
        list_fn Visit.obj_end (list.obj_end_fns obj.kind) obj)

/-- Sample data: a `for` loop with the loop variable `i`, and a function `g` with the
parameter `n`, used in its body. -/
def sample_local_i : ASTObj := decl .OBJ_LOCAL "i" 3 "main.csp" (some (plain .TY_I32 4))

def sample_for : ASTNode :=
  .mk { kind := .ND_FOR, tok := { line := 3 } } none none [] none none
    (some (block [])) none [] [sample_local_i]

def sample_arg_n : ASTObj :=
  (decl .OBJ_FN_ARG "n" 6 "main.csp" (some (plain .TY_I32 4))).set_referenced

def sample_fn_g : ASTObj :=
  (fn_decl "g" 6 [sample_arg_n] (plain .TY_VOID)).set_data_type
    (some (fn_type [plain .TY_I32 4] (some (plain .TY_VOID))))

/-! ## Run lemmas -/

@[simp] theorem Run.bind_eq {α β : Type} (x : Run α) (f : α → Run β) :
    x >>= f = x.andThen f := rfl

@[simp] theorem Run.pure_eq {α : Type} (a : α) : (pure a : Run α) = Run.ret a := rfl

@[simp] theorem Run.ret_andThen {α β : Type} (a : α) (f : α → Run β) :
    (Run.ret a).andThen f = f a := by
  simp [Run.ret, Run.andThen]

theorem Run.andThen_out_ok {α β : Type} (x : Run α) (f : α → Run β) (a : α)
    (h : x.out = .ok a) : (x.andThen f).out = (f a).out := by
  simp [Run.andThen, h]

theorem Run.andThen_log_ok {α β : Type} (x : Run α) (f : α → Run β) (a : α)
    (h : x.out = .ok a) : (x.andThen f).log = x.log ++ (f a).log := by
  simp [Run.andThen, h]

theorem scope_add_obj_out (v : Validator) (scope : VScope) (obj : ASTObj)
    (h : v.current_scope = some scope) :
    (scope_add_obj v obj).out = .ok { v with current_scope := some (scope.push obj) } := by
  unfold scope_add_obj
  rw [h]
  simp only []
  cases hs : search_in_current_scope scope obj.id.callee <;>
    simp [throw_error, force_exit, Run.andThen, Run.ret]

theorem scope_add_obj_log_none (v : Validator) (scope : VScope) (obj : ASTObj)
    (h : v.current_scope = some scope)
    (hn : search_in_current_scope scope obj.id.callee = none) :
    (scope_add_obj v obj).log = [] := by
  unfold scope_add_obj
  rw [h]
  simp [hn, Run.andThen, Run.ret]

theorem scope_add_objs_out (more : List ASTObj) :
    ∀ (v : Validator) (prev : Option VScope) (objs : List ASTObj) (sid : Option ASTIdentifier),
      v.current_scope = some (VScope.mk prev objs sid) →
      (scope_add_objs v more).out =
        .ok { v with current_scope := some (VScope.mk prev (objs ++ more) sid) } := by
  induction more with
  | nil =>
    intro v prev objs sid h
    simp [scope_add_objs, Run.ret, ← h]
  | cons o rest ih =>
    intro v prev objs sid h
    simp only [scope_add_objs, Run.bind_eq]
    rw [Run.andThen_out_ok _ _ _ (scope_add_obj_out v _ o h)]
    rw [ih _ prev (objs ++ [o]) sid (by simp [VScope.push])]
    simp

theorem search_identifier_unqualified_hit (fuel : Nat) (v : Validator) (scope : VScope)
    (id : ASTIdentifier) (found : ASTObj)
    (ho : id.outer = none) (hg : id.global_scope = false)
    (hf : search_in_current_scope scope id.callee = some found) :
    search_identifier (fuel + 1) v (some scope) (some id) = Run.ret (some found) := by
  simp [search_identifier, ho, hg, hf]

theorem search_in_scope_none_eq (x : String) : search_in_scope none x = none := rfl

theorem search_in_scope_some_eq (prev : Option VScope) (objs : List ASTObj)
    (sid : Option ASTIdentifier) (x : String) :
    search_in_scope (some (VScope.mk prev objs sid)) x =
      match search_in_current_scope (VScope.mk prev objs sid) x with
      | some found => some found
      | none => search_in_scope prev x := by
  cases prev <;> simp [search_in_scope, search_in_scope_from]

theorem VScope.chain_none_eq : VScope.chain none = [] := rfl

theorem VScope.chain_some_eq (prev : Option VScope) (objs : List ASTObj)
    (sid : Option ASTIdentifier) :
    VScope.chain (some (VScope.mk prev objs sid))
      = VScope.mk prev objs sid :: VScope.chain prev := by
  cases prev <;> simp [VScope.chain, VScope.chain_from]

theorem search_identifier_unqualified (v : Validator) (id : ASTIdentifier)
    (ho : id.outer = none) (hg : id.global_scope = false) :
    ∀ (fuel : Nat) (scope : Option VScope), (VScope.chain scope).length < fuel →
      search_identifier fuel v scope (some id) = Run.ret (search_in_scope scope id.callee) := by
  intro fuel
  induction fuel with
  | zero => intro scope h; simp at h
  | succ n ih =>
    intro scope h
    cases scope with
    | none => simp [search_identifier, search_in_scope_none_eq]
    | some s =>
      cases s with
      | mk prev objs sid =>
        simp only [VScope.chain_some_eq, List.length_cons, Nat.add_lt_add_iff_right] at h
        cases hs : search_in_current_scope (VScope.mk prev objs sid) id.callee with
        | some found => simp [search_identifier, search_in_scope_some_eq, ho, hg, hs]
        | none =>
          simp [search_identifier, search_in_scope_some_eq, ho, hg, hs, VScope.prev]
          exact ih prev h

theorem search_in_scope_none (x : String) :
    ∀ (n : Nat) (scope : Option VScope), (VScope.chain scope).length ≤ n →
      (search_in_scope scope x = none ↔
        ∀ t ∈ VScope.chain scope, ∀ o ∈ t.objs, o.id.callee ≠ x) := by
  intro n
  induction n with
  | zero =>
    intro scope h
    cases scope with
    | none => simp [search_in_scope_none_eq, VScope.chain_none_eq]
    | some s => cases s; simp [VScope.chain_some_eq] at h
  | succ n ih =>
    intro scope h
    cases scope with
    | none => simp [search_in_scope_none_eq, VScope.chain_none_eq]
    | some s =>
      cases s with
      | mk prev objs sid =>
        simp only [VScope.chain_some_eq, List.length_cons, Nat.add_le_add_iff_right] at h
        cases hs : search_in_current_scope (VScope.mk prev objs sid) x with
        | some found =>
          simp only [search_in_scope_some_eq, hs, VScope.chain_some_eq, List.mem_cons]
          refine ⟨fun h0 => Option.noConfusion h0, fun hall => ?_⟩
          exfalso
          have hf := List.find?_some hs
          have hm := List.mem_of_find?_eq_some hs
          exact hall _ (Or.inl rfl) found hm (by simpa using hf)
        | none =>
          simp only [search_in_scope_some_eq, hs, VScope.chain_some_eq, List.mem_cons, ih prev h]
          constructor
          · intro hp t ht
            rcases ht with rfl | ht
            · intro o ho
              have := List.find?_eq_none.mp hs o ho
              simpa using this
            · exact hp t ht
          · intro hp t ht
            exact hp t (Or.inr ht)

theorem search_in_scope_some (x : String) (obj : ASTObj) :
    ∀ (n : Nat) (scope : Option VScope), (VScope.chain scope).length ≤ n →
      search_in_scope scope x = some obj →
      ∃ pre s post, VScope.chain scope = pre ++ s :: post ∧
        (∀ t ∈ pre, ∀ o ∈ t.objs, o.id.callee ≠ x) ∧
        ∃ before after, s.objs = before ++ obj :: after ∧ obj.id.callee = x ∧
          ∀ o ∈ before, o.id.callee ≠ x := by
  intro n
  induction n with
  | zero =>
    intro scope h
    cases scope with
    | none => simp [search_in_scope_none_eq]
    | some s => cases s; simp [VScope.chain_some_eq] at h
  | succ n ih =>
    intro scope h hfound
    cases scope with
    | none => simp [search_in_scope_none_eq] at hfound
    | some s =>
      cases s with
      | mk prev objs sid =>
        simp only [VScope.chain_some_eq, List.length_cons, Nat.add_le_add_iff_right] at h
        cases hs : search_in_current_scope (VScope.mk prev objs sid) x with
        | some found =>
          simp only [search_in_scope_some_eq, hs, Option.some.injEq] at hfound
          subst hfound
          obtain ⟨hp, before, after, hsplit, hbefore⟩ := List.find?_eq_some.mp hs
          refine ⟨[], VScope.mk prev objs sid, VScope.chain prev, by simp [VScope.chain_some_eq],
            by simp, before, after, hsplit, by simpa using hp, ?_⟩
          intro o ho
          simpa using hbefore o ho
        | none =>
          simp only [search_in_scope_some_eq, hs] at hfound
          obtain ⟨pre, s, post, hc, hpre, hrest⟩ := ih prev h hfound
          refine ⟨VScope.mk prev objs sid :: pre, s, post, by simp [VScope.chain_some_eq, hc], ?_,
            hrest⟩
          intro t ht
          rcases List.mem_cons.mp ht with rfl | ht
          · intro o ho
            have := List.find?_eq_none.mp hs o ho
            simpa using this
          · exact hpre t ht


/-! ## C1-C3: declaring and resolving unqualified names -/

/-- C1 (scope shadowing).  Let the chain of enclosing scopes resolve the name of `inner` to a
declaration `outer`.  After `begin_scope`, `scope_add_obj` of `inner` prints nothing (no
Redefinition) and returns; and after any further declarations `more` were added to that
inner scope, every lookup of an unqualified, non-global identifier with that name from the
inner scope returns `inner`, whereas the same lookup from the enclosing scope returned
`outer`. -/
theorem C1_scope_shadowing (v : Validator) (sid : Option ASTIdentifier)
    (outer inner : ASTObj) (more : List ASTObj) (id : ASTIdentifier) (fuel : Nat)
    (h_outer : search_in_scope v.current_scope inner.id.callee = some outer)
    (h_unq : id.outer = none ∧ id.global_scope = false)
    (h_name : id.callee = inner.id.callee) :
    (scope_add_obj (begin_scope v sid) inner).log = [] ∧
    ∃ v1 v2, (scope_add_obj (begin_scope v sid) inner).out = .ok v1 ∧
      (scope_add_objs v1 more).out = .ok v2 ∧
      search_identifier (fuel + 1) v2 v2.current_scope (some id) = Run.ret (some inner) ∧
      search_identifier ((VScope.chain v.current_scope).length + 1) v v.current_scope (some id)
        = Run.ret (some outer) := by
  have hb : (begin_scope v sid).current_scope = some (VScope.mk v.current_scope [] sid) := rfl
  refine ⟨scope_add_obj_log_none _ _ _ hb (by simp [search_in_current_scope, VScope.objs]), ?_⟩
  have h1 := scope_add_obj_out _ _ inner hb
  have h2 := scope_add_objs_out more _ v.current_scope [inner] sid
    (show Validator.current_scope { begin_scope v sid with
      current_scope := some ((VScope.mk v.current_scope [] sid).push inner) } = _ from rfl)
  refine ⟨_, _, h1, h2, ?_, ?_⟩
  · apply search_identifier_unqualified_hit _ _ _ _ _ h_unq.1 h_unq.2
    simp [search_in_current_scope, VScope.objs, h_name]
  · rw [search_identifier_unqualified v id h_unq.1 h_unq.2 _ _ (Nat.lt_succ_self _), h_name,
      h_outer]

theorem C1_scope_shadowing_witness :
    search_in_scope sample_validator.current_scope sample_inner_x.id.callee
      = some sample_outer_x ∧
    (scope_add_obj (begin_scope sample_validator none) sample_inner_x).log = [] ∧
    ∃ v1 v2, (scope_add_obj (begin_scope sample_validator none) sample_inner_x).out = .ok v1 ∧
      (scope_add_objs v1 [sample_f]).out = .ok v2 ∧
      search_identifier 1 v2 v2.current_scope (some (ident "x")) = Run.ret (some sample_inner_x) ∧
      search_identifier 2 sample_validator sample_validator.current_scope (some (ident "x"))
        = Run.ret (some sample_outer_x) :=
  ⟨rfl, C1_scope_shadowing sample_validator none sample_outer_x sample_inner_x [sample_f]
    (ident "x") 0 rfl ⟨rfl, rfl⟩ rfl⟩

/-- C2 (redefinition).  In a validator whose current scope holds the declarations `objs`,
`scope_add_obj v d` prints a Redefinition diagnostic exactly when some declaration of `objs`
has the local name of `d`; the enclosing scopes `prev` play no part (any other chain of
enclosing scopes gives the same diagnostics); when `first` is the first declaration of
`objs` with that name, the one diagnostic printed is anchored at the identifier of `d` and
cites the file of `first` and its line, token line + 1 in `u32` arithmetic (which is
`line + 1` for every line below `2 ^ 32 - 1`); and when no declaration of `objs` has the name,
nothing is printed. -/
theorem C2_redefinition (v : Validator) (prev : Option VScope) (objs : List ASTObj)
    (sid : Option ASTIdentifier) (d : ASTObj)
    (hv : v.current_scope = some (VScope.mk prev objs sid)) :
    ((scope_add_obj v d).reports .ERR_REDEFINITION = true ↔
      ∃ o ∈ objs, o.id.callee = d.id.callee) ∧
    (∀ prev2 : Option VScope,
      (scope_add_obj { v with current_scope := some (VScope.mk prev2 objs sid) } d).log
        = (scope_add_obj v d).log) ∧
    (∀ (before after : List ASTObj) (first : ASTObj),
      objs = before ++ first :: after → first.id.callee = d.id.callee →
      (∀ o ∈ before, o.id.callee ≠ d.id.callee) →
      (scope_add_obj v d).log =
        [⟨.ERR_REDEFINITION, d.id.tok,
          "redefinition of %s `%s`.\nfirst defined in %s at line %u as %s.",
          [.obj_kind d.kind, .str d.id.callee, .str first.tok.file,
           .num ((first.tok.line + 1) % 2 ^ 32), .obj_kind first.kind]⟩] ∧
      (first.tok.line + 1 < 2 ^ 32 →
        (((first.tok.line + 1) % 2 ^ 32 : Nat) : Int) = first.tok.line + 1)) ∧
    ((∀ o ∈ objs, o.id.callee ≠ d.id.callee) → (scope_add_obj v d).log = []) := by
  have hlog : ∀ prev2 : Option VScope,
      (scope_add_obj { v with current_scope := some (VScope.mk prev2 objs sid) } d).log =
        match objs.find? (fun obj => obj.id.callee == d.id.callee) with
        | some found =>
          [⟨.ERR_REDEFINITION, d.id.tok,
            "redefinition of %s `%s`.\nfirst defined in %s at line %u as %s.",
            [.obj_kind d.kind, .str d.id.callee, .str found.tok.file,
             .num ((found.tok.line + 1) % 2 ^ 32), .obj_kind found.kind]⟩]
        | none => [] := by
    intro prev2
    unfold scope_add_obj
    simp only [search_in_current_scope, VScope.objs]
    cases objs.find? (fun obj => obj.id.callee == d.id.callee) <;>
      simp [throw_error, force_exit, Run.andThen, Run.ret]
  have hv2 : v = { v with current_scope := some (VScope.mk prev objs sid) } := by
    cases v; simp_all
  have hlog0 := hlog prev
  rw [← hv2] at hlog0
  refine ⟨?_, ?_, ?_, ?_⟩
  · rw [Run.reports, hlog0]
    cases hf : objs.find? (fun obj => obj.id.callee == d.id.callee) with
    | some found =>
      have hp := List.find?_some hf
      have hm := List.mem_of_find?_eq_some hf
      simp only [List.any_cons, List.any_nil, Bool.or_false, beq_self_eq_true, true_iff]
      exact ⟨found, hm, by simpa using hp⟩
    | none =>
      simp only [List.any_nil, Bool.false_eq_true, false_iff, not_exists, not_and]
      intro o ho
      simpa using List.find?_eq_none.mp hf o ho
  · intro prev2
    rw [hlog prev2, hlog0]
  · intro before after first hsplit hname hbefore
    have hf : objs.find? (fun obj => obj.id.callee == d.id.callee) = some first := by
      rw [List.find?_eq_some]
      exact ⟨by simpa using hname, before, after, hsplit, fun a ha => by simpa using hbefore a ha⟩
    rw [hlog0, hf]
    refine ⟨rfl, fun hlt => ?_⟩
    rw [Nat.mod_eq_of_lt hlt]
    push_cast
    rfl
  · intro hnone
    have hf : objs.find? (fun obj => obj.id.callee == d.id.callee) = none := by
      rw [List.find?_eq_none]
      intro o ho
      simpa using hnone o ho
    rw [hlog0, hf]


theorem C2_redefinition_witness :
    sample_validator.current_scope = some (VScope.mk none [sample_outer_x, sample_f] none) ∧
    ((scope_add_obj sample_validator sample_inner_x).reports .ERR_REDEFINITION = true ↔
      ∃ o ∈ [sample_outer_x, sample_f], o.id.callee = sample_inner_x.id.callee) ∧
    (scope_add_obj sample_validator sample_inner_x).log =
      [⟨.ERR_REDEFINITION, sample_inner_x.id.tok,
        "redefinition of %s `%s`.\nfirst defined in %s at line %u as %s.",
        [.obj_kind .OBJ_LOCAL, .str "x", .str "main.csp", .num 3, .obj_kind .OBJ_GLOBAL]⟩] :=
  ⟨rfl,
   (C2_redefinition sample_validator none [sample_outer_x, sample_f] none sample_inner_x rfl).1,
   ((C2_redefinition sample_validator none [sample_outer_x, sample_f] none sample_inner_x
      rfl).2.2.1 [] [sample_f] sample_outer_x rfl rfl (by simp)).1⟩

/-- C3 (unqualified resolution).  For an identifier without outer path and without global
anchor, and any scope chain, `search_identifier` returns (given fuel beyond the length of the
chain) a result `r` such that: if `r` is a declaration, it sits in a scope `s` of the chain
before which no scope holds the name, and it is the first declaration of `s` with the name;
`r` is no declaration if and only if no scope of the chain holds the name; and `id_use`, the
identifier-use callback, then prints one Undefined diagnostic at the identifier (and ends
the process, Undefined being a `force_exit` kind), while it prints nothing when `r` is a
declaration. -/
theorem C3_unqualified_resolution (v : Validator) (scope : Option VScope) (id : ASTIdentifier)
    (fuel : Nat)
    (h_unq : id.outer = none ∧ id.global_scope = false)
    (h_fuel : (VScope.chain scope).length < fuel) :
    ∃ r, search_identifier fuel v scope (some id) = Run.ret r ∧
      (∀ obj, r = some obj →
        ∃ pre s post, VScope.chain scope = pre ++ s :: post ∧
          (∀ t ∈ pre, ∀ o ∈ t.objs, o.id.callee ≠ id.callee) ∧
          ∃ before after, s.objs = before ++ obj :: after ∧ obj.id.callee = id.callee ∧
            ∀ o ∈ before, o.id.callee ≠ id.callee) ∧
      (r = none ↔ ∀ t ∈ VScope.chain scope, ∀ o ∈ t.objs, o.id.callee ≠ id.callee) ∧
      (scope = v.current_scope →
        id_use fuel v id =
          match r with
          | none =>
            ⟨[⟨.ERR_UNDEFINED, id.tok, "undefined identifier `%s`.", [.str id.callee]⟩], .exited⟩
          | some _ => Run.ret ()) := by
  have hs := search_identifier_unqualified v id h_unq.1 h_unq.2 fuel scope h_fuel
  refine ⟨search_in_scope scope id.callee, hs, ?_, ?_, ?_⟩
  · intro obj hobj
    exact search_in_scope_some id.callee obj _ scope (Nat.le_refl _) hobj
  · exact search_in_scope_none id.callee _ scope (Nat.le_refl _)
  · intro hsc
    subst hsc
    unfold id_use
    rw [hs]
    cases search_in_scope v.current_scope id.callee <;>
      simp [throw_error, force_exit, Run.ret, Run.andThen]

theorem C3_unqualified_resolution_witness :
    ((ident "y").outer = none ∧ (ident "y").global_scope = false) ∧
    (VScope.chain sample_validator.current_scope).length < 2 ∧
    ∃ r, search_identifier 2 sample_validator sample_validator.current_scope (some (ident "y"))
        = Run.ret r ∧
      (∀ obj, r = some obj →
        ∃ pre s post, VScope.chain sample_validator.current_scope = pre ++ s :: post ∧
          (∀ t ∈ pre, ∀ o ∈ t.objs, o.id.callee ≠ (ident "y").callee) ∧
          ∃ before after, s.objs = before ++ obj :: after ∧ obj.id.callee = (ident "y").callee ∧
            ∀ o ∈ before, o.id.callee ≠ (ident "y").callee) ∧
      (r = none ↔
        ∀ t ∈ VScope.chain sample_validator.current_scope, ∀ o ∈ t.objs,
          o.id.callee ≠ (ident "y").callee) ∧
      (sample_validator.current_scope = sample_validator.current_scope →
        id_use 2 sample_validator (ident "y") =
          match r with
          | none =>
            ⟨[⟨.ERR_UNDEFINED, (ident "y").tok, "undefined identifier `%s`.",
                [.str (ident "y").callee]⟩], .exited⟩
          | some _ => Run.ret ()) :=
  ⟨⟨rfl, rfl⟩, by decide,
   C3_unqualified_resolution sample_validator sample_validator.current_scope (ident "y") 2
     ⟨rfl, rfl⟩ (by decide)⟩


/-! ## C4: names qualified by a namespace -/

/-- C4 (namespace-qualified resolution).  Let the outer segment of `id` resolve (from the
scope the lookup starts in, or from the global scope when `id` is anchored there) to a
namespace declaration `ns`.  Then `search_identifier` prints nothing and returns the first
declaration with the local name of `id` in `ns`'s own declaration list: a declaration it
returns is a direct member of `ns` carrying that name, and when no direct member carries the
name it returns no declaration, whatever the scopes of the chain or the namespaces nested
in `ns` hold. -/
theorem C4_namespace_qualified (fuel : Nat) (v : Validator) (scope : VScope)
    (id outer : ASTIdentifier) (ns : ASTObj)
    (h_outer : id.outer = some outer)
    (h_res : (search_identifier fuel v
      (if id.global_scope then v.global_scope else some scope) (some outer)).out = .ok (some ns))
    (h_kind : ns.kind = .OBJ_NAMESPACE) :
    search_identifier (fuel + 1) v (some scope) (some id)
      = ⟨(search_identifier fuel v
            (if id.global_scope then v.global_scope else some scope) (some outer)).log,
          .ok (find_named ns.objs id.callee)⟩ ∧
    (∀ obj, find_named ns.objs id.callee = some obj →
      obj.id.callee = id.callee ∧
      ∃ before after, ns.objs = before ++ obj :: after ∧
        ∀ o ∈ before, o.id.callee ≠ id.callee) ∧
    ((∀ o ∈ ns.objs, o.id.callee ≠ id.callee) → find_named ns.objs id.callee = none) := by
  refine ⟨?_, ?_, ?_⟩
  · simp [search_identifier, h_outer, Run.andThen, h_res, h_kind, Run.ret]
  · intro obj hobj
    obtain ⟨hp, before, after, hsplit, hb⟩ := List.find?_eq_some.mp hobj
    exact ⟨by simpa using hp, before, after, hsplit, fun o ho => by simpa using hb o ho⟩
  · intro hno
    unfold find_named
    rw [List.find?_eq_none]
    intro o ho
    simpa using hno o ho

theorem C4_namespace_qualified_witness :
    ((qualified (ident "ns") "x").outer = some (ident "ns") ∧
      (search_identifier 1 sample_ns_validator
        (if (qualified (ident "ns") "x").global_scope then sample_ns_validator.global_scope
         else some (VScope.mk none [sample_outer_x, sample_ns] none)) (some (ident "ns"))).out
        = .ok (some sample_ns) ∧
      sample_ns.kind = .OBJ_NAMESPACE) ∧
    search_identifier 2 sample_ns_validator (some (VScope.mk none [sample_outer_x, sample_ns] none))
      (some (qualified (ident "ns") "x")) = ⟨[], .ok none⟩ :=
  ⟨⟨rfl, rfl, rfl⟩,
   (C4_namespace_qualified 1 sample_ns_validator (VScope.mk none [sample_outer_x, sample_ns] none)
     (qualified (ident "ns") "x") (ident "ns") sample_ns rfl rfl rfl).1⟩


/-! ## Fuel -/

theorem Run.andThen_mono {α β : Type} {x x2 : Run α} {f f2 : α → Run β}
    (hx : x.out ≠ .diverge → x2 = x)
    (hf : ∀ a, x.out = .ok a → (f a).out ≠ .diverge → f2 a = f a)
    (h : (x.andThen f).out ≠ .diverge) : x2.andThen f2 = x.andThen f := by
  have hxd : x.out ≠ .diverge := by
    intro hd
    apply h
    simp [Run.andThen, hd]
  rw [hx hxd]
  cases hxo : x.out with
  | ok a =>
    have hfa : (f a).out ≠ .diverge := by
      intro hd
      apply h
      simp [Run.andThen, hxo, hd]
    simp [Run.andThen, hxo, hf a hxo hfa]
  | exited => simp [Run.andThen, hxo]
  | segv => simp [Run.andThen, hxo]
  | diverge => exact absurd hxo hxd

theorem fuel_mono_step (n : Nat) :
    (∀ v s id, (search_identifier n v s id).out ≠ .diverge →
      search_identifier (n + 1) v s id = search_identifier n v s id) ∧
    (∀ v t, (expand_typedef n v t).out ≠ .diverge →
      expand_typedef (n + 1) v t = expand_typedef n v t) := by
  induction n with
  | zero =>
    constructor
    · intro v s id h
      simp [search_identifier, Run.no_fuel] at h
    · intro v t h
      simp [expand_typedef, Run.no_fuel] at h
  | succ n ih =>
    obtain ⟨ihs, ihe⟩ := ih
    constructor
    · intro v s id h
      cases s with
      | none => simp [search_identifier]
      | some scope =>
        cases id with
        | none => simp [search_identifier]
        | some id =>
          rw [search_identifier] at h
          rw [search_identifier]
          conv_rhs => rw [search_identifier]
          simp only [] at h ⊢
          cases ho : id.outer with
          | none =>
            simp only [ho] at h ⊢
            cases hsc : (if id.global_scope = true then v.global_scope else some scope) with
            | none => rfl
            | some sc =>
              simp only [hsc] at h ⊢
              cases hcur : search_in_current_scope sc id.callee with
              | some found => rfl
              | none =>
                simp only [hcur] at h ⊢
                exact ihs _ _ _ h
          | some outer =>
            simp only [ho] at h ⊢
            simp only [Run.bind_eq] at h ⊢
            refine Run.andThen_mono (ihs _ _ _) ?_ h
            intro a ha hne
            cases a with
            | none => rfl
            | some outer_obj =>
              simp only [] at hne ⊢
              cases hk : outer_obj.kind <;> simp only [hk] at hne ⊢
              refine Run.andThen_mono (ihe _ _) ?_ hne
              intro e he hne2
              rfl
    · intro v t h
      cases t with
      | none => simp [expand_typedef]
      | some type =>
        rw [expand_typedef] at h
        rw [expand_typedef]
        conv_rhs => rw [expand_typedef]
        simp only [] at h ⊢
        by_cases hkind : type.kind = .TY_UNDEF
        · simp only [hkind, ne_eq, not_true_eq_false, ↓reduceIte, Run.bind_eq] at h ⊢
          refine Run.andThen_mono (ihs _ _ _) ?_ h
          intro ty_def hty hne
          cases hid : type.id with
          | none => rfl
          | some tid =>
            cases ty_def with
            | none => rfl
            | some ty_def =>
              simp only [hid] at hne ⊢
              have hrest : ∀ y : PUnit,
                  ((match ty_def.data_type with
                    | none => Run.null_deref
                    | some dt =>
                      if dt.kind = .TY_UNDEF then expand_typedef n v (some dt)
                      else pure (some dt) : Run (Option ASTType))).out ≠ .diverge →
                  (match ty_def.data_type with
                    | none => Run.null_deref
                    | some dt =>
                      if dt.kind = .TY_UNDEF then expand_typedef (n + 1) v (some dt)
                      else pure (some dt) : Run (Option ASTType)) =
                  (match ty_def.data_type with
                    | none => Run.null_deref
                    | some dt =>
                      if dt.kind = .TY_UNDEF then expand_typedef n v (some dt)
                      else pure (some dt)) := by
                intro _ hr
                cases hdt : ty_def.data_type with
                | none => rfl
                | some dt =>
                  simp only [hdt] at hr ⊢
                  by_cases hdk : dt.kind = .TY_UNDEF
                  · simp only [hdk, ↓reduceIte] at hr ⊢
                    exact ihe _ _ hr
                  · simp only [hdk, ↓reduceIte]
              by_cases hk : ty_def.kind = .OBJ_TYPEDEF
              · simp only [hk, not_true_eq_false, ↓reduceIte] at hne ⊢
                exact Run.andThen_mono (fun _ => rfl) (fun y _ hy => hrest y hy) hne
              · simp only [hk, not_false_eq_true, ↓reduceIte] at hne ⊢
                exact Run.andThen_mono (fun _ => rfl) (fun y _ hy => hrest y hy) hne
        · simp [hkind]


/-- More fuel never changes a run that did not run out of fuel. -/
theorem search_identifier_fuel_mono (v : Validator) (s : Option VScope)
    (id : Option ASTIdentifier) (n m : Nat) (hnm : n ≤ m)
    (h : (search_identifier n v s id).out ≠ .diverge) :
    search_identifier m v s id = search_identifier n v s id := by
  induction m with
  | zero =>
    have : n = 0 := Nat.le_zero.mp hnm
    subst this
    rfl
  | succ m ih =>
    rcases Nat.lt_or_ge m n with hlt | hge
    · have : n = m + 1 := by omega
      subst this
      rfl
    · have hm := ih hge
      rw [(fuel_mono_step m).1 v s id (by rw [hm]; exact h), hm]

theorem expand_typedef_fuel_mono (v : Validator) (t : Option ASTType) (n m : Nat) (hnm : n ≤ m)
    (h : (expand_typedef n v t).out ≠ .diverge) :
    expand_typedef m v t = expand_typedef n v t := by
  induction m with
  | zero =>
    have : n = 0 := Nat.le_zero.mp hnm
    subst this
    rfl
  | succ m ih =>
    rcases Nat.lt_or_ge m n with hlt | hge
    · have : n = m + 1 := by omega
      subst this
      rfl
    · have hm := ih hge
      rw [(fuel_mono_step m).2 v t (by rw [hm]; exact h), hm]


/-! ## C5: names qualified by a type alias -/

/-- C5, counterexample.  With `type T: U;` in scope and `U` undeclared, the outer segment of
`T::m` resolves to the type alias `T`, which is no enumeration; yet no amount of fuel makes
the lookup of `T::m` print an Undefined diagnostic: `expand_typedef` prints a TypeError
(undefined data type) and the lookup does not return. -/
theorem C5_alias_qualified_counterexample :
    search_identifier 1 sample_alias_validator sample_alias_validator.current_scope
        (some (ident "T")) = Run.ret (some sample_T) ∧
    sample_T.kind = .OBJ_TYPEDEF ∧
    (search_identifier 4 sample_alias_validator sample_alias_validator.current_scope
        (some (qualified (ident "T") "m"))).log
      = [⟨.ERR_TYPE_ERROR, { line := 3 }, "undefined data type `%s`", [.str "U"]⟩] ∧
    (search_identifier 4 sample_alias_validator sample_alias_validator.current_scope
        (some (qualified (ident "T") "m"))).returns = false ∧
    ¬ ∃ fuel, (search_identifier fuel sample_alias_validator
        sample_alias_validator.current_scope (some (qualified (ident "T") "m"))).reports
          .ERR_UNDEFINED = true := by
  refine ⟨rfl, rfl, rfl, rfl, ?_⟩
  rintro ⟨fuel, h⟩
  rcases Nat.lt_or_ge fuel 4 with hlt | hge
  · have hcases : fuel = 0 ∨ fuel = 1 ∨ fuel = 2 ∨ fuel = 3 := by omega
    rcases hcases with rfl | rfl | rfl | rfl <;> revert h <;> decide
  · have h4 : search_identifier 4 sample_alias_validator sample_alias_validator.current_scope
        (some (qualified (ident "T") "m"))
        = ⟨[⟨.ERR_TYPE_ERROR, { line := 3 }, "undefined data type `%s`", [.str "U"]⟩],
            .segv⟩ := rfl
    rw [search_identifier_fuel_mono _ _ _ 4 fuel hge (by rw [h4]; simp), h4] at h
    revert h
    decide

/-- C5, amended (alias-qualified resolution).  Let the outer segment of `id` resolve to a
type alias `td`, and let `e` be the run of `expand_typedef` on the declared type of `td`.
If `e` returns a type that is an enumeration with a member named like `id`, the lookup
returns the first such member.  If `e` returns a type that is no enumeration or has no such
member, the lookup prints one Undefined diagnostic at the outer segment and the process
ends: no declaration is returned.  If `e` does not return, the lookup does not return
either and prints nothing beyond what the outer lookup and `e` printed. -/
theorem C5_alias_qualified_amended (fuel : Nat) (v : Validator) (scope : VScope)
    (id outer : ASTIdentifier) (td : ASTObj)
    (h_outer : id.outer = some outer)
    (h_res : (search_identifier fuel v
      (if id.global_scope then v.global_scope else some scope) (some outer)).out = .ok (some td))
    (h_kind : td.kind = .OBJ_TYPEDEF) :
    (∀ ty member, (expand_typedef fuel v td.data_type).out = .ok (some ty) →
      ty.kind = .TY_ENUM → find_named ty.enum_members id.callee = some member →
      search_identifier (fuel + 1) v (some scope) (some id) =
        ⟨(search_identifier fuel v
            (if id.global_scope then v.global_scope else some scope) (some outer)).log ++
          (expand_typedef fuel v td.data_type).log, .ok (some member)⟩) ∧
    (∀ ty, (expand_typedef fuel v td.data_type).out = .ok (some ty) →
      (ty.kind ≠ .TY_ENUM ∨ find_named ty.enum_members id.callee = none) →
      search_identifier (fuel + 1) v (some scope) (some id) =
        ⟨(search_identifier fuel v
            (if id.global_scope then v.global_scope else some scope) (some outer)).log ++
          (expand_typedef fuel v td.data_type).log ++
          [⟨.ERR_UNDEFINED, outer.tok, "type `%s` has no member called `%s`",
            [.str td.id.callee, .str id.callee]⟩], .exited⟩) ∧
    ((expand_typedef fuel v td.data_type).returns = false →
      (search_identifier (fuel + 1) v (some scope) (some id)).returns = false ∧
      (search_identifier (fuel + 1) v (some scope) (some id)).log =
        (search_identifier fuel v
            (if id.global_scope then v.global_scope else some scope) (some outer)).log ++
          (expand_typedef fuel v td.data_type).log) := by
  refine ⟨?_, ?_, ?_⟩
  · intro ty member he hk hm
    simp [search_identifier, h_outer, Run.andThen, h_res, h_kind, he, hk, hm, Run.ret]
  · intro ty he hcase
    rcases hcase with hk | hm
    · simp [search_identifier, h_outer, Run.andThen, h_res, h_kind, he, hk, Run.ret,
        throw_error, force_exit]
    · by_cases hk : ty.kind = .TY_ENUM
      · simp [search_identifier, h_outer, Run.andThen, h_res, h_kind, he, hk, hm, Run.ret,
          throw_error, force_exit]
      · simp [search_identifier, h_outer, Run.andThen, h_res, h_kind, he, hk, Run.ret,
          throw_error, force_exit]
  · intro hret
    cases he : (expand_typedef fuel v td.data_type).out with
    | ok a => simp [Run.returns, he] at hret
    | exited =>
      simp [search_identifier, h_outer, Run.andThen, h_res, h_kind, he, Run.returns]
    | segv =>
      simp [search_identifier, h_outer, Run.andThen, h_res, h_kind, he, Run.returns]
    | diverge =>
      simp [search_identifier, h_outer, Run.andThen, h_res, h_kind, he, Run.returns]

theorem C5_alias_qualified_amended_witness :
    ((qualified (ident "Color") "green").outer = some (ident "Color") ∧
      (search_identifier 1 sample_alias_validator
        (if (qualified (ident "Color") "green").global_scope
         then sample_alias_validator.global_scope
         else some (VScope.mk none [sample_T, sample_Color] none))
        (some (ident "Color"))).out = .ok (some sample_Color) ∧
      sample_Color.kind = .OBJ_TYPEDEF ∧
      (expand_typedef 1 sample_alias_validator sample_Color.data_type).out
        = .ok (some (enum_of [sample_red, sample_green])) ∧
      (enum_of [sample_red, sample_green]).kind = .TY_ENUM ∧
      find_named (enum_of [sample_red, sample_green]).enum_members
        (qualified (ident "Color") "green").callee = some sample_green) ∧
    search_identifier 2 sample_alias_validator
      (some (VScope.mk none [sample_T, sample_Color] none))
      (some (qualified (ident "Color") "green")) = ⟨[], .ok (some sample_green)⟩ :=
  ⟨⟨rfl, rfl, rfl, rfl, rfl, rfl⟩,
   (C5_alias_qualified_amended 1 sample_alias_validator
     (VScope.mk none [sample_T, sample_Color] none)
     (qualified (ident "Color") "green") (ident "Color") sample_Color rfl rfl rfl).1
     (enum_of [sample_red, sample_green]) sample_green rfl rfl rfl⟩


/-! ## C6: `using` -/

/-- What the loop of `using_end` does to a scope holding `objs`: the members it appends
(`imported`), the diagnostics it prints, and what is visible afterwards. -/
theorem using_end_loop_spec (tok : Token) (found : ASTObj) (prev : Option VScope)
    (sid : Option ASTIdentifier) (members : List ASTObj) :
    ∀ (objs : List ASTObj) (v : Validator),
      v.current_scope = some (VScope.mk prev objs sid) →
      ∃ imported : List ASTObj,
        (using_end_loop tok found v members).out =
          .ok { v with current_scope := some (VScope.mk prev (objs ++ imported) sid) } ∧
        imported.Sublist members ∧
        (using_end_loop tok found v members).log.length + imported.length = members.length ∧
        (∀ d ∈ (using_end_loop tok found v members).log,
          d.ty = .ERR_REDEFINITION_UNCR ∧ d.tok = tok ∧
          ∃ m ∈ members, d.args = [.str found.id.callee, .obj_kind m.kind, .str m.id.callee] ∧
            ∃ o ∈ objs ++ imported, o.id.callee = m.id.callee) ∧
        (∀ m ∈ imported, ∀ o ∈ objs, o.id.callee ≠ m.id.callee) ∧
        imported.Pairwise (fun a b => a.id.callee ≠ b.id.callee) ∧
        (∀ pre m post, members = pre ++ m :: post →
          (∀ o ∈ objs ++ pre, o.id.callee ≠ m.id.callee) →
          find_named (objs ++ imported) m.id.callee = some m) := by
  induction members with
  | nil =>
    intro objs v hv
    refine ⟨[], ?_, List.Sublist.refl _, rfl, ?_, ?_, List.Pairwise.nil, ?_⟩
    · simp [using_end_loop, Run.ret, ← hv]
    · intro d hd
      simp [using_end_loop, Run.ret] at hd
    · intro m hm
      simp at hm
    · intro pre m post h
      simp at h
  | cons a rest ih =>
    intro objs v hv
    cases hs : search_in_current_scope (VScope.mk prev objs sid) a.id.callee with
    | some hit =>
      obtain ⟨imported, hout, hsub, hlen, hlog, hfresh, hpw, hvis⟩ := ih objs v hv
      have hrun : using_end_loop tok found v (a :: rest) =
          ⟨⟨.ERR_REDEFINITION_UNCR, tok,
              "namespace `%s` is trying to implement a %s `%s`, \nwhich is already defined in this scope",
              [.str found.id.callee, .obj_kind a.kind, .str a.id.callee]⟩ ::
            (using_end_loop tok found v rest).log, (using_end_loop tok found v rest).out⟩ := by
        rw [using_end_loop]
        simp only [hv, hs]
        simp [throw_error, force_exit, Run.andThen]
      have hhit : ∃ o ∈ objs, o.id.callee = a.id.callee :=
        ⟨hit, List.mem_of_find?_eq_some hs, by simpa using List.find?_some hs⟩
      refine ⟨imported, ?_, hsub.cons a, ?_, ?_, hfresh, hpw, ?_⟩
      · rw [hrun]; exact hout
      · rw [hrun]; simp only [List.length_cons]; omega
      · intro d hd
        rw [hrun] at hd
        rcases List.mem_cons.mp hd with rfl | hd
        · obtain ⟨o, ho, hon⟩ := hhit
          exact ⟨rfl, rfl, a, List.mem_cons_self _ _, rfl, o, List.mem_append_left _ ho, hon⟩
        · obtain ⟨h1, h2, m, hm, h3, h4⟩ := hlog d hd
          exact ⟨h1, h2, m, List.mem_cons_of_mem _ hm, h3, h4⟩
      · intro pre m post hsplit hno
        cases pre with
        | nil =>
          simp only [List.nil_append, List.cons.injEq] at hsplit
          obtain ⟨o, ho, hon⟩ := hhit
          exact absurd (hsplit.1 ▸ hon) (hno o (by simpa using ho))
        | cons p pre2 =>
          simp only [List.cons_append, List.cons.injEq] at hsplit
          exact hvis pre2 m post hsplit.2 (fun o ho => hno o (by
            rcases List.mem_append.mp ho with h | h
            · exact List.mem_append_left _ h
            · exact List.mem_append_right _ (List.mem_cons_of_mem _ h)))
    | none =>
      have hnone : ∀ o ∈ objs, o.id.callee ≠ a.id.callee := by
        intro o ho
        simpa using List.find?_eq_none.mp hs o ho
      obtain ⟨imported, hout, hsub, hlen, hlog, hfresh, hpw, hvis⟩ :=
        ih (objs ++ [a]) { v with current_scope := some (VScope.mk prev (objs ++ [a]) sid) } rfl
      have hrun : using_end_loop tok found v (a :: rest) =
          using_end_loop tok found
            { v with current_scope := some (VScope.mk prev (objs ++ [a]) sid) } rest := by
        rw [using_end_loop]
        simp only [hv, hs, VScope.push]
      refine ⟨a :: imported, ?_, hsub.cons₂ a, ?_, ?_, ?_, ?_, ?_⟩
      · rw [hrun, hout]; simp
      · rw [hrun]; simp only [List.length_cons]; omega
      · intro d hd
        rw [hrun] at hd
        obtain ⟨h1, h2, m, hm, h3, o, ho, hon⟩ := hlog d hd
        exact ⟨h1, h2, m, List.mem_cons_of_mem _ hm, h3, o, by simpa using ho, hon⟩
      · intro m hm o ho
        rcases List.mem_cons.mp hm with rfl | hm
        · exact hnone o ho
        · exact hfresh m hm o (List.mem_append_left _ ho)
      · refine List.Pairwise.cons ?_ hpw
        intro m hm
        exact hfresh m hm a (by simp)
      · intro pre m post hsplit hno
        cases pre with
        | nil =>
          simp only [List.nil_append, List.cons.injEq] at hsplit
          obtain ⟨rfl, -⟩ := hsplit
          unfold find_named
          rw [List.find?_append]
          have h1 : List.find? (fun obj => obj.id.callee == a.id.callee) objs = none := by
            rw [List.find?_eq_none]
            intro o ho
            simpa using hnone o ho
          simp [h1]
        | cons p pre2 =>
          simp only [List.cons_append, List.cons.injEq] at hsplit
          obtain ⟨rfl, hrest⟩ := hsplit
          have := hvis pre2 m post hrest (fun o ho => hno o (by
            simp only [List.mem_append, List.mem_cons, List.mem_singleton, List.not_mem_nil,
              or_false] at ho ⊢
            tauto))
          simpa using this


/-- C6 (using-flattening).  Let the current scope hold `objs` and let `uid` be the identifier
of the `using` statement.

If `uid` resolves to a namespace `ns`, `using_end` returns with the current scope holding
`objs ++ imported`, where `imported` is a sublist of the members of `ns`: a member whose
name is carried neither by `objs` nor by an earlier member of `ns` is appended, and every
later lookup of that name by an unqualified, non-global identifier from this scope returns
that member; the other members are each answered by one Redefinition diagnostic anchored at
the statement (so diagnostics and appended members add up to the members of `ns`), every
diagnostic names a member whose name is present in the scope, no appended member carries a
name of `objs`, and no two appended members share a name.

If `uid` resolves to no declaration, or to a declaration that is no namespace, `using_end`
prints one Undefined diagnostic at `uid` and returns the validator unchanged; if the lookup
itself does not return, neither does `using_end`, and nothing more is printed. -/
theorem C6_using_flattening (fuel : Nat) (v : Validator) (using_node : ASTNode)
    (uid : ASTIdentifier) (prev : Option VScope) (objs : List ASTObj)
    (sid : Option ASTIdentifier)
    (h_id : using_node.info.id = some uid)
    (h_scope : v.current_scope = some (VScope.mk prev objs sid)) :
    (∀ ns, (search_identifier fuel v v.current_scope (some uid)).out = .ok (some ns) →
      ns.kind = .OBJ_NAMESPACE →
      ∃ (imported : List ASTObj) (v2 : Validator) (reports : List Diagnostic),
        (using_end fuel v using_node).out = .ok v2 ∧
        v2 = { v with current_scope := some (VScope.mk prev (objs ++ imported) sid) } ∧
        imported.Sublist ns.objs ∧
        (∀ pre m post, ns.objs = pre ++ m :: post →
          (∀ o ∈ objs ++ pre, o.id.callee ≠ m.id.callee) →
          m ∈ imported ∧
          ∀ (k : Nat) (id : ASTIdentifier), id.outer = none → id.global_scope = false →
            id.callee = m.id.callee →
            search_identifier (k + 1) v2 v2.current_scope (some id) = Run.ret (some m)) ∧
        (using_end fuel v using_node).log =
          (search_identifier fuel v v.current_scope (some uid)).log ++ reports ∧
        reports.length + imported.length = ns.objs.length ∧
        (∀ d ∈ reports, d.ty = .ERR_REDEFINITION_UNCR ∧ d.tok = using_node.info.tok ∧
          ∃ m ∈ ns.objs, d.args = [.str ns.id.callee, .obj_kind m.kind, .str m.id.callee] ∧
            ∃ o ∈ objs ++ imported, o.id.callee = m.id.callee) ∧
        (∀ m ∈ imported, ∀ o ∈ objs, o.id.callee ≠ m.id.callee) ∧
        imported.Pairwise (fun a b => a.id.callee ≠ b.id.callee)) ∧
    ((search_identifier fuel v v.current_scope (some uid)).out = .ok none →
      using_end fuel v using_node =
        ⟨(search_identifier fuel v v.current_scope (some uid)).log ++
          [⟨.ERR_UNDEFINED_UNCR, uid.tok, "using undefined namespace `%s`",
            [.str uid.callee]⟩], .ok v⟩) ∧
    (∀ o, (search_identifier fuel v v.current_scope (some uid)).out = .ok (some o) →
      o.kind ≠ .OBJ_NAMESPACE →
      using_end fuel v using_node =
        ⟨(search_identifier fuel v v.current_scope (some uid)).log ++
          [⟨.ERR_UNDEFINED_UNCR, uid.tok, "`%s` is a %s, can only have namespaces for `using`",
            [.str uid.callee, .obj_kind o.kind]⟩], .ok v⟩) ∧
    ((search_identifier fuel v v.current_scope (some uid)).returns = false →
      (using_end fuel v using_node).returns = false ∧
      (using_end fuel v using_node).log =
        (search_identifier fuel v v.current_scope (some uid)).log) := by
  refine ⟨?_, ?_, ?_, ?_⟩
  · intro ns hres hkind
    obtain ⟨imported, hout, hsub, hlen, hlog, hfresh, hpw, hvis⟩ :=
      using_end_loop_spec using_node.info.tok ns prev sid ns.objs objs v h_scope
    have hrun : using_end fuel v using_node =
        ⟨(search_identifier fuel v v.current_scope (some uid)).log ++
           (using_end_loop using_node.info.tok ns v ns.objs).log,
         (using_end_loop using_node.info.tok ns v ns.objs).out⟩ := by
      simp [using_end, h_id, Run.andThen, hres, hkind]
    refine ⟨imported, _, (using_end_loop using_node.info.tok ns v ns.objs).log,
      by rw [hrun]; exact hout, rfl, hsub, ?_, by rw [hrun], hlen, hlog, hfresh, hpw⟩
    intro pre m post hsplit hno
    have hfind := hvis pre m post hsplit hno
    have hmem : m ∈ objs ++ imported := List.mem_of_find?_eq_some hfind
    refine ⟨?_, ?_⟩
    · rcases List.mem_append.mp hmem with h | h
      · exact absurd rfl (hno m (List.mem_append_left _ h))
      · exact h
    · intro k id ho hg hname
      apply search_identifier_unqualified_hit _ _ _ _ _ ho hg
      simpa [search_in_current_scope, VScope.objs, hname, find_named] using hfind
  · intro hres
    simp [using_end, h_id, Run.andThen, hres, throw_error, force_exit, Run.ret]
  · intro o hres hkind
    simp [using_end, h_id, Run.andThen, hres, hkind, throw_error, force_exit, Run.ret]
  · intro hret
    cases hres : (search_identifier fuel v v.current_scope (some uid)).out with
    | ok a => simp [Run.returns, hres] at hret
    | exited => simp [using_end, h_id, Run.andThen, hres, Run.returns]
    | segv => simp [using_end, h_id, Run.andThen, hres, Run.returns]
    | diverge => simp [using_end, h_id, Run.andThen, hres, Run.returns]

theorem C6_using_flattening_witness :
    (sample_using.info.id = some (ident "ns" 20) ∧
      sample_ns_validator.current_scope
        = some (VScope.mk none [sample_outer_x, sample_ns] none)) ∧
    ∃ (imported : List ASTObj) (v2 : Validator),
      (using_end 1 sample_ns_validator sample_using).out = .ok v2 ∧
      v2 = { sample_ns_validator with
        current_scope := some (VScope.mk none ([sample_outer_x, sample_ns] ++ imported) none) } ∧
      (sample_ns_y ∈ imported ∧
        ∀ (k : Nat) (id : ASTIdentifier), id.outer = none → id.global_scope = false →
          id.callee = sample_ns_y.id.callee →
          search_identifier (k + 1) v2 v2.current_scope (some id) = Run.ret (some sample_ns_y)) :=
  ⟨⟨rfl, rfl⟩,
   match (C6_using_flattening 1 sample_ns_validator sample_using (ident "ns" 20) none
      [sample_outer_x, sample_ns] none rfl rfl).1 sample_ns rfl rfl with
   | ⟨imported, v2, _, h1, h2, _, h4, _⟩ =>
     ⟨imported, v2, h1, h2, h4 [] sample_ns_y [sample_deep] rfl (by decide)⟩⟩


/-! ## C7, C8: alias expansion -/

theorem expand_typedef_not_alias (fuel : Nat) (v : Validator) (t : ASTType)
    (h : t.kind ≠ .TY_UNDEF) : expand_typedef (fuel + 1) v (some t) = Run.ret (some t) := by
  simp [expand_typedef, h]

/-- Whatever `expand_typedef` returns is `NULL` (for a `NULL` argument) or no alias
reference. -/
theorem expand_typedef_result (fuel : Nat) :
    ∀ (v : Validator) (t r : Option ASTType), (expand_typedef fuel v t).out = .ok r →
      (t = none ∧ r = none) ∨ ∃ ty, r = some ty ∧ ty.kind ≠ .TY_UNDEF := by
  induction fuel with
  | zero =>
    intro v t r h
    simp [expand_typedef, Run.no_fuel] at h
  | succ n ih =>
    intro v t r h
    cases t with
    | none =>
      simp [expand_typedef, Run.ret] at h
      exact Or.inl ⟨rfl, h.symm⟩
    | some type =>
      right
      rw [expand_typedef] at h
      simp only [] at h
      by_cases hkind : type.kind = .TY_UNDEF
      · simp only [hkind, ne_eq, not_true_eq_false, ↓reduceIte, Run.bind_eq] at h
        cases hs : (search_identifier n v v.current_scope type.id).out with
        | ok ty_def =>
          rw [Run.andThen_out_ok _ _ _ hs] at h
          cases hid : type.id with
          | none => simp [hid, Run.null_deref] at h
          | some tid =>
            cases ty_def with
            | none =>
              simp [hid, Run.null_deref, throw_error, force_exit, Run.andThen] at h
            | some ty_def =>
              simp only [hid] at h
              have hrest : ∀ x : Run PUnit, x.out = .ok PUnit.unit →
                  (x.andThen fun _ =>
                    (match ty_def.data_type with
                    | none => Run.null_deref
                    | some dt =>
                      if dt.kind = .TY_UNDEF then expand_typedef n v (some dt)
                      else pure (some dt) : Run (Option ASTType))).out = .ok r →
                  ∃ ty, r = some ty ∧ ty.kind ≠ .TY_UNDEF := by
                intro x hx hr
                rw [Run.andThen_out_ok _ _ _ hx] at hr
                cases hdt : ty_def.data_type with
                | none => simp [hdt, Run.null_deref] at hr
                | some dt =>
                  simp only [hdt] at hr
                  by_cases hdk : dt.kind = .TY_UNDEF
                  · simp only [hdk, ↓reduceIte] at hr
                    rcases ih v (some dt) r hr with ⟨h0, -⟩ | h1
                    · cases h0
                    · exact h1
                  · simp only [hdk, ↓reduceIte, Run.pure_eq, Run.ret] at hr
                    exact ⟨dt, by injection hr with hr; exact hr.symm, hdk⟩
              by_cases hk : ty_def.kind = .OBJ_TYPEDEF
              · simp only [hk, not_true_eq_false, ↓reduceIte] at h
                exact hrest _ rfl h
              · simp only [hk, not_false_eq_true, ↓reduceIte] at h
                exact hrest _ (by simp [throw_error, force_exit]) h
        | exited => simp [Run.andThen, hs] at h
        | segv => simp [Run.andThen, hs] at h
        | diverge => simp [Run.andThen, hs] at h
      · simp only [ne_eq, hkind, not_false_eq_true, ↓reduceIte, Run.pure_eq, Run.ret] at h
        exact ⟨type, by injection h with h; exact h.symm, hkind⟩


theorem search_identifier_no_id (k : Nat) (v : Validator) (s : Option VScope) (td : ASTObj) :
    (search_identifier k v s none).out ≠ .ok (some td) := by
  cases k with
  | zero => simp [search_identifier, Run.no_fuel]
  | succ k => cases s <;> simp [search_identifier, Run.ret]

/-- A resolving chain of typedefs is expanded to its end, given fuel for the lookups and one
unit per link. -/
theorem expand_typedef_of_chain (v : Validator) (k : Nat) :
    ∀ (n : Nat) (t r : ASTType), AliasChain v k n t r →
      r.kind ≠ .TY_UNDEF ∧
      ∀ fuel, k + n + 1 ≤ fuel → (expand_typedef fuel v (some t)).out = .ok (some r) := by
  intro n t r hc
  induction hc with
  | done t ht =>
    refine ⟨ht, fun fuel hf => ?_⟩
    obtain ⟨f, rfl⟩ : ∃ f, fuel = f + 1 := ⟨fuel - 1, by omega⟩
    rw [expand_typedef_not_alias f v t ht]
    rfl
  | step t td dt r n hk hs htd hdt _ ih =>
    refine ⟨ih.1, fun fuel hf => ?_⟩
    obtain ⟨f, rfl⟩ : ∃ f, fuel = f + 1 := ⟨fuel - 1, by omega⟩
    have hsf : search_identifier f v v.current_scope t.id
        = search_identifier k v v.current_scope t.id :=
      search_identifier_fuel_mono v _ _ k f (by omega) (by rw [hs]; simp)
    cases hid : t.id with
    | none =>
      rw [hid] at hs
      exact absurd hs (search_identifier_no_id k v _ td)
    | some tid =>
      rw [expand_typedef]
      simp only [hk, ne_eq, not_true_eq_false, ↓reduceIte, Run.bind_eq]
      rw [Run.andThen_out_ok _ _ _ (by rw [hsf]; exact hs)]
      simp only [hid, htd, not_true_eq_false, ↓reduceIte, Run.pure_eq, Run.ret_andThen, hdt]
      by_cases hdk : dt.kind = .TY_UNDEF
      · simp only [hdk, ↓reduceIte]
        exact ih.2 f (by omega)
      · simp only [hdk, ↓reduceIte]
        rename_i hchain
        cases hchain with
        | done _ _ => rfl
        | step _ _ _ _ _ hk2 => exact absurd hk2 hdk

/-- Expansion composed with itself is expansion. -/
theorem expand_typedef_idem (fuel : Nat) (v : Validator) (t : Option ASTType) :
    (expand_typedef fuel v t >>= expand_typedef fuel v) = expand_typedef fuel v t := by
  simp only [Run.bind_eq]
  cases ho : (expand_typedef fuel v t).out with
  | ok r =>
    have hfuel : ∃ f, fuel = f + 1 := by
      cases fuel with
      | zero => simp [expand_typedef, Run.no_fuel] at ho
      | succ f => exact ⟨f, rfl⟩
    obtain ⟨f, rfl⟩ := hfuel
    have hr : expand_typedef (f + 1) v r = Run.ret r := by
      rcases expand_typedef_result (f + 1) v t r ho with ⟨-, rfl⟩ | ⟨ty, rfl, hty⟩
      · simp [expand_typedef]
      · exact expand_typedef_not_alias f v ty hty
    cases hx : expand_typedef (f + 1) v t with
    | mk log out =>
      rw [hx] at ho
      simp only at ho
      subst ho
      simp [Run.andThen, hr, Run.ret]
  | exited =>
    cases hx : expand_typedef fuel v t with
    | mk log out => rw [hx] at ho; simp only at ho; subst ho; simp [Run.andThen]
  | segv =>
    cases hx : expand_typedef fuel v t with
    | mk log out => rw [hx] at ho; simp only at ho; subst ho; simp [Run.andThen]
  | diverge =>
    cases hx : expand_typedef fuel v t with
    | mk log out => rw [hx] at ho; simp only at ho; subst ho; simp [Run.andThen]

/-- C7 (alias expansion).  (1) `expand_typedef` returns an argument that is no alias reference
unchanged, printing nothing.  (2) Whatever it returns for a type is a type that is no alias
reference.  (3) For an alias reference whose chain of typedefs resolves (to `r`, in `n`
links, each lookup returning within fuel `k`) it does return, namely `r`, once the fuel
reaches `k + n + 1`.  (4) Expansion is idempotent: running `expand_typedef` on the result of
`expand_typedef` is the same run as `expand_typedef` alone. -/
theorem C7_alias_expansion (fuel : Nat) (v : Validator) (t : ASTType) :
    (t.kind ≠ .TY_UNDEF → expand_typedef (fuel + 1) v (some t) = Run.ret (some t)) ∧
    (∀ r, (expand_typedef fuel v (some t)).out = .ok r →
      ∃ ty, r = some ty ∧ ty.kind ≠ .TY_UNDEF) ∧
    (∀ k n r, AliasChain v k n t r → k + n + 1 ≤ fuel →
      (expand_typedef fuel v (some t)).out = .ok (some r) ∧ r.kind ≠ .TY_UNDEF) ∧
    (expand_typedef fuel v (some t) >>= expand_typedef fuel v)
      = expand_typedef fuel v (some t) := by
  refine ⟨expand_typedef_not_alias fuel v t, ?_, ?_, expand_typedef_idem fuel v (some t)⟩
  · intro r hr
    rcases expand_typedef_result fuel v (some t) r hr with ⟨h0, -⟩ | h1
    · cases h0
    · exact h1
  · intro k n r hc hf
    have := expand_typedef_of_chain v k n t r hc
    exact ⟨this.2 fuel hf, this.1⟩

theorem sample_chain :
    AliasChain sample_chain_validator 2 2 (alias_ref "Meters" 9) (plain .TY_I32 4) :=
  .step _ sample_Meters (alias_ref "Len" 1) _ 1 rfl rfl rfl rfl
    (.step _ sample_Len (plain .TY_I32 4) _ 0 rfl rfl rfl rfl (.done _ (by decide)))

theorem C7_alias_expansion_witness :
    (AliasChain sample_chain_validator 2 2 (alias_ref "Meters" 9) (plain .TY_I32 4) ∧
      2 + 2 + 1 ≤ 5) ∧
    (expand_typedef 5 sample_chain_validator (some (alias_ref "Meters" 9))).out
      = .ok (some (plain .TY_I32 4)) ∧
    (plain .TY_I32 4).kind ≠ .TY_UNDEF :=
  ⟨⟨sample_chain, by decide⟩,
   (C7_alias_expansion 5 sample_chain_validator (alias_ref "Meters" 9)).2.2.1 2 2
     (plain .TY_I32 4) sample_chain (by decide)⟩


/-- A set of alias references closed under "the declared type of the alias found in the
current scope" is never left: expansion runs out of any fuel, printing nothing. -/
theorem expand_typedef_cycle (v : Validator) (scope : VScope) (S : ASTType → Prop)
    (hv : v.current_scope = some scope)
    (hS : ∀ t, S t → t.kind = .TY_UNDEF ∧ ∃ tid td dt, t.id = some tid ∧ tid.outer = none ∧
      tid.global_scope = false ∧ search_in_current_scope scope tid.callee = some td ∧
      td.kind = .OBJ_TYPEDEF ∧ td.data_type = some dt ∧ S dt) :
    ∀ (fuel : Nat) (t : ASTType), S t → expand_typedef fuel v (some t) = Run.no_fuel := by
  intro fuel
  induction fuel with
  | zero => intro t _; rfl
  | succ n ih =>
    intro t ht
    obtain ⟨hk, tid, td, dt, hid, ho, hg, hfind, hkd, hdt, hnext⟩ := hS t ht
    have hdk := (hS dt hnext).1
    cases n with
    | zero =>
      rw [expand_typedef]
      simp [hk, search_identifier, Run.no_fuel, Run.andThen]
    | succ m =>
      have hs : search_identifier (m + 1) v v.current_scope t.id = Run.ret (some td) := by
        rw [hv, hid]
        exact search_identifier_unqualified_hit m v scope tid td ho hg hfind
      rw [expand_typedef]
      simp only [hk, ne_eq, not_true_eq_false, ↓reduceIte, Run.bind_eq, hs, Run.ret_andThen]
      simp only [hid, hkd, not_true_eq_false, ↓reduceIte, Run.pure_eq, Run.ret_andThen, hdt, hdk]
      exact ih dt hnext

theorem expand_typedef_self_reference (fuel : Nat) :
    expand_typedef fuel sample_cycle_validator (some (alias_ref "A" 1)) = Run.no_fuel :=
  expand_typedef_cycle sample_cycle_validator _ (fun t => t = alias_ref "A" 1) rfl
    (by
      rintro t rfl
      exact ⟨rfl, ident "A" 1, sample_A, alias_ref "A" 1, rfl, rfl, rfl, rfl, rfl, rfl, rfl⟩)
    fuel _ rfl

theorem expand_typedef_mutual_reference (fuel : Nat) :
    expand_typedef fuel sample_mutual_validator (some (alias_ref "B" 2)) = Run.no_fuel :=
  expand_typedef_cycle sample_mutual_validator _
    (fun t => t = alias_ref "B" 2 ∨ t = alias_ref "C" 1) rfl
    (by
      rintro t (rfl | rfl)
      · exact ⟨rfl, ident "B" 2, sample_B, alias_ref "C" 1, rfl, rfl, rfl, rfl, rfl, rfl,
          Or.inr rfl⟩
      · exact ⟨rfl, ident "C" 1, sample_C, alias_ref "B" 2, rfl, rfl, rfl, rfl, rfl, rfl,
          Or.inl rfl⟩)
    fuel _ (Or.inl rfl)

/-- C8, counterexample.  With `type A: A;` in scope, the lookup of `A` succeeds (nothing is
rejected as Undefined), and `expand_typedef` on the alias reference `A` returns for no amount
of fuel: every run ends out of fuel, having printed nothing.  The same holds for the alias
reference `B` with `type B: C; type C: B;` in scope. -/
theorem C8_expansion_terminates_counterexample :
    search_identifier 1 sample_cycle_validator sample_cycle_validator.current_scope
        (some (ident "A" 1)) = Run.ret (some sample_A) ∧
    (¬ ∃ fuel, expand_typedef fuel sample_cycle_validator (some (alias_ref "A" 1))
        ≠ ⟨[], .diverge⟩) ∧
    search_identifier 1 sample_mutual_validator sample_mutual_validator.current_scope
        (some (ident "B" 2)) = Run.ret (some sample_B) ∧
    search_identifier 1 sample_mutual_validator sample_mutual_validator.current_scope
        (some (ident "C" 1)) = Run.ret (some sample_C) ∧
    ¬ ∃ fuel, expand_typedef fuel sample_mutual_validator (some (alias_ref "B" 2))
        ≠ ⟨[], .diverge⟩ := by
  refine ⟨rfl, ?_, rfl, rfl, ?_⟩
  · rintro ⟨fuel, h⟩
    exact h (expand_typedef_self_reference fuel)
  · rintro ⟨fuel, h⟩
    exact h (expand_typedef_mutual_reference fuel)

/-- C8, amended (alias expansion terminates on finite chains).  If the chain of aliases at the
alias reference `t` is finite (`n` steps, every lookup ending within fuel `k`), then
`expand_typedef` on `t` ends for every fuel from `k + n + 1` on: it returns, or stops at a
diagnostic or a `NULL` declaration, but does not recurse without end. -/
theorem C8_expansion_terminates_amended (v : Validator) (k n : Nat) (t : ASTType)
    (h_chain : AliasChainEnds v k n t) (fuel : Nat) (h_fuel : k + n + 1 ≤ fuel) :
    (expand_typedef fuel v (some t)).out ≠ .diverge := by
  induction h_chain generalizing fuel with
  | stop t hs hlast =>
    obtain ⟨f, rfl⟩ : ∃ f, fuel = f + 1 := ⟨fuel - 1, by omega⟩
    have hsf : search_identifier f v v.current_scope t.id
        = search_identifier k v v.current_scope t.id :=
      search_identifier_fuel_mono v _ _ k f (by omega) hs
    rw [expand_typedef]
    by_cases hk : t.kind = .TY_UNDEF
    · simp only [hk, ne_eq, not_true_eq_false, ↓reduceIte, Run.bind_eq, hsf]
      cases hso : (search_identifier k v v.current_scope t.id).out with
      | ok ty_def =>
        rw [Run.andThen_out_ok _ _ _ hso]
        cases hid : t.id with
        | none => simp [Run.null_deref]
        | some tid =>
          cases ty_def with
          | none => simp [Run.null_deref, throw_error, force_exit, Run.andThen]
          | some ty_def =>
            cases hdt : ty_def.data_type with
            | none =>
              by_cases hkd : ty_def.kind = .OBJ_TYPEDEF <;>
                simp [hkd, hdt, Run.null_deref, throw_error, force_exit, Run.andThen, Run.ret]
            | some dt =>
              have hdk := hlast ty_def dt hso hdt
              by_cases hkd : ty_def.kind = .OBJ_TYPEDEF <;>
                simp [hkd, hdt, hdk, throw_error, force_exit, Run.andThen, Run.ret]
      | exited => simp [Run.andThen, hso]
      | segv => simp [Run.andThen, hso]
      | diverge => exact absurd hso hs
    · simp [hk, Run.ret]
  | step t td dt n hs hdt hdk _ ih =>
    obtain ⟨f, rfl⟩ : ∃ f, fuel = f + 1 := ⟨fuel - 1, by omega⟩
    have hsf : search_identifier f v v.current_scope t.id
        = search_identifier k v v.current_scope t.id :=
      search_identifier_fuel_mono v _ _ k f (by omega) (by rw [hs]; simp)
    rw [expand_typedef]
    by_cases hk : t.kind = .TY_UNDEF
    · simp only [hk, ne_eq, not_true_eq_false, ↓reduceIte, Run.bind_eq]
      rw [Run.andThen_out_ok _ _ _ (by rw [hsf]; exact hs)]
      cases hid : t.id with
      | none =>
        rw [hid] at hs
        exact absurd hs (search_identifier_no_id k v _ td)
      | some tid =>
        have hrec := ih f (by omega)
        by_cases hkd : td.kind = .OBJ_TYPEDEF
        · simp only [hkd, not_true_eq_false, ↓reduceIte, Run.pure_eq, Run.ret_andThen, hdt, hdk]
          exact hrec
        · simp only [hkd, not_false_eq_true, ↓reduceIte, hdt, hdk]
          rw [Run.andThen_out_ok _ _ PUnit.unit (by simp [throw_error, force_exit])]
          exact hrec
    · simp [hk, Run.ret]

theorem C8_expansion_terminates_amended_witness :
    (AliasChainEnds sample_alias_validator 2 1 (alias_ref "T" 8) ∧ 2 + 1 + 1 ≤ 4) ∧
    (expand_typedef 4 sample_alias_validator (some (alias_ref "T" 8))).out ≠ .diverge :=
  have hc : AliasChainEnds sample_alias_validator 2 1 (alias_ref "T" 8) :=
    .step _ sample_T (alias_ref "U" 3) 0 rfl rfl rfl
      (.stop _ (fun h => Outcome.noConfusion h) (fun td dt h => Outcome.noConfusion h
        (fun h2 => Option.noConfusion h2)))
  ⟨⟨hc, by decide⟩,
   C8_expansion_terminates_amended sample_alias_validator 2 1 (alias_ref "T" 8) hc 4
     (by decide)⟩


/-! ## C9: equality of types -/

theorem types_equal_kind_ne (t1 t2 : ASTType) (h : t1.kind ≠ t2.kind) :
    types_equal t1 t2 = some false := by
  rcases t1 with ⟨i1, _ | x, _, _, _, _⟩ <;> rcases t2 with ⟨i2, _ | y, _, _, _, _⟩ <;>
    simp only [ASTType.kind, ASTType.info] at h <;> simp [types_equal, h]

theorem types_equal_alias (t1 t2 : ASTType) (i1 i2 : ASTIdentifier)
    (h1 : t1.kind = .TY_UNDEF) (h2 : t2.kind = .TY_UNDEF)
    (hi1 : t1.id = some i1) (hi2 : t2.id = some i2) :
    types_equal t1 t2 = some (i1.callee == i2.callee) := by
  rcases t1 with ⟨j1, _ | x, _, _, _, _⟩ <;> rcases t2 with ⟨j2, _ | y, _, _, _, _⟩ <;>
    simp only [ASTType.kind, ASTType.info, ASTType.id] at h1 h2 hi1 hi2 <;>
    simp [types_equal, h1, h2, hi1, hi2]

theorem types_equal_pointer (t1 t2 b1 b2 : ASTType)
    (h1 : t1.kind = .TY_PTR) (h2 : t2.kind = .TY_PTR)
    (hb1 : t1.base = some b1) (hb2 : t2.base = some b2) :
    types_equal t1 t2 = types_equal b1 b2 := by
  cases t1; cases t2
  simp only [ASTType.kind, ASTType.info, ASTType.base] at h1 h2 hb1 hb2
  subst hb1 hb2
  rw [types_equal]
  simp [h1, h2]

/-- C9, counterexample.  With `namespace std { type File: i32; }` and `type File: std::File;`
in scope, the alias reference `File` resolves to the outer alias, whose declared type (its
target) is the alias reference `std::File`; `types_equal` compares the local names only and
finds the alias equal to its own target. -/
theorem C9_alias_equality_counterexample :
    search_identifier 1 sample_File_validator sample_File_validator.current_scope
        (alias_ref "File" 9).id = Run.ret (some sample_File) ∧
    sample_File.kind = .OBJ_TYPEDEF ∧
    sample_File.data_type = some sample_File_target ∧
    types_equal (alias_ref "File" 9) sample_File_target = some true :=
  ⟨rfl, rfl, rfl, rfl⟩

/-- C9, amended (equality of aliases is by local name).  (1) Two alias references are equal
exactly when their local names are equal, whatever they stand for.  (2) So two alias
references with different local names are unequal even when `expand_typedef` returns the
same type for both.  (3) An alias reference is unequal to every type that is no alias
reference, in particular to the type `expand_typedef` returns for it.  (4) Two pointer types
are equal exactly when their base types are. -/
theorem C9_alias_equality_amended (t1 t2 : ASTType) :
    (∀ i1 i2, t1.kind = .TY_UNDEF → t2.kind = .TY_UNDEF → t1.id = some i1 → t2.id = some i2 →
      (types_equal t1 t2 = some true ↔ i1.callee = i2.callee) ∧
      (types_equal t1 t2 = some false ↔ i1.callee ≠ i2.callee)) ∧
    (∀ i1 i2 fuel v r, t1.kind = .TY_UNDEF → t2.kind = .TY_UNDEF →
      t1.id = some i1 → t2.id = some i2 → i1.callee ≠ i2.callee →
      (expand_typedef fuel v (some t1)).out = .ok r →
      (expand_typedef fuel v (some t2)).out = .ok r →
      types_equal t1 t2 = some false) ∧
    (t1.kind = .TY_UNDEF →
      (t2.kind ≠ .TY_UNDEF → types_equal t1 t2 = some false ∧ types_equal t2 t1 = some false) ∧
      (∀ fuel v, (expand_typedef fuel v (some t1)).out = .ok (some t2) →
        types_equal t1 t2 = some false ∧ types_equal t2 t1 = some false)) ∧
    (∀ b1 b2, t1.kind = .TY_PTR → t2.kind = .TY_PTR → t1.base = some b1 → t2.base = some b2 →
      types_equal t1 t2 = types_equal b1 b2) := by
  refine ⟨?_, ?_, ?_, ?_⟩
  · intro i1 i2 h1 h2 hi1 hi2
    rw [types_equal_alias t1 t2 i1 i2 h1 h2 hi1 hi2]
    constructor <;> simp
  · intro i1 i2 fuel v r h1 h2 hi1 hi2 hne _ _
    rw [types_equal_alias t1 t2 i1 i2 h1 h2 hi1 hi2]
    simpa using hne
  · intro h1
    have key : t2.kind ≠ .TY_UNDEF →
        types_equal t1 t2 = some false ∧ types_equal t2 t1 = some false := fun h2 =>
      ⟨types_equal_kind_ne t1 t2 (by rw [h1]; exact fun h => h2 h.symm),
       types_equal_kind_ne t2 t1 (by rw [h1]; exact h2)⟩
    refine ⟨key, fun fuel v he => key ?_⟩
    rcases expand_typedef_result fuel v (some t1) (some t2) he with ⟨h0, -⟩ | ⟨ty, hty, hk⟩
    · cases h0
    · cases hty
      exact hk
  · intro b1 b2 h1 h2 hb1 hb2
    exact types_equal_pointer t1 t2 b1 b2 h1 h2 hb1 hb2

theorem C9_alias_equality_amended_witness :
    ((alias_ref "Meters" 9).kind = .TY_UNDEF ∧ (alias_ref "Len" 1).kind = .TY_UNDEF ∧
      (alias_ref "Meters" 9).id = some (ident "Meters" 9) ∧
      (alias_ref "Len" 1).id = some (ident "Len" 1) ∧
      (ident "Meters" 9).callee ≠ (ident "Len" 1).callee ∧
      (expand_typedef 5 sample_chain_validator (some (alias_ref "Meters" 9))).out
        = .ok (some (plain .TY_I32 4)) ∧
      (expand_typedef 5 sample_chain_validator (some (alias_ref "Len" 1))).out
        = .ok (some (plain .TY_I32 4))) ∧
    types_equal (alias_ref "Meters" 9) (alias_ref "Len" 1) = some false :=
  ⟨⟨rfl, rfl, rfl, rfl, by decide, rfl, rfl⟩,
   (C9_alias_equality_amended (alias_ref "Meters" 9) (alias_ref "Len" 1)).2.1
     (ident "Meters" 9) (ident "Len" 1) 5 sample_chain_validator (some (plain .TY_I32 4))
     rfl rfl rfl rfl (by decide) rfl rfl⟩



/-! ## C10: layout of aggregates -/

theorem i32_eq (x : Int) (h1 : -2 ^ 31 ≤ x) (h2 : x < 2 ^ 31) : i32 x = x := by
  unfold i32 wrap
  norm_num at h1 h2 ⊢
  omega

theorem i64_eq (x : Int) (h1 : -2 ^ 63 ≤ x) (h2 : x < 2 ^ 63) : i64 x = x := by
  unfold i64 wrap
  norm_num at h1 h2 ⊢
  omega

theorem align_of_size_pos (size least : Int) (h : 1 ≤ least) : 1 ≤ align_of_size size least := by
  unfold align_of_size
  split
  · exact le_trans h (le_max_right _ _)
  · exact h

theorem align_type_pos (ty : ASTType) (a : Int) (h : align_type ty = some a) : 1 ≤ a := by
  unfold align_type at h
  split at h
  · split at h
    · cases h
    · injection h with h
      rw [← h]
      exact align_of_size_pos _ _ (by norm_num)
  · split at h
    · cases h
    · injection h with h
      rw [← h]
      exact align_of_size_pos _ _ (by norm_num)
  · injection h with h
    rw [← h]
    exact align_of_size_pos _ _ (by norm_num)

theorem ASTType.size_set_size (ty : ASTType) (s : Int) : (ty.set_size s).size = s := by
  cases ty
  rfl

/-- Rounding a bit count to a multiple of `8 * a` rounds the byte count to a multiple of
`a`. -/
theorem rounds_up_bytes (bits a r : Int) (h8 : 8 ∣ bits) (h : rounds_up bits (a * 8) r) :
    rounds_up (bits / 8) a (r / 8) ∧ 8 ∣ r := by
  obtain ⟨hd, hle, hlt⟩ := h
  obtain ⟨q, rfl⟩ := h8
  obtain ⟨c, rfl⟩ := hd
  have e1 : a * 8 * c / 8 = a * c := by
    rw [show a * 8 * c = 8 * (a * c) by ring]
    exact Int.mul_ediv_cancel_left _ (by norm_num)
  have e2 : 8 * q / 8 = q := Int.mul_ediv_cancel_left _ (by norm_num)
  rw [e1, e2]
  refine ⟨⟨Dvd.intro _ rfl, ?_, ?_⟩, ⟨a * c, by ring⟩⟩
  · have : 8 * q ≤ 8 * (a * c) := by linarith
    omega
  · have : 8 * (a * c) < 8 * (q + a) := by linarith
    omega


theorem layout_weight_nonneg (ms : List ASTNode)
    (h : ∀ m ∈ ms, ∀ ty, m.data_type = some ty → 0 ≤ ty.size) : 0 ≤ layout_weight ms := by
  induction ms with
  | nil => simp [layout_weight]
  | cons m rest ih =>
    have hrest := ih (fun m2 hm2 => h m2 (List.mem_cons_of_mem _ hm2))
    unfold layout_weight
    cases hd : m.data_type with
    | none => simpa using hrest
    | some ty =>
      have hs := h m (List.mem_cons_self _ _) ty hd
      have ha : 0 ≤ (align_type ty).getD 0 := by
        cases hat : align_type ty with
        | none => simp
        | some a =>
          have := align_type_pos ty a hat
          simp only [Option.getD_some]
          omega
      simp only
      omega

/-- One step of the layout loop, on the running bit count: rounding to the alignment in
bits and advancing by the size in bits, without overflow. -/
theorem layout_step (P : Platform)
    (h_round : ∀ n a : Int, 0 ≤ n → 0 < a → n + a < 2 ^ 31 → rounds_up n a (P.align_to n a))
    (bits a s : Int) (h0 : 0 ≤ bits) (h8 : 8 ∣ bits) (ha : 1 ≤ a) (hs : 0 ≤ s)
    (hb : bits + 8 * (s + a) < 2 ^ 31) :
    rounds_up (bits / 8) a (Int.tdiv (i64 (P.align_to bits (i32 (a * 8)))) 8) ∧
    i64 (i64 (P.align_to bits (i32 (a * 8))) + i32 (s * 8)) =
      8 * (Int.tdiv (i64 (P.align_to bits (i32 (a * 8)))) 8 + s) ∧
    0 ≤ Int.tdiv (i64 (P.align_to bits (i32 (a * 8)))) 8 ∧
    8 * Int.tdiv (i64 (P.align_to bits (i32 (a * 8)))) 8 < bits + 8 * a := by
  have hb2 : bits + 8 * (s + a) < 2147483648 := by norm_num at hb; exact hb
  have e1 : i32 (a * 8) = a * 8 := i32_eq _ (by norm_num; omega) (by norm_num; omega)
  rw [e1]
  have hr := h_round bits (a * 8) h0 (by omega) (by norm_num; omega)
  obtain ⟨hbytes, hr8⟩ := rounds_up_bytes bits a _ h8 hr
  obtain ⟨-, hle, hlt⟩ := hr
  have e2 : i64 (P.align_to bits (a * 8)) = P.align_to bits (a * 8) :=
    i64_eq _ (by norm_num; omega) (by norm_num; omega)
  rw [e2]
  have e3 : Int.tdiv (P.align_to bits (a * 8)) 8 = P.align_to bits (a * 8) / 8 :=
    Int.tdiv_eq_ediv (by omega) (by norm_num)
  rw [e3]
  have e4 : i32 (s * 8) = s * 8 := i32_eq _ (by norm_num; omega) (by norm_num; omega)
  rw [e4]
  obtain ⟨c, hc⟩ := hr8
  have e5 : P.align_to bits (a * 8) / 8 = c := by
    rw [hc]; exact Int.mul_ediv_cancel_left _ (by norm_num)
  rw [e5] at hbytes ⊢
  refine ⟨hbytes, ?_, by omega, by omega⟩
  rw [i64_eq _ (by norm_num; omega) (by norm_num; omega)]
  omega

theorem get_struct_size_loop_rule (P : Platform) (size_of : ASTType → Run (Int × ASTType))
    (h_round : ∀ n a : Int, 0 ≤ n → 0 < a → n + a < 2 ^ 31 → rounds_up n a (P.align_to n a)) :
    ∀ (members : List ASTNode) (bits bits2 : Int) (written : List ASTNode),
      (get_struct_size_loop P size_of bits members).out = .ok (bits2, written) →
      0 ≤ bits → 8 ∣ bits →
      (∀ m ∈ written, ∀ ty, m.data_type = some ty → 0 ≤ ty.size) →
      bits + 8 * layout_weight written < 2 ^ 31 →
      List.Forall₂ (sized_by size_of) members written ∧
      layout_rule (bits / 8) written (bits2 / 8) ∧
      8 ∣ bits2 ∧ 0 ≤ bits2 ∧ bits2 ≤ bits + 8 * layout_weight written := by
  intro members
  induction members with
  | nil =>
    intro bits bits2 written hout h0 h8 _ _
    simp only [get_struct_size_loop, Run.pure_eq, Run.ret, Outcome.ok.injEq, Prod.mk.injEq]
      at hout
    obtain ⟨rfl, rfl⟩ := hout
    exact ⟨List.Forall₂.nil, rfl, h8, h0, by simp [layout_weight]⟩
  | cons member rest ih =>
    intro bits bits2 written hout h0 h8 hsizes hbound
    rw [get_struct_size_loop] at hout
    cases hdt : member.data_type with
    | none => simp [hdt, Run.null_deref] at hout
    | some ty =>
      simp only [hdt, Run.bind_eq] at hout
      cases hsz : (size_of ty).out with
      | exited => simp [Run.andThen, hsz] at hout
      | segv => simp [Run.andThen, hsz] at hout
      | diverge => simp [Run.andThen, hsz] at hout
      | ok sized =>
        rw [Run.andThen_out_ok _ _ _ hsz] at hout
        cases hal : align_type (sized.2.set_size sized.1) with
        | none => simp [hal, Run.null_deref] at hout
        | some a =>
          simp only [hal] at hout
          cases hrec : (get_struct_size_loop P size_of
              (i64 (i64 (P.align_to bits (i32 (a * 8))) + i32 (sized.1 * 8))) rest).out with
          | exited => simp [Run.andThen, hrec] at hout
          | segv => simp [Run.andThen, hrec] at hout
          | diverge => simp [Run.andThen, hrec] at hout
          | ok done =>
            rw [Run.andThen_out_ok _ _ _ hrec] at hout
            simp only [Run.pure_eq, Run.ret, Outcome.ok.injEq, Prod.mk.injEq] at hout
            obtain ⟨rfl, rfl⟩ := hout
            have hpd : (member.placed (sized.2.set_size sized.1)
                (Int.tdiv (i64 (P.align_to bits (i32 (a * 8)))) 8)).data_type
                = some (sized.2.set_size sized.1) := rfl
            have hs : 0 ≤ sized.1 := by
              have := hsizes _ (List.mem_cons_self _ _) _ hpd
              rwa [ASTType.size_set_size] at this
            have ha := align_type_pos _ a hal
            have hrestsizes : ∀ m ∈ done.2, ∀ ty, m.data_type = some ty → 0 ≤ ty.size :=
              fun m hm => hsizes m (List.mem_cons_of_mem _ hm)
            have hw := layout_weight_nonneg done.2 hrestsizes
            have hweight : layout_weight (member.placed (sized.2.set_size sized.1)
                (Int.tdiv (i64 (P.align_to bits (i32 (a * 8)))) 8) :: done.2)
                = sized.1 + a + layout_weight done.2 := by
              rw [layout_weight, hpd]
              simp [hal, ASTType.size_set_size]
            rw [hweight] at hbound ⊢
            obtain ⟨hru, hnext, hoff0, hofflt⟩ :=
              layout_step P h_round bits a sized.1 h0 h8 ha hs (by omega)
            rw [hnext] at hrec
            obtain ⟨hf, hrule, hd8, hd0, hdle⟩ := ih _ done.1 done.2 hrec (by omega)
              ⟨_, rfl⟩ hrestsizes (by omega)
            refine ⟨List.Forall₂.cons ⟨ty, sized.1, sized.2, hdt, hsz, hpd, rfl⟩ hf, ?_, hd8,
              hd0, by omega⟩
            refine ⟨_, a, hpd, hal, hru, ?_⟩
            rw [Int.mul_ediv_cancel_left _ (by norm_num : (8 : Int) ≠ 0)] at hrule
            rw [ASTType.size_set_size]
            exact hrule


theorem get_struct_size_loop_returns (P : Platform) (size_of : ASTType → Run (Int × ASTType)) :
    ∀ (members : List ASTNode) (bits : Int),
      (∀ m ∈ members, ∃ ty s ty1, m.data_type = some ty ∧ (size_of ty).out = .ok (s, ty1) ∧
        align_type (ty1.set_size s) ≠ none) →
      (get_struct_size_loop P size_of bits members).returns = true := by
  intro members
  induction members with
  | nil => intro bits _; rfl
  | cons member rest ih =>
    intro bits h
    obtain ⟨ty, s, ty1, hdt, hsz, hal⟩ := h member (List.mem_cons_self _ _)
    have hrest := fun b => ih b (fun m hm => h m (List.mem_cons_of_mem _ hm))
    rw [get_struct_size_loop]
    simp only [hdt, Run.bind_eq, Run.returns]
    rw [Run.andThen_out_ok _ _ _ hsz]
    cases hal2 : align_type (ty1.set_size s) with
    | none => exact absurd hal2 hal
    | some a =>
      simp only
      have := hrest (i64 (i64 (P.align_to bits (i32 (a * 8))) + i32 (s * 8)))
      cases hrec : (get_struct_size_loop P size_of
          (i64 (i64 (P.align_to bits (i32 (a * 8))) + i32 (s * 8))) rest).out with
      | ok done => rw [Run.andThen_out_ok _ _ _ hrec]; rfl
      | exited => simp [Run.returns, hrec] at this
      | segv => simp [Run.returns, hrec] at this
      | diverge => simp [Run.returns, hrec] at this

theorem align_to_model_rounds_up (n a : Int) (_h0 : 0 ≤ n) (ha : 0 < a)
    (_hr : n + a < 2 ^ 31) : rounds_up n a (align_to_model n a) := by
  unfold align_to_model rounds_up
  have h1 := Int.ediv_mul_le (n + a - 1) (ne_of_gt ha)
  have h2 := Int.lt_ediv_add_one_mul_self (n + a - 1) ha
  refine ⟨Dvd.intro_left _ rfl, ?_, ?_⟩
  · have : (n + a - 1) / a * a + a > n + a - 1 := by
      have := h2
      rw [add_mul, one_mul] at this
      exact this
    omega
  · omega

/-- The rule that `get_struct_size` follows.  Let `align_to` round up (non-negative running
offsets to multiples of positive alignments), and let `a` be the alignment `align_type`
yields for the aggregate as it is passed in, that is, from the size cached in it.

(1) If `get_type_size` returns for the type of every member (and the alignment of each is
defined), `get_struct_size` returns.

(2) When it returns the size `sz` and the aggregate as written, with member sizes that are
not negative and a total that stays inside the 32-bit range, then: every written member
carries the size `get_type_size` returned for its type; the offsets obey the layout rule:
member `i` sits at the running end offset of member `i - 1` (0 for the first) rounded up to
a multiple of `align_type` of its type, and the running offset advances by its size; and
`sz` is the final running offset rounded up to a multiple of `a`.  For an aggregate whose
cached size is still 0, `a` is 1 and `sz` is the final running offset itself. -/
theorem get_struct_size_rule (P : Platform) (fuel : Nat) (v : Validator) (s_type : ASTType)
    (a : Int)
    (h_round : ∀ n a : Int, 0 ≤ n → 0 < a → n + a < 2 ^ 31 → rounds_up n a (P.align_to n a))
    (h_align : align_type s_type = some a) :
    ((∀ m ∈ s_type.members, ∃ ty s ty1, m.data_type = some ty ∧
        (get_type_size P fuel v ty).out = .ok (s, ty1) ∧
        align_type (ty1.set_size s) ≠ none) →
      (get_struct_size P (fuel + 1) v s_type).returns = true) ∧
    (∀ sz written, (get_struct_size P (fuel + 1) v s_type).out = .ok (sz, written) →
      (∀ m ∈ written.members, ∀ ty, m.data_type = some ty → 0 ≤ ty.size) →
      8 * (layout_weight written.members + a) < 2 ^ 31 →
      List.Forall₂ (sized_by (get_type_size P fuel v)) s_type.members written.members ∧
      ∃ final, layout_rule 0 written.members final ∧ rounds_up final a sz ∧
        (s_type.kind = .TY_STRUCT → s_type.size ≤ 0 → a = 1 ∧ sz = final)) := by
  have ha := align_type_pos s_type a h_align
  refine ⟨?_, ?_⟩
  · intro hm
    have hl := get_struct_size_loop_returns P (get_type_size P fuel v) s_type.members 0 hm
    rw [get_struct_size]
    simp only [Run.bind_eq, Run.returns] at hl ⊢
    cases hlo : (get_struct_size_loop P (get_type_size P fuel v) 0 s_type.members).out with
    | ok done => rw [Run.andThen_out_ok _ _ _ hlo]; simp [h_align, Run.ret]
    | exited => simp [hlo] at hl
    | segv => simp [hlo] at hl
    | diverge => simp [hlo] at hl
  · intro sz written hout hsizes hbound
    rw [get_struct_size] at hout
    simp only [Run.bind_eq] at hout
    cases hlo : (get_struct_size_loop P (get_type_size P fuel v) 0 s_type.members).out with
    | exited => simp [Run.andThen, hlo] at hout
    | segv => simp [Run.andThen, hlo] at hout
    | diverge => simp [Run.andThen, hlo] at hout
    | ok done =>
      rw [Run.andThen_out_ok _ _ _ hlo] at hout
      simp only [h_align, Run.pure_eq, Run.ret, Outcome.ok.injEq, Prod.mk.injEq] at hout
      obtain ⟨hsz, hwr⟩ := hout
      have hmem : written.members = done.2 := by
        rw [← hwr]
        cases s_type
        rfl
      rw [hmem] at hsizes hbound ⊢
      have hw := layout_weight_nonneg done.2 hsizes
      obtain ⟨hf, hrule, hd8, hd0, hdle⟩ :=
        get_struct_size_loop_rule P (get_type_size P fuel v) h_round s_type.members 0 done.1
          done.2 hlo (le_refl 0) (dvd_zero 8) hsizes (by omega)
      simp only [Int.zero_ediv, zero_add] at hrule hdle
      obtain ⟨hru, -, hoff0, hofflt⟩ :=
        layout_step P h_round done.1 a 0 hd0 hd8 ha (le_refl 0) (by omega)
      have hb2 : 8 * (layout_weight done.2 + a) < 2147483648 := by
        norm_num at hbound; exact hbound
      have hsz2 : sz = Int.tdiv (i64 (P.align_to done.1 (i32 (a * 8)))) 8 := by
        rw [← hsz]
        exact i32_eq _ (by norm_num; omega) (by norm_num; omega)
      refine ⟨hf, done.1 / 8, hrule, by rw [hsz2]; exact hru, ?_⟩
      intro hk hs0
      have ha1 : a = 1 := by
        have h2 : align_type s_type = some (align_of_size s_type.size 1) := by
          unfold align_type
          rw [hk]
        rw [h_align] at h2
        injection h2 with h2
        rw [h2]
        unfold align_of_size
        rw [if_neg (by omega)]
      refine ⟨ha1, ?_⟩
      obtain ⟨-, h1, h2⟩ := hru
      rw [hsz2]
      omega

theorem get_struct_size_rule_sample :
    ((∀ n a : Int, 0 ≤ n → 0 < a → n + a < 2 ^ 31 →
        rounds_up n a (sample_platform.align_to n a)) ∧
      align_type sample_struct = some 1 ∧
      (get_struct_size sample_platform 2 sample_validator sample_struct).out
        = .ok (12, sample_struct_laid_out) ∧
      (∀ m ∈ sample_struct_laid_out.members, ∀ ty, m.data_type = some ty → 0 ≤ ty.size) ∧
      8 * (layout_weight sample_struct_laid_out.members + 1) < 2 ^ 31) ∧
    List.Forall₂ (sized_by (get_type_size sample_platform 1 sample_validator))
      sample_struct.members sample_struct_laid_out.members ∧
    ∃ final, layout_rule 0 sample_struct_laid_out.members final ∧ rounds_up final 1 12 ∧
      (sample_struct.kind = .TY_STRUCT → sample_struct.size ≤ 0 → (1 : Int) = 1 ∧ 12 = final) :=
  have hsizes : ∀ m ∈ sample_struct_laid_out.members, ∀ ty, m.data_type = some ty →
      0 ≤ ty.size := by
    intro m hm ty hty
    simp only [sample_struct_laid_out, ASTType.members, List.mem_cons, List.mem_singleton,
      List.not_mem_nil, or_false] at hm
    rcases hm with rfl | rfl | rfl <;> cases hty <;> decide
  ⟨⟨align_to_model_rounds_up, rfl, rfl, hsizes, by decide⟩,
   (get_struct_size_rule sample_platform 1 sample_validator sample_struct 1
     align_to_model_rounds_up rfl).2 12 sample_struct_laid_out rfl hsizes (by decide)⟩

/-- C10, the divergence.  For the fresh aggregate `struct { a: i32, b: i8 }` the members get
the offsets 0 and 4 and the running offset ends at 5, as the rule says; `get_struct_size`
returns 5, because the alignment it rounds to is read from the size cached in the
aggregate, still 0, which gives 1.  The alignment that `type_end` then stores for the
aggregate is 4, and 5 is not the final offset rounded up to a multiple of 4.  Likewise
`struct { a: i32, b: i8, c: i32 }` gets the size 12 and the alignment 8. -/
theorem C10_aggregate_layout_diverges :
    (get_struct_size sample_platform 2 {} sample_pair).value?.map
        (fun sized => (sized.1, sized.2.members.map ASTNode.offset)) = some (5, [0, 4]) ∧
    align_type sample_pair = some 1 ∧
    stored_layout (type_end sample_platform 3 {} sample_pair) = some (5, 4, [0, 4]) ∧
    ¬ rounds_up 5 4 5 ∧
    rounds_up 5 4 8 ∧
    (get_struct_size sample_platform 2 {} sample_struct).value?.map
        (fun sized => (sized.1, sized.2.members.map ASTNode.offset)) = some (12, [0, 4, 8]) ∧
    stored_layout (type_end sample_platform 3 {} sample_struct) = some (12, 8, [0, 4, 8]) ∧
    ¬ rounds_up 12 8 12 := by
  refine ⟨by decide, rfl, by decide, ?_, ?_, by decide, by decide, ?_⟩
  · intro h
    have := h.1
    omega
  · exact ⟨⟨2, rfl⟩, by omega, by omega⟩
  · intro h
    have := h.1
    omega

/-! ## C14: layout of unions -/

theorem get_union_size_loop_spec (members : List ASTNode) :
    ∀ biggest : Int, (∀ m ∈ members, m.data_type ≠ none) →
      ∃ size, get_union_size_loop biggest members = Run.ret size ∧ biggest ≤ size ∧
        (∀ m ∈ members, ∀ ty, m.data_type = some ty → ty.size ≤ size) ∧
        (size = biggest ∨ ∃ m ∈ members, ∃ ty, m.data_type = some ty ∧ ty.size = size) := by
  induction members with
  | nil =>
    intro biggest _
    exact ⟨biggest, rfl, le_refl _, by simp, Or.inl rfl⟩
  | cons member rest ih =>
    intro biggest hm
    cases hd : member.data_type with
    | none => exact absurd hd (hm member (List.mem_cons_self _ _))
    | some ty =>
      obtain ⟨size, hrun, hle, hall, hatt⟩ :=
        ih (if ty.size > biggest then ty.size else biggest)
          (fun m hmem => hm m (List.mem_cons_of_mem _ hmem))
      refine ⟨size, ?_, ?_, ?_, ?_⟩
      · rw [get_union_size_loop]
        simp only [hd]
        exact hrun
      · split_ifs at hle <;> omega
      · intro m hmem ty2 hty2
        rcases List.mem_cons.mp hmem with h | h
        · rw [h, hd] at hty2
          injection hty2 with hty2
          rw [← hty2]
          split_ifs at hle <;> omega
        · exact hall m h ty2 hty2
      · rcases hatt with h | ⟨m, hmem, ty2, hty2, hsz⟩
        · by_cases hgt : ty.size > biggest
          · rw [if_pos hgt] at h
            exact Or.inr ⟨member, List.mem_cons_self _ _, ty, hd, h.symm⟩
          · rw [if_neg hgt] at h
            exact Or.inl h
        · exact Or.inr ⟨m, List.mem_cons_of_mem _ hmem, ty2, hty2, hsz⟩

/-- C14: for every union aggregate all of whose members carry a type, `get_type_size`
returns; the size it returns is at least the cached size of every member type, it is one of
the member sizes or 0 (so it is the maximum of the member sizes, sizes being non-negative),
and it is 0 for a union without members; the type comes back exactly as it was passed in,
so no member offset is written and every member keeps the offset 0 it was created with. -/
theorem C14_union_layout (P : Platform) (fuel : Nat) (v : Validator) (u : ASTType)
    (hk : u.kind = .TY_STRUCT) (hu : u.info.is_union = true)
    (hm : ∀ m ∈ u.members, m.data_type ≠ none) :
    ∃ size, get_type_size P (fuel + 1) v u = Run.ret (size, u) ∧
      (∀ m ∈ u.members, ∀ ty, m.data_type = some ty → ty.size ≤ size) ∧
      (size = 0 ∨ ∃ m ∈ u.members, ∃ ty, m.data_type = some ty ∧ ty.size = size) ∧
      (u.members = [] → size = 0) := by
  obtain ⟨size, hrun, -, hall, hatt⟩ := get_union_size_loop_spec u.members 0 hm
  refine ⟨size, ?_, hall, hatt, ?_⟩
  · rw [get_type_size]
    simp only [hk, hu, if_true, get_union_size, hrun, Run.bind_eq, Run.pure_eq,
      Run.ret_andThen]
  · intro hnil
    rw [hnil] at hrun
    simpa [get_union_size_loop, Run.ret] using hrun.symm

theorem C14_union_layout_witness :
    sample_union.kind = .TY_STRUCT ∧ sample_union.info.is_union = true ∧
    (∀ m ∈ sample_union.members, m.data_type ≠ none) ∧
    ∃ size, get_type_size sample_platform 1 {} sample_union = Run.ret (size, sample_union) ∧
      (∀ m ∈ sample_union.members, ∀ ty, m.data_type = some ty → ty.size ≤ size) ∧
      (size = 0 ∨ ∃ m ∈ sample_union.members, ∃ ty, m.data_type = some ty ∧ ty.size = size) ∧
      (sample_union.members = [] → size = 0) :=
  ⟨rfl, rfl, by simp [sample_union, union_of, ASTType.members, struct_member, ASTNode.data_type],
   C14_union_layout sample_platform 0 {} sample_union rfl rfl
     (by simp [sample_union, union_of, ASTType.members, struct_member, ASTNode.data_type])⟩

/-! ## C15: alignment derivation -/

theorem floor_log2_spec (fuel : Nat) :
    ∀ n : Nat, 1 ≤ n → n ≤ fuel →
      2 ^ floor_log2 fuel n ≤ n ∧ n < 2 ^ (floor_log2 fuel n + 1) := by
  induction fuel with
  | zero => intro n h1 h2; omega
  | succ fuel ih =>
    intro n h1 h2
    rw [floor_log2]
    by_cases h : 2 ≤ n
    · rw [if_pos h]
      obtain ⟨ha, hb⟩ := ih (n / 2) (by omega) (by omega)
      rw [pow_succ] at hb ⊢
      rw [pow_succ]
      constructor <;> omega
    · rw [if_neg h]
      have : n = 1 := by omega
      subst this
      simp

/-- The halving count `floor_log2` is the value of `floor(log(n)/log(2))` over the reals. -/
theorem floor_log2_real (n : Nat) (h : 1 ≤ n) :
    ⌊Real.log (n : ℝ) / Real.log 2⌋ = (floor_log2 n n : Int) := by
  obtain ⟨ha, hb⟩ := floor_log2_spec n n h (le_refl _)
  have h1 : Nat.log 2 n = floor_log2 n n := Nat.log_eq_of_pow_le_of_lt_pow ha hb
  have h2 : ⌊Real.logb ((2 : ℕ) : ℝ) (n : ℝ)⌋ = Int.log 2 (n : ℝ) :=
    Real.floor_logb_natCast (Nat.cast_nonneg n)
  rw [Real.log_div_log]
  rw [Int.log_natCast, h1] at h2
  exact_mod_cast h2

/-- The power `align_of_size` takes for a size `s ≥ 1` is the largest power of two that is
not above `s`. -/
theorem align_of_size_spec (s least : Int) (h : 1 ≤ s) :
    ∃ k : Nat, align_of_size s least = max (2 ^ k) least ∧ (2 : Int) ^ k ≤ s ∧
      s < 2 ^ (k + 1) := by
  obtain ⟨ha, hb⟩ := floor_log2_spec s.toNat s.toNat (by omega) (le_refl _)
  refine ⟨floor_log2 s.toNat s.toNat, ?_, ?_, ?_⟩
  · unfold align_of_size
    rw [if_pos h]
  · have h2 : ((2 ^ floor_log2 s.toNat s.toNat : Nat) : Int) ≤ (s.toNat : Int) := by
      exact_mod_cast ha
    rw [Int.toNat_of_nonneg (by omega)] at h2
    exact_mod_cast h2
  · have h2 : (s.toNat : Int) < ((2 ^ (floor_log2 s.toNat s.toNat + 1) : Nat) : Int) := by
      exact_mod_cast hb
    rw [Int.toNat_of_nonneg (by omega)] at h2
    exact_mod_cast h2

theorem align_of_size_pow (s least : Int) (hl : ∃ j : Nat, least = 2 ^ j) :
    ∃ k : Nat, align_of_size s least = 2 ^ k := by
  obtain ⟨j, hj⟩ := hl
  unfold align_of_size
  by_cases h : 1 ≤ s
  · rw [if_pos h]
    rcases le_total ((2 : Int) ^ floor_log2 s.toNat s.toNat) least with h2 | h2
    · exact ⟨j, by rw [max_eq_right h2, hj]⟩
    · exact ⟨_, max_eq_left h2⟩
  · rw [if_neg h]
    exact ⟨j, hj⟩

theorem align_type_scalar (ty : ASTType) (h1 : ty.kind ≠ .TY_PTR) (h2 : ty.kind ≠ .TY_ARR) :
    align_type ty = some (align_of_size ty.size 1) := by
  unfold align_type
  cases hk : ty.kind <;> simp_all

theorem align_type_based (ty base : ASTType) (h : ty.kind = .TY_PTR ∨ ty.kind = .TY_ARR)
    (hb : ty.base = some base) : align_type ty = some (align_of_size base.size 8) := by
  unfold align_type
  rcases h with h | h <;> rw [h] <;> simp [hb]

/-- C15: `align_type`, the `double` arithmetic being read over the reals.  For a type that
is neither pointer nor array and has size `s ≥ 1` the result is the largest power of two
not above `s` (the power `2 ^ k` with `2 ^ k ≤ s < 2 ^ (k + 1)`), and it is 1 when `s` is 0.
For a pointer or array whose base has size `b ≥ 1` the result is the larger of 8 and the
largest power of two not above `b`, and it is 8 when `b` is 0.  Whenever `align_type`
yields a value, the value is a power of two. -/
theorem C15_alignment_derivation (ty : ASTType) :
    (ty.kind ≠ .TY_PTR → ty.kind ≠ .TY_ARR →
      (1 ≤ ty.size → ∃ k : Nat, align_type ty = some (2 ^ k) ∧ (2 : Int) ^ k ≤ ty.size ∧
        ty.size < 2 ^ (k + 1)) ∧
      (ty.size = 0 → align_type ty = some 1)) ∧
    (ty.kind = .TY_PTR ∨ ty.kind = .TY_ARR → ∀ base, ty.base = some base →
      (1 ≤ base.size → ∃ k : Nat, align_type ty = some (max 8 (2 ^ k)) ∧
        (2 : Int) ^ k ≤ base.size ∧ base.size < 2 ^ (k + 1)) ∧
      (base.size = 0 → align_type ty = some 8)) ∧
    (∀ a, align_type ty = some a → ∃ k : Nat, a = 2 ^ k) := by
  refine ⟨?_, ?_, ?_⟩
  · intro h1 h2
    rw [align_type_scalar ty h1 h2]
    refine ⟨fun hs => ?_, fun hs => ?_⟩
    · obtain ⟨k, hk, hle, hlt⟩ := align_of_size_spec ty.size 1 hs
      refine ⟨k, ?_, hle, hlt⟩
      rw [hk, max_eq_left (one_le_pow₀ (by norm_num))]
    · rw [hs]
      rfl
  · intro hk base hb
    rw [align_type_based ty base hk hb]
    refine ⟨fun hs => ?_, fun hs => ?_⟩
    · obtain ⟨k, hk2, hle, hlt⟩ := align_of_size_spec base.size 8 hs
      exact ⟨k, by rw [hk2, max_comm], hle, hlt⟩
    · rw [hs]
      rfl
  · intro a ha
    by_cases hk : ty.kind = .TY_PTR ∨ ty.kind = .TY_ARR
    · cases hb : ty.base with
      | none =>
        have : align_type ty = none := by
          unfold align_type
          rcases hk with h | h <;> rw [h] <;> simp [hb]
        rw [this] at ha
        exact Option.noConfusion ha
      | some base =>
        rw [align_type_based ty base hk hb] at ha
        injection ha with ha
        rw [← ha]
        exact align_of_size_pow base.size 8 ⟨3, by norm_num⟩
    · have h1 : ty.kind ≠ .TY_PTR := fun h => hk (Or.inl h)
      have h2 : ty.kind ≠ .TY_ARR := fun h => hk (Or.inr h)
      rw [align_type_scalar ty h1 h2] at ha
      injection ha with ha
      rw [← ha]
      exact align_of_size_pow ty.size 1 ⟨0, by norm_num⟩

theorem C15_alignment_derivation_witness :
    ((plain .TY_I32 12).kind ≠ .TY_PTR ∧ (plain .TY_I32 12).kind ≠ .TY_ARR ∧
      (1 : Int) ≤ (plain .TY_I32 12).size ∧
      ∃ k : Nat, align_type (plain .TY_I32 12) = some (2 ^ k) ∧
        (2 : Int) ^ k ≤ (plain .TY_I32 12).size ∧ (plain .TY_I32 12).size < 2 ^ (k + 1)) ∧
    (((pointer_to (plain .TY_F80 16)).kind = .TY_PTR ∨
        (pointer_to (plain .TY_F80 16)).kind = .TY_ARR) ∧
      (pointer_to (plain .TY_F80 16)).base = some (plain .TY_F80 16) ∧
      (1 : Int) ≤ (plain .TY_F80 16).size ∧
      ∃ k : Nat, align_type (pointer_to (plain .TY_F80 16)) = some (max 8 (2 ^ k)) ∧
        (2 : Int) ^ k ≤ (plain .TY_F80 16).size ∧ (plain .TY_F80 16).size < 2 ^ (k + 1)) ∧
    (align_type (plain .TY_I32 12) = some 8 ∧ ∃ k : Nat, (8 : Int) = 2 ^ k) :=
  ⟨⟨by decide, by decide, by decide,
    ((C15_alignment_derivation (plain .TY_I32 12)).1 (by decide) (by decide)).1 (by decide)⟩,
   ⟨Or.inl rfl, rfl, by decide,
    ((C15_alignment_derivation (pointer_to (plain .TY_F80 16))).2.1 (Or.inl rfl) _ rfl).1
      (by decide)⟩,
   ⟨rfl, (C15_alignment_derivation (plain .TY_I32 12)).2.2 8 rfl⟩⟩

/-! ## C16: size of arrays -/

/-- C16, counterexample: on the sample platform `i32` has size 4, and for the array type
`i32[1073741824]` `get_type_size` returns 0, not 1073741824 times 4: the product is
converted to `i32` on return. -/
theorem C16_array_size_counterexample :
    (get_type_size sample_platform 1 {} (plain .TY_I32)).value?.map Prod.fst = some 4 ∧
    (get_type_size sample_platform 2 {} (array_of (plain .TY_I32) 1073741824)).value?.map
      Prod.fst = some 0 ∧
    (1073741824 : Int) * 4 ≠ 0 :=
  ⟨rfl, rfl, by decide⟩

/-- C16, amended: for every array type whose base type has size `s` and whose length
evaluates to `n`: when `n ≥ 1`, `get_type_size` prints nothing of its own and returns
`n * s` converted to 64 and then to 32 bits, which is `n * s` itself when that lies in the
32-bit signed range; when `n ≤ 0` (zero as well as negative) it reports a TypeError.  For an
array type without a length it returns 0. -/
theorem C16_array_size_amended (P : Platform) (fuel : Nat) (v : Validator)
    (arr base base1 : ASTType) (s : Int) (l : List Diagnostic)
    (hk : arr.kind = .TY_ARR) (hb : arr.base = some base)
    (hs : get_type_size P fuel v base = ⟨l, .ok (s, base1)⟩) :
    (∀ node n, arr.num_indices = some node → P.const_i64 node = Run.ret n →
      (1 ≤ n →
        get_type_size P (fuel + 1) v arr
          = ⟨l, .ok (i32 (i64 (s * n)), arr.set_base base1)⟩ ∧
        (-2 ^ 31 ≤ s * n → s * n < 2 ^ 31 → i32 (i64 (s * n)) = s * n)) ∧
      (n ≤ 0 → (get_type_size P (fuel + 1) v arr).reports .ERR_TYPE_ERROR = true)) ∧
    (arr.num_indices = none → get_type_size P (fuel + 1) v arr = Run.ret (0, arr)) := by
  refine ⟨?_, ?_⟩
  · intro node n hn hc
    refine ⟨fun h1 => ⟨?_, ?_⟩, fun h0 => ?_⟩
    · rw [get_type_size]
      simp only [hk, hn, hc, hb, hs, Run.bind_eq, Run.pure_eq, Run.ret_andThen]
      rw [if_neg (by omega)]
      simp [Run.ret, Run.andThen]
    · intro hlo hhi
      have h64 : i64 (s * n) = s * n :=
        i64_eq _ (by norm_num at hlo ⊢; omega) (by norm_num at hhi ⊢; omega)
      rw [h64]
      exact i32_eq _ hlo hhi
    · rw [get_type_size]
      simp only [hk, hn, hc, hb, hs, Run.bind_eq, Run.pure_eq, Run.ret_andThen]
      rw [if_pos (by omega)]
      simp [Run.ret, Run.andThen, Run.reports, throw_error, force_exit]
  · intro hn
    rw [get_type_size]
    simp only [hk, hn, Run.pure_eq]

theorem C16_array_size_amended_witness :
    (array_of (plain .TY_I32) 3).kind = .TY_ARR ∧
    (array_of (plain .TY_I32) 3).base = some (plain .TY_I32) ∧
    get_type_size sample_platform 1 {} (plain .TY_I32) = ⟨[], .ok (4, plain .TY_I32)⟩ ∧
    (get_type_size sample_platform 2 {} (array_of (plain .TY_I32) 3)
        = ⟨[], .ok (i32 (i64 (4 * 3)), (array_of (plain .TY_I32) 3).set_base (plain .TY_I32))⟩ ∧
      (-2 ^ 31 ≤ (4 : Int) * 3 → (4 : Int) * 3 < 2 ^ 31 → i32 (i64 (4 * 3)) = 4 * 3)) :=
  ⟨rfl, rfl, rfl,
   ((C16_array_size_amended sample_platform 1 {} (array_of (plain .TY_I32) 3) (plain .TY_I32)
      (plain .TY_I32) 4 [] rfl rfl rfl).1 _ 3 rfl rfl).1 (by decide)⟩

/-! ## C11-C13: `type_end` on aggregates -/

theorem ASTType.kind_set_size (ty : ASTType) (s : Int) : (ty.set_size s).kind = ty.kind := by
  cases ty
  rfl

theorem align_to_unique (P : Platform)
    (h_round : ∀ n a : Int, 0 ≤ n → 0 < a → n + a < 2 ^ 31 → rounds_up n a (P.align_to n a))
    (n a r : Int) (h0 : 0 ≤ n) (ha : 0 < a) (hb : n + a < 2 ^ 31) (hr : rounds_up n a r) :
    P.align_to n a = r := by
  obtain ⟨⟨c, hc⟩, h1, h2⟩ := h_round n a h0 ha hb
  obtain ⟨⟨d, hd⟩, h3, h4⟩ := hr
  rw [hc, hd]
  have : c = d := by
    by_contra hne
    rcases lt_or_gt_of_ne hne with h | h
    · have : a * (c + 1) ≤ a * d := Int.mul_le_mul_of_nonneg_left (by omega) (le_of_lt ha)
      rw [mul_add, mul_one] at this
      omega
    · have : a * (d + 1) ≤ a * c := Int.mul_le_mul_of_nonneg_left (by omega) (le_of_lt ha)
      rw [mul_add, mul_one] at this
      omega
  rw [this]

theorem get_struct_size_4_1_4 (P : Platform) (fuel : Nat) (v : Validator) (s : ASTType)
    (m1 m2 m3 : ASTNode) (t1 t2 t3 : ASTType)
    (h_round : ∀ n a : Int, 0 ≤ n → 0 < a → n + a < 2 ^ 31 → rounds_up n a (P.align_to n a))
    (hk : s.kind = .TY_STRUCT) (hfresh : s.size = 0)
    (hm : s.members = [m1, m2, m3])
    (hd1 : m1.data_type = some t1) (hd2 : m2.data_type = some t2)
    (hd3 : m3.data_type = some t3)
    (hs1 : get_type_size P fuel v t1 = Run.ret (4, t1))
    (hs2 : get_type_size P fuel v t2 = Run.ret (1, t2))
    (hs3 : get_type_size P fuel v t3 = Run.ret (4, t3))
    (hp1 : t1.kind ≠ .TY_PTR ∧ t1.kind ≠ .TY_ARR) (hp2 : t2.kind ≠ .TY_PTR ∧ t2.kind ≠ .TY_ARR)
    (hp3 : t3.kind ≠ .TY_PTR ∧ t3.kind ≠ .TY_ARR) :
    get_struct_size P (fuel + 1) v s = Run.ret (12, s.set_members
      [m1.placed (t1.set_size 4) 0, m2.placed (t2.set_size 1) 4, m3.placed (t3.set_size 4) 8])
    := by
  have e1 : P.align_to 0 32 = 0 :=
    align_to_unique P h_round 0 32 0 (by norm_num) (by norm_num) (by norm_num)
      ⟨dvd_zero _, by norm_num, by norm_num⟩
  have e2 : P.align_to 32 8 = 32 :=
    align_to_unique P h_round 32 8 32 (by norm_num) (by norm_num) (by norm_num)
      ⟨by norm_num, by norm_num, by norm_num⟩
  have e3 : P.align_to 40 32 = 64 :=
    align_to_unique P h_round 40 32 64 (by norm_num) (by norm_num) (by norm_num)
      ⟨by norm_num, by norm_num, by norm_num⟩
  have e4 : P.align_to 96 8 = 96 :=
    align_to_unique P h_round 96 8 96 (by norm_num) (by norm_num) (by norm_num)
      ⟨by norm_num, by norm_num, by norm_num⟩
  have a1 : align_type (t1.set_size 4) = some 4 := by
    rw [align_type_scalar _ (by rw [ASTType.kind_set_size]; exact hp1.1)
      (by rw [ASTType.kind_set_size]; exact hp1.2), ASTType.size_set_size]
    rfl
  have a2 : align_type (t2.set_size 1) = some 1 := by
    rw [align_type_scalar _ (by rw [ASTType.kind_set_size]; exact hp2.1)
      (by rw [ASTType.kind_set_size]; exact hp2.2), ASTType.size_set_size]
    rfl
  have a3 : align_type (t3.set_size 4) = some 4 := by
    rw [align_type_scalar _ (by rw [ASTType.kind_set_size]; exact hp3.1)
      (by rw [ASTType.kind_set_size]; exact hp3.2), ASTType.size_set_size]
    rfl
  have a0 : align_type s = some 1 := by
    rw [align_type_scalar _ (by rw [hk]; decide) (by rw [hk]; decide), hfresh]
    rfl
  have w1 : i32 (4 * 8) = 32 := by decide
  have w2 : i32 (1 * 8) = 8 := by decide
  have w3 : i64 0 = 0 := by decide
  have w4 : i64 (0 + 32) = 32 := by decide
  have w5 : i64 32 = 32 := by decide
  have w6 : i64 (32 + 8) = 40 := by decide
  have w7 : i64 64 = 64 := by decide
  have w8 : i64 (64 + 32) = 96 := by decide
  have w9 : i64 96 = 96 := by decide
  have w10 : i32 (Int.tdiv 96 8) = 12 := by decide
  rw [get_struct_size]
  simp only [hm, get_struct_size_loop, hd1, hd2, hd3, hs1, hs2, hs3, Run.bind_eq,
    Run.pure_eq, Run.ret_andThen, a0, a1, a2, a3, w1, w2, w3, e1, e2, e3, e4, w4, w5, w6, w7,
    w8, w9, w10]
  rfl

theorem ASTType.kind_set_members (ty : ASTType) (ms : List ASTNode) :
    (ty.set_members ms).kind = ty.kind := by
  cases ty
  rfl

theorem ASTType.size_set_align (ty : ASTType) (a : Int) : (ty.set_align a).size = ty.size := by
  cases ty
  rfl

theorem ASTType.align_set_align (ty : ASTType) (a : Int) : (ty.set_align a).info.align = a := by
  cases ty
  rfl

theorem ASTType.members_set (ty : ASTType) (ms : List ASTNode) (s a : Int) :
    (((ty.set_members ms).set_size s).set_align a).members = ms := by
  cases ty
  rfl

/-- On an aggregate `get_type_size` gives back an aggregate. -/
theorem get_type_size_struct_kind (P : Platform) (fuel : Nat) (v : Validator)
    (s W : ASTType) (sz : Int) (hk : s.kind = .TY_STRUCT)
    (h : (get_type_size P fuel v s).out = .ok (sz, W)) : W.kind = .TY_STRUCT := by
  cases fuel with
  | zero => simp [get_type_size, Run.no_fuel] at h
  | succ n =>
    rw [get_type_size] at h
    simp only [hk] at h
    by_cases hu : s.info.is_union = true
    · simp only [hu, if_true, Run.bind_eq, Run.pure_eq] at h
      cases ho : (get_union_size s).out with
      | ok size =>
        rw [Run.andThen_out_ok _ _ _ ho] at h
        simp only [Run.ret, Outcome.ok.injEq, Prod.mk.injEq] at h
        rw [← h.2]
        exact hk
      | exited => simp [Run.andThen, ho] at h
      | segv => simp [Run.andThen, ho] at h
      | diverge => simp [Run.andThen, ho] at h
    · simp only [hu, Bool.false_eq_true, if_false] at h
      cases n with
      | zero => simp [get_struct_size, Run.no_fuel] at h
      | succ m =>
        rw [get_struct_size] at h
        simp only [Run.bind_eq, Run.pure_eq] at h
        cases ho : (get_struct_size_loop P (get_type_size P m v) 0 s.members).out with
        | ok done =>
          rw [Run.andThen_out_ok _ _ _ ho] at h
          cases ha : align_type s with
          | none => simp [ha, Run.null_deref] at h
          | some a =>
            simp only [ha, Run.ret, Outcome.ok.injEq, Prod.mk.injEq] at h
            rw [← h.2, ASTType.kind_set_members]
            exact hk
        | exited => simp [Run.andThen, ho] at h
        | segv => simp [Run.andThen, ho] at h
        | diverge => simp [Run.andThen, ho] at h

/-- What `type_end` does on an aggregate: the size is the one `get_type_size` returns, the
alignment is derived from that size. -/
theorem type_end_struct (P : Platform) (fuel : Nat) (v : Validator) (s : ASTType)
    (hk : s.kind = .TY_STRUCT) :
    type_end P (fuel + 1) v s
      = (get_type_size P (fuel + 1) v s).andThen (fun sized =>
          match align_type (sized.2.set_size sized.1) with
          | none => Run.null_deref
          | some align => Run.ret ((sized.2.set_size sized.1).set_align align, none)) := by
  have hne : s.kind ≠ .TY_UNDEF := by rw [hk]; decide
  have hv : (ASTTypeKind.TY_STRUCT == ASTTypeKind.TY_ARR) = false := by decide
  unfold type_end
  simp only [Run.bind_eq, Run.pure_eq, expand_typedef_not_alias fuel v s hne, Run.ret_andThen,
    hk, hv, Bool.false_and, Bool.false_eq_true, if_false, ne_eq, not_false_eq_true, if_true,
    reduceCtorEq]

/-- C11, counterexample: on the sample platform an `i32` has size and alignment 4 and an
`i8` size and alignment 1; for the fresh aggregate `struct { a: i32, b: i8, c: i32 }`
`type_end` stores the offsets 0, 4, 8 and the size 12, but the alignment 8, not 4. -/
theorem C11_concrete_layout_counterexample :
    align_type (plain .TY_I32 4) = some 4 ∧ align_type (plain .TY_I8 1) = some 1 ∧
    stored_layout (type_end sample_platform 3 {} sample_struct) = some (12, 8, [0, 4, 8]) ∧
    stored_layout (type_end sample_platform 3 {} sample_struct) ≠ some (12, 4, [0, 4, 8]) :=
  ⟨rfl, rfl, by decide, by decide⟩

/-- C11, amended: on every platform whose `align_to` rounds up, for every freshly created
non-union aggregate (cached size 0) with three members whose types are neither pointers nor
arrays and have the sizes 4, 1 and 4 (hence the alignments 4, 1 and 4), `type_end` returns
and stores the member offsets 0, 4 and 8, the size 12 and the alignment 8, the largest
power of two not above 12. -/
theorem C11_concrete_layout_amended (P : Platform) (fuel : Nat) (v : Validator) (s : ASTType)
    (m1 m2 m3 : ASTNode) (t1 t2 t3 : ASTType)
    (h_round : ∀ n a : Int, 0 ≤ n → 0 < a → n + a < 2 ^ 31 → rounds_up n a (P.align_to n a))
    (hk : s.kind = .TY_STRUCT) (hu : s.info.is_union = false) (hfresh : s.size = 0)
    (hm : s.members = [m1, m2, m3])
    (hd1 : m1.data_type = some t1) (hd2 : m2.data_type = some t2)
    (hd3 : m3.data_type = some t3)
    (hs1 : get_type_size P fuel v t1 = Run.ret (4, t1))
    (hs2 : get_type_size P fuel v t2 = Run.ret (1, t2))
    (hs3 : get_type_size P fuel v t3 = Run.ret (4, t3))
    (hp1 : t1.kind ≠ .TY_PTR ∧ t1.kind ≠ .TY_ARR) (hp2 : t2.kind ≠ .TY_PTR ∧ t2.kind ≠ .TY_ARR)
    (hp3 : t3.kind ≠ .TY_PTR ∧ t3.kind ≠ .TY_ARR) :
    align_type (t1.set_size 4) = some 4 ∧ align_type (t2.set_size 1) = some 1 ∧
    align_type (t3.set_size 4) = some 4 ∧
    (type_end P (fuel + 2) v s).log = [] ∧
    stored_layout (type_end P (fuel + 2) v s) = some (12, 8, [0, 4, 8]) := by
  have hal : ∀ (t : ASTType) (z : Int), t.kind ≠ .TY_PTR ∧ t.kind ≠ .TY_ARR →
      align_type (t.set_size z) = some (align_of_size z 1) := by
    intro t z hp
    rw [align_type_scalar _ (by rw [ASTType.kind_set_size]; exact hp.1)
      (by rw [ASTType.kind_set_size]; exact hp.2), ASTType.size_set_size]
  have hg : get_type_size P (fuel + 2) v s = get_struct_size P (fuel + 1) v s := by
    rw [get_type_size]
    simp only [hk, hu, Bool.false_eq_true, if_false]
  have ha : align_type ((s.set_members
      [m1.placed (t1.set_size 4) 0, m2.placed (t2.set_size 1) 4,
        m3.placed (t3.set_size 4) 8]).set_size 12) = some 8 := by
    rw [hal _ _ (by rw [ASTType.kind_set_members, hk]; decide)]
    rfl
  have hrun := type_end_struct P (fuel + 1) v s hk
  rw [hg, get_struct_size_4_1_4 P fuel v s m1 m2 m3 t1 t2 t3 h_round hk hfresh hm hd1 hd2 hd3
    hs1 hs2 hs3 hp1 hp2 hp3, Run.ret_andThen] at hrun
  simp only [ha] at hrun
  refine ⟨by rw [hal _ _ hp1]; rfl, by rw [hal _ _ hp2]; rfl, by rw [hal _ _ hp3]; rfl, ?_, ?_⟩
  · rw [hrun]
    rfl
  · rw [hrun]
    simp only [stored_layout, Run.value?, Run.ret, Option.map_some', ASTType.members_set,
      ASTType.size_set_align, ASTType.size_set_size, ASTType.align_set_align]
    rfl

theorem C11_concrete_layout_amended_witness :
    stored_layout (type_end sample_platform 3 {} sample_struct) = some (12, 8, [0, 4, 8]) :=
  (C11_concrete_layout_amended sample_platform 1 {} sample_struct
    (struct_member "a" (plain .TY_I32)) (struct_member "b" (plain .TY_I8))
    (struct_member "c" (plain .TY_I32)) (plain .TY_I32) (plain .TY_I8) (plain .TY_I32)
    align_to_model_rounds_up rfl rfl rfl rfl rfl rfl rfl rfl rfl rfl
    ⟨by decide, by decide⟩ ⟨by decide, by decide⟩ ⟨by decide, by decide⟩).2.2.2.2

/-- The alignment derived from a size divides the size exactly when the size is a power of
two (or not positive). -/
theorem align_of_size_dvd (sz : Int) :
    sz % align_of_size sz 1 = 0 ↔ sz ≤ 0 ∨ ∃ j : Nat, sz = 2 ^ j := by
  by_cases h : 1 ≤ sz
  · obtain ⟨k, hk, hle, hlt⟩ := align_of_size_spec sz 1 h
    rw [hk, max_eq_left (one_le_pow₀ (by norm_num))]
    have hpos : (0 : Int) < 2 ^ k := by positivity
    rw [pow_succ] at hlt
    constructor
    · intro hmod
      right
      obtain ⟨q, hq⟩ := Int.dvd_of_emod_eq_zero hmod
      have hq1 : 1 ≤ q := by
        by_contra hc
        have : (2 : Int) ^ k * q ≤ 2 ^ k * 0 :=
          Int.mul_le_mul_of_nonneg_left (by omega) (le_of_lt hpos)
        omega
      have hq2 : q < 2 := by
        by_contra hc
        have : (2 : Int) ^ k * 2 ≤ 2 ^ k * q :=
          Int.mul_le_mul_of_nonneg_left (by omega) (le_of_lt hpos)
        omega
      have : q = 1 := by omega
      exact ⟨k, by rw [hq, this, mul_one]⟩
    · rintro (h0 | ⟨j, hj⟩)
      · omega
      · rw [hj] at hle hlt
        have h1 : k ≤ j := (pow_le_pow_iff_right₀ (by norm_num : (1 : Int) < 2)).mp hle
        have h2 : j < k + 1 := by
          rw [← pow_succ] at hlt
          exact (pow_lt_pow_iff_right₀ (by norm_num : (1 : Int) < 2)).mp hlt
        have : j = k := by omega
        rw [hj, this]
        exact Int.emod_self
  · have ha : align_of_size sz 1 = 1 := by
      unfold align_of_size
      rw [if_neg h]
    rw [ha]
    constructor
    · intro _
      left
      omega
    · intro _
      exact Int.emod_one sz

/-- C12, counterexample: for the union `union { a: i8, b: i8[3] }`, whose member types are
sized 1 and 3, `type_end` stores the size 3 and the alignment 2, and 3 is no multiple
of 2. -/
theorem C12_size_multiple_of_alignment_counterexample :
    sample_union_3.kind = .TY_STRUCT ∧
    stored_layout (type_end sample_platform 2 {} sample_union_3) = some (3, 2, [0, 0]) ∧
    (3 : Int) % 2 ≠ 0 :=
  ⟨rfl, by decide, by decide⟩

/-- C12, amended: for every aggregate type, when `type_end` has populated it, the stored
alignment is a power of two, namely the largest power of two not above the stored size
(1 when the size is not positive); so the stored size is a multiple of the stored alignment
exactly when the size is itself a power of two or is not positive. -/
theorem C12_size_multiple_of_alignment_amended (P : Platform) (fuel : Nat) (v : Validator)
    (T ended : ASTType) (expanded : Option ASTType) (hk : T.kind = .TY_STRUCT)
    (h : (type_end P fuel v T).out = .ok (ended, expanded)) :
    (∃ k : Nat, ended.info.align = 2 ^ k) ∧
    (1 ≤ ended.size → ended.info.align ≤ ended.size ∧ ended.size < 2 * ended.info.align) ∧
    (ended.size ≤ 0 → ended.info.align = 1) ∧
    (ended.size % ended.info.align = 0 ↔ ended.size ≤ 0 ∨ ∃ j : Nat, ended.size = 2 ^ j) := by
  cases fuel with
  | zero => simp [type_end, expand_typedef, Run.no_fuel, Run.andThen] at h
  | succ n =>
    rw [type_end_struct P n v T hk] at h
    cases ho : (get_type_size P (n + 1) v T).out with
    | exited => simp [Run.andThen, ho] at h
    | segv => simp [Run.andThen, ho] at h
    | diverge => simp [Run.andThen, ho] at h
    | ok sized =>
      rw [Run.andThen_out_ok _ _ _ ho] at h
      have hW : sized.2.kind = .TY_STRUCT :=
        get_type_size_struct_kind P (n + 1) v T sized.2 sized.1 hk ho
      have ha : align_type (sized.2.set_size sized.1) = some (align_of_size sized.1 1) := by
        rw [align_type_scalar _ (by rw [ASTType.kind_set_size, hW]; decide)
          (by rw [ASTType.kind_set_size, hW]; decide), ASTType.size_set_size]
      simp only [ha, Run.ret, Outcome.ok.injEq, Prod.mk.injEq] at h
      have hsize : ended.size = sized.1 := by
        rw [← h.1, ASTType.size_set_align, ASTType.size_set_size]
      have halign : ended.info.align = align_of_size sized.1 1 := by
        rw [← h.1, ASTType.align_set_align]
      rw [hsize, halign]
      refine ⟨align_of_size_pow _ _ ⟨0, by norm_num⟩, ?_, ?_, align_of_size_dvd _⟩
      · intro h1
        obtain ⟨k, hk2, hle, hlt⟩ := align_of_size_spec sized.1 1 h1
        rw [hk2, max_eq_left (one_le_pow₀ (by norm_num))]
        rw [pow_succ] at hlt
        exact ⟨hle, by omega⟩
      · intro h0
        unfold align_of_size
        rw [if_neg (by omega)]

theorem C12_size_multiple_of_alignment_amended_witness :
    sample_struct.kind = .TY_STRUCT ∧
    (type_end sample_platform 3 {} sample_struct).out
      = .ok ((sample_struct_laid_out.set_size 12).set_align 8, none) ∧
    ((∃ k : Nat, ((sample_struct_laid_out.set_size 12).set_align 8).info.align = 2 ^ k) ∧
     (1 ≤ ((sample_struct_laid_out.set_size 12).set_align 8).size →
       ((sample_struct_laid_out.set_size 12).set_align 8).info.align
         ≤ ((sample_struct_laid_out.set_size 12).set_align 8).size ∧
       ((sample_struct_laid_out.set_size 12).set_align 8).size
         < 2 * ((sample_struct_laid_out.set_size 12).set_align 8).info.align) ∧
     (((sample_struct_laid_out.set_size 12).set_align 8).size ≤ 0 →
       ((sample_struct_laid_out.set_size 12).set_align 8).info.align = 1) ∧
     (((sample_struct_laid_out.set_size 12).set_align 8).size
         % ((sample_struct_laid_out.set_size 12).set_align 8).info.align = 0 ↔
       ((sample_struct_laid_out.set_size 12).set_align 8).size ≤ 0 ∨
       ∃ j : Nat, ((sample_struct_laid_out.set_size 12).set_align 8).size = 2 ^ j)) :=
  ⟨rfl, rfl,
   C12_size_multiple_of_alignment_amended sample_platform 3 {} sample_struct
     ((sample_struct_laid_out.set_size 12).set_align 8) none rfl rfl⟩

/-- C13, the divergence: for the fresh aggregate `struct { a: i32, b: i8, c: i32 }`
`get_type_size` returns 12, and, once 12 is stored in the cached size, returns 16; a
second pass of `type_end` over the type as the first pass left it changes the stored size
from 12 to 16 and the stored alignment from 8 to 16.  For the fresh aggregate
`struct { inner: struct { a: i32, b: i8 }, c: i8 }` the second pass also moves the member
`c` from offset 5 to offset 8 (and the size from 6 to 12, the alignment from 4 to 8). -/
theorem C13_layout_idempotent_diverges :
    (get_type_size sample_platform 3 {} sample_struct).value?.map Prod.fst = some 12 ∧
    ((get_type_size sample_platform 3 {} sample_struct).andThen (fun sized =>
        get_type_size sample_platform 3 {} (sized.2.set_size sized.1))).value?.map Prod.fst
      = some 16 ∧
    stored_layout (type_end sample_platform 3 {} sample_struct) = some (12, 8, [0, 4, 8]) ∧
    stored_layout (type_end_twice sample_platform 3 {} sample_struct)
      = some (16, 16, [0, 4, 8]) ∧
    stored_layout (type_end sample_platform 5 {} sample_nested) = some (6, 4, [0, 5]) ∧
    stored_layout (type_end_twice sample_platform 5 {} sample_nested) = some (12, 8, [0, 8]) :=
  ⟨by decide, by decide, by decide, by decide, by decide, by decide⟩

/-! ## C17, C18: calls -/

theorem Run.reports_andThen {α β : Type} (x : Run α) (f : α → Run β) (ty : ErrorType)
    (hx : x.reports ty = false) (hf : ∀ a, x.out = .ok a → (f a).reports ty = false) :
    (x.andThen f).reports ty = false := by
  unfold Run.reports at hx ⊢
  cases hxo : x.out with
  | ok a =>
    have h2 := hf a hxo
    unfold Run.reports at h2
    simp [Run.andThen, hxo, hx, h2]
  | exited => simp [Run.andThen, hxo, hx]
  | segv => simp [Run.andThen, hxo, hx]
  | diverge => simp [Run.andThen, hxo, hx]

theorem Run.reports_andThen_iff {α β : Type} (x : Run α) (f : α → Run β) (ty : ErrorType)
    (a : α) (hx : x.out = .ok a) :
    (x.andThen f).reports ty = (x.reports ty || (f a).reports ty) := by
  simp [Run.reports, Run.andThen, hx]

theorem throw_error_reports (ty ty2 : ErrorType) (tok : Token) (format : String)
    (args : List FmtArg) :
    (throw_error ty2 tok format args).reports ty = (ty2 == ty) := by
  simp [Run.reports, throw_error]

theorem throw_error_andThen_reports {β : Type} (ty ty2 : ErrorType) (tok : Token)
    (format : String) (args : List FmtArg) (f : Unit → Run β) (hne : ty2 ≠ ty)
    (hf : (f ()).reports ty = false) :
    ((throw_error ty2 tok format args).andThen f).reports ty = false := by
  apply Run.reports_andThen
  · rw [throw_error_reports]
    simpa using hne
  · intro a _
    exact hf

/-- The functions `search_identifier` and `expand_typedef` print no diagnostics of other
kinds than `ERR_UNDEFINED` and `ERR_TYPE_ERROR`. -/
theorem resolution_reports (ty : ErrorType) (h1 : ErrorType.ERR_UNDEFINED ≠ ty)
    (h2 : ErrorType.ERR_TYPE_ERROR ≠ ty) (n : Nat) :
    (∀ v s id, (search_identifier n v s id).reports ty = false) ∧
    (∀ v t, (expand_typedef n v t).reports ty = false) := by
  induction n with
  | zero =>
    constructor
    · intro v s id
      simp [search_identifier, Run.no_fuel, Run.reports]
    · intro v t
      simp [expand_typedef, Run.no_fuel, Run.reports]
  | succ n ih =>
    obtain ⟨ihs, ihe⟩ := ih
    constructor
    · intro v s id
      cases s with
      | none => simp [search_identifier, Run.reports, Run.ret]
      | some scope =>
        cases id with
        | none => simp [search_identifier, Run.reports, Run.ret]
        | some id =>
          rw [search_identifier]
          simp only []
          cases ho : id.outer with
          | none =>
            simp only []
            cases hsc : (if id.global_scope = true then v.global_scope else some scope) with
            | none => rfl
            | some sc =>
              simp only []
              cases hcur : search_in_current_scope sc id.callee with
              | some found => rfl
              | none => exact ihs _ _ _
          | some outer =>
            simp only [Run.bind_eq]
            refine Run.reports_andThen _ _ _ (ihs _ _ _) ?_
            intro a _
            cases a with
            | none => rfl
            | some outer_obj =>
              simp only []
              cases hk : outer_obj.kind <;> simp only [] <;> try rfl
              refine Run.reports_andThen _ _ _ (ihe _ _) ?_
              intro e _
              cases e with
              | none => rfl
              | some expanded =>
                simp only []
                cases hf : (if expanded.kind = .TY_ENUM
                    then find_named expanded.enum_members id.callee else none) with
                | some member => rfl
                | none => exact throw_error_andThen_reports _ _ _ _ _ _ h1 rfl
    · intro v t
      cases t with
      | none => simp [expand_typedef, Run.reports, Run.ret]
      | some type =>
        rw [expand_typedef]
        simp only []
        by_cases hkind : type.kind = .TY_UNDEF
        · simp only [hkind, ne_eq, not_true_eq_false, ↓reduceIte, Run.bind_eq]
          refine Run.reports_andThen _ _ _ (ihs _ _ _) ?_
          intro ty_def _
          cases hid : type.id with
          | none => rfl
          | some tid =>
            cases ty_def with
            | none => exact throw_error_andThen_reports _ _ _ _ _ _ h2 rfl
            | some ty_def =>
              simp only []
              have hrest : ∀ y : PUnit,
                  ((match ty_def.data_type with
                    | none => Run.null_deref
                    | some dt =>
                      if dt.kind = .TY_UNDEF then expand_typedef n v (some dt)
                      else pure (some dt) : Run (Option ASTType))).reports ty = false := by
                intro _
                cases hdt : ty_def.data_type with
                | none => rfl
                | some dt =>
                  simp only []
                  by_cases hdk : dt.kind = .TY_UNDEF
                  · simp only [hdk, ↓reduceIte]
                    exact ihe _ _
                  · simp only [hdk, ↓reduceIte]
                    rfl
              by_cases hk : ty_def.kind = .OBJ_TYPEDEF
              · simp only [hk, not_true_eq_false, ↓reduceIte]
                exact Run.reports_andThen _ _ _ rfl (fun y _ => hrest y)
              · simp only [hk, not_false_eq_true, ↓reduceIte]
                exact throw_error_andThen_reports _ _ _ _ _ _ h2 (hrest ())
        · simp [hkind, Run.reports, Run.ret]

theorem expand_typedef_reports (ty : ErrorType) (h1 : ErrorType.ERR_UNDEFINED ≠ ty)
    (h2 : ErrorType.ERR_TYPE_ERROR ≠ ty) (fuel : Nat) (v : Validator) (t : Option ASTType) :
    (expand_typedef fuel v t).reports ty = false :=
  (resolution_reports ty h1 h2 fuel).2 v t

theorem Run.reports_andThen_left {α β : Type} (x : Run α) (f : α → Run β) (ty : ErrorType)
    (hf : ∀ a, (f a).reports ty = false) : (x.andThen f).reports ty = x.reports ty := by
  cases hxo : x.out with
  | ok a =>
    rw [Run.reports_andThen_iff x f ty a hxo, hf a, Bool.or_false]
  | exited => simp [Run.reports, Run.andThen, hxo]
  | segv => simp [Run.reports, Run.andThen, hxo]
  | diverge => simp [Run.reports, Run.andThen, hxo]

theorem Run.mk_andThen {α β : Type} (l : List Diagnostic) (a : α) (f : α → Run β) :
    Run.andThen ⟨l, .ok a⟩ f = ⟨l ++ (f a).log, (f a).out⟩ := rfl

theorem call_args_loop_log (P : Platform) (v : Validator) (expected : List ASTType) :
    ∀ (i : Nat) (args : List ASTNode), (call_args_loop P v i expected args).log = [] := by
  induction expected with
  | nil => intro i args; rfl
  | cons e rest ih =>
    intro i args
    cases args with
    | nil => rfl
    | cons a more =>
      rw [call_args_loop]
      simp only [compatible, Bool.not_true, Bool.false_eq_true, if_false, Run.bind_eq,
        Run.pure_eq, Run.ret_andThen]
      exact ih _ _

theorem call_args_loop_returns (P : Platform) (v : Validator) (expected : List ASTType) :
    ∀ (i : Nat) (args : List ASTNode), expected.length ≤ args.length →
      call_args_loop P v i expected args = Run.ret () := by
  induction expected with
  | nil => intro i args _; rfl
  | cons e rest ih =>
    intro i args h
    cases args with
    | nil => simp at h
    | cons a more =>
      rw [call_args_loop]
      simp only [compatible, Bool.not_true, Bool.false_eq_true, if_false, Run.bind_eq,
        Run.pure_eq, Run.ret_andThen]
      exact ih _ _ (by simpa using h)

theorem call_args_loop_reports (P : Platform) (v : Validator) (expected : List ASTType)
    (i : Nat) (args : List ASTNode) (ty : ErrorType) :
    (call_args_loop P v i expected args).reports ty = false := by
  unfold Run.reports
  rw [call_args_loop_log]
  rfl

theorem call_return_buffer_reports (P : Platform) (fuel : Nat) (v : Validator) (c : ASTNode)
    (ty : ErrorType) (h1 : ErrorType.ERR_UNDEFINED ≠ ty) (h2 : ErrorType.ERR_TYPE_ERROR ≠ ty) :
    (call_return_buffer P fuel v c).reports ty = false := by
  unfold call_return_buffer
  by_cases hct : P.ct_asm = true
  · simp only [hct, if_true]
    cases hd : c.data_type with
    | none => rfl
    | some data_type =>
      simp only [Run.bind_eq]
      refine Run.reports_andThen _ _ _ (expand_typedef_reports ty h1 h2 _ _ _) ?_
      intro e _
      cases e with
      | none => rfl
      | some expanded =>
        simp only []
        by_cases hs : expanded.kind = .TY_STRUCT
        · simp only [hs, if_true]
          cases v.current_function <;> rfl
        · simp only [hs, if_false]
          rfl
  · simp only [hct, Bool.false_eq_true, if_false]
    rfl

theorem call_return_buffer_plain (P : Platform) (fuel : Nat) (v : Validator) (c : ASTNode)
    (dt : ASTType) (hd : c.data_type = some dt) (h1 : dt.kind ≠ .TY_UNDEF)
    (h2 : dt.kind ≠ .TY_STRUCT) : call_return_buffer P (fuel + 1) v c = Run.ret (v, c) := by
  unfold call_return_buffer
  by_cases hct : P.ct_asm = true
  · simp only [hct, if_true, hd, Run.bind_eq, expand_typedef_not_alias fuel v dt h1,
      Run.ret_andThen, h2, if_false, Run.pure_eq]
  · simp only [hct, Bool.false_eq_true, if_false, Run.pure_eq]

theorem call_arity_reports (P : Platform) (call_type : ASTType) (c : ASTNode) :
    (call_arity P call_type c).reports .ERR_CALL_ERROR = true ↔
      (P.is_variadic call_type = false ∧ c.args.length ≠ call_type.arg_types.length) ∨
      (P.is_variadic call_type = true ∧ c.args.length < call_type.arg_types.length) := by
  unfold call_arity
  cases hv : P.is_variadic call_type <;>
    by_cases hlt : c.args.length < call_type.arg_types.length <;>
    by_cases hne : c.args.length = call_type.arg_types.length <;>
    simp [hlt, hne, throw_error, Run.reports, Run.ret]

theorem call_arity_accepted (P : Platform) (call_type : ASTType) (c : ASTNode)
    (h : (P.is_variadic call_type = false ∧ c.args.length = call_type.arg_types.length) ∨
      (P.is_variadic call_type = true ∧ call_type.arg_types.length ≤ c.args.length)) :
    call_arity P call_type c = Run.ret () := by
  unfold call_arity
  rcases h with ⟨hv, hn⟩ | ⟨hv, hn⟩
  · simp [hv, hn, Run.ret]
  · simp [hv, Nat.not_lt.mpr hn, Run.ret]

theorem ASTNode.args_set_data_type (c : ASTNode) (t : Option ASTType) :
    (c.set_data_type t).args = c.args := by
  cases c
  rfl

theorem ASTNode.data_type_set_data_type (c : ASTNode) (t : Option ASTType) :
    (c.set_data_type t).data_type = t := by
  cases c
  rfl

/-- The function `call` on a callee whose type expands to a function type. -/
theorem call_unfold (P : Platform) (fuel : Nat) (v : Validator) (c expr : ASTNode)
    (call_type : ASTType) (l : List Diagnostic)
    (he : c.expr = some expr)
    (ht : expand_typedef fuel v expr.data_type = ⟨l, .ok (some call_type)⟩)
    (hk : call_type.kind = .TY_FN) :
    call P fuel v c
      = Run.andThen ⟨l, .ok (some call_type)⟩ (fun _ =>
          (call_arity P call_type (c.set_data_type (some (call_result_type P call_type)))).andThen
            fun _ =>
              (call_args_loop P v 0 call_type.arg_types c.args).andThen fun _ =>
                call_return_buffer P fuel v
                  (c.set_data_type (some (call_result_type P call_type)))) := by
  rw [call]
  simp only [he, Run.bind_eq, ht, Run.mk_andThen, hk, ne_eq, not_true_eq_false, if_false,
    ASTNode.args_set_data_type]

theorem call_reports_iff (P : Platform) (fuel : Nat) (v : Validator) (c expr : ASTNode)
    (call_type : ASTType) (l : List Diagnostic)
    (he : c.expr = some expr)
    (ht : expand_typedef fuel v expr.data_type = ⟨l, .ok (some call_type)⟩)
    (hk : call_type.kind = .TY_FN) :
    (call P fuel v c).reports .ERR_CALL_ERROR = true ↔
      (P.is_variadic call_type = false ∧ c.args.length ≠ call_type.arg_types.length) ∨
      (P.is_variadic call_type = true ∧ c.args.length < call_type.arg_types.length) := by
  have hl : Run.reports (⟨l, .ok (some call_type)⟩ : Run (Option ASTType)) .ERR_CALL_ERROR
      = false := by
    rw [← ht]
    exact expand_typedef_reports _ (by decide) (by decide) _ _ _
  rw [call_unfold P fuel v c expr call_type l he ht hk,
    Run.reports_andThen_iff _ _ _ (some call_type) rfl, hl, Bool.false_or,
    Run.reports_andThen_left _ _ _ (fun _ =>
      Run.reports_andThen _ _ _ (call_args_loop_reports P v _ _ _ _)
        (fun _ _ => call_return_buffer_reports P fuel v _ _ (by decide) (by decide))),
    call_arity_reports, ASTNode.args_set_data_type]

/-- With an accepted arity nothing is printed between the expansion of the callee type and
the return-buffer step, whatever the arguments are. -/
theorem call_accepted (P : Platform) (fuel : Nat) (v : Validator) (c expr : ASTNode)
    (call_type : ASTType) (l : List Diagnostic)
    (he : c.expr = some expr)
    (ht : expand_typedef fuel v expr.data_type = ⟨l, .ok (some call_type)⟩)
    (hk : call_type.kind = .TY_FN)
    (hacc : (P.is_variadic call_type = false ∧ c.args.length = call_type.arg_types.length) ∨
      (P.is_variadic call_type = true ∧ call_type.arg_types.length ≤ c.args.length)) :
    call P fuel v c
      = Run.andThen ⟨l, .ok ()⟩ (fun _ =>
          call_return_buffer P fuel v
            (c.set_data_type (some (call_result_type P call_type)))) := by
  have hlen : call_type.arg_types.length ≤ c.args.length := by
    rcases hacc with ⟨_, h⟩ | ⟨_, h⟩ <;> omega
  rw [call_unfold P fuel v c expr call_type l he ht hk,
    call_arity_accepted P call_type _ (by rw [ASTNode.args_set_data_type]; exact hacc),
    call_args_loop_returns P v _ 0 _ hlen]
  rfl

/-- C17: for every call whose callee expression has a type that expands to a function type
with `k` parameter types, `call` reports a CallError if and only if the type is not
variadic and the number of arguments differs from `k`, or the type is variadic and the
number of arguments is less than `k`.  When the arity is accepted (and the return type is
neither an alias nor an aggregate, which `call` would expand and give a buffer) the call
returns with nothing printed beyond the diagnostics of the expansion, and the call node
carries the return type. -/
theorem C17_call_arity (P : Platform) (fuel : Nat) (v : Validator) (c expr : ASTNode)
    (call_type : ASTType) (l : List Diagnostic)
    (he : c.expr = some expr)
    (ht : expand_typedef fuel v expr.data_type = ⟨l, .ok (some call_type)⟩)
    (hk : call_type.kind = .TY_FN) :
    ((call P fuel v c).reports .ERR_CALL_ERROR = true ↔
      (P.is_variadic call_type = false ∧ c.args.length ≠ call_type.arg_types.length) ∨
      (P.is_variadic call_type = true ∧ c.args.length < call_type.arg_types.length)) ∧
    ((P.is_variadic call_type = false ∧ c.args.length = call_type.arg_types.length) ∨
      (P.is_variadic call_type = true ∧ call_type.arg_types.length ≤ c.args.length) →
      (call_result_type P call_type).kind ≠ .TY_UNDEF →
      (call_result_type P call_type).kind ≠ .TY_STRUCT →
      call P fuel v c
        = ⟨l, .ok (v, c.set_data_type (some (call_result_type P call_type)))⟩) := by
  refine ⟨call_reports_iff P fuel v c expr call_type l he ht hk, ?_⟩
  intro hacc h1 h2
  cases fuel with
  | zero => simp [expand_typedef, Run.no_fuel] at ht
  | succ n =>
    rw [call_accepted P (n + 1) v c expr call_type l he ht hk hacc,
      call_return_buffer_plain P n v _ _ (ASTNode.data_type_set_data_type _ _) h1 h2]
    simp [Run.andThen, Run.ret]

theorem C17_call_arity_witness :
    ((call sample_platform 1 {} (call_of sample_fn2 [int_lit 1])).reports .ERR_CALL_ERROR
        = true) ∧
    ((call sample_platform 1 {} (call_of sample_fn2 [int_lit 1, int_lit 2, int_lit 3])).reports
        .ERR_CALL_ERROR = true) ∧
    ((call sample_platform 1 {} (call_of sample_variadic [])).reports .ERR_CALL_ERROR
        = true) ∧
    (call sample_platform 1 {} (call_of sample_variadic [int_lit 1])
        = ⟨[], .ok ({}, (call_of sample_variadic [int_lit 1]).set_data_type
            (some (call_result_type sample_platform sample_variadic)))⟩) ∧
    (call sample_platform 1 {} (call_of sample_variadic [int_lit 1, int_lit 2])
        = ⟨[], .ok ({}, (call_of sample_variadic [int_lit 1, int_lit 2]).set_data_type
            (some (call_result_type sample_platform sample_variadic)))⟩) ∧
    (call sample_platform 1 {} (call_of sample_fn2 [int_lit 1, int_lit 2])
        = ⟨[], .ok ({}, (call_of sample_fn2 [int_lit 1, int_lit 2]).set_data_type
            (some (call_result_type sample_platform sample_fn2)))⟩) :=
  ⟨(C17_call_arity sample_platform 1 {} (call_of sample_fn2 [int_lit 1]) _ sample_fn2 []
      rfl rfl rfl).1.mpr (Or.inl ⟨rfl, by decide⟩),
   (C17_call_arity sample_platform 1 {} (call_of sample_fn2 [int_lit 1, int_lit 2, int_lit 3])
      _ sample_fn2 [] rfl rfl rfl).1.mpr (Or.inl ⟨rfl, by decide⟩),
   (C17_call_arity sample_platform 1 {} (call_of sample_variadic []) _ sample_variadic []
      rfl rfl rfl).1.mpr (Or.inr ⟨rfl, by decide⟩),
   (C17_call_arity sample_platform 1 {} (call_of sample_variadic [int_lit 1]) _
      sample_variadic [] rfl rfl rfl).2 (Or.inr ⟨rfl, by decide⟩) (by decide) (by decide),
   (C17_call_arity sample_platform 1 {} (call_of sample_variadic [int_lit 1, int_lit 2]) _
      sample_variadic [] rfl rfl rfl).2 (Or.inr ⟨rfl, by decide⟩) (by decide) (by decide),
   (C17_call_arity sample_platform 1 {} (call_of sample_fn2 [int_lit 1, int_lit 2]) _
      sample_fn2 [] rfl rfl rfl).2 (Or.inl ⟨rfl, rfl⟩) (by decide) (by decide)⟩

/-- C18, counterexample: `compatible` holds for every pair of types; the call `f(s)` of a
function `fn f(a: i32): i32` with an argument `s` of the aggregate type
`struct { a: i32, b: i8, c: i32 }`, which `types_equal` tells apart from `i32`, has the
right number of arguments and is accepted: `call` prints nothing and returns. -/
theorem C18_argument_types_counterexample :
    (∀ v a b, compatible v a b = true) ∧
    types_equal (plain .TY_I32 4) sample_struct_laid_out = some false ∧
    sample_aggregate_arg.data_type = some sample_struct_laid_out ∧
    sample_fn1.arg_types = [plain .TY_I32 4] ∧
    call sample_platform 1 {} (call_of sample_fn1 [sample_aggregate_arg])
      = ⟨[], .ok ({}, (call_of sample_fn1 [sample_aggregate_arg]).set_data_type
          (some (plain .TY_I32 4)))⟩ :=
  ⟨fun _ _ _ => rfl, rfl, rfl, rfl, rfl⟩

/-- C18, amended: `compatible` holds for every pair of types, so `call` rejects no call on
account of the types of its arguments: for every call whose callee type expands to a
function type and whose number of arguments is accepted, whatever the types of the
arguments, `call` reports no CallError, and prints nothing between the expansion of the
callee type and the return-buffer step. -/
theorem C18_argument_types_amended (P : Platform) (fuel : Nat) (v : Validator)
    (c expr : ASTNode) (call_type : ASTType) (l : List Diagnostic)
    (he : c.expr = some expr)
    (ht : expand_typedef fuel v expr.data_type = ⟨l, .ok (some call_type)⟩)
    (hk : call_type.kind = .TY_FN)
    (hacc : (P.is_variadic call_type = false ∧ c.args.length = call_type.arg_types.length) ∨
      (P.is_variadic call_type = true ∧ call_type.arg_types.length ≤ c.args.length)) :
    (∀ a b, compatible v a b = true) ∧
    (call P fuel v c).reports .ERR_CALL_ERROR = false ∧
    (call P fuel v c).log
      = l ++ (call_return_buffer P fuel v
          (c.set_data_type (some (call_result_type P call_type)))).log := by
  refine ⟨fun _ _ => rfl, ?_, ?_⟩
  · cases hr : (call P fuel v c).reports .ERR_CALL_ERROR with
    | false => rfl
    | true =>
      have := (call_reports_iff P fuel v c expr call_type l he ht hk).mp hr
      rcases hacc with ⟨hv, hn⟩ | ⟨hv, hn⟩ <;> rcases this with ⟨hv2, hn2⟩ | ⟨hv2, hn2⟩
      · exact absurd hn hn2
      · rw [hv] at hv2
        exact Bool.noConfusion hv2
      · rw [hv] at hv2
        exact Bool.noConfusion hv2
      · omega
  · rw [call_accepted P fuel v c expr call_type l he ht hk hacc]
    rfl

theorem C18_argument_types_amended_witness :
    (∀ a b, compatible {} a b = true) ∧
    (call sample_platform 1 {} (call_of sample_fn1 [sample_aggregate_arg])).reports
      .ERR_CALL_ERROR = false ∧
    (call sample_platform 1 {} (call_of sample_fn1 [sample_aggregate_arg])).log
      = [] ++ (call_return_buffer sample_platform 1 {}
          ((call_of sample_fn1 [sample_aggregate_arg]).set_data_type
            (some (call_result_type sample_platform sample_fn1)))).log :=
  C18_argument_types_amended sample_platform 1 {} (call_of sample_fn1 [sample_aggregate_arg])
    _ sample_fn1 [] rfl rfl rfl (Or.inl ⟨rfl, rfl⟩)

/-! ## C19, C20: the entry point -/

theorem ASTObj.return_type_set_entry_point (fn : ASTObj) :
    fn.set_entry_point.return_type = fn.return_type := by
  cases fn
  rfl

theorem ASTObj.args_set_entry_point (fn : ASTObj) : fn.set_entry_point.args = fn.args := by
  cases fn
  rfl

theorem ASTObj.flag_set_entry_point (fn : ASTObj) :
    fn.set_entry_point.info.is_entry_point = true := by
  cases fn
  rfl

theorem expand_typedef_some_arg (fuel : Nat) (v : Validator) (t : Option ASTType)
    (l : List Diagnostic) (r : ASTType) (h : expand_typedef fuel v t = ⟨l, .ok (some r)⟩) :
    ∃ written, t = some written := by
  cases t with
  | some written => exact ⟨written, rfl⟩
  | none =>
    cases fuel with
    | zero => simp [expand_typedef, Run.no_fuel] at h
    | succ n => simp [expand_typedef, Run.ret] at h

theorem main_arg_mismatch_eq (t : ASTType) : main_arg_mismatch t = !ptr_ptr_char t := by
  unfold main_arg_mismatch ptr_ptr_char
  cases h1 : t.base with
  | none => simp [bne]
  | some base =>
    simp only []
    cases h2 : base.base <;> simp [bne, Bool.not_and]

theorem main_arg1_mismatch_eq (t : ASTType)
    (hb : t.kind = .TY_PTR → ∃ b, t.base = some b ∧ (b.kind = .TY_PTR → b.base ≠ none)) :
    main_arg1_mismatch t = some (!ptr_ptr_char t) := by
  unfold main_arg1_mismatch ptr_ptr_char
  by_cases hk : t.kind = .TY_PTR
  · obtain ⟨b, hbase, hbb⟩ := hb hk
    by_cases hk2 : b.kind = .TY_PTR
    · cases hb2 : b.base with
      | none => exact absurd hb2 (hbb hk2)
      | some c => simp [hk, hbase, hk2, hb2, bne]
    · simp [hk, hbase, hk2]
  · simp [hk]

/-- The function `check_main_fn` once the return type has been expanded. -/
theorem check_main_fn_unfold (fuel : Nat) (v : Validator) (ast : ASTProg)
    (main_fn : ASTObj) (rt : ASTType) (l0 : List Diagnostic)
    (hr : expand_typedef fuel v main_fn.return_type = ⟨l0, .ok (some rt)⟩) :
    ∃ written, main_fn.return_type = some written ∧
    check_main_fn fuel v ast main_fn
      = Run.andThen ⟨l0, .ok ()⟩ (fun _ =>
          (check_main_return main_fn.set_entry_point rt written).andThen fun _ =>
            (check_main_args fuel v main_fn.set_entry_point).andThen fun _ =>
              Run.ret ({ ast with entry_point := some main_fn.set_entry_point },
                main_fn.set_entry_point)) := by
  obtain ⟨written, hw⟩ := expand_typedef_some_arg fuel v _ l0 rt hr
  refine ⟨written, hw, ?_⟩
  unfold check_main_fn
  simp only [ASTObj.return_type_set_entry_point, hr, Run.bind_eq, Run.mk_andThen,
    Run.pure_eq]
  rw [hw]

theorem Run.reports_andThen_of_left {α β : Type} (x : Run α) (f : α → Run β) (ty : ErrorType)
    (h : x.reports ty = true) : (x.andThen f).reports ty = true := by
  unfold Run.reports at h ⊢
  cases hxo : x.out <;> simp [Run.andThen, hxo, List.any_append] <;> simp at h
  · exact Or.inl h
  all_goals exact h

theorem Run.reports_andThen_of_right {α β : Type} (x : Run α) (f : α → Run β)
    (ty : ErrorType) (a : α) (hx : x.out = .ok a) (h : (f a).reports ty = true) :
    (x.andThen f).reports ty = true := by
  rw [Run.reports_andThen_iff x f ty a hx, h, Bool.or_true]

theorem check_main_return_out (main_fn : ASTObj) (rt written : ASTType) :
    (check_main_return main_fn rt written).out = .ok () := by
  unfold check_main_return
  split_ifs <;> rfl

theorem check_main_return_accepted (main_fn : ASTObj) (rt written : ASTType)
    (hk : rt.kind = .TY_I32) : check_main_return main_fn rt written = Run.ret () := by
  unfold check_main_return
  simp [hk, Run.ret]

theorem ptr_ptr_char_arg1 (t : ASTType) (h : ptr_ptr_char t = true) :
    main_arg1_mismatch t = some false := by
  have hb : t.kind = .TY_PTR → ∃ b, t.base = some b ∧ (b.kind = .TY_PTR → b.base ≠ none) := by
    intro _
    unfold ptr_ptr_char at h
    cases h1 : t.base with
    | none => simp [h1] at h
    | some b =>
      refine ⟨b, rfl, fun _ => ?_⟩
      cases h2 : b.base with
      | none => simp [h1, h2] at h
      | some c => simp
  rw [main_arg1_mismatch_eq t hb, h]
  rfl

theorem check_main_args_none (fuel : Nat) (v : Validator) (main_fn : ASTObj)
    (ha : main_fn.args = []) : check_main_args fuel v main_fn = Run.ret () := by
  unfold check_main_args
  rw [ha]
  rfl

theorem check_main_args_one (fuel : Nat) (v : Validator) (main_fn arg : ASTObj)
    (t : ASTType) (l1 : List Diagnostic) (ha : main_fn.args = [arg])
    (h1 : expand_typedef fuel v arg.data_type = ⟨l1, .ok (some t)⟩) :
    check_main_args fuel v main_fn
      = Run.andThen ⟨l1, .ok ()⟩ (fun _ =>
          if ptr_ptr_char t then Run.ret ()
          else throw_error .ERR_TYPE_ERROR_UNCR arg.tok
            "expect argument of function `main` to be `&&char`" []) := by
  unfold check_main_args
  rw [ha]
  simp only [Run.bind_eq, h1, Run.mk_andThen, main_arg_mismatch_eq, Run.pure_eq]
  cases ptr_ptr_char t <;> rfl

theorem check_main_args_two (fuel : Nat) (v : Validator) (main_fn arg0 arg1 : ASTObj)
    (t0 : ASTType) (l1 : List Diagnostic) (ha : main_fn.args = [arg0, arg1])
    (h0 : expand_typedef fuel v arg0.data_type = ⟨l1, .ok (some t0)⟩) :
    check_main_args fuel v main_fn
      = Run.andThen ⟨l1, .ok ()⟩ (fun _ =>
          if t0.kind ≠ .TY_I32 then
            throw_error .ERR_TYPE_ERROR_UNCR arg0.tok
              "expect first argument of function `main` to be `i32`" []
          else
            (expand_typedef fuel v arg1.data_type).andThen fun arg1_type =>
              match arg1_type with
              | none => Run.null_deref
              | some arg1_type =>
                match main_arg1_mismatch arg1_type with
                | none => Run.null_deref
                | some true =>
                  throw_error .ERR_TYPE_ERROR_UNCR arg1.tok
                    "expect first argument of function `main` to be `&&char`" []
                | some false => Run.ret ()) := by
  unfold check_main_args
  rw [ha]
  simp only [Run.bind_eq, h0, Run.mk_andThen, Run.pure_eq]

theorem check_main_args_many (fuel : Nat) (v : Validator) (main_fn : ASTObj)
    (ha : 3 ≤ main_fn.args.length) :
    check_main_args fuel v main_fn
      = throw_error .ERR_UNDEFINED_UNCR main_fn.tok
          "expect 0 or 2 arguments for function `main`, got %ld"
          [.num main_fn.args.length] := by
  unfold check_main_args
  rcases hargs : main_fn.args with _ | ⟨a, _ | ⟨b, _ | ⟨c, rest⟩⟩⟩
  · rw [hargs] at ha; simp at ha
  · rw [hargs] at ha; simp at ha
  · rw [hargs] at ha; simp at ha
  · rfl

/-- C19: for every function whose return type expands to `i32`, `check_main_fn` flags the
function as entry point and records the flagged function as the entry point of the
program, and it prints nothing of its own (the diagnostics are those of the expansions,
none when the types are no aliases) and returns, when the parameter list is empty, or is
one parameter whose type expands to a pointer to a pointer to a character, or is two
parameters whose types expand to `i32` and to a pointer to a pointer to a character. -/
theorem C19_accepted_entry_points (fuel : Nat) (v : Validator) (ast : ASTProg)
    (main_fn : ASTObj) (rt : ASTType) (l0 : List Diagnostic)
    (hr : expand_typedef fuel v main_fn.return_type = ⟨l0, .ok (some rt)⟩)
    (hk : rt.kind = .TY_I32) :
    main_fn.set_entry_point.info.is_entry_point = true ∧
    (main_fn.args = [] →
      check_main_fn fuel v ast main_fn
        = ⟨l0, .ok ({ ast with entry_point := some main_fn.set_entry_point },
            main_fn.set_entry_point)⟩) ∧
    (∀ arg t l1, main_fn.args = [arg] →
      expand_typedef fuel v arg.data_type = ⟨l1, .ok (some t)⟩ → ptr_ptr_char t = true →
      check_main_fn fuel v ast main_fn
        = ⟨l0 ++ l1, .ok ({ ast with entry_point := some main_fn.set_entry_point },
            main_fn.set_entry_point)⟩) ∧
    (∀ arg0 arg1 t0 t1 l1 l2, main_fn.args = [arg0, arg1] →
      expand_typedef fuel v arg0.data_type = ⟨l1, .ok (some t0)⟩ → t0.kind = .TY_I32 →
      expand_typedef fuel v arg1.data_type = ⟨l2, .ok (some t1)⟩ → ptr_ptr_char t1 = true →
      check_main_fn fuel v ast main_fn
        = ⟨l0 ++ (l1 ++ l2), .ok ({ ast with entry_point := some main_fn.set_entry_point },
            main_fn.set_entry_point)⟩) := by
  obtain ⟨written, -, hrun⟩ := check_main_fn_unfold fuel v ast main_fn rt l0 hr
  rw [check_main_return_accepted _ _ _ hk, Run.ret_andThen] at hrun
  refine ⟨ASTObj.flag_set_entry_point main_fn, ?_, ?_, ?_⟩
  · intro ha
    rw [hrun, check_main_args_none fuel v _ (by rw [ASTObj.args_set_entry_point]; exact ha)]
    simp [Run.andThen, Run.ret]
  · intro arg t l1 ha h1 hp
    rw [hrun, check_main_args_one fuel v _ arg t l1
      (by rw [ASTObj.args_set_entry_point]; exact ha) h1, hp]
    simp [Run.andThen, Run.ret]
  · intro arg0 arg1 t0 t1 l1 l2 ha h0 hk0 h1 hp
    rw [hrun, check_main_args_two fuel v _ arg0 arg1 t0 l1
      (by rw [ASTObj.args_set_entry_point]; exact ha) h0, h1]
    simp [Run.andThen, Run.ret, hk0, ptr_ptr_char_arg1 t1 hp]

theorem C19_accepted_entry_points_witness :
    (check_main_fn 1 {} {} sample_main
        = ⟨[], .ok ({ entry_point := some sample_main.set_entry_point },
            sample_main.set_entry_point)⟩) ∧
    (check_main_fn 1 {} {} sample_main_one
        = ⟨[] ++ [], .ok ({ entry_point := some sample_main_one.set_entry_point },
            sample_main_one.set_entry_point)⟩) ∧
    (check_main_fn 1 {} {} sample_main_argv
        = ⟨[] ++ ([] ++ []), .ok ({ entry_point := some sample_main_argv.set_entry_point },
            sample_main_argv.set_entry_point)⟩) ∧
    sample_main_argv.set_entry_point.info.is_entry_point = true ∧
    sample_main.id.callee = "main" ∧ sample_main_argv.id.callee = "main" :=
  ⟨(C19_accepted_entry_points 1 {} {} sample_main (plain .TY_I32 4) [] rfl rfl).2.1 rfl,
   (C19_accepted_entry_points 1 {} {} sample_main_one (plain .TY_I32 4) [] rfl rfl).2.2.1
     sample_argv (pointer_to (pointer_to (plain .TY_CHAR 1))) [] rfl rfl rfl,
   (C19_accepted_entry_points 1 {} {} sample_main_argv (plain .TY_I32 4) [] rfl rfl).2.2.2
     sample_argc sample_argv (plain .TY_I32 4) (pointer_to (pointer_to (plain .TY_CHAR 1)))
     [] [] rfl rfl rfl rfl rfl,
   (C19_accepted_entry_points 1 {} {} sample_main_argv (plain .TY_I32 4) [] rfl rfl).1,
   rfl, rfl⟩

/-- C20: for every function whose return type can be expanded, `check_main_fn` reports a
TypeError (of the kind `ERR_TYPE_ERROR_UNCR`) when the return type does not expand to
`i32`; when there is one parameter whose type does not expand to a pointer to a pointer to
a character; when there are two parameters and the type of the first does not expand to
`i32`, or the type of the second does not expand to a pointer to a pointer to a character
(pointer types having a base, as in every tree the parser builds: the test on the second
parameter does not look for a missing base); and it reports an Undefined error (of the
kind `ERR_UNDEFINED_UNCR`), which names the number of parameters, when there are three or
more parameters. -/
theorem C20_rejected_entry_points (fuel : Nat) (v : Validator) (ast : ASTProg)
    (main_fn : ASTObj) (rt : ASTType) (l0 : List Diagnostic)
    (hr : expand_typedef fuel v main_fn.return_type = ⟨l0, .ok (some rt)⟩) :
    (rt.kind ≠ .TY_I32 →
      (check_main_fn fuel v ast main_fn).reports .ERR_TYPE_ERROR_UNCR = true) ∧
    (∀ arg t l1, main_fn.args = [arg] →
      expand_typedef fuel v arg.data_type = ⟨l1, .ok (some t)⟩ → ptr_ptr_char t = false →
      (check_main_fn fuel v ast main_fn).reports .ERR_TYPE_ERROR_UNCR = true) ∧
    (∀ arg0 arg1 t0 l1, main_fn.args = [arg0, arg1] →
      expand_typedef fuel v arg0.data_type = ⟨l1, .ok (some t0)⟩ → t0.kind ≠ .TY_I32 →
      (check_main_fn fuel v ast main_fn).reports .ERR_TYPE_ERROR_UNCR = true) ∧
    (∀ arg0 arg1 t0 t1 l1 l2, main_fn.args = [arg0, arg1] →
      expand_typedef fuel v arg0.data_type = ⟨l1, .ok (some t0)⟩ → t0.kind = .TY_I32 →
      expand_typedef fuel v arg1.data_type = ⟨l2, .ok (some t1)⟩ → ptr_ptr_char t1 = false →
      (t1.kind = .TY_PTR → ∃ b, t1.base = some b ∧ (b.kind = .TY_PTR → b.base ≠ none)) →
      (check_main_fn fuel v ast main_fn).reports .ERR_TYPE_ERROR_UNCR = true) ∧
    (3 ≤ main_fn.args.length →
      (check_main_fn fuel v ast main_fn).reports .ERR_UNDEFINED_UNCR = true ∧
      ∃ d ∈ (check_main_fn fuel v ast main_fn).log,
        d.ty = .ERR_UNDEFINED_UNCR ∧ d.args = [.num main_fn.args.length]) := by
  obtain ⟨written, -, hrun⟩ := check_main_fn_unfold fuel v ast main_fn rt l0 hr
  have hargs : ∀ ty, (check_main_args fuel v main_fn.set_entry_point).reports ty = true →
      (check_main_fn fuel v ast main_fn).reports ty = true := by
    intro ty h
    rw [hrun]
    refine Run.reports_andThen_of_right _ _ _ () rfl ?_
    refine Run.reports_andThen_of_right _ _ _ () (check_main_return_out _ _ _) ?_
    exact Run.reports_andThen_of_left _ _ _ h
  refine ⟨?_, ?_, ?_, ?_, ?_⟩
  · intro hk
    rw [hrun]
    refine Run.reports_andThen_of_right _ _ _ () rfl ?_
    refine Run.reports_andThen_of_left _ _ _ ?_
    unfold check_main_return
    rw [if_pos hk, throw_error_reports]
    rfl
  · intro arg t l1 ha h1 hp
    apply hargs
    rw [check_main_args_one fuel v _ arg t l1
      (by rw [ASTObj.args_set_entry_point]; exact ha) h1, hp]
    refine Run.reports_andThen_of_right _ _ _ () rfl ?_
    simp [throw_error_reports]
  · intro arg0 arg1 t0 l1 ha h0 hk0
    apply hargs
    rw [check_main_args_two fuel v _ arg0 arg1 t0 l1
      (by rw [ASTObj.args_set_entry_point]; exact ha) h0]
    refine Run.reports_andThen_of_right _ _ _ () rfl ?_
    simp [throw_error_reports, hk0]
  · intro arg0 arg1 t0 t1 l1 l2 ha h0 hk0 h1 hp hb
    apply hargs
    rw [check_main_args_two fuel v _ arg0 arg1 t0 l1
      (by rw [ASTObj.args_set_entry_point]; exact ha) h0, h1]
    refine Run.reports_andThen_of_right _ _ _ () rfl ?_
    simp only [hk0, ne_eq, not_true_eq_false, if_false]
    refine Run.reports_andThen_of_right _ _ _ (some t1) rfl ?_
    simp [main_arg1_mismatch_eq t1 hb, hp, throw_error_reports]
  · intro ha
    have hmany := check_main_args_many fuel v main_fn.set_entry_point
      (by rw [ASTObj.args_set_entry_point]; exact ha)
    rw [ASTObj.args_set_entry_point] at hmany
    have hrep : (check_main_fn fuel v ast main_fn).reports .ERR_UNDEFINED_UNCR = true := by
      apply hargs
      rw [hmany, throw_error_reports]
      rfl
    refine ⟨hrep, ?_⟩
    rw [hrun, hmany]
    refine ⟨⟨.ERR_UNDEFINED_UNCR, main_fn.set_entry_point.tok,
      "expect 0 or 2 arguments for function `main`, got %ld",
      [.num main_fn.args.length]⟩, ?_, rfl, rfl⟩
    simp [Run.andThen, check_main_return_out, throw_error, force_exit]

theorem C20_rejected_entry_points_witness :
    ((check_main_fn 1 {} {} sample_main_i64).reports .ERR_TYPE_ERROR_UNCR = true) ∧
    ((check_main_fn 1 {} {} sample_main_bad_one).reports .ERR_TYPE_ERROR_UNCR = true) ∧
    ((check_main_fn 1 {} {} sample_main_bad_two).reports .ERR_TYPE_ERROR_UNCR = true) ∧
    ((check_main_fn 1 {} {} sample_main_three).reports .ERR_UNDEFINED_UNCR = true) :=
  ⟨(C20_rejected_entry_points 1 {} {} sample_main_i64 (plain .TY_I64 8) [] rfl).1
     (by decide),
   (C20_rejected_entry_points 1 {} {} sample_main_bad_one (plain .TY_I32 4) [] rfl).2.1
     _ (plain .TY_I64 8) [] rfl rfl rfl,
   (C20_rejected_entry_points 1 {} {} sample_main_bad_two (plain .TY_I32 4) [] rfl).2.2.2.1
     sample_argc _ (plain .TY_I32 4) (pointer_to (plain .TY_CHAR 1)) [] [] rfl rfl rfl rfl rfl
     (fun _ => ⟨plain .TY_CHAR 1, rfl, fun h => absurd h (by decide)⟩),
   ((C20_rejected_entry_points 1 {} {} sample_main_three (plain .TY_I32 4) [] rfl).2.2.2.2
     (by decide)).1⟩

/-! ## C25, C26: escapes in string and character literals -/

theorem string_lit_escape_iff (c : Int) : string_lit_escape c = true ↔ c ∈ escape_whitelist := by
  simp [string_lit_escape, escape_whitelist, or_assoc]

theorem str_at_lt (s : List Int) (i : Nat) (h : i < s.length) : str_at s i = s[i] := by
  simp [str_at, List.getD, List.getElem?_eq_getElem h]

theorem str_at_ge (s : List Int) (i : Nat) (h : s.length ≤ i) : str_at s i = 0 := by
  simp [str_at, List.getD, List.getElem?_eq_none h]

theorem has_rejected_escape_cons_ne (c : Int) (rest : List Int) (h : c ≠ c_backslash) :
    has_rejected_escape (c :: rest) = has_rejected_escape rest := by
  cases rest <;> simp [has_rejected_escape, h]

theorem has_rejected_escape_lone (c : Int) (h : c = c_backslash) :
    has_rejected_escape [c] = true := by
  simp [has_rejected_escape, h]

theorem has_rejected_escape_pair (c e : Int) (rest : List Int) (h : c = c_backslash) :
    has_rejected_escape (c :: e :: rest)
      = if e ∈ escape_whitelist then has_rejected_escape rest else true := by
  simp [has_rejected_escape, h]

/-- The loop of `string_lit` with enough iterations left: it returns, and it reports a
SyntaxError exactly when the rest of the string has a rejected escape. -/
theorem string_lit_loop_spec (tok : Token) (s : List Int) :
    ∀ (fuel i : Nat), s.length - i < fuel →
      (string_lit_loop tok s fuel i).out = .ok () ∧
      (string_lit_loop tok s fuel i).reports .ERR_SYNTAX_ERROR_UNCR
        = has_rejected_escape (s.drop i) := by
  intro fuel
  induction fuel with
  | zero =>
    intro i h
    omega
  | succ n ih =>
    intro i h
    rw [string_lit_loop]
    by_cases hi : i < s.length
    · rw [if_pos hi, List.drop_eq_getElem_cons hi, str_at_lt s i hi]
      by_cases hb : s[i] = c_backslash
      · rw [if_pos hb]
        by_cases hj : i + 1 < s.length
        · rw [str_at_lt s (i + 1) hj, List.drop_eq_getElem_cons hj]
          rw [has_rejected_escape_pair _ _ _ hb]
          by_cases hw : s[i + 1] ∈ escape_whitelist
          · rw [if_pos ((string_lit_escape_iff _).mpr hw), if_pos hw]
            exact ih (i + 1 + 1) (by omega)
          · have hw2 : ¬ string_lit_escape s[i + 1] = true :=
              fun h => hw ((string_lit_escape_iff _).mp h)
            rw [if_neg hw2, if_neg hw]
            exact ⟨rfl, by rw [throw_error_reports]; rfl⟩
        · have h0 : str_at s (i + 1) = 0 := str_at_ge s (i + 1) (by omega)
          have hd : s.drop (i + 1) = [] := List.drop_eq_nil_of_le (by omega)
          rw [h0, hd, has_rejected_escape_lone _ hb, if_neg (by decide)]
          exact ⟨rfl, by rw [throw_error_reports]; rfl⟩
      · rw [if_neg hb, has_rejected_escape_cons_ne _ _ hb]
        exact ih (i + 1) (by omega)
    · rw [if_neg hi, List.drop_eq_nil_of_le (by omega)]
      exact ⟨rfl, rfl⟩

/-- C25: for every string literal `string_lit` returns, and it reports a SyntaxError (of
the kind `ERR_SYNTAX_ERROR_UNCR`) if and only if, scanning left to right and consuming
each backslash together with the character after it, some backslash is followed by a
character outside the whitelist or by the end of the string.  So the string `ab\`, which
ends in a lone backslash, is rejected; the string `\\x`, an escaped backslash followed by
`x`, is accepted; the string `\x` is rejected. -/
theorem C25_string_escapes (str : ASTNode) :
    (string_lit str).returns = true ∧
    ((string_lit str).reports .ERR_SYNTAX_ERROR_UNCR = true ↔
      has_rejected_escape str.info.str_val = true) ∧
    (string_lit (literal .ND_STR "ab\\")).reports .ERR_SYNTAX_ERROR_UNCR = true ∧
    (string_lit (literal .ND_STR "\\\\x")).reports .ERR_SYNTAX_ERROR_UNCR = false ∧
    (string_lit (literal .ND_STR "\\x")).reports .ERR_SYNTAX_ERROR_UNCR = true := by
  obtain ⟨hout, hrep⟩ :=
    string_lit_loop_spec str.tok str.info.str_val (str.info.str_val.length + 1) 0 (by omega)
  refine ⟨?_, ?_, by decide, by decide, by decide⟩
  · simp [string_lit, Run.returns, hout]
  · unfold string_lit
    rw [hrep, List.drop_zero]

theorem C25_string_escapes_witness :
    (string_lit (literal .ND_STR "a\\q")).returns = true ∧
    (string_lit (literal .ND_STR "a\\q")).reports .ERR_SYNTAX_ERROR_UNCR = true ∧
    (string_lit (literal .ND_STR "a\\n")).reports .ERR_SYNTAX_ERROR_UNCR = false :=
  ⟨(C25_string_escapes (literal .ND_STR "a\\q")).1,
   (C25_string_escapes (literal .ND_STR "a\\q")).2.1.mpr (by decide),
   by
    have h := (C25_string_escapes (literal .ND_STR "a\\n")).2.1
    cases hr : (string_lit (literal .ND_STR "a\\n")).reports .ERR_SYNTAX_ERROR_UNCR with
    | false => rfl
    | true => exact absurd (h.mp hr) (by decide)⟩

theorem ASTNode.int_val_set_int_val (ch : ASTNode) (c : Int) :
    (ch.set_int_val c).info.int_val = c := by
  cases ch
  rfl

theorem char_lit_escape_table (e value : Int) (h : (e, value) ∈ escape_table) :
    char_lit_escape e = some value := by
  have hall : ∀ p ∈ escape_table, char_lit_escape p.1 = some p.2 := by decide
  exact hall (e, value) h

theorem char_lit_escape_other (e : Int) (h : e ∉ escape_whitelist) :
    char_lit_escape e = none := by
  simp only [escape_whitelist, List.mem_cons, List.mem_singleton, List.not_mem_nil, or_false,
    not_or] at h
  obtain ⟨h1, h2, h3, h4, h5, h6, h7, h8, h9, h10, h11⟩ := h
  simp [char_lit_escape, h1, h2, h3, h4, h5, h6, h7, h8, h9, h10, h11]

/-- C26: for every character literal: when its first character is not a backslash,
`char_lit` prints nothing and stores the code of that character as the value of the node;
when it is a backslash followed by a whitelisted escape character, `char_lit` prints
nothing and stores the code of the denoted character (`\a` 7, `\b` 8, `\t` 9, `\n` 10,
`\v` 11, `\f` 12, `\r` 13, `\0` 0, `\'` 39, `\"` 34, `\\` 92); when it is a backslash
followed by anything else (the end of the literal included), `char_lit` reports a
SyntaxError (of the kind `ERR_SYNTAX_ERROR_UNCR`) and returns the node unchanged. -/
theorem C26_character_folding (ch : ASTNode) :
    (∀ c rest, ch.info.str_val = c :: rest → c ≠ c_backslash →
      ∃ written, char_lit ch = Run.ret written ∧ written.info.int_val = c) ∧
    (∀ e value, str_at ch.info.str_val 0 = c_backslash → str_at ch.info.str_val 1 = e →
      (e, value) ∈ escape_table →
      ∃ written, char_lit ch = Run.ret written ∧ written.info.int_val = value) ∧
    (str_at ch.info.str_val 0 = c_backslash →
      str_at ch.info.str_val 1 ∉ escape_whitelist →
      (char_lit ch).reports .ERR_SYNTAX_ERROR_UNCR = true ∧
      (char_lit ch).out = .ok ch) := by
  refine ⟨?_, ?_, ?_⟩
  · intro c rest hs hc
    have h0 : str_at ch.info.str_val 0 = c := by rw [hs]; rfl
    refine ⟨ch.set_int_val c, ?_, ASTNode.int_val_set_int_val _ _⟩
    unfold char_lit
    simp only [h0, if_neg hc]
    rfl
  · intro e value h0 h1 ht
    refine ⟨ch.set_int_val value, ?_, ASTNode.int_val_set_int_val _ _⟩
    unfold char_lit
    simp only [h0, h1, if_true, char_lit_escape_table e value ht]
    rfl
  · intro h0 h1
    unfold char_lit
    simp only [h0, if_true, char_lit_escape_other _ h1]
    exact ⟨by simp [Run.reports, throw_error, Run.andThen, Run.bind_eq, force_exit], rfl⟩

theorem C26_character_folding_witness :
    (∃ written, char_lit (literal .ND_CHAR "a") = Run.ret written ∧
      written.info.int_val = 97) ∧
    (∃ written, char_lit (literal .ND_CHAR "\\n") = Run.ret written ∧
      written.info.int_val = 10) ∧
    ((char_lit (literal .ND_CHAR "\\x")).reports .ERR_SYNTAX_ERROR_UNCR = true ∧
      (char_lit (literal .ND_CHAR "\\x")).out = .ok (literal .ND_CHAR "\\x")) :=
  ⟨(C26_character_folding (literal .ND_CHAR "a")).1 97 [] (by decide) (by decide),
   (C26_character_folding (literal .ND_CHAR "\\n")).2.1 (c_char 'n') 10 (by decide)
     (by decide) (by decide),
   (C26_character_folding (literal .ND_CHAR "\\x")).2.2 (by decide) (by decide)⟩

/-! ## C21: the end of the pass -/

theorem validate_ast_end_globals (v : Validator) (g : Globals) :
    (validate_ast_end v g).globals
      = if v.main_function_found then g
        else { g with emitted_errors := (g.emitted_errors + 1) % 2 ^ 32 } := by
  unfold validate_ast_end
  cases v.main_function_found <;> simp only [Bool.not_false, Bool.not_true, if_true,
    Bool.false_eq_true, if_false] <;> split_ifs <;> rfl

theorem validate_ast_end_exits (v : Validator) (g : Globals) :
    (validate_ast_end v g).exits = true ↔ (validate_ast_end v g).globals.emitted_errors ≠ 0 := by
  unfold validate_ast_end
  cases v.main_function_found <;> simp only [Bool.not_false, Bool.not_true, if_true,
    Bool.false_eq_true, if_false] <;> split_ifs <;> simp_all

/-- C21: at the end of `validate_ast`, when no function named `main` was recorded
(`fn_end` records one for every function of that name it is called on, and for no other;
`init_validator` starts with none recorded) the error counter is increased by one (as a
32-bit unsigned number) and the missing entry point is printed, otherwise the counter is
left as it is; the process is then ended if and only if the error counter is not zero;
and when the error counter is zero the function returns, whatever the warning counter
is. -/
theorem C21_end_of_pass (v : Validator) (g : Globals) :
    (v.main_function_found = false →
      (validate_ast_end v g).globals.emitted_errors = (g.emitted_errors + 1) % 2 ^ 32 ∧
      (g.emitted_errors + 1 < 2 ^ 32 →
        (validate_ast_end v g).globals.emitted_errors = g.emitted_errors + 1 ∧
        (validate_ast_end v g).exits = true) ∧
      Summary.missing_entrypoint ∈ (validate_ast_end v g).printed) ∧
    (v.main_function_found = true →
      (validate_ast_end v g).globals.emitted_errors = g.emitted_errors) ∧
    (validate_ast_end v g).globals.emitted_warnings = g.emitted_warnings ∧
    ((validate_ast_end v g).exits = true ↔
      (validate_ast_end v g).globals.emitted_errors ≠ 0) ∧
    ((validate_ast_end v g).globals.emitted_errors = 0 →
      (validate_ast_end v g).exits = false) ∧
    init_validator.main_function_found = false ∧
    (∀ fuel ast fn v2 ast2 fn2, (fn_end_main fuel v ast fn).out = .ok (v2, ast2, fn2) →
      v2.main_function_found = (v.main_function_found || decide (fn.id.callee = "main"))) := by
  have hg := validate_ast_end_globals v g
  have he := validate_ast_end_exits v g
  refine ⟨?_, ?_, ?_, he, ?_, rfl, ?_⟩
  · intro hm
    rw [hm] at hg
    simp only [Bool.false_eq_true, if_false] at hg
    have h1 : (validate_ast_end v g).globals.emitted_errors = (g.emitted_errors + 1) % 2 ^ 32 := by
      rw [hg]
    refine ⟨h1, ?_, ?_⟩
    · intro hlt
      have h2 : (validate_ast_end v g).globals.emitted_errors = g.emitted_errors + 1 := by
        rw [h1, Nat.mod_eq_of_lt hlt]
      exact ⟨h2, he.mpr (by rw [h2]; omega)⟩
    · unfold validate_ast_end
      simp only [hm, Bool.not_false, if_true]
      split_ifs <;> simp
  · intro hm
    rw [hm] at hg
    simp only [if_true] at hg
    rw [hg]
  · rw [hg]
    split_ifs <;> rfl
  · intro h0
    cases hx : (validate_ast_end v g).exits with
    | false => rfl
    | true => exact absurd h0 (he.mp hx)
  · intro fuel ast fn v2 ast2 fn2 h
    unfold fn_end_main at h
    by_cases hn : fn.id.callee = "main"
    · simp only [hn, if_true, Run.bind_eq, Run.pure_eq] at h
      cases hc : (check_main_fn fuel { v with main_function_found := true } ast fn).out with
      | ok checked =>
        rw [Run.andThen_out_ok _ _ _ hc] at h
        simp only [Run.ret, Outcome.ok.injEq, Prod.mk.injEq] at h
        rw [← h.1]
        simp [hn]
      | exited => simp [Run.andThen, hc] at h
      | segv => simp [Run.andThen, hc] at h
      | diverge => simp [Run.andThen, hc] at h
    · simp only [hn, if_false, Run.pure_eq, Run.ret, Outcome.ok.injEq, Prod.mk.injEq] at h
      rw [← h.1]
      simp [hn]

theorem C21_end_of_pass_witness :
    ((validate_ast_end {} { emitted_errors := 0, emitted_warnings := 3 }).exits = true) ∧
    ((validate_ast_end { main_function_found := true }
        { emitted_errors := 0, emitted_warnings := 3 }).exits = false) ∧
    ((validate_ast_end { main_function_found := true }
        { emitted_errors := 0, emitted_warnings := 3 }).printed = [.warnings 3]) ∧
    ((validate_ast_end { main_function_found := true }
        { emitted_errors := 2, emitted_warnings := 3 }).exits = true) :=
  ⟨((C21_end_of_pass {} { emitted_errors := 0, emitted_warnings := 3 }).1 rfl).2.1
      (by decide) |>.2,
   (C21_end_of_pass { main_function_found := true }
      { emitted_errors := 0, emitted_warnings := 3 }).2.2.2.2.1 rfl,
   rfl,
   (C21_end_of_pass { main_function_found := true }
      { emitted_errors := 2, emitted_warnings := 3 }).2.2.2.1.mpr (by decide)⟩

/-! ## C27: values of enumeration members -/

theorem ASTObj.int_val_set_value (member : ASTObj) (value : ASTNode) (x : Int) :
    (member.set_value (value.set_enum_value x)).int_val = x := by
  cases member
  cases value
  rfl

theorem Run.andThen_ok_inv {α β : Type} (x : Run α) (f : α → Run β) (b : β)
    (h : (x.andThen f).out = .ok b) : ∃ a, x.out = .ok a ∧ (f a).out = .ok b := by
  cases hx : x.out with
  | ok a => exact ⟨a, rfl, by rw [Run.andThen_out_ok _ _ _ hx] at h; exact h⟩
  | exited => simp [Run.andThen, hx] at h
  | segv => simp [Run.andThen, hx] at h
  | diverge => simp [Run.andThen, hx] at h

/-- The loop of `enum_type`: it returns when every member has a value node and the constant
evaluator returns for every initializer, and the values it writes follow the rule. -/
theorem enum_type_loop_spec (P : Platform) (const_of : ASTNode → Int)
    (members : List ASTObj) :
    ∀ (i : Nat) (prev : Int),
      (∀ m ∈ members, ∃ value, m.value = some value ∧
        (value.kind ≠ .ND_NOOP → (P.const_i64 value).out = .ok (const_of value))) →
      ∃ written, (enum_type_loop P i prev members).out = .ok written ∧
        written.length = members.length ∧
        enum_values_rule const_of (if i = 0 then none else some prev) members
          (written.map ASTObj.int_val) := by
  induction members with
  | nil =>
    intro i prev _
    exact ⟨[], rfl, rfl, trivial⟩
  | cons member rest ih =>
    intro i prev h
    obtain ⟨value, hv, hc⟩ := h member (List.mem_cons_self _ _)
    have hrest := fun m hm => h m (List.mem_cons_of_mem _ hm)
    rw [enum_type_loop]
    simp only [hv, Run.bind_eq, Run.pure_eq]
    by_cases hk : value.kind ≠ .ND_NOOP
    · obtain ⟨written, hw, hlen, hrule⟩ := ih (i + 1) (i32 (const_of value)) hrest
      refine ⟨member.set_value (value.set_enum_value (i32 (const_of value))) :: written,
        ?_, by simp [hlen], ?_⟩
      · rw [if_pos hk]
        rw [Run.andThen_out_ok _ _ (i32 (const_of value))
          (by rw [Run.andThen_out_ok _ _ _ (hc hk)]; rfl)]
        rw [Run.andThen_out_ok _ _ _ hw]
        rfl
      · simp only [List.map_cons, ASTObj.int_val_set_value, enum_values_rule, hv, if_pos hk,
          true_and]
        simpa using hrule
    · obtain ⟨written, hw, hlen, hrule⟩ :=
        ih (i + 1) (if i ≠ 0 then i32 (prev + 1) else 0) hrest
      refine ⟨member.set_value (value.set_enum_value (if i ≠ 0 then i32 (prev + 1) else 0))
        :: written, ?_, by simp [hlen], ?_⟩
      · rw [if_neg hk]
        rw [Run.ret_andThen, Run.andThen_out_ok _ _ _ hw]
        rfl
      · simp only [List.map_cons, ASTObj.int_val_set_value, enum_values_rule, hv, if_neg hk]
        refine ⟨?_, by simpa using hrule⟩
        by_cases hi : i = 0
        · simp [hi]
        · simp [hi]

theorem enum_values_rule_length (const_of : ASTNode → Int) (members : List ASTObj) :
    ∀ (prev : Option Int) (xs : List Int), enum_values_rule const_of prev members xs →
      xs.length = members.length := by
  induction members with
  | nil =>
    intro prev xs h
    cases xs with
    | nil => rfl
    | cons x xs => exact absurd h (by simp [enum_values_rule])
  | cons m rest ih =>
    intro prev xs h
    cases xs with
    | nil => exact absurd h (by simp [enum_values_rule])
    | cons x xs =>
      simp only [enum_values_rule] at h
      simp [ih _ _ h.2]

/-- A run of members without initializer counts up from the value before it. -/
theorem enum_values_rule_run (const_of : ASTNode → Int) (members : List ASTObj) :
    ∀ (prev : Option Int) (xs : List Int) (base : Int),
      (∀ m ∈ members, m.has_initializer = false) →
      enum_values_rule const_of prev members xs →
      base = (match prev with
        | none => 0
        | some p => p + 1) →
      -2 ^ 31 ≤ base → base + members.length ≤ 2 ^ 31 →
      ∀ j, j < members.length → xs[j]? = some (base + j) := by
  induction members with
  | nil => intro prev xs base _ _ _ _ _ j hj; simp at hj
  | cons m rest ih =>
    intro prev xs base hno h hb hlo hhi j hj
    cases xs with
    | nil => exact absurd h (by simp [enum_values_rule])
    | cons x xs =>
      simp only [enum_values_rule] at h
      obtain ⟨hx, hrest⟩ := h
      have hm := hno m (List.mem_cons_self _ _)
      simp only [List.length_cons, Nat.cast_add, Nat.cast_one] at hhi
      have hx2 : x = base := by
        cases hv : m.value with
        | none => simp [hv] at hx
        | some value =>
          have hk : ¬ value.kind ≠ .ND_NOOP := by
            simpa [ASTObj.has_initializer, hv] using hm
          simp only [hv, if_neg hk] at hx
          cases prev with
          | none => simpa [hb] using hx
          | some p =>
            simp only at hx hb
            rw [hx, hb]
            exact i32_eq _ (by omega) (by omega)
      cases j with
      | zero => simp [hx2]
      | succ j =>
        have := ih (some x) xs (x + 1) (fun r hr => hno r (List.mem_cons_of_mem _ hr)) hrest
          rfl (by omega) (by omega) j (by simpa using hj)
        simp only [List.getElem?_cons_succ, this, hx2, Nat.cast_add, Nat.cast_one]
        congr 1
        omega

theorem enum_values_rule_append (const_of : ASTNode → Int) (pre : List ASTObj) :
    ∀ (prev : Option Int) (rest : List ASTObj) (xs : List Int),
      enum_values_rule const_of prev (pre ++ rest) xs →
      ∃ xa xb, xs = xa ++ xb ∧ xa.length = pre.length ∧
        enum_values_rule const_of prev pre xa ∧
        enum_values_rule const_of
          (match xa.getLast? with
           | some x => some x
           | none => prev) rest xb := by
  induction pre with
  | nil =>
    intro prev rest xs h
    exact ⟨[], xs, rfl, rfl, trivial, h⟩
  | cons m pre ih =>
    intro prev rest xs h
    cases xs with
    | nil => exact absurd h (by simp [enum_values_rule])
    | cons x xs =>
      simp only [List.cons_append, enum_values_rule] at h
      obtain ⟨xa, xb, hxs, hlen, hpre, hrule⟩ := ih (some x) rest xs h.2
      refine ⟨x :: xa, xb, by rw [hxs]; rfl, by simp [hlen], ?_, ?_⟩
      · simp only [enum_values_rule]
        exact ⟨h.1, hpre⟩
      · cases xa with
        | nil => simpa using hrule
        | cons y ys =>
          simp only [List.getLast?_cons_cons]
          exact hrule

/-- C27: for every enumeration type whose members all carry a value node and whose
initializers the constant evaluator evaluates, `enum_type` returns, and afterwards every
member with an explicit initializer has the value of the constant evaluator converted to
32 bits, and every member without one has the value of its predecessor plus one
(in 32 bits), or 0 if it is the first member.  Hence, in an enumeration without explicit
initializers the member at index `i` has the value `i`; and after a member with the
explicit value `k` the `j`-th following member of a run without initializers has the value
`k + j`, as long as these values stay below `2 ^ 31`. -/
theorem C27_enum_values (P : Platform) (v : Validator) (e_type : ASTType)
    (const_of : ASTNode → Int)
    (h : ∀ m ∈ e_type.enum_members, ∃ value, m.value = some value ∧
      (value.kind ≠ .ND_NOOP → (P.const_i64 value).out = .ok (const_of value))) :
    ∃ v2 written, (enum_type P v e_type).out = .ok (v2, e_type.set_enum_members written) ∧
      enum_values_rule const_of none e_type.enum_members (written.map ASTObj.int_val) ∧
      ((∀ m ∈ e_type.enum_members, m.has_initializer = false) →
        e_type.enum_members.length ≤ 2 ^ 31 →
        ∀ i, i < e_type.enum_members.length →
          (written.map ASTObj.int_val)[i]? = some (i : Int)) ∧
      (∀ pre m run post, e_type.enum_members = pre ++ m :: (run ++ post) →
        m.has_initializer = true → (∀ r ∈ run, r.has_initializer = false) →
        ∃ k : Int, (written.map ASTObj.int_val)[pre.length]? = some k ∧
          (m.value.map (fun value => i32 (const_of value))) = some k ∧
          (k + run.length < 2 ^ 31 → ∀ j, j < run.length →
            (written.map ASTObj.int_val)[pre.length + 1 + j]? = some (k + (j + 1)))) := by
  obtain ⟨written, hw, -, hrule⟩ := enum_type_loop_spec P const_of e_type.enum_members 0 0 h
  simp only [if_true] at hrule
  have hscope := scope_add_objs_out e_type.enum_members (begin_scope v none) v.current_scope []
    none rfl
  have hout : ∃ v2, (enum_type P v e_type).out
      = .ok (v2, e_type.set_enum_members written) := by
    obtain ⟨v2, hv2⟩ : ∃ v2, (end_scope { begin_scope v none with
        current_scope := some (VScope.mk v.current_scope ([] ++ e_type.enum_members) none) }).out
        = .ok v2 := ⟨_, rfl⟩
    refine ⟨v2, ?_⟩
    unfold enum_type begin_obj_scope
    simp only [Run.bind_eq, Run.pure_eq]
    rw [Run.andThen_out_ok _ _ _ hscope, Run.andThen_out_ok _ _ _ hv2,
      Run.andThen_out_ok _ _ _ hw]
    rfl
  obtain ⟨v2, hout⟩ := hout
  refine ⟨v2, written, hout, hrule, ?_, ?_⟩
  · intro hno hlen i hi
    have := enum_values_rule_run const_of e_type.enum_members none _ 0 hno hrule rfl
      (by norm_num) (by simpa using hlen) i hi
    simpa using this
  · intro pre m run post hsplit hm hno
    rw [hsplit] at hrule
    obtain ⟨xa, xb, hxs, hxa, -, hrest⟩ := enum_values_rule_append const_of pre none _ _ hrule
    cases xb with
    | nil => exact absurd hrest (by simp [enum_values_rule])
    | cons k xb =>
      simp only [enum_values_rule] at hrest
      obtain ⟨hk, hrest2⟩ := hrest
      obtain ⟨xr, xp, hxb, hxr, hrun, -⟩ :=
        enum_values_rule_append const_of run (some k) post xb hrest2
      have hk0 : (written.map ASTObj.int_val)[pre.length]? = some k := by
        rw [hxs, ← hxa, List.getElem?_append_right (le_refl _)]
        simp
      refine ⟨k, hk0, ?_, ?_⟩
      · cases hv : m.value with
        | none => simp [ASTObj.has_initializer, hv] at hm
        | some value =>
          have hkind : value.kind ≠ .ND_NOOP := by
            simpa [ASTObj.has_initializer, hv] using hm
          simp only [hv, if_pos hkind] at hk
          simp [hk]
      · intro hlt j hj
        have hj2 := enum_values_rule_run const_of run (some k) xr (k + 1) hno hrun rfl
          (by
            cases hv : m.value with
            | none => simp [ASTObj.has_initializer, hv] at hm
            | some value =>
              have hkind : value.kind ≠ .ND_NOOP := by
                simpa [ASTObj.has_initializer, hv] using hm
              simp only [hv, if_pos hkind] at hk
              have := (Int.emod_nonneg (const_of value + 2 ^ 31) (by norm_num : (2 : Int) ^ 32 ≠ 0))
              rw [hk]
              unfold i32 wrap
              norm_num at this ⊢
              omega)
          (by omega) j hj
        rw [hxs, hxb, show pre.length + 1 + j = xa.length + (1 + j) by omega,
          List.getElem?_append_right (by omega)]
        simp only [Nat.add_sub_cancel_left, show 1 + j = j + 1 by omega,
          List.getElem?_cons_succ]
        rw [List.getElem?_append_left (by omega), hj2]
        congr 1
        omega

theorem C27_enum_values_witness :
    ((enum_type sample_platform {} sample_enum).value?.map
        (fun r => r.2.enum_members.map ASTObj.int_val) = some [0, 1, 10, 11, 12]) ∧
    ∃ v2 written, (enum_type sample_platform {} sample_enum).out
        = .ok (v2, sample_enum.set_enum_members written) ∧
      enum_values_rule ASTNode.offset none sample_enum.enum_members
        (written.map ASTObj.int_val) ∧
      ((∀ m ∈ sample_enum.enum_members, m.has_initializer = false) →
        sample_enum.enum_members.length ≤ 2 ^ 31 →
        ∀ i, i < sample_enum.enum_members.length →
          (written.map ASTObj.int_val)[i]? = some (i : Int)) ∧
      (∀ pre m run post, sample_enum.enum_members = pre ++ m :: (run ++ post) →
        m.has_initializer = true → (∀ r ∈ run, r.has_initializer = false) →
        ∃ k : Int, (written.map ASTObj.int_val)[pre.length]? = some k ∧
          (m.value.map (fun value => i32 (ASTNode.offset value))) = some k ∧
          (k + run.length < 2 ^ 31 → ∀ j, j < run.length →
            (written.map ASTObj.int_val)[pre.length + 1 + j]? = some (k + (j + 1)))) :=
  ⟨by decide,
   C27_enum_values sample_platform {} sample_enum ASTNode.offset (by
     intro m hm
     simp only [sample_enum, enum_of, ASTType.enum_members, List.mem_cons, List.mem_singleton,
       List.not_mem_nil, or_false] at hm
     rcases hm with rfl | rfl | rfl | rfl | rfl <;> exact ⟨_, rfl, fun _ => rfl⟩)⟩

/-! ## C28: the type of comparisons and logical operators -/

theorem lt_gt_right_accepted (P : Platform) (fuel : Nat) (v : Validator) (op written : ASTNode)
    (h : (lt_gt_right P fuel v op).out = .ok written)
    (hno : (lt_gt_right P fuel v op).reports .ERR_TYPE_ERROR = false) :
    written.data_type = some (P.primitives .TY_BOOL) := by
  unfold lt_gt_right at h hno
  cases hr : op.right with
  | none => simp [hr, Run.null_deref] at h
  | some right =>
    simp only [hr, Run.bind_eq] at h hno
    obtain ⟨rejects, hx, hf⟩ := Run.andThen_ok_inv _ _ _ h
    rw [Run.reports_andThen_iff _ _ _ rejects hx] at hno
    simp only [Bool.or_eq_false_iff] at hno
    cases rejects with
    | true =>
      have := hno.2
      simp [Run.reports, throw_error, Run.andThen, Run.bind_eq, force_exit] at this
    | false =>
      simp only [Bool.false_eq_true, if_false, Run.pure_eq, Run.ret, Outcome.ok.injEq] at hf
      rw [← hf, ASTNode.data_type_set_data_type]

theorem lt_gt_accepted (P : Platform) (fuel : Nat) (v : Validator) (op written : ASTNode)
    (h : (lt_gt P fuel v op).out = .ok written)
    (hno : (lt_gt P fuel v op).reports .ERR_TYPE_ERROR = false) :
    written.data_type = some (P.primitives .TY_BOOL) := by
  unfold lt_gt at h hno
  cases hl : op.left with
  | none => simp [hl, Run.null_deref] at h
  | some left =>
    simp only [hl, Run.bind_eq] at h hno
    obtain ⟨rejects, hx, hf⟩ := Run.andThen_ok_inv _ _ _ h
    rw [Run.reports_andThen_iff _ _ _ rejects hx] at hno
    simp only [Bool.or_eq_false_iff] at hno
    cases rejects with
    | true =>
      have := hno.2
      simp [Run.reports, throw_error, Run.andThen, Run.bind_eq, force_exit] at this
    | false =>
      simp only [Bool.false_eq_true, if_false] at hf hno
      exact lt_gt_right_accepted P fuel v op written hf hno.2

/-- C28, counterexample: the end callback of `&&` is `and_or`, and for the expression
`1 && 2`, both operands of type `i32`, it stores the type `i32` of the left operand in the
node, not the boolean type. -/
theorem C28_boolean_results_counterexample :
    main_iterator_list.node_end_fns .ND_AND = some .and_or ∧
    and_or (binary .ND_AND (int_lit 1) (int_lit 2))
      = Run.ret ((binary .ND_AND (int_lit 1) (int_lit 2)).set_data_type
          (some (plain .TY_I32 4))) ∧
    (plain .TY_I32 4).kind ≠ .TY_BOOL :=
  ⟨rfl, rfl, by decide⟩

/-- C28, amended: the end callbacks are `equals` for `==` and `!=`, `lt_gt` for `<`, `<=`,
`>` and `>=`, `not` for `!`, and `and_or` for `&&` and `||`.  After `equals` and `not` the
type of the node is the boolean type `primitives[TY_BOOL]`, whatever the operands are;
after `lt_gt`, when it returns without a TypeError, the type of the node is the boolean
type; after `and_or` the type of the node is the type of its left operand. -/
theorem C28_boolean_results_amended (P : Platform) (fuel : Nat) (v : Validator)
    (node : ASTNode) :
    (main_iterator_list.node_end_fns .ND_EQ = some .equals ∧
      main_iterator_list.node_end_fns .ND_NE = some .equals ∧
      main_iterator_list.node_end_fns .ND_LT = some .lt_gt ∧
      main_iterator_list.node_end_fns .ND_LE = some .lt_gt ∧
      main_iterator_list.node_end_fns .ND_GT = some .lt_gt ∧
      main_iterator_list.node_end_fns .ND_GE = some .lt_gt ∧
      main_iterator_list.node_end_fns .ND_NOT = some .not ∧
      main_iterator_list.node_end_fns .ND_AND = some .and_or ∧
      main_iterator_list.node_end_fns .ND_OR = some .and_or) ∧
    (equals P node).data_type = some (P.primitives .TY_BOOL) ∧
    (not P node).data_type = some (P.primitives .TY_BOOL) ∧
    (∀ written, (lt_gt P fuel v node).out = .ok written →
      (lt_gt P fuel v node).reports .ERR_TYPE_ERROR = false →
      written.data_type = some (P.primitives .TY_BOOL)) ∧
    (∀ left, node.left = some left →
      and_or node = Run.ret (node.set_data_type left.data_type)) := by
  refine ⟨⟨rfl, rfl, rfl, rfl, rfl, rfl, rfl, rfl, rfl⟩, ?_, ?_, ?_, ?_⟩
  · exact ASTNode.data_type_set_data_type _ _
  · exact ASTNode.data_type_set_data_type _ _
  · exact fun written h hno => lt_gt_accepted P fuel v node written h hno
  · intro left hl
    unfold and_or
    rw [hl]
    rfl

theorem C28_boolean_results_amended_witness :
    ((lt_gt sample_platform 1 {} (binary .ND_LT (int_lit 1) (int_lit 2))).out
        = .ok ((binary .ND_LT (int_lit 1) (int_lit 2)).set_data_type
            (some (sample_platform.primitives .TY_BOOL)))) ∧
    ((lt_gt sample_platform 1 {} (binary .ND_LT (int_lit 1) (int_lit 2))).reports
        .ERR_TYPE_ERROR = false) ∧
    (((binary .ND_LT (int_lit 1) (int_lit 2)).set_data_type
        (some (sample_platform.primitives .TY_BOOL))).data_type
      = some (sample_platform.primitives .TY_BOOL)) ∧
    (and_or (binary .ND_OR (int_lit 1) (int_lit 2))
      = Run.ret ((binary .ND_OR (int_lit 1) (int_lit 2)).set_data_type
          (int_lit 1).data_type)) :=
  ⟨rfl, rfl,
   (C28_boolean_results_amended sample_platform 1 {}
      (binary .ND_LT (int_lit 1) (int_lit 2))).2.2.2.1 _ rfl rfl,
   (C28_boolean_results_amended sample_platform 1 {}
      (binary .ND_OR (int_lit 1) (int_lit 2))).2.2.2.2 (int_lit 1) rfl⟩

/-! ## C22-C24: return analysis -/

theorem Run.value?_eq_some {α : Type} (x : Run α) (a : α) :
    x.value? = some a ↔ x.out = .ok a := by
  unfold Run.value?
  cases x.out <;> simp

theorem Run.value?_andThen {α β : Type} (x : Run α) (f : α → Run β) (b : β) :
    (x.andThen f).value? = some b ↔ ∃ a, x.value? = some a ∧ (f a).value? = some b := by
  simp only [Run.value?_eq_some]
  constructor
  · exact Run.andThen_ok_inv x f b
  · rintro ⟨a, ha, hb⟩
    rw [Run.andThen_out_ok _ _ _ ha]
    exact hb

theorem stmt_returns_value_eq (info : NodeInfo) (dt : Option ASTType) (e : Option ASTNode)
    (args : List ASTNode) (l r body init_stmt : Option ASTNode) (stmts : List ASTNode)
    (locals : List ASTObj) :
    stmt_returns_value (.mk info dt e args l r body init_stmt stmts locals)
      = (match info.kind with
        | .ND_RETURN => pure true
        | .ND_BLOCK => stmt_returns_value_stmts stmts
        | .ND_IF =>
          (stmt_returns_value_ptr body).andThen fun if_returns =>
            if if_returns && init_stmt.isSome then stmt_returns_value_ptr init_stmt
            else pure false
        | .ND_LOOP | .ND_FOR | .ND_WHILE => stmt_returns_value_ptr body
        | .ND_MATCH =>
          match body with
          | none => pure false
          | some default_case =>
            (stmt_returns_value_cases args).andThen fun cases_return =>
              if cases_return = args.length then stmt_returns_value_ptr default_case.body
              else pure false
        | _ => pure false) := by
  obtain ⟨k, t, id, o, iv, sv⟩ := info
  cases k <;> first
    | rfl
    | (cases body with
       | none => rfl
       | some d => cases d; rfl)

theorem stmt_returns_value_stmts_cons (stmt : ASTNode) (rest : List ASTNode) :
    stmt_returns_value_stmts (stmt :: rest)
      = (stmt_returns_value stmt).andThen fun returns =>
          if returns then (unreachable_after rest).andThen fun _ => pure true
          else stmt_returns_value_stmts rest := rfl

theorem stmt_returns_value_cases_cons (case : ASTNode) (rest : List ASTNode) :
    stmt_returns_value_cases (case :: rest)
      = (stmt_returns_value_ptr case.body).andThen fun returns =>
          (stmt_returns_value_cases rest).andThen fun cases_return =>
            pure (if returns then cases_return + 1 else cases_return) := by
  cases case
  rfl

theorem control_paths_eq (info : NodeInfo) (dt : Option ASTType) (e : Option ASTNode)
    (args : List ASTNode) (l r body init_stmt : Option ASTNode) (stmts : List ASTNode)
    (locals : List ASTObj) :
    control_paths (.mk info dt e args l r body init_stmt stmts locals)
      = (match info.kind with
        | .ND_RETURN => [.returns]
        | .ND_BREAK => [.breaks]
        | .ND_CONTINUE => [.continues]
        | .ND_BLOCK => control_paths_stmts stmts
        | .ND_IF => control_paths_ptr body ++
            (match init_stmt with
             | none => [.falls]
             | some else_branch => control_paths else_branch)
        | .ND_WHILE | .ND_FOR => loop_paths true (control_paths_ptr body)
        | .ND_LOOP => loop_paths false (control_paths_ptr body)
        | .ND_MATCH =>
          control_paths_cases args ++
            (match body with
             | none => [.falls]
             | some default_case => control_paths_ptr default_case.body)
        | _ => [.falls]) := by
  obtain ⟨k, t, id, o, iv, sv⟩ := info
  cases k <;> first
    | rfl
    | (cases init_stmt <;> rfl)
    | (cases body with
       | none => rfl
       | some d => cases d; rfl)

theorem control_paths_stmts_cons (stmt : ASTNode) (rest : List ASTNode) :
    control_paths_stmts (stmt :: rest)
      = (control_paths stmt).filter (fun c => c != .falls) ++
          (if (control_paths stmt).contains .falls then control_paths_stmts rest else []) :=
  rfl

theorem control_paths_cases_cons (case : ASTNode) (rest : List ASTNode) :
    control_paths_cases (case :: rest)
      = control_paths_ptr case.body ++ control_paths_cases rest := by
  cases case
  rfl

theorem exit_free_eq (info : NodeInfo) (dt : Option ASTType) (e : Option ASTNode)
    (args : List ASTNode) (l r body init_stmt : Option ASTNode) (stmts : List ASTNode)
    (locals : List ASTObj) (in_loop : Bool) :
    exit_free (.mk info dt e args l r body init_stmt stmts locals) in_loop
      = (match info.kind with
        | .ND_WHILE | .ND_FOR | .ND_BREAK => false
        | .ND_CONTINUE => in_loop
        | .ND_LOOP => exit_free_ptr body true
        | .ND_BLOCK => exit_free_nodes stmts in_loop
        | .ND_IF => exit_free_ptr body in_loop && exit_free_ptr init_stmt in_loop
        | .ND_MATCH =>
          exit_free_cases args in_loop &&
            (match body with
             | none => true
             | some default_case => exit_free_ptr default_case.body in_loop)
        | _ => true) := by
  obtain ⟨k, t, id, o, iv, sv⟩ := info
  cases k <;> first
    | rfl
    | (cases body with
       | none => rfl
       | some d => cases d; rfl)

theorem exit_free_cases_cons (case : ASTNode) (rest : List ASTNode) (in_loop : Bool) :
    exit_free_cases (case :: rest) in_loop
      = (exit_free_ptr case.body in_loop && exit_free_cases rest in_loop) := by
  cases case
  rfl

theorem loop_stmt_free_eq (info : NodeInfo) (dt : Option ASTType) (e : Option ASTNode)
    (args : List ASTNode) (l r body init_stmt : Option ASTNode) (stmts : List ASTNode)
    (locals : List ASTObj) :
    loop_stmt_free (.mk info dt e args l r body init_stmt stmts locals)
      = (match info.kind with
        | .ND_LOOP => false
        | .ND_BLOCK => loop_stmt_free_nodes stmts
        | .ND_IF => loop_stmt_free_ptr body && loop_stmt_free_ptr init_stmt
        | .ND_MATCH =>
          loop_stmt_free_cases args &&
            (match body with
             | none => true
             | some default_case => loop_stmt_free_ptr default_case.body)
        | _ => true) := by
  obtain ⟨k, t, id, o, iv, sv⟩ := info
  cases k <;> first
    | rfl
    | (cases body with
       | none => rfl
       | some d => cases d; rfl)

theorem loop_stmt_free_cases_cons (case : ASTNode) (rest : List ASTNode) :
    loop_stmt_free_cases (case :: rest)
      = (loop_stmt_free_ptr case.body && loop_stmt_free_cases rest) := by
  cases case
  rfl

/-- A path set of falls and returns only. -/
theorem loop_paths_plain (may_skip : Bool) (body : List Completion)
    (c : Completion) (hc : c ∈ loop_paths may_skip body) : c = .falls ∨ c = .returns := by
  unfold loop_paths at hc
  rw [List.mem_append] at hc
  rcases hc with h | h
  · split_ifs at h <;> simp_all
  · split_ifs at h <;> simp_all

/-- A loop that is never left by `break` does not fall through. -/
theorem loop_paths_no_break (body : List Completion) (hb : Completion.breaks ∉ body) :
    Completion.falls ∉ loop_paths false body := by
  unfold loop_paths
  have hc : body.contains .breaks = false := by
    rw [Bool.eq_false_iff]
    intro h
    exact hb (by simpa using h)
  simp only [Bool.false_or, hc, Bool.false_eq_true, if_false, List.nil_append]
  split_ifs <;> simp

mutual
theorem exit_free_paths : ∀ (node : ASTNode) (b : Bool), exit_free node b = true →
    ∀ c ∈ control_paths node, c = .falls ∨ c = .returns ∨ (c = .continues ∧ b = true)
  | .mk info dt e args l r body init_stmt stmts locals, b => by
    intro hlf c hc
    rw [exit_free_eq] at hlf
    rw [control_paths_eq] at hc
    cases hk : info.kind <;> simp only [hk] at hlf hc <;>
      first
      | (simp only [List.mem_singleton] at hc; simp [hc, hlf]; done)
      | exact absurd hlf (by decide)
      | skip
    · exact exit_free_paths_nodes stmts b hlf c hc
    · rw [Bool.and_eq_true] at hlf
      rw [List.mem_append] at hc
      rcases hc with h | h
      · exact exit_free_paths_ptr body b hlf.1 c h
      · exact exit_free_paths_ptr init_stmt b hlf.2 c (by
          cases init_stmt with
          | none => exact h
          | some else_branch => exact h)
    · rcases loop_paths_plain false _ c hc with h | h
      · exact Or.inl h
      · exact Or.inr (Or.inl h)
    · rw [Bool.and_eq_true] at hlf
      rw [List.mem_append] at hc
      rcases hc with h | h
      · exact exit_free_paths_cases args b hlf.1 c h
      · cases body with
        | none => simp only [List.mem_singleton] at h; exact Or.inl h
        | some default_case =>
          cases default_case with
          | mk i2 dt2 e2 a2 l2 r2 default_body s2 st2 lo2 =>
            exact exit_free_paths_ptr default_body b hlf.2 c h
theorem exit_free_paths_ptr : ∀ (node : Option ASTNode) (b : Bool),
    exit_free_ptr node b = true →
    ∀ c ∈ control_paths_ptr node, c = .falls ∨ c = .returns ∨ (c = .continues ∧ b = true)
  | none, _ => by
    intro _ c hc
    simp only [control_paths_ptr, List.mem_singleton] at hc
    exact Or.inl hc
  | some node, b => fun hlf c hc => exit_free_paths node b hlf c hc
theorem exit_free_paths_nodes : ∀ (nodes : List ASTNode) (b : Bool),
    exit_free_nodes nodes b = true →
    ∀ c ∈ control_paths_stmts nodes, c = .falls ∨ c = .returns ∨ (c = .continues ∧ b = true)
  | [], _ => by
    intro _ c hc
    simp only [control_paths_stmts, List.mem_singleton] at hc
    exact Or.inl hc
  | node :: rest, b => by
    intro hlf c hc
    rw [exit_free_nodes, Bool.and_eq_true] at hlf
    rw [control_paths_stmts_cons, List.mem_append] at hc
    rcases hc with h | h
    · exact exit_free_paths node b hlf.1 c (List.mem_of_mem_filter h)
    · split_ifs at h
      · exact exit_free_paths_nodes rest b hlf.2 c h
      · simp at h
theorem exit_free_paths_cases : ∀ (cases : List ASTNode) (b : Bool),
    exit_free_cases cases b = true →
    ∀ c ∈ control_paths_cases cases, c = .falls ∨ c = .returns ∨ (c = .continues ∧ b = true)
  | [], _ => by
    intro _ c hc
    simp [control_paths_cases] at hc
  | .mk i2 dt2 e2 a2 l2 r2 body s2 st2 lo2 :: rest, b => by
    intro hlf c hc
    rw [exit_free_cases_cons, Bool.and_eq_true] at hlf
    rw [control_paths_cases_cons, List.mem_append] at hc
    rcases hc with h | h
    · exact exit_free_paths_ptr body b hlf.1 c h
    · exact exit_free_paths_cases rest b hlf.2 c h
end

theorem stmt_returns_value_cases_count : ∀ (cases : List ASTNode) (n : Nat),
    (stmt_returns_value_cases cases).value? = some n →
    n ≤ cases.length ∧
      (n = cases.length ↔ ∀ c ∈ cases, (stmt_returns_value_ptr c.body).value? = some true)
  | [], n => by
    intro h
    have hn : n = 0 := by
      simpa [stmt_returns_value_cases, Run.value?, Run.ret] using h.symm
    subst hn
    simp
  | case :: rest, n => by
    intro h
    rw [stmt_returns_value_cases_cons, Run.value?_andThen] at h
    obtain ⟨r, hr, h⟩ := h
    rw [Run.value?_andThen] at h
    obtain ⟨m, hm, h⟩ := h
    have hn : n = if r then m + 1 else m := by
      simpa [Run.value?, Run.ret] using h.symm
    obtain ⟨hle, hiff⟩ := stmt_returns_value_cases_count rest m hm
    cases r with
    | true =>
      simp only [if_true] at hn
      subst hn
      refine ⟨by simp only [List.length_cons]; omega, ?_⟩
      simp only [List.length_cons, add_left_inj, List.mem_cons, forall_eq_or_imp, hr,
        true_and]
      exact hiff
    | false =>
      simp only [Bool.false_eq_true, if_false] at hn
      subst hn
      refine ⟨by simp only [List.length_cons]; omega, ?_⟩
      constructor
      · intro h2
        simp only [List.length_cons] at h2
        omega
      · intro h2
        have h3 := h2 case (List.mem_cons_self _ _)
        rw [hr] at h3
        exact absurd h3 (by decide)

theorem stmt_returns_value_cases_all : ∀ (cases : List ASTNode),
    (∀ c ∈ cases, (stmt_returns_value_ptr c.body).value? = some true) →
    (stmt_returns_value_cases cases).value? = some cases.length
  | [] => fun _ => rfl
  | case :: rest => by
    intro h
    rw [stmt_returns_value_cases_cons, Run.value?_andThen]
    refine ⟨true, h case (List.mem_cons_self _ _), ?_⟩
    rw [Run.value?_andThen]
    exact ⟨rest.length,
      stmt_returns_value_cases_all rest (fun c hc => h c (List.mem_cons_of_mem _ hc)), rfl⟩

/-- The result of `stmt_returns_value` on a match statement with a default case. -/
theorem stmt_returns_value_match (info : NodeInfo) (dt : Option ASTType)
    (e : Option ASTNode) (args : List ASTNode) (l r : Option ASTNode) (d : ASTNode)
    (init_stmt : Option ASTNode) (stmts : List ASTNode) (locals : List ASTObj)
    (hk : info.kind = .ND_MATCH) :
    (stmt_returns_value (.mk info dt e args l r (some d) init_stmt stmts locals)).value?
        = some true ↔
      (∀ c ∈ args, (stmt_returns_value_ptr c.body).value? = some true) ∧
        (stmt_returns_value_ptr d.body).value? = some true := by
  rw [stmt_returns_value_eq]
  simp only [hk]
  rw [Run.value?_andThen]
  constructor
  · rintro ⟨n, hn, h⟩
    obtain ⟨_, hiff⟩ := stmt_returns_value_cases_count args n hn
    by_cases hlen : n = args.length
    · rw [if_pos hlen] at h
      exact ⟨hiff.1 hlen, h⟩
    · rw [if_neg hlen] at h
      exact absurd h (by simp [Run.value?, Run.ret])
  · rintro ⟨hall, hd⟩
    exact ⟨args.length, stmt_returns_value_cases_all args hall, by rw [if_pos rfl]; exact hd⟩

mutual
theorem stmt_returns_value_sound : ∀ (node : ASTNode) (b : Bool), exit_free node b = true →
    (stmt_returns_value node).value? = some true →
    Completion.falls ∉ control_paths node
  | .mk info dt e args l r body init_stmt stmts locals, b => by
    intro hlf hv hc
    by_cases hm : info.kind = .ND_MATCH
    · cases body with
      | none =>
        rw [stmt_returns_value_eq] at hv
        simp only [hm] at hv
        exact absurd hv (by simp [Run.value?, Run.ret])
      | some d =>
        rw [stmt_returns_value_match info dt e args l r d init_stmt stmts locals hm] at hv
        rw [exit_free_eq] at hlf
        rw [control_paths_eq] at hc
        simp only [hm, Bool.and_eq_true] at hlf hc
        rw [List.mem_append] at hc
        cases d with
        | mk i2 dt2 e2 a2 l2 r2 default_body s2 st2 lo2 =>
          rcases hc with h | h
          · exact stmt_returns_value_sound_cases args b hlf.1 hv.1 h
          · exact stmt_returns_value_sound_ptr default_body b hlf.2 hv.2 h
    · rw [exit_free_eq] at hlf
      rw [stmt_returns_value_eq] at hv
      rw [control_paths_eq] at hc
      cases hk : info.kind <;> simp only [hk] at hlf hv hc hm <;>
        first
        | (simp [Run.value?, Run.ret] at hv; done)
        | exact absurd hlf (by decide)
        | exact absurd trivial hm
        | skip
      · exact stmt_returns_value_sound_stmts stmts b hlf hv hc
      · rw [Bool.and_eq_true] at hlf
        rw [Run.value?_andThen] at hv
        obtain ⟨a, ha, hv⟩ := hv
        cases init_stmt with
        | none =>
          simp only [Option.isSome_none, Bool.and_false, Bool.false_eq_true, if_false] at hv
          exact absurd hv (by simp [Run.value?, Run.ret])
        | some else_branch =>
          cases a with
          | false =>
            simp only [Bool.false_and, Bool.false_eq_true, if_false] at hv
            exact absurd hv (by simp [Run.value?, Run.ret])
          | true =>
            simp only [Option.isSome_some, Bool.and_self, if_true] at hv
            rw [List.mem_append] at hc
            rcases hc with h | h
            · exact stmt_returns_value_sound_ptr body b hlf.1 ha h
            · exact stmt_returns_value_sound else_branch b hlf.2 hv h
      · refine loop_paths_no_break _ ?_ hc
        intro hbr
        rcases exit_free_paths_ptr body true hlf _ hbr with h | h | h
        · exact absurd h (by decide)
        · exact absurd h (by decide)
        · exact absurd h.1 (by decide)
      · simp at hc
theorem stmt_returns_value_sound_ptr : ∀ (node : Option ASTNode) (b : Bool),
    exit_free_ptr node b = true →
    (stmt_returns_value_ptr node).value? = some true →
    Completion.falls ∉ control_paths_ptr node
  | none, _ => by
    intro _ hv
    exact absurd hv (by simp [stmt_returns_value_ptr, Run.value?, Run.null_deref])
  | some node, b => fun hlf hv hc => stmt_returns_value_sound node b hlf hv hc
theorem stmt_returns_value_sound_stmts : ∀ (nodes : List ASTNode) (b : Bool),
    exit_free_nodes nodes b = true →
    (stmt_returns_value_stmts nodes).value? = some true →
    Completion.falls ∉ control_paths_stmts nodes
  | [], _ => by
    intro _ hv
    exact absurd hv (by simp [stmt_returns_value_stmts, Run.value?, Run.ret])
  | node :: rest, b => by
    intro hlf hv hc
    rw [exit_free_nodes, Bool.and_eq_true] at hlf
    rw [stmt_returns_value_stmts_cons, Run.value?_andThen] at hv
    obtain ⟨a, ha, hv⟩ := hv
    rw [control_paths_stmts_cons, List.mem_append] at hc
    rcases hc with h | h
    · exact absurd (List.mem_filter.1 h).2 (by decide)
    · split_ifs at h with hf
      · cases a with
        | true =>
          exact stmt_returns_value_sound node b hlf.1 ha (by simpa using hf)
        | false =>
          simp only [Bool.false_eq_true, if_false] at hv
          exact stmt_returns_value_sound_stmts rest b hlf.2 hv h
      · simp at h
theorem stmt_returns_value_sound_cases : ∀ (cases : List ASTNode) (b : Bool),
    exit_free_cases cases b = true →
    (∀ x ∈ cases, (stmt_returns_value_ptr x.body).value? = some true) →
    Completion.falls ∉ control_paths_cases cases
  | [], _ => by
    intro _ _ hc
    simp [control_paths_cases] at hc
  | .mk i2 dt2 e2 a2 l2 r2 body s2 st2 lo2 :: rest, b => by
    intro hlf hv hc
    rw [exit_free_cases_cons, Bool.and_eq_true] at hlf
    rw [control_paths_cases_cons, List.mem_append] at hc
    rcases hc with h | h
    · exact stmt_returns_value_sound_ptr body b hlf.1 (hv _ (List.mem_cons_self _ _)) h
    · exact stmt_returns_value_sound_cases rest b hlf.2
        (fun x hx => hv x (List.mem_cons_of_mem _ hx)) h
end

theorem Completion.falls_ne_returns : Completion.falls ≠ .returns := by decide

theorem Completion.breaks_ne_returns : Completion.breaks ≠ .returns := by decide

theorem Completion.continues_ne_returns : Completion.continues ≠ .returns := by decide

/-- A loop whose body may run zero times can be passed. -/
theorem loop_paths_skip (body : List Completion) :
    Completion.falls ∈ loop_paths true body := by
  simp [loop_paths]

/-- When the loop over the cases counts fewer returning cases than there are cases, the
analysis is false on the body of some case. -/
theorem stmt_returns_value_cases_miss : ∀ (cases : List ASTNode) (n : Nat),
    (stmt_returns_value_cases cases).value? = some n → n ≠ cases.length →
    ∃ x ∈ cases, (stmt_returns_value_ptr x.body).value? = some false
  | [], n => by
    intro h hn
    have : n = 0 := by
      simpa [stmt_returns_value_cases, Run.value?, Run.ret] using h.symm
    exact absurd this hn
  | case :: rest, n => by
    intro h hn
    rw [stmt_returns_value_cases_cons, Run.value?_andThen] at h
    obtain ⟨r, hr, h⟩ := h
    rw [Run.value?_andThen] at h
    obtain ⟨m, hm, h⟩ := h
    have hnm : n = if r then m + 1 else m := by
      simpa [Run.value?, Run.ret] using h.symm
    cases r with
    | false => exact ⟨case, List.mem_cons_self _ _, hr⟩
    | true =>
      simp only [if_true] at hnm
      have hm2 : m ≠ rest.length := by
        intro heq
        apply hn
        rw [hnm, heq]
        rfl
      obtain ⟨x, hx, hxv⟩ := stmt_returns_value_cases_miss rest m hm hm2
      exact ⟨x, List.mem_cons_of_mem _ hx, hxv⟩

mutual
theorem stmt_returns_value_complete : ∀ (node : ASTNode), loop_stmt_free node = true →
    (stmt_returns_value node).value? = some false →
    ∃ c ∈ control_paths node, c ≠ .returns
  | .mk info dt e args l r body init_stmt stmts locals => by
    intro hlf hv
    by_cases hm : info.kind = .ND_MATCH
    · rw [loop_stmt_free_eq] at hlf
      rw [stmt_returns_value_eq] at hv
      rw [control_paths_eq]
      simp only [hm, Bool.and_eq_true] at hlf hv ⊢
      cases body with
      | none => exact ⟨.falls, by simp, Completion.falls_ne_returns⟩
      | some d =>
        cases d with
        | mk i2 dt2 e2 a2 l2 r2 default_body s2 st2 lo2 =>
          simp only [] at hlf hv ⊢
          rw [Run.value?_andThen] at hv
          obtain ⟨n, hn, hv⟩ := hv
          by_cases hlen : n = args.length
          · rw [if_pos hlen] at hv
            obtain ⟨c, hc, hne⟩ := stmt_returns_value_complete_ptr default_body hlf.2 hv
            exact ⟨c, List.mem_append_right _ hc, hne⟩
          · obtain ⟨x, hx, hxv⟩ := stmt_returns_value_cases_miss args n hn hlen
            obtain ⟨c, hc, hne⟩ := stmt_returns_value_complete_cases args hlf.1 x hx hxv
            exact ⟨c, List.mem_append_left _ hc, hne⟩
    · rw [loop_stmt_free_eq] at hlf
      rw [stmt_returns_value_eq] at hv
      rw [control_paths_eq]
      cases hk : info.kind <;> simp only [hk] at hlf hv hm ⊢ <;>
        first
        | exact ⟨.falls, List.mem_singleton.2 rfl, Completion.falls_ne_returns⟩
        | exact ⟨.breaks, List.mem_singleton.2 rfl, Completion.breaks_ne_returns⟩
        | exact ⟨.continues, List.mem_singleton.2 rfl, Completion.continues_ne_returns⟩
        | exact ⟨.falls, loop_paths_skip _, Completion.falls_ne_returns⟩
        | (simp [Run.value?, Run.ret] at hv; done)
        | exact absurd hlf Bool.false_ne_true
        | exact absurd trivial hm
        | skip
      · exact stmt_returns_value_complete_stmts stmts hlf hv
      · rw [Bool.and_eq_true] at hlf
        rw [Run.value?_andThen] at hv
        obtain ⟨a, ha, hv⟩ := hv
        cases a with
        | false =>
          obtain ⟨c, hc, hne⟩ := stmt_returns_value_complete_ptr body hlf.1 ha
          exact ⟨c, List.mem_append_left _ hc, hne⟩
        | true =>
          cases init_stmt with
          | none => exact ⟨.falls, by simp, by decide⟩
          | some else_branch =>
            simp only [Option.isSome_some, Bool.and_self, if_true] at hv
            obtain ⟨c, hc, hne⟩ := stmt_returns_value_complete else_branch hlf.2 hv
            exact ⟨c, List.mem_append_right _ hc, hne⟩
theorem stmt_returns_value_complete_ptr : ∀ (node : Option ASTNode),
    loop_stmt_free_ptr node = true →
    (stmt_returns_value_ptr node).value? = some false →
    ∃ c ∈ control_paths_ptr node, c ≠ .returns
  | none => by
    intro _ hv
    exact absurd hv (by simp [stmt_returns_value_ptr, Run.value?, Run.null_deref])
  | some node => fun hlf hv => stmt_returns_value_complete node hlf hv
theorem stmt_returns_value_complete_stmts : ∀ (nodes : List ASTNode),
    loop_stmt_free_nodes nodes = true →
    (stmt_returns_value_stmts nodes).value? = some false →
    ∃ c ∈ control_paths_stmts nodes, c ≠ .returns
  | [] => fun _ _ => ⟨.falls, by simp [control_paths_stmts], by decide⟩
  | node :: rest => by
    intro hlf hv
    rw [loop_stmt_free_nodes, Bool.and_eq_true] at hlf
    rw [stmt_returns_value_stmts_cons, Run.value?_andThen] at hv
    obtain ⟨a, ha, hv⟩ := hv
    rw [control_paths_stmts_cons]
    cases a with
    | true =>
      simp only [if_true] at hv
      rw [Run.value?_andThen] at hv
      obtain ⟨_, _, hv⟩ := hv
      exact absurd hv (by simp [Run.value?, Run.ret])
    | false =>
      simp only [Bool.false_eq_true, if_false] at hv
      obtain ⟨c, hc, hne⟩ := stmt_returns_value_complete node hlf.1 ha
      by_cases hf : c = .falls
      · subst hf
        obtain ⟨c2, hc2, hne2⟩ := stmt_returns_value_complete_stmts rest hlf.2 hv
        refine ⟨c2, List.mem_append_right _ ?_, hne2⟩
        rw [if_pos (by simpa using hc)]
        exact hc2
      · exact ⟨c, List.mem_append_left _ (List.mem_filter.2 ⟨hc, by simpa using hf⟩), hne⟩
theorem stmt_returns_value_complete_cases : ∀ (cases : List ASTNode),
    loop_stmt_free_cases cases = true →
    ∀ x ∈ cases, (stmt_returns_value_ptr x.body).value? = some false →
    ∃ c ∈ control_paths_cases cases, c ≠ .returns
  | [] => by
    intro _ x hx
    simp at hx
  | .mk i2 dt2 e2 a2 l2 r2 body s2 st2 lo2 :: rest => by
    intro hlf x hx hxv
    rw [loop_stmt_free_cases_cons, Bool.and_eq_true] at hlf
    rw [control_paths_cases_cons]
    rw [List.mem_cons] at hx
    rcases hx with hx | hx
    · subst hx
      obtain ⟨c, hc, hne⟩ := stmt_returns_value_complete_ptr body hlf.1 hxv
      exact ⟨c, List.mem_append_left _ hc, hne⟩
    · obtain ⟨c, hc, hne⟩ := stmt_returns_value_complete_cases rest hlf.2 x hx hxv
      exact ⟨c, List.mem_append_right _ hc, hne⟩
end

theorem unreachable_after_out (rest : List ASTNode) : (unreachable_after rest).out = .ok () := by
  cases rest <;> rfl

theorem unreachable_after_log (rest : List ASTNode) :
    (unreachable_after rest).log =
      (match rest with
       | [] => []
       | next :: _ =>
         [⟨.ERR_UNREACHABLE, next.tok, "unreachable code after return statement", []⟩]) := by
  cases rest <;> rfl

/-- The loop over the statements of a block passes the statements that do not return. -/
theorem stmt_returns_value_stmts_append : ∀ (pre rest : List ASTNode),
    (∀ p ∈ pre, (stmt_returns_value p).value? = some false) →
    (stmt_returns_value_stmts (pre ++ rest)).log
        = stmt_logs pre ++ (stmt_returns_value_stmts rest).log ∧
      (stmt_returns_value_stmts (pre ++ rest)).out = (stmt_returns_value_stmts rest).out
  | [], rest => fun _ => ⟨rfl, rfl⟩
  | p :: pre, rest => by
    intro h
    have hp := (Run.value?_eq_some _ _).1 (h p (List.mem_cons_self _ _))
    obtain ⟨h1, h2⟩ := stmt_returns_value_stmts_append pre rest
      (fun q hq => h q (List.mem_cons_of_mem _ hq))
    rw [List.cons_append, stmt_returns_value_stmts_cons]
    constructor
    · rw [Run.andThen_log_ok _ _ _ hp]
      simp only [Bool.false_eq_true, if_false, h1, stmt_logs, List.append_assoc]
    · rw [Run.andThen_out_ok _ _ _ hp]
      simp only [Bool.false_eq_true, if_false, h2]

/-- The loop over the statements of a block stops at a statement that returns. -/
theorem stmt_returns_value_stmts_stop (s : ASTNode) (post : List ASTNode)
    (hs : (stmt_returns_value s).value? = some true) :
    (stmt_returns_value_stmts (s :: post)).log
        = (stmt_returns_value s).log ++ (unreachable_after post).log ∧
      (stmt_returns_value_stmts (s :: post)).out = .ok true := by
  have hs := (Run.value?_eq_some _ _).1 hs
  rw [stmt_returns_value_stmts_cons]
  constructor
  · rw [Run.andThen_log_ok _ _ _ hs]
    simp only [if_true]
    rw [Run.andThen_log_ok _ _ _ (unreachable_after_out post)]
    simp [Run.ret]
  · rw [Run.andThen_out_ok _ _ _ hs]
    simp only [if_true]
    rw [Run.andThen_out_ok _ _ _ (unreachable_after_out post)]
    rfl

/-- C24: for every block whose statements are `pre`, `s` and `post` in this order, where
`stmt_returns_value` is false on every statement of `pre` and true on `s`:
`stmt_returns_value` is true on the block, and it prints what it prints on the statements
of `pre` and on `s`, followed, when `post` is not empty, by exactly one Unreachable
diagnostic located at the first statement of `post`, and by nothing when `post` is empty.
When `stmt_returns_value` is false on every statement of the block, it is false on the
block and prints only what it prints on the statements. -/
theorem C24_dead_code (b : ASTNode) (hk : b.kind = .ND_BLOCK) :
    (∀ (pre : List ASTNode) (s : ASTNode) (post : List ASTNode),
      b.stmts = pre ++ s :: post →
      (∀ p ∈ pre, (stmt_returns_value p).value? = some false) →
      (stmt_returns_value s).value? = some true →
      (stmt_returns_value b).value? = some true ∧
        (stmt_returns_value b).log
          = stmt_logs pre ++ (stmt_returns_value s).log ++
              (match post with
               | [] => []
               | next :: _ =>
                 [⟨.ERR_UNREACHABLE, next.tok, "unreachable code after return statement",
                   []⟩])) ∧
    ((∀ p ∈ b.stmts, (stmt_returns_value p).value? = some false) →
      (stmt_returns_value b).value? = some false ∧
        (stmt_returns_value b).log = stmt_logs b.stmts) := by
  obtain ⟨info, dt, e, args, l, r, body, init_stmt, stmts, locals⟩ := b
  replace hk : info.kind = .ND_BLOCK := hk
  have hb : stmt_returns_value (.mk info dt e args l r body init_stmt stmts locals)
      = stmt_returns_value_stmts stmts := by
    rw [stmt_returns_value_eq]
    simp only [hk]
  rw [hb]
  constructor
  · intro pre s post hst hpre hs
    have hst : stmts = pre ++ s :: post := hst
    obtain ⟨h1, h2⟩ := stmt_returns_value_stmts_append pre (s :: post) hpre
    obtain ⟨h3, h4⟩ := stmt_returns_value_stmts_stop s post hs
    rw [hst]
    refine ⟨(Run.value?_eq_some _ _).2 (h2.trans h4), ?_⟩
    rw [h1, h3, unreachable_after_log, List.append_assoc]
  · intro hall
    have hall : ∀ p ∈ stmts, (stmt_returns_value p).value? = some false := hall
    obtain ⟨h1, h2⟩ := stmt_returns_value_stmts_append stmts [] hall
    rw [List.append_nil] at h1 h2
    refine ⟨(Run.value?_eq_some _ _).2 (h2.trans rfl), ?_⟩
    rw [h1]
    simp [stmt_returns_value_stmts, Run.ret, ASTNode.stmts]

theorem C24_dead_code_witness :
    sample_dead_code.kind = .ND_BLOCK ∧
    (stmt_returns_value sample_dead_code).value? = some true ∧
    (stmt_returns_value sample_dead_code).log
      = [⟨.ERR_UNREACHABLE, { line := 2 }, "unreachable code after return statement", []⟩] :=
  ⟨rfl, (C24_dead_code sample_dead_code rfl).1 [] (stmt .ND_RETURN 1)
    [stmt .ND_EXPR_STMT 2, stmt .ND_EXPR_STMT 3] rfl (by simp) rfl⟩

/-! ## The traversal (ast_iterator.c) -/

theorem ast_type_eq {fn : Type} (list : ASTIteratorList fn) (info : TypeInfo)
    (base : Option ASTType) (num_indices : Option ASTNode) (members : List ASTNode)
    (enum_members : List ASTObj) (arg_types : List ASTType) :
    ast_type list (.mk info base num_indices members enum_members arg_types)
      = (match info.kind with
        | .TY_I8 | .TY_I16 | .TY_I32 | .TY_I64 | .TY_U8 | .TY_U16 | .TY_U32 | .TY_U64
        | .TY_F32 | .TY_F64 | .TY_F80 | .TY_BOOL | .TY_CHAR | .TY_VOID | .TY_UNDEF
        | .TY_TEMPLATE =>
          list_fn Visit.type_fn (list.type_fns info.kind)
            (.mk info base num_indices members enum_members arg_types)
        | .TY_PTR =>
          ast_type_ptr list base ++
            list_fn Visit.type_fn (list.type_fns .TY_PTR)
              (.mk info base num_indices members enum_members arg_types)
        | .TY_ARR =>
          ast_type_ptr list base ++ ast_node_ptr list num_indices ++
            list_fn Visit.type_fn (list.type_fns .TY_ARR)
              (.mk info base num_indices members enum_members arg_types)
        | .TY_OPAQUE_STRUCT =>
          ast_id list info.id.isSome none ++
            list_fn Visit.type_fn (list.type_fns .TY_OPAQUE_STRUCT)
              (.mk info base num_indices members enum_members arg_types)
        | .TY_ENUM =>
          ast_members_as_nodes list enum_members ++
            list_fn Visit.type_fn (list.type_fns .TY_ENUM)
              (.mk info base num_indices members enum_members arg_types)
        | .TY_STRUCT =>
          ast_nodes list members ++
            list_fn Visit.type_fn (list.type_fns .TY_STRUCT)
              (.mk info base num_indices members enum_members arg_types)
        | .TY_FN =>
          ast_type_ptr list base ++ ast_types list arg_types ++
            list_fn Visit.type_fn (list.type_fns .TY_FN)
              (.mk info base num_indices members enum_members arg_types)
        | .TY_TUPLE =>
          ast_types list arg_types ++
            list_fn Visit.type_fn (list.type_fns .TY_TUPLE)
              (.mk info base num_indices members enum_members arg_types)
        | _ => []) := by
  obtain ⟨k, t, ht, sz, al, id, c, u, vla, va⟩ := info
  cases k <;> rfl

theorem ast_types_cons {fn : Type} (list : ASTIteratorList fn) (type : ASTType)
    (rest : List ASTType) :
    ast_types list (type :: rest) = ast_type list type ++ ast_types list rest := rfl

theorem ast_obj_eq {fn : Type} (list : ASTIteratorList fn) (info : ObjInfo)
    (data_type : Option ASTType) (objs args : List ASTObj) (return_type : Option ASTType)
    (value body : Option ASTNode) :
    ast_obj list (.mk info data_type objs args return_type value body)
      = list_fn Visit.obj_start (list.obj_start_fns info.kind)
            (.mk info data_type objs args return_type value body) ++
          (match info.kind with
           | .OBJ_FUNCTION =>
             ast_type_ptr list return_type ++ ast_id list true (some info.id) ++
               ast_objs list args ++ ast_node_ptr list body
           | .OBJ_FN_ARG => ast_id list true (some info.id) ++ ast_type_ptr list data_type
           | .OBJ_NAMESPACE => ast_id list true (some info.id) ++ ast_objs list objs
           | .OBJ_TYPEDEF => ast_id list true (some info.id) ++ ast_type_ptr list data_type
           | .OBJ_LOCAL | .OBJ_GLOBAL =>
             ast_id list true (some info.id) ++ ast_type_ptr list data_type
           | _ => []) ++
          list_fn Visit.obj_end (list.obj_end_fns info.kind)
            (.mk info data_type objs args return_type value body) := by
  obtain ⟨k, t, id, rf, ex, ep, nr, iu⟩ := info
  cases k <;> rfl

theorem ast_node_eq {fn : Type} (list : ASTIteratorList fn) (info : NodeInfo)
    (data_type : Option ASTType) (expr : Option ASTNode) (args : List ASTNode)
    (left right body init_stmt : Option ASTNode) (stmts : List ASTNode)
    (locals : List ASTObj) :
    ast_node list (.mk info data_type expr args left right body init_stmt stmts locals)
      = list_fn Visit.node_start (list.node_start_fns info.kind)
            (.mk info data_type expr args left right body init_stmt stmts locals) ++
          (match info.kind with
           | .ND_NOOP | .ND_BREAK | .ND_CONTINUE => []
           | .ND_ID => ast_type_ptr list data_type ++ ast_id list false info.id
           | .ND_INT | .ND_LONG | .ND_LLONG | .ND_FLOAT | .ND_DOUBLE | .ND_BOOL | .ND_CHAR
           | .ND_STR | .ND_NIL => []
           | .ND_ADD | .ND_SUB | .ND_MUL | .ND_DIV | .ND_MOD | .ND_EQ | .ND_NE | .ND_GT
           | .ND_GE | .ND_LT | .ND_LE | .ND_AND | .ND_OR | .ND_LSHIFT | .ND_RSHIFT | .ND_XOR
           | .ND_BIT_OR | .ND_BIT_AND | .ND_ASSIGN =>
             ast_node_ptr list left ++ ast_node_ptr list right ++ ast_type_ptr list data_type
           | .ND_MEMBER =>
             ast_node_ptr list left ++
               (match data_type with
                | some type => ast_node_ptr list right ++ ast_type list type
                | none => [])
           | .ND_NEG | .ND_BIT_NEG | .ND_NOT | .ND_REF | .ND_DEREF =>
             ast_node_ptr list right ++ ast_type_ptr list data_type
           | .ND_INC | .ND_DEC => ast_node_ptr list left ++ ast_type_ptr list data_type
           | .ND_CLOSURE => ast_node_ptr list expr ++ ast_type_ptr list data_type
           | .ND_CALL =>
             ast_node_ptr list expr ++ ast_type_ptr list data_type ++ ast_nodes list args
           | .ND_INDEX =>
             ast_node_ptr list left ++ ast_node_ptr list expr ++ ast_type_ptr list data_type
           | .ND_CAST => ast_node_ptr list left ++ ast_type_ptr list data_type
           | .ND_LEN | .ND_SIZEOF => ast_node_ptr list expr ++ ast_type_ptr list data_type
           | .ND_BLOCK => ast_objs list locals ++ ast_nodes list stmts
           | .ND_IF | .ND_CASE | .ND_WHILE => ast_node_ptr list left ++ ast_node_ptr list body
           | .ND_LOOP => ast_node_ptr list body
           | .ND_FOR =>
             ast_node_ptr list init_stmt ++ ast_node_ptr list left ++ ast_node_ptr list expr ++
               ast_node_ptr list body
           | .ND_MATCH =>
             ast_node_ptr list body ++ ast_nodes list args ++ ast_node_ptr list body
           | .ND_RETURN => ast_node_ptr list body
           | .ND_VA_ARG => ast_type_ptr list data_type ++ ast_node_ptr list expr
           | .ND_EXPR_STMT | .ND_ASM => ast_node_ptr list expr
           | .ND_LAMBDA =>
             ast_objs list locals ++ ast_type_ptr list data_type ++ ast_node_ptr list body
           | .ND_ARRAY | .ND_STRUCT => ast_nodes list args ++ ast_type_ptr list data_type
           | .ND_STRUCT_MEMBER => ast_id list true info.id ++ ast_type_ptr list data_type
           | .ND_ENUM_MEMBER => ast_id list true info.id ++ ast_node_ptr list expr
           | _ => []) ++
          list_fn Visit.node_end (list.node_end_fns info.kind)
            (.mk info data_type expr args left right body init_stmt stmts locals) := by
  obtain ⟨k, t, id, o, iv, sv⟩ := info
  cases k <;> cases data_type <;> rfl

/-- On a declaration read as a node, `ast_node` invokes the two callbacks of the node kind
and nothing else. -/
theorem ast_node_as_node {fn : Type} (list : ASTIteratorList fn) (obj : ASTObj) :
    ast_node list obj.as_node = ast_member_as_node list obj := by
  obtain ⟨⟨k, t, id, rf, ex, ep, nr, iu⟩, data_type, objs, args, return_type, value, body⟩ :=
    obj
  unfold ast_member_as_node ASTObj.as_node
  rw [ast_node_eq]
  cases k <;>
    simp [ASTObj.kind, ASTObj.info, ASTObjKind.as_node_kind, ASTNode.kind, ASTNode.info,
      ast_type_ptr, ast_id]

theorem ast_members_as_nodes_cons {fn : Type} (list : ASTIteratorList fn) (obj : ASTObj)
    (rest : List ASTObj) :
    ast_members_as_nodes list (obj :: rest)
      = ast_member_as_node list obj ++ ast_members_as_nodes list rest := rfl

theorem ast_objs_cons {fn : Type} (list : ASTIteratorList fn) (obj : ASTObj)
    (rest : List ASTObj) :
    ast_objs list (obj :: rest) = ast_obj list obj ++ ast_objs list rest := rfl

theorem ast_nodes_cons {fn : Type} (list : ASTIteratorList fn) (node : ASTNode)
    (rest : List ASTNode) :
    ast_nodes list (node :: rest) = ast_node list node ++ ast_nodes list rest := rfl

/-! ## C29: unused locals -/

theorem block_end_loop_spec (v : Validator) (fn : ASTObj)
    (hf : v.current_function = some fn) (hi : fn.info.ignore_unused = false) :
    ∀ locals : List ASTObj,
      block_end_loop v locals
        = ⟨(locals.filter (fun var => !var.info.referenced)).map unused_local, .ok ()⟩
  | [] => rfl
  | var :: rest => by
    have ih := block_end_loop_spec v fn hf hi rest
    unfold block_end_loop
    cases hr : var.info.referenced with
    | true => simp [ih, hr]
    | false =>
      simp only [hf, hi, ih, hr, Bool.false_eq_true, if_false, List.filter_cons, Bool.not_false,
        if_true, List.map_cons]
      rfl

theorem search_identifier_id (fuel : Nat) (v : Validator) (scope : Option VScope)
    (id : Option ASTIdentifier) (found : ASTObj)
    (h : (search_identifier fuel v scope id).value? = some (some found)) :
    ∃ name, id = some name := by
  cases id with
  | some name => exact ⟨name, rfl⟩
  | none =>
    cases fuel with
    | zero => simp [search_identifier, Run.value?, Run.no_fuel] at h
    | succ fuel =>
      cases scope <;> simp [search_identifier, Run.value?, Run.ret] at h

theorem identifier_resolved_returns (id : ASTNode) (name : ASTIdentifier) (obj : ASTObj)
    (hid : id.info.id = some name) : ∃ written, identifier_resolved id obj = Run.ret written := by
  obtain ⟨info, dt, e, args, l, r, body, init_stmt, stmts, locals⟩ := id
  replace hid : info.id = some name := hid
  unfold identifier_resolved
  cases dt <;> cases ho : obj.id.outer.isSome <;>
    simp only [ASTNode.data_type, ASTNode.set_data_type, ASTNode.info, Option.isNone_none,
      Option.isNone_some, if_true, if_false, Bool.false_eq_true, hid] <;>
    exact ⟨_, rfl⟩

/-- The callback `identifier` sets the flag of the local variable or argument that the
identifier resolves to. -/
theorem identifier_marks (fuel : Nat) (v : Validator) (id : ASTNode) (found : ASTObj)
    (hs : (search_identifier fuel v v.current_scope id.info.id).value? = some (some found))
    (hk : found.kind = .OBJ_LOCAL ∨ found.kind = .OBJ_FN_ARG) :
    (identifier fuel v id).value?.map Prod.fst = some (some found.set_referenced) := by
  obtain ⟨name, hid⟩ := search_identifier_id fuel v v.current_scope id.info.id found hs
  obtain ⟨written, hw⟩ := identifier_resolved_returns id name found.set_referenced hid
  have hout := (Run.value?_eq_some _ _).1 hs
  have hval : (identifier fuel v id).value? = some (some found.set_referenced, written) := by
    unfold identifier
    rw [Run.value?_andThen]
    refine ⟨some found, hs, ?_⟩
    rcases hk with hk | hk <;> simp only [hk, hw] <;> rfl
  rw [hval]
  rfl

/-- The traversal invokes `identifier` on the left operand of an assignment. -/
theorem ast_node_assign_left (assign left : ASTNode) (hk : assign.kind = .ND_ASSIGN)
    (hl : assign.left = some left) (hid : left.kind = .ND_ID) :
    Visit.node_end Callback.identifier left ∈ ast_node main_iterator_list assign := by
  obtain ⟨info, dt, e, args, l, r, body, init_stmt, stmts, locals⟩ := assign
  replace hk : info.kind = .ND_ASSIGN := hk
  replace hl : l = some left := hl
  subst hl
  rw [ast_node_eq]
  simp only [hk]
  apply List.mem_append_left
  apply List.mem_append_right
  apply List.mem_append_left
  apply List.mem_append_left
  show _ ∈ ast_node main_iterator_list left
  obtain ⟨info2, dt2, e2, args2, l2, r2, body2, init2, stmts2, locals2⟩ := left
  replace hid : info2.kind = .ND_ID := hid
  rw [ast_node_eq]
  simp only [hid]
  apply List.mem_append_right
  exact List.mem_singleton.2 rfl

/-- C29, as stated, fails: in `{ let x: i32; x = 1; }` the variable `x` is only the target
of an assignment, yet the traversal invokes `identifier` on the left operand `x` of the
assignment, `identifier` sets the flag `referenced` of `x`, and `block_end` on the block
with `x` in that state prints no Unused diagnostic; it prints one only while the flag is
clear. -/
theorem C29_unused_local_counterexample :
    block_start sample_fn_x_validator sample_block_x = Run.ret sample_block_x_validator ∧
    (ast_node main_iterator_list sample_block_x).map Visit.callback
      = [.block_start, .local_start, .id_def, .local_end, .assignment_start, .id_use,
         .identifier, .assignment_end, .expr_stmt, .block_end] ∧
    (ast_node main_iterator_list sample_block_x).get? 6
      = some (Visit.node_end .identifier sample_id_x) ∧
    search_identifier 1 sample_block_x_validator sample_block_x_validator.current_scope
        sample_id_x.info.id
      = Run.ret (some sample_local_x) ∧
    (identifier 1 sample_block_x_validator sample_id_x).value?.map Prod.fst
      = some (some sample_local_x.set_referenced) ∧
    sample_local_x.set_referenced.info.referenced = true ∧
    block_end sample_block_x_validator
        (sample_block_x.set_locals [sample_local_x.set_referenced])
      = Run.ret sample_fn_x_validator ∧
    (block_end sample_block_x_validator sample_block_x).log = [unused_local sample_local_x] :=
  ⟨rfl, by decide, rfl, rfl, rfl, rfl, rfl, rfl⟩

/-- C29, amended: in a function that is not marked to ignore unused variables, `block_end`
reports exactly one Unused diagnostic, located at the declaration of the variable, for
each local variable of the block whose flag `referenced` is still clear, in the order of
the declarations, and nothing else; the callback `identifier` sets this flag on the local
variable or argument that an identifier node resolves to, whatever the position of the
node; and the traversal invokes `identifier` on the left-hand identifier of an assignment.
A local variable that appears only as the target of assignments is therefore marked. -/
theorem C29_unused_local_amended (v : Validator) (block : ASTNode) (scope : VScope)
    (fn : ASTObj) (hs : v.current_scope = some scope) (hf : v.current_function = some fn)
    (hi : fn.info.ignore_unused = false) :
    ((block_end v block).log
        = (block.locals.filter (fun var => !var.info.referenced)).map unused_local ∧
      (block_end v block).returns = true) ∧
    (∀ (fuel : Nat) (id : ASTNode) (found : ASTObj),
      (search_identifier fuel v v.current_scope id.info.id).value? = some (some found) →
      (found.kind = .OBJ_LOCAL ∨ found.kind = .OBJ_FN_ARG) →
      (identifier fuel v id).value?.map Prod.fst = some (some found.set_referenced) ∧
        found.set_referenced.info.referenced = true) ∧
    (∀ assign left : ASTNode, assign.kind = .ND_ASSIGN → assign.left = some left →
      left.kind = .ND_ID →
      Visit.node_end Callback.identifier left ∈ ast_node main_iterator_list assign) := by
  refine ⟨?_, ?_, ?_⟩
  · have he : end_scope v = Run.ret { v with
        current_scope := scope.prev
        scope_depth := (v.scope_depth + 2 ^ 32 - 1) % 2 ^ 32 } := by
      unfold end_scope
      rw [hs]
      rfl
    unfold block_end
    rw [he, Run.ret_andThen]
    rw [block_end_loop_spec { v with
        current_scope := scope.prev
        scope_depth := (v.scope_depth + 2 ^ 32 - 1) % 2 ^ 32 } fn hf hi]
    exact ⟨by simp [Run.andThen, Run.ret], rfl⟩
  · intro fuel id found h1 h2
    refine ⟨identifier_marks fuel v id found h1 h2, ?_⟩
    cases found
    rfl
  · exact ast_node_assign_left

theorem C29_unused_local_amended_witness :
    (block_end sample_block_x_validator sample_block_x).log = [unused_local sample_local_x] ∧
    (block_end sample_block_x_validator
        (sample_block_x.set_locals [sample_local_x.set_referenced])).log = [] ∧
    (identifier 1 sample_block_x_validator sample_id_x).value?.map Prod.fst
      = some (some sample_local_x.set_referenced) ∧
    Visit.node_end Callback.identifier sample_id_x
      ∈ ast_node main_iterator_list sample_assign_x :=
  ⟨(C29_unused_local_amended sample_block_x_validator sample_block_x _ sample_fn_x rfl rfl
      rfl).1.1,
   (C29_unused_local_amended sample_block_x_validator
      (sample_block_x.set_locals [sample_local_x.set_referenced]) _ sample_fn_x rfl rfl
      rfl).1.1,
   ((C29_unused_local_amended sample_block_x_validator sample_block_x _ sample_fn_x rfl rfl
      rfl).2.1 1 sample_id_x sample_local_x rfl (Or.inl rfl)).1,
   (C29_unused_local_amended sample_block_x_validator sample_block_x _ sample_fn_x rfl rfl
      rfl).2.2 sample_assign_x sample_id_x rfl rfl rfl⟩

/-! ## C30: traversal order -/

theorem Balanced.nil {fn : Type} (list : ASTIteratorList fn) : Balanced list [] :=
  fun _ _ => rfl

theorem Balanced.append {fn : Type} {list : ASTIteratorList fn} {a b : List (Visit fn)}
    (ha : Balanced list a) (hb : Balanced list b) : Balanced list (a ++ b) := by
  intro stack rest
  rw [List.append_assoc, ha, hb]

theorem balanced_type_fn {fn : Type} (list : ASTIteratorList fn) (slot : Option fn)
    (type : ASTType) : Balanced list (list_fn Visit.type_fn slot type) := by
  cases slot with
  | none => exact Balanced.nil list
  | some f =>
    intro stack rest
    simp [list_fn, well_nested_from]

theorem balanced_ast_id {fn : Type} (list : ASTIteratorList fn) (is_definition : Bool)
    (id : Option ASTIdentifier) : Balanced list (ast_id list is_definition id) := by
  cases id with
  | none => exact Balanced.nil list
  | some id =>
    cases is_definition
    · cases h : list.id_use_fn with
      | none =>
        intro stack rest
        simp [ast_id, h, list_fn]
      | some f =>
        intro stack rest
        simp [ast_id, h, list_fn, well_nested_from]
    · cases h : list.id_def_fn with
      | none =>
        intro stack rest
        simp [ast_id, h, list_fn]
      | some f =>
        intro stack rest
        simp [ast_id, h, list_fn, well_nested_from]

/-- The invocations for a node: the start callback if the table has one, a balanced trace,
the end callback if the table has one. -/
theorem balanced_node_bracket {fn : Type} (list : ASTIteratorList fn) (node : ASTNode)
    (inner : List (Visit fn)) (hinner : Balanced list inner) :
    Balanced list
      (list_fn Visit.node_start (list.node_start_fns node.kind) node ++ inner ++
        list_fn Visit.node_end (list.node_end_fns node.kind) node) := by
  intro stack rest
  cases hs : list.node_start_fns node.kind with
  | none =>
    cases he : list.node_end_fns node.kind with
    | none => simp [list_fn, hinner stack rest]
    | some e =>
      simp only [list_fn, List.nil_append, List.append_assoc, List.singleton_append]
      rw [hinner]
      simp [well_nested_from, hs]
  | some s =>
    cases he : list.node_end_fns node.kind with
    | none =>
      simp only [list_fn, List.append_nil, List.append_assoc, List.singleton_append]
      simp only [well_nested_from, he, Option.isSome_none, Bool.false_eq_true, if_false]
      exact hinner stack rest
    | some e =>
      simp only [list_fn, List.append_assoc, List.singleton_append]
      simp only [well_nested_from, he, Option.isSome_some, if_true]
      refine (hinner _ _).trans ?_
      simp [well_nested_from, hs]

/-- The invocations for a declaration: the start callback if the table has one, a balanced
trace, the end callback if the table has one. -/
theorem balanced_obj_bracket {fn : Type} (list : ASTIteratorList fn) (obj : ASTObj)
    (inner : List (Visit fn)) (hinner : Balanced list inner) :
    Balanced list
      (list_fn Visit.obj_start (list.obj_start_fns obj.kind) obj ++ inner ++
        list_fn Visit.obj_end (list.obj_end_fns obj.kind) obj) := by
  intro stack rest
  cases hs : list.obj_start_fns obj.kind with
  | none =>
    cases he : list.obj_end_fns obj.kind with
    | none => simp [list_fn, hinner stack rest]
    | some e =>
      simp only [list_fn, List.nil_append, List.append_assoc, List.singleton_append]
      rw [hinner]
      simp [well_nested_from, hs]
  | some s =>
    cases he : list.obj_end_fns obj.kind with
    | none =>
      simp only [list_fn, List.append_nil, List.append_assoc, List.singleton_append]
      simp only [well_nested_from, he, Option.isSome_none, Bool.false_eq_true, if_false]
      exact hinner stack rest
    | some e =>
      simp only [list_fn, List.append_assoc, List.singleton_append]
      simp only [well_nested_from, he, Option.isSome_some, if_true]
      refine (hinner _ _).trans ?_
      simp [well_nested_from, hs]

/-- The invocations for the entries of an enumeration are balanced. -/
theorem ast_members_as_nodes_balanced {fn : Type} (list : ASTIteratorList fn) :
    ∀ objs : List ASTObj, Balanced list (ast_members_as_nodes list objs)
  | [] => Balanced.nil list
  | obj :: rest => by
    rw [ast_members_as_nodes_cons]
    refine Balanced.append ?_ (ast_members_as_nodes_balanced list rest)
    have h := balanced_node_bracket list obj.as_node [] (Balanced.nil list)
    rw [List.append_nil] at h
    exact h

mutual
theorem ast_type_balanced {fn : Type} (list : ASTIteratorList fn) :
    ∀ type : ASTType, Balanced list (ast_type list type)
  | .mk info base num_indices members enum_members arg_types => by
    rw [ast_type_eq]
    cases hk : info.kind <;> simp only [] <;>
      repeat' first
        | exact Balanced.nil list
        | exact balanced_type_fn list _ _
        | exact balanced_ast_id list _ _
        | exact ast_members_as_nodes_balanced list enum_members
        | exact ast_type_ptr_balanced list base
        | exact ast_types_balanced list arg_types
        | exact ast_node_ptr_balanced list num_indices
        | exact ast_nodes_balanced list members
        | apply Balanced.append
theorem ast_types_balanced {fn : Type} (list : ASTIteratorList fn) :
    ∀ types : List ASTType, Balanced list (ast_types list types)
  | [] => Balanced.nil list
  | type :: rest => by
    rw [ast_types_cons]
    exact Balanced.append (ast_type_balanced list type) (ast_types_balanced list rest)
theorem ast_type_ptr_balanced {fn : Type} (list : ASTIteratorList fn) :
    ∀ type : Option ASTType, Balanced list (ast_type_ptr list type)
  | none => Balanced.nil list
  | some type => ast_type_balanced list type
theorem ast_obj_balanced {fn : Type} (list : ASTIteratorList fn) :
    ∀ obj : ASTObj, Balanced list (ast_obj list obj)
  | .mk info data_type objs args return_type value body => by
    rw [ast_obj_eq]
    refine balanced_obj_bracket list (.mk info data_type objs args return_type value body)
      _ ?_
    cases hk : info.kind <;> simp only [] <;>
      repeat' first
        | exact Balanced.nil list
        | exact balanced_ast_id list _ _
        | exact ast_type_ptr_balanced list data_type
        | exact ast_type_ptr_balanced list return_type
        | exact ast_node_ptr_balanced list body
        | exact ast_objs_balanced list objs
        | exact ast_objs_balanced list args
        | apply Balanced.append
theorem ast_objs_balanced {fn : Type} (list : ASTIteratorList fn) :
    ∀ objs : List ASTObj, Balanced list (ast_objs list objs)
  | [] => Balanced.nil list
  | obj :: rest => by
    rw [ast_objs_cons]
    exact Balanced.append (ast_obj_balanced list obj) (ast_objs_balanced list rest)
theorem ast_node_balanced {fn : Type} (list : ASTIteratorList fn) :
    ∀ node : ASTNode, Balanced list (ast_node list node)
  | .mk info data_type expr args left right body init_stmt stmts locals => by
    rw [ast_node_eq]
    refine balanced_node_bracket list
      (.mk info data_type expr args left right body init_stmt stmts locals) _ ?_
    cases hk : info.kind <;> simp only [] <;>
      first
      | (repeat' first
          | exact Balanced.nil list
          | exact balanced_ast_id list _ _
          | exact ast_type_ptr_balanced list data_type
          | exact ast_node_ptr_balanced list left
          | exact ast_node_ptr_balanced list right
          | exact ast_node_ptr_balanced list expr
          | exact ast_node_ptr_balanced list body
          | exact ast_node_ptr_balanced list init_stmt
          | exact ast_nodes_balanced list args
          | exact ast_nodes_balanced list stmts
          | exact ast_objs_balanced list locals
          | apply Balanced.append) <;> done
      | (cases data_type with
         | none => exact Balanced.append (ast_node_ptr_balanced list left) (Balanced.nil list)
         | some type =>
           exact Balanced.append (ast_node_ptr_balanced list left)
             (Balanced.append (ast_node_ptr_balanced list right)
               (ast_type_balanced list type)))
theorem ast_node_ptr_balanced {fn : Type} (list : ASTIteratorList fn) :
    ∀ node : Option ASTNode, Balanced list (ast_node_ptr list node)
  | none => Balanced.nil list
  | some node => ast_node_balanced list node
theorem ast_nodes_balanced {fn : Type} (list : ASTIteratorList fn) :
    ∀ nodes : List ASTNode, Balanced list (ast_nodes list nodes)
  | [] => Balanced.nil list
  | node :: rest => by
    rw [ast_nodes_cons]
    exact Balanced.append (ast_node_balanced list node) (ast_nodes_balanced list rest)
end

theorem ast_node_children_balanced {fn : Type} (list : ASTIteratorList fn) (node : ASTNode) :
    ∃ children, Balanced list children ∧
      ast_node list node
        = list_fn Visit.node_start (list.node_start_fns node.kind) node ++ children ++
            list_fn Visit.node_end (list.node_end_fns node.kind) node := by
  obtain ⟨info, data_type, expr, args, left, right, body, init_stmt, stmts, locals⟩ := node
  rw [ast_node_eq]
  refine ⟨_, ?_, rfl⟩
  cases hk : info.kind <;> simp only [] <;>
    first
    | (repeat' first
        | exact Balanced.nil list
        | exact balanced_ast_id list _ _
        | exact ast_type_ptr_balanced list _
        | exact ast_node_ptr_balanced list _
        | exact ast_nodes_balanced list _
        | exact ast_objs_balanced list _
        | apply Balanced.append) <;> done
    | (cases data_type with
       | none => exact Balanced.append (ast_node_ptr_balanced list left) (Balanced.nil list)
       | some type =>
         exact Balanced.append (ast_node_ptr_balanced list left)
           (Balanced.append (ast_node_ptr_balanced list right)
             (ast_type_balanced list type)))

theorem ast_obj_children_balanced {fn : Type} (list : ASTIteratorList fn) (obj : ASTObj) :
    ∃ children, Balanced list children ∧
      ast_obj list obj
        = list_fn Visit.obj_start (list.obj_start_fns obj.kind) obj ++ children ++
            list_fn Visit.obj_end (list.obj_end_fns obj.kind) obj := by
  obtain ⟨info, data_type, objs, args, return_type, value, body⟩ := obj
  rw [ast_obj_eq]
  refine ⟨_, ?_, rfl⟩
  cases hk : info.kind <;> simp only [] <;>
    repeat' first
      | exact Balanced.nil list
      | exact balanced_ast_id list _ _
      | exact ast_type_ptr_balanced list _
      | exact ast_node_ptr_balanced list _
      | exact ast_objs_balanced list _
      | apply Balanced.append

theorem Balanced.well_nested {fn : Type} {list : ASTIteratorList fn} {trace : List (Visit fn)}
    (h : Balanced list trace) : well_nested list trace = true := by
  have := h [] []
  rw [List.append_nil] at this
  unfold CSpydr.well_nested
  rw [this]
  rfl

theorem ast_objs_append {fn : Type} (list : ASTIteratorList fn) :
    ∀ (pre post : List ASTObj),
      ast_objs list (pre ++ post) = ast_objs list pre ++ ast_objs list post
  | [], post => rfl
  | obj :: pre, post => by
    rw [List.cons_append, ast_objs_cons, ast_objs_cons, ast_objs_append list pre post,
      List.append_assoc]

theorem list_fn_none {fn α : Type} (visit : fn → α → Visit fn) (ast : α) :
    list_fn visit none ast = [] := rfl

theorem ast_id_empty {fn : Type} (is_definition : Bool) (id : Option ASTIdentifier) :
    ast_id ({} : ASTIteratorList fn) is_definition id = [] := by
  cases id <;> cases is_definition <;> rfl

theorem ast_members_as_nodes_empty {fn : Type} :
    ∀ objs : List ASTObj, ast_members_as_nodes ({} : ASTIteratorList fn) objs = []
  | [] => rfl
  | obj :: rest => by
    rw [ast_members_as_nodes_cons, ast_members_as_nodes_empty rest]
    rfl

mutual
theorem ast_type_empty {fn : Type} :
    ∀ type : ASTType, ast_type ({} : ASTIteratorList fn) type = []
  | .mk info base num_indices members enum_members arg_types => by
    rw [ast_type_eq]
    have hb := @ast_type_ptr_empty fn base
    have hn := @ast_node_ptr_empty fn num_indices
    have hm := @ast_nodes_empty fn members
    have ha := @ast_types_empty fn arg_types
    have he := @ast_members_as_nodes_empty fn enum_members
    cases hk : info.kind <;>
      simp only [hb, hn, hm, ha, he, list_fn_none, List.append_nil, ast_id_empty]
theorem ast_types_empty {fn : Type} :
    ∀ types : List ASTType, ast_types ({} : ASTIteratorList fn) types = []
  | [] => rfl
  | type :: rest => by
    rw [ast_types_cons, ast_type_empty type, ast_types_empty rest]
    rfl
theorem ast_type_ptr_empty {fn : Type} :
    ∀ type : Option ASTType, ast_type_ptr ({} : ASTIteratorList fn) type = []
  | none => rfl
  | some type => ast_type_empty type
theorem ast_obj_empty {fn : Type} :
    ∀ obj : ASTObj, ast_obj ({} : ASTIteratorList fn) obj = []
  | .mk info data_type objs args return_type value body => by
    rw [ast_obj_eq]
    have hd := @ast_type_ptr_empty fn data_type
    have hr := @ast_type_ptr_empty fn return_type
    have hb := @ast_node_ptr_empty fn body
    have ho := @ast_objs_empty fn objs
    have ha := @ast_objs_empty fn args
    cases hk : info.kind <;>
      simp only [hd, hr, hb, ho, ha, list_fn_none, List.append_nil, ast_id_empty]
theorem ast_objs_empty {fn : Type} :
    ∀ objs : List ASTObj, ast_objs ({} : ASTIteratorList fn) objs = []
  | [] => rfl
  | obj :: rest => by
    rw [ast_objs_cons, ast_obj_empty obj, ast_objs_empty rest]
    rfl
theorem ast_node_empty {fn : Type} :
    ∀ node : ASTNode, ast_node ({} : ASTIteratorList fn) node = []
  | .mk info data_type expr args left right body init_stmt stmts locals => by
    rw [ast_node_eq]
    have hl := @ast_node_ptr_empty fn left
    have hr := @ast_node_ptr_empty fn right
    have he := @ast_node_ptr_empty fn expr
    have hb := @ast_node_ptr_empty fn body
    have hi := @ast_node_ptr_empty fn init_stmt
    have ha := @ast_nodes_empty fn args
    have hs := @ast_nodes_empty fn stmts
    have hlo := @ast_objs_empty fn locals
    cases data_type with
    | none =>
      have hd : ast_type_ptr ({} : ASTIteratorList fn) none = [] := rfl
      cases hk : info.kind <;>
        simp only [hl, hr, he, hb, hi, ha, hs, hlo, hd, list_fn_none, List.append_nil,
          ast_id_empty]
    | some type =>
      have ht := @ast_type_empty fn type
      have hd : ast_type_ptr ({} : ASTIteratorList fn) (some type) = [] := ht
      cases hk : info.kind <;>
        simp only [hl, hr, he, hb, hi, ha, hs, hlo, hd, ht, list_fn_none, List.append_nil,
          ast_id_empty]
theorem ast_node_ptr_empty {fn : Type} :
    ∀ node : Option ASTNode, ast_node_ptr ({} : ASTIteratorList fn) node = []
  | none => rfl
  | some node => ast_node_empty node
theorem ast_nodes_empty {fn : Type} :
    ∀ nodes : List ASTNode, ast_nodes ({} : ASTIteratorList fn) nodes = []
  | [] => rfl
  | node :: rest => by
    rw [ast_nodes_cons, ast_node_empty node, ast_nodes_empty rest]
    rfl
end

/-- C30: for every callback table, `ast_obj` on a function invokes the start callback of
the kind if there is one, then visits the return type, the identifier as a definition, the
parameters in list order and the body, then invokes the end callback if there is one; on a
namespace it visits the identifier and the nested declarations in list order between the
two callbacks.  For every declaration and every node the trace is the start callback, the
trace of the children, the end callback, the trace of the children being balanced, so the
trace of a traversal is well nested.  With the table without callbacks the traversal
invokes nothing; the traversal functions themselves write nothing into the tree. -/
theorem C30_traversal_order {fn : Type} (list : ASTIteratorList fn) :
    (∀ obj : ASTObj, obj.kind = .OBJ_FUNCTION →
      ast_obj list obj
        = list_fn Visit.obj_start (list.obj_start_fns .OBJ_FUNCTION) obj ++
            (ast_type_ptr list obj.return_type ++ ast_id list true (some obj.id) ++
              ast_objs list obj.args ++ ast_node_ptr list obj.body) ++
            list_fn Visit.obj_end (list.obj_end_fns .OBJ_FUNCTION) obj) ∧
    (∀ obj : ASTObj, obj.kind = .OBJ_NAMESPACE →
      ast_obj list obj
        = list_fn Visit.obj_start (list.obj_start_fns .OBJ_NAMESPACE) obj ++
            (ast_id list true (some obj.id) ++ ast_objs list obj.objs) ++
            list_fn Visit.obj_end (list.obj_end_fns .OBJ_NAMESPACE) obj) ∧
    (∀ (pre : List ASTObj) (obj : ASTObj) (post : List ASTObj),
      ast_objs list (pre ++ obj :: post)
        = ast_objs list pre ++ ast_obj list obj ++ ast_objs list post) ∧
    (∀ obj : ASTObj, ∃ children, Balanced list children ∧
      ast_obj list obj
        = list_fn Visit.obj_start (list.obj_start_fns obj.kind) obj ++ children ++
            list_fn Visit.obj_end (list.obj_end_fns obj.kind) obj) ∧
    (∀ node : ASTNode, ∃ children, Balanced list children ∧
      ast_node list node
        = list_fn Visit.node_start (list.node_start_fns node.kind) node ++ children ++
            list_fn Visit.node_end (list.node_end_fns node.kind) node) ∧
    (∀ obj : ASTObj, well_nested list (ast_obj list obj) = true) ∧
    (∀ node : ASTNode, well_nested list (ast_node list node) = true) ∧
    (∀ objs : List ASTObj, well_nested list (ast_iterate list objs) = true) ∧
    (∀ objs : List ASTObj, ast_iterate ({} : ASTIteratorList fn) objs = []) ∧
    (∀ obj : ASTObj, ast_obj ({} : ASTIteratorList fn) obj = []) ∧
    (∀ node : ASTNode, ast_node ({} : ASTIteratorList fn) node = []) := by
  refine ⟨?_, ?_, ?_, ast_obj_children_balanced list, ast_node_children_balanced list,
    fun obj => (ast_obj_balanced list obj).well_nested,
    fun node => (ast_node_balanced list node).well_nested,
    fun objs => (ast_objs_balanced list objs).well_nested,
    ast_objs_empty, ast_obj_empty, ast_node_empty⟩
  · intro obj hk
    obtain ⟨info, data_type, objs, args, return_type, value, body⟩ := obj
    replace hk : info.kind = .OBJ_FUNCTION := hk
    rw [ast_obj_eq]
    simp only [hk]
    rfl
  · intro obj hk
    obtain ⟨info, data_type, objs, args, return_type, value, body⟩ := obj
    replace hk : info.kind = .OBJ_NAMESPACE := hk
    rw [ast_obj_eq]
    simp only [hk]
    rfl
  · intro pre obj post
    rw [ast_objs_append, ast_objs_cons, List.append_assoc]

theorem C30_traversal_order_witness :
    (sample_fn_x.kind = .OBJ_FUNCTION ∧
      ast_obj full_iterator_list sample_fn_x
        = [Visit.obj_start "obj_start" sample_fn_x] ++
            (ast_type_ptr full_iterator_list sample_fn_x.return_type ++
              ast_id full_iterator_list true (some sample_fn_x.id) ++
              ast_objs full_iterator_list sample_fn_x.args ++
              ast_node_ptr full_iterator_list sample_fn_x.body) ++
            [Visit.obj_end "obj_end" sample_fn_x]) ∧
    (ast_obj full_iterator_list sample_namespace_n).map Visit.callback
      = ["obj_start", "id_def",
          "obj_start", "type", "id_def",
            "node_start",
              "obj_start", "id_def", "type", "obj_end",
              "node_start",
                "node_start",
                  "node_start", "id_use", "node_end",
                  "node_start", "node_end",
                "node_end",
              "node_end",
            "node_end",
          "obj_end",
         "obj_end"] ∧
    well_nested full_iterator_list (ast_obj full_iterator_list sample_namespace_n) = true ∧
    well_nested main_iterator_list (ast_obj main_iterator_list sample_namespace_n) = true ∧
    well_nested full_iterator_list
      [Visit.node_end "node_end" sample_id_x, Visit.node_start "node_start" sample_id_x]
        = false :=
  ⟨⟨rfl, (C30_traversal_order full_iterator_list).1 sample_fn_x rfl⟩, by decide,
   (C30_traversal_order full_iterator_list).2.2.2.2.2.1 sample_namespace_n,
   (C30_traversal_order main_iterator_list).2.2.2.2.2.1 sample_namespace_n, rfl⟩

/-! ## C33: classification of types -/

theorem expanded_operand_not_alias (fuel : Nat) (v : Validator) (type : ASTType)
    (h : type.kind ≠ .TY_UNDEF) : expanded_operand fuel v (some type) = Run.ret (some type) := by
  simp [expanded_operand, h]

theorem is_number_expanded (fuel : Nat) (v : Validator) (type : ASTType)
    (h : type.kind ≠ .TY_UNDEF) : is_number fuel v (some type) = Run.ret (numeric type.kind) := by
  obtain ⟨⟨k, tok, ht, sz, al, id, c, u, vla, va⟩, b, n, m, e, a⟩ := type
  cases k <;> first | exact absurd rfl h | rfl

theorem v_is_integer_expanded (fuel : Nat) (v : Validator) (type : ASTType)
    (h : type.kind ≠ .TY_UNDEF) :
    v_is_integer fuel v (some type) = Run.ret (integer_like type.kind) := by
  obtain ⟨⟨k, tok, ht, sz, al, id, c, u, vla, va⟩, b, n, m, e, a⟩ := type
  cases k <;> first | exact absurd rfl h | rfl

theorem is_ptr_expanded (fuel : Nat) (v : Validator) (type : ASTType)
    (h : type.kind ≠ .TY_UNDEF) :
    is_ptr fuel v (some type) = Run.ret (type.kind == .TY_PTR) := by
  unfold is_ptr
  rw [Run.bind_eq, expanded_operand_not_alias fuel v type h, Run.ret_andThen]
  rfl

/-- C33: on a type that is no alias reference (an expanded type), `is_number` returns
whether the kind is one of the eight integer kinds, the three float kinds, `char` or an
enumeration, and `v_is_integer` returns whether it is one of these without the float
kinds; nothing is printed.  On an alias reference both classify the type that
`expand_typedef` returns.  So every integer-like kind is numeric, a kind is numeric and not
integer-like exactly when it is a float kind, and the kinds of boolean, void, pointer,
array, aggregate and function types are neither. -/
theorem C33_type_classification (fuel : Nat) (v : Validator) (type : ASTType)
    (h : type.kind ≠ .TY_UNDEF) :
    is_number fuel v (some type) = Run.ret (numeric type.kind) ∧
    v_is_integer fuel v (some type) = Run.ret (integer_like type.kind) ∧
    (∀ t : ASTType, t.kind = .TY_UNDEF →
      (expand_typedef fuel v (some t)).out = .ok (some type) →
      (is_number fuel v (some t)).value? = some (numeric type.kind) ∧
      (v_is_integer fuel v (some t)).value? = some (integer_like type.kind)) ∧
    (∀ kind : ASTTypeKind,
      (numeric kind = true ↔
        kind ∈ [ASTTypeKind.TY_I8, .TY_I16, .TY_I32, .TY_I64, .TY_U8, .TY_U16, .TY_U32,
          .TY_U64, .TY_F32, .TY_F64, .TY_F80, .TY_CHAR, .TY_ENUM]) ∧
      (integer_like kind = true ↔
        kind ∈ [ASTTypeKind.TY_I8, .TY_I16, .TY_I32, .TY_I64, .TY_U8, .TY_U16, .TY_U32,
          .TY_U64, .TY_CHAR, .TY_ENUM]) ∧
      (integer_like kind = true → numeric kind = true) ∧
      ((numeric kind = true ∧ integer_like kind = false) ↔
        kind ∈ [ASTTypeKind.TY_F32, .TY_F64, .TY_F80]) ∧
      (kind ∈ [ASTTypeKind.TY_BOOL, .TY_VOID, .TY_PTR, .TY_ARR, .TY_STRUCT, .TY_FN] →
        numeric kind = false ∧ integer_like kind = false)) := by
  refine ⟨is_number_expanded fuel v type h, v_is_integer_expanded fuel v type h, ?_, ?_⟩
  · intro t ht he
    have hop : (expanded_operand fuel v (some t)).out = .ok (some type) := by
      simp only [expanded_operand, ht, if_true]
      exact he
    constructor
    · rw [Run.value?_eq_some]
      unfold is_number
      rw [Run.bind_eq, Run.andThen_out_ok _ _ _ hop]
      have := is_number_expanded 0 v type h
      unfold is_number at this
      rw [Run.bind_eq, expanded_operand_not_alias 0 v type h, Run.ret_andThen] at this
      rw [this]
      rfl
    · rw [Run.value?_eq_some]
      unfold v_is_integer
      rw [Run.bind_eq, Run.andThen_out_ok _ _ _ hop]
      have := v_is_integer_expanded 0 v type h
      unfold v_is_integer at this
      rw [Run.bind_eq, expanded_operand_not_alias 0 v type h, Run.ret_andThen] at this
      rw [this]
      rfl
  · intro kind
    cases kind <;> decide

theorem C33_type_classification_witness :
    (is_number 0 {} (some (plain .TY_F64 8)) = Run.ret true ∧
      v_is_integer 0 {} (some (plain .TY_F64 8)) = Run.ret false) ∧
    (is_number 0 {} (some (enum_of [])) = Run.ret true ∧
      v_is_integer 0 {} (some (enum_of [])) = Run.ret true) ∧
    (is_number 0 {} (some (pointer_to (plain .TY_I32 4))) = Run.ret false ∧
      v_is_integer 0 {} (some (pointer_to (plain .TY_I32 4))) = Run.ret false) ∧
    ((is_number 2 sample_Ratio_validator (some (alias_ref "Ratio"))).value? = some true ∧
      (v_is_integer 2 sample_Ratio_validator (some (alias_ref "Ratio"))).value?
        = some false) :=
  ⟨⟨(C33_type_classification 0 {} (plain .TY_F64 8) (by decide)).1,
    (C33_type_classification 0 {} (plain .TY_F64 8) (by decide)).2.1⟩,
   ⟨(C33_type_classification 0 {} (enum_of []) (by decide)).1,
    (C33_type_classification 0 {} (enum_of []) (by decide)).2.1⟩,
   ⟨(C33_type_classification 0 {} (pointer_to (plain .TY_I32 4)) (by decide)).1,
    (C33_type_classification 0 {} (pointer_to (plain .TY_I32 4)) (by decide)).2.1⟩,
   (C33_type_classification 2 sample_Ratio_validator (plain .TY_F64 8) (by decide)).2.2.1
      (alias_ref "Ratio") rfl rfl⟩
/-! ## C36, C37: `types_equal` as a relation -/

theorem types_equal_eq (i1 i2 : TypeInfo) (b1 b2 : Option ASTType) (n1 n2 : Option ASTNode)
    (m1 m2 : List ASTNode) (e1 e2 : List ASTObj) (a1 a2 : List ASTType) :
    types_equal (.mk i1 b1 n1 m1 e1 a1) (.mk i2 b2 n2 m2 e2 a2)
      = if i1.kind ≠ i2.kind then some false
        else
          match i1.kind with
          | .TY_ARR | .TY_PTR =>
            match b1, b2 with
            | some x, some y => types_equal x y
            | _, _ => none
          | .TY_UNDEF =>
            match i1.id, i2.id with
            | some a, some b => some (a.callee == b.callee)
            | _, _ => none
          | _ => some true := by
  rcases b1 with _ | x <;> rcases b2 with _ | y <;> simp only [types_equal]

theorem ASTType.well_formed_eq (info : TypeInfo) (base : Option ASTType)
    (n : Option ASTNode) (m : List ASTNode) (e : List ASTObj) (ar : List ASTType) :
    (ASTType.mk info base n m e ar).well_formed
      = (match info.kind with
        | .TY_ARR | .TY_PTR =>
          match base with
          | some base => base.well_formed
          | none => false
        | .TY_UNDEF => info.id.isSome
        | _ => true) := by
  obtain ⟨k, tok, ht, sz, al, id, c, u, vla, va⟩ := info
  cases k <;> cases base <;> rfl

theorem types_equal_refl : ∀ a : ASTType,
    types_equal a a = if a.well_formed then some true else none
  | .mk i b n m e ar => by
    rw [types_equal_eq, if_neg (by simp), ASTType.well_formed_eq]
    cases hk : i.kind <;> simp only [] <;>
      first
      | rfl
      | (cases b with
         | none => rfl
         | some base => exact types_equal_refl base)
      | (cases i.id <;> simp)

theorem types_equal_symm : ∀ a b : ASTType, types_equal a b = types_equal b a
  | .mk i1 b1 n1 m1 e1 a1, .mk i2 b2 n2 m2 e2 a2 => by
    rw [types_equal_eq, types_equal_eq]
    by_cases hk : i1.kind = i2.kind
    · rw [if_neg (by simpa using hk), if_neg (by simpa using hk.symm), ← hk]
      cases hk1 : i1.kind <;> simp only [] <;>
        first
        | rfl
        | (cases b1 <;> cases b2 <;> first | rfl | exact types_equal_symm _ _)
        | (cases i1.id <;> cases i2.id <;> simp [eq_comm])
    · rw [if_pos hk, if_pos (fun h => hk h.symm)]

theorem types_equal_trans : ∀ a b c : ASTType,
    types_equal a b = some true → types_equal b c = some true → types_equal a c = some true
  | .mk i1 b1 n1 m1 e1 a1, .mk i2 b2 n2 m2 e2 a2, .mk i3 b3 n3 m3 e3 a3 => by
    rw [types_equal_eq, types_equal_eq, types_equal_eq]
    intro hab hbc
    by_cases h12 : i1.kind = i2.kind
    · by_cases h23 : i2.kind = i3.kind
      · rw [if_neg (by simpa using h12)] at hab
        rw [if_neg (by simpa using h23), ← h12] at hbc
        rw [if_neg (by simpa using h12.trans h23)]
        cases hk1 : i1.kind <;> simp only [hk1] at hab hbc ⊢ <;>
          first
          | (cases b1 <;> cases b2 <;> cases b3 <;> simp only [] at hab hbc ⊢ <;>
              first
              | exact types_equal_trans _ _ _ hab hbc
              | cases hab
              | cases hbc)
          | (cases h1 : i1.id with
             | none => simp [h1] at hab
             | some x =>
               cases h2 : i2.id with
               | none => simp [h1, h2] at hab
               | some y =>
                 cases h3 : i3.id with
                 | none => simp [h2, h3] at hbc
                 | some z =>
                   simp only [h1, h2, h3, Option.some.injEq, beq_iff_eq] at hab hbc ⊢
                   exact hab.trans hbc)
      · rw [if_pos h23] at hbc
        exact absurd hbc (by simp)
    · rw [if_pos h12] at hab
      exact absurd hab (by simp)

/-- The result of `types_equal` depends on the kinds, the base types and the names of
alias references only. -/
theorem types_equal_congr (i1 i2 j : TypeInfo) (b1 b2 c : Option ASTType)
    (n1 n2 n : Option ASTNode) (m1 m2 m : List ASTNode) (e1 e2 e : List ASTObj)
    (a1 a2 a : List ASTType) (hk : i1.kind = i2.kind) (hb : b1 = b2) (hi : i1.id = i2.id) :
    types_equal (.mk i1 b1 n1 m1 e1 a1) (.mk j c n m e a)
      = types_equal (.mk i2 b2 n2 m2 e2 a2) (.mk j c n m e a) := by
  rw [types_equal_eq, types_equal_eq, hk, hb, hi]

/-- C36: `types_equal` is an equivalence relation: on every well formed type (a pointer or
array type has a base type, an alias reference has an identifier, as in every type the
parser builds) `types_equal(a, a)` is true; for all types `types_equal(a, b)` and
`types_equal(b, a)` have the same result; and when `types_equal(a, b)` and
`types_equal(b, c)` are true, so is `types_equal(a, c)`. -/
theorem C36_types_equal_equivalence (a b c : ASTType) :
    (a.well_formed = true → types_equal a a = some true) ∧
    types_equal a b = types_equal b a ∧
    (types_equal a b = some true → types_equal b c = some true →
      types_equal a c = some true) := by
  refine ⟨?_, types_equal_symm a b, types_equal_trans a b c⟩
  intro h
  rw [types_equal_refl, h]
  rfl

theorem C36_types_equal_equivalence_witness :
    (pointer_to (alias_ref "T")).well_formed = true ∧
    types_equal (pointer_to (alias_ref "T")) (pointer_to (alias_ref "T")) = some true ∧
    types_equal (array_of (plain .TY_I32 4) 3) (array_of (plain .TY_I32 4) 5) = some true ∧
    types_equal (array_of (plain .TY_I32 4) 5) (flexible_array_of (plain .TY_I32 4))
      = some true ∧
    types_equal (array_of (plain .TY_I32 4) 3) (flexible_array_of (plain .TY_I32 4))
      = some true :=
  ⟨rfl,
   (C36_types_equal_equivalence (pointer_to (alias_ref "T")) (plain .TY_I32)
      (plain .TY_I32)).1 rfl,
   rfl, rfl,
   (C36_types_equal_equivalence (array_of (plain .TY_I32 4) 3) (array_of (plain .TY_I32 4) 5)
      (flexible_array_of (plain .TY_I32 4))).2.2 rfl rfl⟩

/-- C37: `types_equal` looks at the kinds, at the base types of pointer and array types and
at the names of alias references only.  Two types of the same kind that is not pointer,
array or alias reference are equal whatever their members, flags, signatures and sizes
are: two aggregates, a union and a record, two function types, two enumerations.  Two
array types are equal exactly when their base types are, whatever their lengths. -/
theorem C37_types_equal_coarse (a b : ASTType) :
    (a.kind = b.kind → a.kind ≠ .TY_PTR → a.kind ≠ .TY_ARR → a.kind ≠ .TY_UNDEF →
      types_equal a b = some true) ∧
    (a.kind ≠ b.kind → types_equal a b = some false) ∧
    (∀ x y, a.kind = .TY_ARR → b.kind = .TY_ARR → a.base = some x → b.base = some y →
      types_equal a b = types_equal x y) ∧
    (∀ a2 : ASTType, a2.kind = a.kind → a2.base = a.base → a2.id = a.id →
      types_equal a2 b = types_equal a b) := by
  obtain ⟨i1, b1, n1, m1, e1, a1⟩ := a
  obtain ⟨i2, b2, n2, m2, e2, a2⟩ := b
  refine ⟨?_, ?_, ?_, ?_⟩
  · intro hk h1 h2 h3
    replace hk : i1.kind = i2.kind := hk
    replace h1 : i1.kind ≠ .TY_PTR := h1
    replace h2 : i1.kind ≠ .TY_ARR := h2
    replace h3 : i1.kind ≠ .TY_UNDEF := h3
    rw [types_equal_eq, if_neg (by simpa using hk)]
    cases hk1 : i1.kind <;> simp only [] <;> first | rfl | contradiction
  · intro hk
    exact types_equal_kind_ne _ _ hk
  · intro x y h1 h2 hx hy
    replace h1 : i1.kind = .TY_ARR := h1
    replace h2 : i2.kind = .TY_ARR := h2
    replace hx : b1 = some x := hx
    replace hy : b2 = some y := hy
    rw [types_equal_eq, h1, h2, hx, hy]
    rfl
  · intro a3 hk hb hi
    obtain ⟨i3, b3, n3, m3, e3, a3⟩ := a3
    exact types_equal_congr i3 i1 i2 b3 b1 b2 _ _ _ _ _ _ _ _ _ _ _ _ hk hb
      (by
        have : i3.id = i1.id := hi
        exact this)

theorem C37_types_equal_coarse_witness :
    types_equal sample_record_a sample_union_xy = some true ∧
    types_equal (fn_type [plain .TY_I32 4] (some (plain .TY_I32 4)))
        (fn_type [] none true) = some true ∧
    types_equal (enum_of [sample_red, sample_green]) (enum_of []) = some true ∧
    types_equal (array_of (plain .TY_I32 4) 3) (array_of (plain .TY_I32 4) 5)
      = types_equal (plain .TY_I32 4) (plain .TY_I32 4) ∧
    types_equal (array_of (plain .TY_I32 4) 3) (array_of (plain .TY_I8 1) 3) = some false :=
  ⟨(C37_types_equal_coarse sample_record_a sample_union_xy).1 rfl (by decide) (by decide)
      (by decide),
   (C37_types_equal_coarse (fn_type [plain .TY_I32 4] (some (plain .TY_I32 4)))
      (fn_type [] none true)).1 rfl (by decide) (by decide) (by decide),
   (C37_types_equal_coarse (enum_of [sample_red, sample_green]) (enum_of [])).1 rfl
      (by decide) (by decide) (by decide),
   (C37_types_equal_coarse (array_of (plain .TY_I32 4) 3)
      (array_of (plain .TY_I32 4) 5)).2.2.1 _ _ rfl rfl rfl rfl,
   rfl⟩

/-! ## C31: traversal of types -/

/-- For every callback table: on a pointer type `ast_type` visits the base type and then
invokes the callback of the kind; on an array type it visits the base type, then the length
expression, then invokes the callback; on an aggregate it visits the members in list order,
on an enumeration it passes the entries in list order to `ast_node`, on a function type it
visits the return type and the parameter types, and then invokes the callback.  For every
kind but that of `typeof` types the trace of a visit ends with the one invocation of the
callback of the kind, if the table has one; on a `typeof` type nothing is invoked. -/
theorem ast_type_bottom_up {fn : Type} (list : ASTIteratorList fn) (type : ASTType) :
    (type.kind = .TY_PTR →
      ast_type list type
        = ast_type_ptr list type.base ++ list_fn Visit.type_fn (list.type_fns .TY_PTR) type) ∧
    (type.kind = .TY_ARR →
      ast_type list type
        = ast_type_ptr list type.base ++ ast_node_ptr list type.num_indices ++
            list_fn Visit.type_fn (list.type_fns .TY_ARR) type) ∧
    (type.kind = .TY_STRUCT →
      ast_type list type
        = ast_nodes list type.members ++ list_fn Visit.type_fn (list.type_fns .TY_STRUCT) type) ∧
    (type.kind = .TY_ENUM →
      ast_type list type
        = ast_members_as_nodes list type.enum_members ++
            list_fn Visit.type_fn (list.type_fns .TY_ENUM) type) ∧
    (type.kind = .TY_FN →
      ast_type list type
        = ast_type_ptr list type.base ++ ast_types list type.arg_types ++
            list_fn Visit.type_fn (list.type_fns .TY_FN) type) ∧
    (∀ f, type.kind ≠ .TY_TYPEOF → list.type_fns type.kind = some f →
      ∃ parts, ast_type list type = parts ++ [Visit.type_fn f type]) ∧
    (type.kind = .TY_TYPEOF → ast_type list type = []) := by
  obtain ⟨info, base, num_indices, members, enum_members, arg_types⟩ := type
  have heq := ast_type_eq list info base num_indices members enum_members arg_types
  refine ⟨?_, ?_, ?_, ?_, ?_, ?_, ?_⟩
  · intro hk
    replace hk : info.kind = .TY_PTR := hk
    rw [heq]
    simp only [hk]
    rfl
  · intro hk
    replace hk : info.kind = .TY_ARR := hk
    rw [heq]
    simp only [hk]
    rfl
  · intro hk
    replace hk : info.kind = .TY_STRUCT := hk
    rw [heq]
    simp only [hk]
    rfl
  · intro hk
    replace hk : info.kind = .TY_ENUM := hk
    rw [heq]
    simp only [hk]
    rfl
  · intro hk
    replace hk : info.kind = .TY_FN := hk
    rw [heq]
    simp only [hk]
    rfl
  · intro f hne hf
    replace hne : info.kind ≠ .TY_TYPEOF := hne
    replace hf : list.type_fns info.kind = some f := hf
    rw [heq]
    cases hk : info.kind <;> rw [hk] at hf <;>
      simp only [hk, hf, list_fn] <;>
      first
      | exact ⟨_, rfl⟩
      | exact ⟨[], rfl⟩
      | exact absurd hk hne
  · intro hk
    replace hk : info.kind = .TY_TYPEOF := hk
    rw [heq]
    simp only [hk]

/-- C31, the divergence.  The table of the validator registers `typeof_type` for `typeof`
types, and `ast_type` invokes nothing on the type `typeof x`, with that table and with a
table that has a callback in every slot; on a pointer to `typeof x` only the callback of
the pointer type is invoked, the base type gets none.  For comparison, with a callback in
every slot the function type `fn<bool>(i32)` gets the callbacks of its return type and of
its parameter type before its own, and an enumeration the two callbacks of each entry
before its own. -/
theorem C31_types_bottom_up_diverges :
    main_iterator_list.type_fns .TY_TYPEOF = some .typeof_type ∧
    ast_type main_iterator_list sample_typeof = [] ∧
    full_iterator_list.type_fns .TY_TYPEOF = some "type" ∧
    ast_type full_iterator_list sample_typeof = [] ∧
    ast_type full_iterator_list (pointer_to sample_typeof)
      = [Visit.type_fn "type" (pointer_to sample_typeof)] ∧
    ast_type full_iterator_list (fn_type [plain .TY_I32 4] (some (plain .TY_BOOL 1)))
      = [Visit.type_fn "type" (plain .TY_BOOL 1), Visit.type_fn "type" (plain .TY_I32 4),
         Visit.type_fn "type" (fn_type [plain .TY_I32 4] (some (plain .TY_BOOL 1)))] ∧
    ast_type full_iterator_list (enum_of [sample_red, sample_green])
      = [Visit.node_start "node_start" sample_red.as_node,
         Visit.node_end "node_end" sample_red.as_node,
         Visit.node_start "node_start" sample_green.as_node,
         Visit.node_end "node_end" sample_green.as_node,
         Visit.type_fn "type" (enum_of [sample_red, sample_green])] :=
  ⟨rfl, rfl, rfl, rfl, rfl, rfl, rfl⟩

/-! ## C40: every child once -/

/-- C40, the divergence.  With a callback in every slot, `ast_node` on
`if c { ret 1; } else { ret 2; }` invokes callbacks for the statement, its condition and
its first branch, and none for the else branch (line 4); on
`match x { 1 => ret 1; _ => ret 0; }` it invokes the callbacks of the default case
(line 14) and of its body twice, once before and once after the cases, and none for the
condition `x` (line 11). -/
theorem C40_children_visited_once_diverges :
    (ast_node full_iterator_list sample_if_lines).map (fun visit => (visit.callback, visit.line))
      = [("node_start", 1), ("node_start", 1), ("node_end", 1),
         ("node_start", 2), ("node_start", 2), ("node_end", 2), ("node_end", 2),
         ("node_end", 1)] ∧
    sample_if_lines.else_branch.map ASTNode.tok = some { line := 4 } ∧
    (∀ visit ∈ ast_node full_iterator_list sample_if_lines, visit.line ≠ 4) ∧
    (ast_node full_iterator_list sample_match_lines).map
        (fun visit => (visit.callback, visit.line))
      = [("node_start", 10),
         ("node_start", 14), ("node_start", 15), ("node_end", 15), ("node_end", 14),
         ("node_start", 12), ("node_start", 12), ("node_end", 12),
           ("node_start", 13), ("node_end", 13), ("node_end", 12),
         ("node_start", 14), ("node_start", 15), ("node_end", 15), ("node_end", 14),
         ("node_end", 10)] ∧
    sample_match_lines.condition.map ASTNode.tok = some { line := 11 } ∧
    sample_match_lines.default_case.map ASTNode.tok = some { line := 14 } ∧
    (∀ visit ∈ ast_node full_iterator_list sample_match_lines, visit.line ≠ 11) ∧
    ((ast_node full_iterator_list sample_match_lines).map Visit.line).count 14 = 4 := by
  refine ⟨by decide, rfl, ?_, by decide, rfl, rfl, ?_, by decide⟩
  · intro visit hv
    have h : ∀ l ∈ (ast_node full_iterator_list sample_if_lines).map Visit.line, l ≠ 4 := by
      decide
    exact h _ (List.mem_map_of_mem _ hv)
  · intro visit hv
    have h : ∀ l ∈ (ast_node full_iterator_list sample_match_lines).map Visit.line,
        l ≠ 11 := by
      decide
    exact h _ (List.mem_map_of_mem _ hv)
/-! ## C38: member offsets do not overlap -/

theorem expanded_operand_of_expand (fuel : Nat) (v : Validator) (type r : Option ASTType)
    (h : (expand_typedef fuel v type).out = .ok r) :
    (expanded_operand fuel v type).out = .ok r := by
  cases fuel with
  | zero => simp [expand_typedef, Run.no_fuel] at h
  | succ n =>
    cases type with
    | none =>
      simp only [expand_typedef, Run.pure_eq, Run.ret, Outcome.ok.injEq] at h
      subst h
      rfl
    | some t =>
      by_cases hk : t.kind = .TY_UNDEF
      · simp only [expanded_operand, hk, if_true]
        exact h
      · rw [expand_typedef_not_alias n v t hk] at h
        simp only [expanded_operand, hk, if_false]
        exact h

/-- The verdict of `is_ptr` on an operand whose expansion is known. -/
theorem is_ptr_of_operand (fuel : Nat) (v : Validator) (type e : Option ASTType)
    (h : (expanded_operand fuel v type).out = .ok e) :
    (is_ptr fuel v type).value?
      = some (e.elim false fun e => e.kind == .TY_PTR) := by
  rw [Run.value?_eq_some]
  unfold is_ptr
  rw [Run.bind_eq, Run.andThen_out_ok _ _ _ h]
  cases e <;> rfl

/-- The verdict of `is_number` on an operand whose expansion is known. -/
theorem is_number_of_operand (fuel : Nat) (v : Validator) (type e : Option ASTType)
    (h : (expanded_operand fuel v type).out = .ok e) :
    (is_number fuel v type).value?
      = some (e.elim false fun e => numeric e.kind) := by
  rw [Run.value?_eq_some]
  unfold is_number
  rw [Run.bind_eq, Run.andThen_out_ok _ _ _ h]
  cases e with
  | none => rfl
  | some e =>
    obtain ⟨⟨k, tok, ht, sz, al, id, c, u, vla, va⟩, b, n, m, e2, a⟩ := e
    cases k <;> rfl

/-- The verdict of the test `!is_number(v, type) && !is_ptr(v, type)`. -/
theorem lt_gt_rejects_of_operand (fuel : Nat) (v : Validator) (type e : Option ASTType)
    (h : (expanded_operand fuel v type).out = .ok e) :
    (lt_gt_rejects fuel v type).value?
      = some (e.elim true fun e => !numeric e.kind && !(e.kind == .TY_PTR)) := by
  have h1 := (Run.value?_eq_some _ _).1 (is_number_of_operand fuel v type e h)
  have h2 := (Run.value?_eq_some _ _).1 (is_ptr_of_operand fuel v type e h)
  rw [Run.value?_eq_some]
  unfold lt_gt_rejects
  rw [Run.bind_eq, Run.andThen_out_ok _ _ _ h1]
  cases e with
  | none =>
    simp only [Option.elim, Bool.false_eq_true, if_false, Run.bind_eq]
    rw [Run.andThen_out_ok _ _ _ h2]
    rfl
  | some e =>
    simp only [Option.elim] at h2 ⊢
    by_cases hn : numeric e.kind = true
    · rw [if_pos hn, hn]
      rfl
    · rw [if_neg hn, Run.bind_eq, Run.andThen_out_ok _ _ _ h2]
      have hf : numeric e.kind = false := by simpa using hn
      rw [hf]
      rfl

theorem lt_gt_rejects_operand (fuel : Nat) (v : Validator) (type : Option ASTType) (b : Bool)
    (h : (lt_gt_rejects fuel v type).out = .ok b) :
    ∃ e, (expanded_operand fuel v type).out = .ok e := by
  unfold lt_gt_rejects at h
  rw [Run.bind_eq] at h
  obtain ⟨number, hn, -⟩ := Run.andThen_ok_inv _ _ _ h
  unfold is_number at hn
  rw [Run.bind_eq] at hn
  obtain ⟨e, he, -⟩ := Run.andThen_ok_inv _ _ _ hn
  exact ⟨e, he⟩

/-- What `bin_operation` did when it returns without a TypeError. -/
theorem bin_operation_accepted (fuel : Nat) (v : Validator) (op left right written : ASTNode)
    (hl : op.left = some left) (hr : op.right = some right)
    (hout : (bin_operation fuel v op).out = .ok written)
    (hno : (bin_operation fuel v op).reports .ERR_TYPE_ERROR = false) :
    (lt_gt_rejects fuel v left.data_type).out = .ok false ∧
    (lt_gt_rejects fuel v right.data_type).out = .ok false ∧
    ∃ swaps, (bin_operation_swaps fuel v op left right).out = .ok swaps ∧
      written = (if swaps then
          ((op.set_left (some right)).set_right (some left)).set_data_type left.data_type
        else op.set_data_type right.data_type) := by
  unfold bin_operation at hout hno
  simp only [hl] at hout hno
  obtain ⟨rl, hrl, hf⟩ := Run.andThen_ok_inv _ _ _ hout
  rw [Run.reports_andThen_iff _ _ _ rl hrl] at hno
  simp only [Bool.or_eq_false_iff] at hno
  cases rl with
  | true =>
    have := hno.2
    simp [Run.reports, throw_error, Run.andThen, force_exit, Run.ret] at this
  | false =>
    simp only [Bool.false_eq_true, if_false] at hf hno
    unfold bin_operation_right at hf hno
    simp only [hr] at hf hno
    obtain ⟨rr, hrr, hf2⟩ := Run.andThen_ok_inv _ _ _ hf
    have hno2 := hno.2
    rw [Run.reports_andThen_iff _ _ _ rr hrr] at hno2
    simp only [Bool.or_eq_false_iff] at hno2
    cases rr with
    | true =>
      have := hno2.2
      simp [Run.reports, throw_error, Run.andThen, force_exit, Run.ret] at this
    | false =>
      simp only [Bool.false_eq_true, if_false] at hf2
      obtain ⟨swaps, hsw, hf3⟩ := Run.andThen_ok_inv _ _ _ hf2
      refine ⟨hrl, hrr, swaps, hsw, ?_⟩
      cases swaps <;>
        simp only [Bool.false_eq_true, if_false, if_true, Run.pure_eq, Run.ret,
          Outcome.ok.injEq] at hf3 ⊢ <;>
        exact hf3.symm

theorem ASTNode.sides_set_data_type (node : ASTNode) (ty : Option ASTType) :
    (node.set_data_type ty).left = node.left ∧ (node.set_data_type ty).right = node.right := by
  cases node
  exact ⟨rfl, rfl⟩

theorem ASTNode.sides_swapped (node : ASTNode) (l r : Option ASTNode) (ty : Option ASTType) :
    (((node.set_left l).set_right r).set_data_type ty).left = l ∧
    (((node.set_left l).set_right r).set_data_type ty).right = r ∧
    (((node.set_left l).set_right r).set_data_type ty).data_type = ty := by
  cases node
  exact ⟨rfl, rfl, rfl⟩

/-- C34: let `bin_operation` return on a node with the operands `left` and `right`
without a TypeError, the pointer and array types being the ones with a base type as in
every type the parser builds.  If the node is an addition and exactly one operand has
pointer type (`is_ptr`), then afterwards the pointer operand is the right operand,
whichever side it was written on, the other operand is the left operand, and the type of
the node is the type of the pointer operand.  If the node is not an addition, the operands
are where they were. -/
theorem C34_pointer_normalization (fuel : Nat) (v : Validator)
    (op left right written : ASTNode)
    (hl : op.left = some left) (hr : op.right = some right)
    (hout : (bin_operation fuel v op).out = .ok written)
    (hno : (bin_operation fuel v op).reports .ERR_TYPE_ERROR = false)
    (hwf : ∀ side ∈ [left, right], ∀ e,
      (expand_typedef fuel v side.data_type).out = .ok (some e) → e.base_iff_indirect) :
    (op.kind = .ND_ADD →
      ((is_ptr fuel v left.data_type).value? = some true →
        (is_ptr fuel v right.data_type).value? = some false →
        written.left = some right ∧ written.right = some left ∧
          written.data_type = left.data_type) ∧
      ((is_ptr fuel v left.data_type).value? = some false →
        (is_ptr fuel v right.data_type).value? = some true →
        written.left = some left ∧ written.right = some right ∧
          written.data_type = right.data_type)) ∧
    (op.kind ≠ .ND_ADD → written.left = some left ∧ written.right = some right) := by
  obtain ⟨hrl, hrr, swaps, hsw, hw⟩ :=
    bin_operation_accepted fuel v op left right written hl hr hout hno
  have unswapped : swaps = false →
      written.left = some left ∧ written.right = some right ∧
        written.data_type = right.data_type := by
    intro h0
    rw [hw, h0]
    simp only [Bool.false_eq_true, if_false]
    obtain ⟨h1, h2⟩ := ASTNode.sides_set_data_type op right.data_type
    exact ⟨h1.trans hl, h2.trans hr, ASTNode.data_type_set_data_type _ _⟩
  refine ⟨fun hadd => ⟨?_, ?_⟩, ?_⟩
  · intro hpl hpr
    unfold bin_operation_swaps at hsw
    rw [if_pos hadd] at hsw
    obtain ⟨lb, hlb, hsw2⟩ := Run.andThen_ok_inv _ _ _ hsw
    unfold expanded_base at hlb
    obtain ⟨el, hel, hlb2⟩ := Run.andThen_ok_inv _ _ _ hlb
    cases el with
    | none => simp [Run.null_deref] at hlb2
    | some el =>
      have hopl := expanded_operand_of_expand fuel v _ _ hel
      rw [is_ptr_of_operand fuel v _ _ hopl] at hpl
      simp only [Option.elim, Option.some.injEq, beq_iff_eq] at hpl
      have hbl : el.base.isSome = true :=
        (hwf left (by simp) el hel).2 (Or.inl hpl)
      simp only [Run.pure_eq, Run.ret, Outcome.ok.injEq] at hlb2
      rw [← hlb2, hbl] at hsw2
      simp only [if_true] at hsw2
      obtain ⟨rb, hrb, hsw3⟩ := Run.andThen_ok_inv _ _ _ hsw2
      unfold expanded_base at hrb
      obtain ⟨er, her, hrb2⟩ := Run.andThen_ok_inv _ _ _ hrb
      cases er with
      | none => simp [Run.null_deref] at hrb2
      | some er =>
        have hopr := expanded_operand_of_expand fuel v _ _ her
        rw [is_ptr_of_operand fuel v _ _ hopr] at hpr
        simp only [Option.elim, Option.some.injEq, beq_eq_false_iff_ne, ne_eq] at hpr
        have hrej := lt_gt_rejects_of_operand fuel v _ _ hopr
        rw [(Run.value?_eq_some _ _).2 hrr] at hrej
        simp only [Option.elim, Option.some.injEq] at hrej
        have hnum : numeric er.kind = true := by
          cases hn : numeric er.kind with
          | true => rfl
          | false =>
            rw [hn] at hrej
            have hp : (er.kind == ASTTypeKind.TY_PTR) = false := by simpa using hpr
            rw [hp] at hrej
            exact absurd hrej (by decide)
        have hbr : er.base.isSome = false := by
          cases hb : er.base.isSome with
          | false => rfl
          | true =>
            rcases (hwf right (by simp) er her).1 hb with hk | hk
            · exact absurd hk hpr
            · rw [hk] at hnum
              exact absurd hnum (by decide)
        simp only [Run.pure_eq, Run.ret, Outcome.ok.injEq] at hrb2 hsw3
        rw [← hrb2, hbr] at hsw3
        rw [hw, ← hsw3]
        simp only [Bool.not_false, if_true]
        exact ASTNode.sides_swapped op (some right) (some left) left.data_type
  · intro hpl hpr
    apply unswapped
    unfold bin_operation_swaps at hsw
    rw [if_pos hadd] at hsw
    obtain ⟨lb, hlb, hsw2⟩ := Run.andThen_ok_inv _ _ _ hsw
    unfold expanded_base at hlb
    obtain ⟨el, hel, hlb2⟩ := Run.andThen_ok_inv _ _ _ hlb
    cases el with
    | none => simp [Run.null_deref] at hlb2
    | some el =>
      have hopl := expanded_operand_of_expand fuel v _ _ hel
      rw [is_ptr_of_operand fuel v _ _ hopl] at hpl
      simp only [Option.elim, Option.some.injEq, beq_eq_false_iff_ne, ne_eq] at hpl
      have hrej := lt_gt_rejects_of_operand fuel v _ _ hopl
      rw [(Run.value?_eq_some _ _).2 hrl] at hrej
      simp only [Option.elim, Option.some.injEq] at hrej
      have hnum : numeric el.kind = true := by
        cases hn : numeric el.kind with
        | true => rfl
        | false =>
          rw [hn] at hrej
          have hp : (el.kind == ASTTypeKind.TY_PTR) = false := by simpa using hpl
          rw [hp] at hrej
          exact absurd hrej (by decide)
      have hbl : el.base.isSome = false := by
        cases hb : el.base.isSome with
        | false => rfl
        | true =>
          rcases (hwf left (by simp) el hel).1 hb with hk | hk
          · exact absurd hk hpl
          · rw [hk] at hnum
            exact absurd hnum (by decide)
      simp only [Run.pure_eq, Run.ret, Outcome.ok.injEq] at hlb2
      rw [← hlb2, hbl] at hsw2
      simp only [Bool.false_eq_true, if_false, Run.pure_eq, Run.ret, Outcome.ok.injEq] at hsw2
      exact hsw2.symm
  · intro hne
    have h0 : swaps = false := by
      unfold bin_operation_swaps at hsw
      rw [if_neg hne] at hsw
      simp only [Run.pure_eq, Run.ret, Outcome.ok.injEq] at hsw
      exact hsw.symm
    exact ⟨(unswapped h0).1, (unswapped h0).2.1⟩

theorem C34_pointer_normalization_witness :
    ((bin_operation 1 {} (binary .ND_ADD sample_operand_p sample_operand_1)).out
        = .ok (((binary .ND_ADD sample_operand_1 sample_operand_p)).set_data_type
            sample_operand_p.data_type) ∧
      (bin_operation 1 {} (binary .ND_ADD sample_operand_1 sample_operand_p)).out
        = .ok (((binary .ND_ADD sample_operand_1 sample_operand_p)).set_data_type
            sample_operand_p.data_type)) ∧
    (((binary .ND_ADD sample_operand_1 sample_operand_p)).set_data_type
        sample_operand_p.data_type).right = some sample_operand_p ∧
    (((binary .ND_ADD sample_operand_1 sample_operand_p)).set_data_type
        sample_operand_p.data_type).left = some sample_operand_1 :=
  have hwf : ∀ side ∈ [sample_operand_p, sample_operand_1], ∀ e,
      (expand_typedef 1 {} side.data_type).out = .ok (some e) → e.base_iff_indirect := by
    intro side hs e he
    simp only [List.mem_cons, List.mem_singleton, List.not_mem_nil, or_false] at hs
    rcases hs with rfl | rfl
    · have : e = pointer_to (plain .TY_I32 4) := by
        have h2 : (expand_typedef 1 {} sample_operand_p.data_type).out
            = .ok (some (pointer_to (plain .TY_I32 4))) := rfl
        rw [h2] at he
        injection he with he
        injection he with he
        exact he.symm
      subst this
      unfold ASTType.base_iff_indirect
      decide
    · have : e = plain .TY_I32 4 := by
        have h2 : (expand_typedef 1 {} sample_operand_1.data_type).out
            = .ok (some (plain .TY_I32 4)) := rfl
        rw [h2] at he
        injection he with he
        injection he with he
        exact he.symm
      subst this
      unfold ASTType.base_iff_indirect
      decide
  have h := (C34_pointer_normalization 1 {} (binary .ND_ADD sample_operand_p sample_operand_1)
    sample_operand_p sample_operand_1 _ rfl rfl rfl rfl hwf).1 rfl
  ⟨⟨rfl, rfl⟩, (h.1 rfl rfl).2.1, (h.1 rfl rfl).1⟩
/-! ## C35: member access -/

theorem find_member_named_spec (name : ASTIdentifier) :
    ∀ (members : List ASTNode) (found : ASTNode),
      (find_member_named (some name) members).out = .ok (some found) →
      member_named name.callee members = some found
  | [], found => by
    intro h
    simp [find_member_named, Run.ret] at h
  | m :: rest, found => by
    intro h
    unfold find_member_named at h
    unfold member_named
    cases hid : m.info.id with
    | none => simp [hid, Run.null_deref] at h
    | some mid =>
      simp only [hid] at h
      rw [List.find?_cons]
      simp only [hid, Option.map_some']
      by_cases hc : mid.callee = name.callee
      · rw [if_pos hc] at h
        simp only [Run.pure_eq, Run.ret, Outcome.ok.injEq, Option.some.injEq] at h
        subst h
        have hb : (some mid.callee == some name.callee) = true := by simpa using hc
        rw [hb]
      · rw [if_neg hc] at h
        have ih := find_member_named_spec name rest found h
        unfold member_named at ih
        have hb : (some mid.callee == some name.callee) = false := by simpa using hc
        rw [hb]
        exact ih

/-- What `find_member_in_type` did when it returns a member. -/
theorem find_member_in_type_found (P : Platform) (fuel : Nat) (v : Validator)
    (type : ASTType) (id found : ASTNode)
    (h : (find_member_in_type P fuel v type id).out = .ok (some found)) :
    id.kind = .ND_ID ∧
    ∃ agg name, (find_member_loop fuel v fuel type false).out = .ok agg ∧
      agg.kind = .TY_STRUCT ∧ id.info.id = some name ∧
      member_named name.callee agg.members = some found := by
  unfold find_member_in_type at h
  by_cases hk : id.kind = .ND_ID
  · rw [if_neg (by simpa using hk)] at h
    obtain ⟨agg, hagg, h2⟩ := Run.andThen_ok_inv _ _ _ h
    by_cases hs : agg.kind = .TY_STRUCT
    · rw [if_neg (by simpa using hs)] at h2
      cases hid : id.info.id with
      | none =>
        rw [hid] at h2
        cases hm : agg.members with
        | nil => simp [hm, find_member_named, Run.ret] at h2
        | cons m rest =>
          rw [hm] at h2
          unfold find_member_named at h2
          cases m.info.id <;> simp [Run.null_deref] at h2
      | some name =>
        rw [hid] at h2
        exact ⟨hk, agg, name, hagg, hs, rfl, find_member_named_spec name _ _ h2⟩
    · rw [if_pos hs] at h2
      obtain ⟨u, -, h3⟩ := Run.andThen_ok_inv _ _ _ h2
      simp [Run.ret] at h3
  · rw [if_pos hk] at h
    simp [Run.ret] at h

/-- The member callback reports a TypeError when the type at which the loop of
`find_member_in_type` stops is no aggregate. -/
theorem member_rejects (P : Platform) (fuel : Nat) (v : Validator)
    (node left right : ASTNode) (left_type agg : ASTType)
    (hl : node.left = some left) (hr : node.right = some right)
    (ht : left.data_type = some left_type) (hk : right.kind = .ND_ID)
    (hagg : (find_member_loop fuel v fuel left_type false).out = .ok agg)
    (hs : agg.kind ≠ .TY_STRUCT) :
    (member P fuel v node).reports .ERR_TYPE_ERROR = true := by
  unfold member
  simp only [hl, hr, ht]
  apply Run.reports_andThen_of_left
  unfold find_member_in_type
  rw [if_neg (by simpa using hk)]
  apply Run.reports_andThen_of_right _ _ _ agg hagg
  rw [if_pos hs]
  apply Run.reports_andThen_of_left
  rw [throw_error_reports]
  rfl

theorem ASTNode.member_written (node found : ASTNode) :
    ((node.set_data_type found.data_type).set_body (some found)).data_type = found.data_type ∧
    ((node.set_data_type found.data_type).set_body (some found)).left = node.left := by
  cases node
  exact ⟨rfl, rfl⟩

theorem ASTNode.member_written_left (node found : ASTNode) (l : Option ASTNode) :
    (((node.set_data_type found.data_type).set_body (some found)).set_left l).data_type
        = found.data_type ∧
    (((node.set_data_type found.data_type).set_body (some found)).set_left l).left = l := by
  cases node
  exact ⟨rfl, rfl⟩

theorem ASTNode.deref_written (fresh left : ASTNode) (ty : Option ASTType) :
    ((fresh.set_data_type ty).set_right (some left)).kind = fresh.kind ∧
    ((fresh.set_data_type ty).set_right (some left)).right = some left ∧
    ((fresh.set_data_type ty).set_right (some left)).data_type = ty := by
  cases fresh
  exact ⟨rfl, rfl, rfl⟩

/-- What `member` does: let `e.m` be a member expression whose left operand `e` has the
type `left_type`.
(1) When `member` returns without a TypeError: the loop of `find_member_in_type` stopped at
an aggregate; the type of the node is the declared type of the first member named `m` of
that aggregate; if `is_ptr` is false on `left_type`, as it is when `left_type` is an
aggregate or an alias of one, the left operand is unchanged; if `left_type` is a pointer
type, the left operand is a new node of the kind `init_ast_node` was asked for, a
dereference, whose operand is `e` and whose type is the base type of `left_type`.
(2) When the loop stops at a type that is no aggregate, `member` reports a TypeError; for a
pointer to a pointer it stops at the base type, which is the inner pointer type (one
indirection is removed), and for a type that is no pointer and no alias reference it stops
at the type itself. -/
theorem member_rule (P : Platform) (fuel : Nat) (v : Validator)
    (node left right : ASTNode) (left_type : ASTType)
    (hl : node.left = some left) (hr : node.right = some right)
    (ht : left.data_type = some left_type)
    (hinit : ∀ kind tok, (P.init_ast_node kind tok).kind = kind) :
    (∀ written, (member P fuel v node).out = .ok written →
      (member P fuel v node).reports .ERR_TYPE_ERROR = false →
      ∃ agg name found, (find_member_loop fuel v fuel left_type false).out = .ok agg ∧
        agg.kind = .TY_STRUCT ∧ right.info.id = some name ∧
        member_named name.callee agg.members = some found ∧
        written.data_type = found.data_type ∧
        ((is_ptr fuel v (some left_type)).value? = some false → written.left = some left) ∧
        (∀ e, (expanded_operand fuel v (some left_type)).out = .ok (some e) →
          e.kind = .TY_STRUCT → written.left = some left) ∧
        (left_type.kind = .TY_PTR →
          ∃ deref, written.left = some deref ∧ deref.kind = .ND_DEREF ∧
            deref.right = some left ∧ deref.data_type = left_type.base)) ∧
    (∀ agg, right.kind = .ND_ID →
      (find_member_loop fuel v fuel left_type false).out = .ok agg → agg.kind ≠ .TY_STRUCT →
      (member P fuel v node).reports .ERR_TYPE_ERROR = true) ∧
    (∀ b bb, left_type.kind = .TY_PTR → left_type.base = some b → b.kind = .TY_PTR →
      b.base = some bb → 2 ≤ fuel →
      find_member_loop fuel v fuel left_type false = Run.ret b) ∧
    (left_type.kind ≠ .TY_PTR → left_type.kind ≠ .TY_UNDEF → 1 ≤ fuel →
      find_member_loop fuel v fuel left_type false = Run.ret left_type) := by
  refine ⟨?_, ?_, ?_, ?_⟩
  · intro written hout hno
    unfold member at hout hno
    simp only [hl, hr, ht] at hout hno
    obtain ⟨found?, hfound, hrest⟩ := Run.andThen_ok_inv _ _ _ hout
    rw [Run.reports_andThen_iff _ _ _ found? hfound] at hno
    simp only [Bool.or_eq_false_iff] at hno
    cases found? with
    | none =>
      cases hid : right.info.id with
      | none => simp [hid, Run.null_deref] at hrest
      | some rid =>
        have := hno.2
        simp [hid, Run.reports, throw_error, Run.andThen, force_exit, Run.ret] at this
    | some found =>
      simp only [] at hrest
      obtain ⟨-, agg, name, hagg, hs, hname, hmem⟩ :=
        find_member_in_type_found P fuel v left_type right found hfound
      unfold member_found at hrest
      obtain ⟨ptr, hptr, hw⟩ := Run.andThen_ok_inv _ _ _ hrest
      have hptrv := (Run.value?_eq_some _ _).2 hptr
      refine ⟨agg, name, found, hagg, hs, hname, hmem, ?_, ?_, ?_, ?_⟩
      · cases ptr <;>
          simp only [Bool.false_eq_true, if_false, if_true, Run.pure_eq, Run.ret,
            Outcome.ok.injEq] at hw <;> rw [← hw]
        · exact (ASTNode.member_written node found).1
        · exact (ASTNode.member_written_left node found _).1
      · intro hp
        rw [hptrv] at hp
        cases hp
        simp only [Bool.false_eq_true, if_false, Run.pure_eq, Run.ret, Outcome.ok.injEq] at hw
        rw [← hw, (ASTNode.member_written node found).2]
        exact hl
      · intro e he hke
        have hp := is_ptr_of_operand fuel v _ _ he
        rw [hptrv] at hp
        simp only [Option.elim, hke, Option.some.injEq] at hp
        have hp2 : ptr = false := by
          rw [hp]
          rfl
        subst hp2
        simp only [Bool.false_eq_true, if_false, Run.pure_eq, Run.ret, Outcome.ok.injEq] at hw
        rw [← hw, (ASTNode.member_written node found).2]
        exact hl
      · intro hkp
        have hop : (expanded_operand fuel v (some left_type)).out = .ok (some left_type) := by
          rw [expanded_operand_not_alias fuel v left_type (by rw [hkp]; decide)]
          rfl
        have hp := is_ptr_of_operand fuel v _ _ hop
        rw [hptrv] at hp
        simp only [Option.elim, hkp, Option.some.injEq] at hp
        have hp2 : ptr = true := by
          rw [hp]
          rfl
        subst hp2
        simp only [if_true, Run.pure_eq, Run.ret, Outcome.ok.injEq] at hw
        refine ⟨((P.init_ast_node .ND_DEREF left.tok).set_data_type left_type.base).set_right
          (some left), ?_, ?_⟩
        · rw [← hw]
          exact (ASTNode.member_written_left node found _).2
        · obtain ⟨h1, h2, h3⟩ := ASTNode.deref_written (P.init_ast_node .ND_DEREF left.tok)
            left left_type.base
          exact ⟨h1.trans (hinit _ _), h2, h3⟩
  · intro agg hk hagg hs
    exact member_rejects P fuel v node left right left_type agg hl hr ht hk hagg hs
  · intro b bb hk hb hkb hbb hfuel
    obtain ⟨n, rfl⟩ : ∃ n, fuel = n + 2 := ⟨fuel - 2, by omega⟩
    rw [find_member_loop]
    simp only [hk, if_true, Bool.false_eq_true, if_false, hb]
    rw [find_member_loop]
    simp only [hkb, if_true]
    rfl
  · intro h1 h2 hfuel
    obtain ⟨n, rfl⟩ : ∃ n, fuel = n + 1 := ⟨fuel - 1, by omega⟩
    rw [find_member_loop]
    simp only [h1, h2, if_false]
    rfl

theorem member_rule_sample :
    ((member sample_platform 5 sample_Pair_validator (member_of sample_s "b")).out
        = .ok (((member_of sample_s "b").set_data_type (some (plain .TY_I8 1))).set_body
            (some (struct_member "b" (plain .TY_I8 1)))) ∧
      (((member_of sample_s "b").set_data_type (some (plain .TY_I8 1))).set_body
          (some (struct_member "b" (plain .TY_I8 1)))).left = some sample_s) ∧
    (∃ written deref,
      (member sample_platform 5 sample_Pair_validator (member_of sample_p "b")).out
        = .ok written ∧
      written.data_type = some (plain .TY_I8 1) ∧
      written.left = some deref ∧ deref.kind = .ND_DEREF ∧ deref.right = some sample_p ∧
      deref.data_type = some (alias_ref "Pair")) ∧
    (member sample_platform 5 sample_Pair_validator (member_of sample_q "b")).reports
      .ERR_TYPE_ERROR = true :=
  have hs := (member_rule sample_platform 5 sample_Pair_validator
    (member_of sample_s "b") sample_s _ (alias_ref "Pair") rfl rfl rfl (fun _ _ => rfl)).1
    _ rfl rfl
  have hq := (member_rule sample_platform 5 sample_Pair_validator
    (member_of sample_q "b") sample_q _ (pointer_to (pointer_to (alias_ref "Pair"))) rfl rfl
    rfl (fun _ _ => rfl)).2.1 (pointer_to (alias_ref "Pair")) rfl rfl (by decide)
  ⟨⟨rfl, by
      obtain ⟨agg, name, found, -, -, -, -, -, h, -⟩ := hs
      exact h rfl⟩,
   ⟨_, _, rfl, rfl, rfl, rfl, rfl, rfl⟩, hq⟩

/-- C35, the divergence.  With `type Pair: struct { a: i32, b: i8 }` and
`type PairPtr: &Pair` in scope and `r` of type `PairPtr`, `member` accepts `r.b`: it prints
nothing, gives the node the type `i8` of the member and replaces the left operand by a
dereference node over `r`; the type of that node is the base of the alias reference
`PairPtr`, which is `NULL`, not the pointee type `Pair`.  For `p` of the written type
`&Pair` the dereference node has the type `Pair`. -/
theorem C35_member_access_diverges :
    (is_ptr 6 sample_PairPtr_validator sample_r.data_type).value? = some true ∧
    (member sample_platform 6 sample_PairPtr_validator (member_of sample_r "b")).log = [] ∧
    (∃ written deref,
      (member sample_platform 6 sample_PairPtr_validator (member_of sample_r "b")).out
        = .ok written ∧
      written.data_type = some (plain .TY_I8 1) ∧
      written.left = some deref ∧ deref.kind = .ND_DEREF ∧ deref.right = some sample_r ∧
      deref.data_type = none) ∧
    (∃ written deref,
      (member sample_platform 6 sample_PairPtr_validator (member_of sample_p "b")).out
        = .ok written ∧
      written.left = some deref ∧ deref.kind = .ND_DEREF ∧ deref.right = some sample_p ∧
      deref.data_type = some (alias_ref "Pair")) :=
  ⟨rfl, rfl, ⟨_, _, rfl, rfl, rfl, rfl, rfl, rfl⟩, ⟨_, _, rfl, rfl, rfl, rfl, rfl⟩⟩

/-! ## C39: the enclosing pipe -/

/-- When the right operand of a pipe is no hole, `pipe_end` puts back the pipe that
`pipe_start` saved. -/
theorem pipe_end_restores (v w : Validator) (pipe right : ASTNode)
    (hr : (pipe_start v pipe).2.right = some right) (hk : right.kind ≠ .ND_HOLE) :
    ((pipe_end w (pipe_start v pipe).2).value?.map fun r => r.1.current_pipe) =
      some v.current_pipe := by
  obtain ⟨i, d, e, a, l, r, b, s, st, lo⟩ := pipe
  simp only [pipe_start, ASTNode.set_expr, ASTNode.right] at hr
  subst hr
  simp [pipe_start, pipe_end, ASTNode.set_expr, ASTNode.right, hk, ASTNode.set_data_type,
    ASTNode.expr, Run.value?, pure, Run.ret]

/-- C39, as the code behaves: in `x |> (y |> _) + _` the state holds the outer pipe when
the inner pipe starts; the hole of the inner pipe gets the type of `y`; `pipe_end` on the
inner pipe prints the warning, replaces the node by `y` and leaves no current pipe at all,
since it reads the member `expr` of the copy of `y`; the hole that follows is then rejected
with the fatal SyntaxError "hole expression not in pipe", while with the outer pipe in
place it gets the type of `x`.  A pipe whose right operand is no hole puts the outer pipe
back. -/
theorem C39_pipe_restore_diverges :
    sample_in_outer_pipe.current_pipe = some sample_outer_pipe ∧
    sample_in_inner_pipe.2.expr = some sample_outer_pipe ∧
    (hole sample_in_inner_pipe.1 (stmt .ND_HOLE 2)).value? =
      some (typed .ND_HOLE (plain .TY_I64 8) 2) ∧
    pipe_end sample_in_inner_pipe.1 sample_inner_pipe_validated =
      ⟨[⟨.ERR_SYNTAX_WARNING, { line := 2 }, "unnecessary `|>` expression", []⟩],
        .ok ({ sample_in_outer_pipe with current_pipe := none }, sample_pipe_y)⟩ ∧
    hole { sample_in_outer_pipe with current_pipe := none } (stmt .ND_HOLE 3) =
      ⟨[⟨.ERR_SYNTAX_ERROR, { line := 3 }, "hole expression not in pipe", []⟩], .exited⟩ ∧
    (hole sample_in_outer_pipe (stmt .ND_HOLE 3)).value? =
      some (typed .ND_HOLE (plain .TY_I32 4) 3) ∧
    ((pipe_end sample_plain_pipe.1 sample_plain_pipe.2).value?.map
      fun r => r.1.current_pipe) = some (some sample_outer_pipe) := by
  refine ⟨rfl, rfl, rfl, rfl, rfl, rfl, rfl⟩

/-! ## C32: scopes -/

theorem end_begin_scope (v : Validator) (id : Option ASTIdentifier)
    (h : v.scope_depth < 2 ^ 32) : end_scope (begin_scope v id) = Run.ret v := by
  obtain ⟨cs, hg, d, cf, mf, cp⟩ := v
  have hd : ((d + 1) % 2 ^ 32 + 2 ^ 32 - 1) % 2 ^ 32 = d := by
    replace h : d < 2 ^ 32 := h
    omega
  simp only [end_scope, begin_scope, VScope.prev, pure, hd]

theorem begin_scope_pushes (v : Validator) (id : Option ASTIdentifier) :
    pushes_scope v (begin_scope v id) := ⟨rfl, rfl⟩

theorem end_scope_pops (v w : Validator) (h : (end_scope v).out = .ok w) :
    pops_scope v w := by
  unfold end_scope at h
  cases hs : v.current_scope with
  | none => simp [hs, Run.null_deref] at h
  | some scope =>
    simp only [hs, pure, Run.ret, Outcome.ok.injEq] at h
    subst h
    exact ⟨rfl, by simp [hs]⟩

theorem same_scopes_refl (v : Validator) : same_scopes v v := ⟨rfl, rfl, rfl⟩

theorem same_scopes_trans {u v w : Validator} (h1 : same_scopes u v) (h2 : same_scopes v w) :
    same_scopes u w :=
  ⟨h2.1.trans h1.1, h2.2.1.trans h1.2.1, h2.2.2.trans h1.2.2⟩

theorem pushes_scope_of_same {u v w : Validator} (h1 : pushes_scope u v)
    (h2 : same_scopes v w) : pushes_scope u w :=
  ⟨h2.1.trans h1.1, h2.2.1.trans h1.2⟩

theorem scope_add_obj_same (v w : Validator) (obj : ASTObj)
    (h : (scope_add_obj v obj).out = .ok w) : same_scopes v w := by
  cases hs : v.current_scope with
  | none => simp [scope_add_obj, hs, Run.null_deref] at h
  | some scope =>
    rw [scope_add_obj_out v scope obj hs] at h
    simp only [Outcome.ok.injEq] at h
    subst h
    obtain ⟨p, o, i⟩ := scope
    exact ⟨rfl, by simp [hs, VScope.push, VScope.prev], by simp [hs, VScope.push, VScope.id]⟩

theorem begin_obj_scope_out (v : Validator) (id : Option ASTIdentifier) (objs : List ASTObj) :
    (begin_obj_scope v id objs).out =
      .ok { begin_scope v id with current_scope := some (VScope.mk v.current_scope objs id) } := by
  unfold begin_obj_scope
  rw [scope_add_objs_out objs (begin_scope v id) v.current_scope [] id rfl]
  simp

/-- The function `begin_obj_scope` returns, with one scope more. -/
theorem begin_obj_scope_pushes (v : Validator) (id : Option ASTIdentifier)
    (objs : List ASTObj) :
    ∃ w, (begin_obj_scope v id objs).value? = some w ∧ pushes_scope v w :=
  ⟨{ begin_scope v id with current_scope := some (VScope.mk v.current_scope objs id) },
    (Run.value?_eq_some _ _).2 (begin_obj_scope_out v id objs), rfl, rfl⟩

theorem push_pop_restores (v v1 v2 v3 : Validator) (h : v.scope_depth < 2 ^ 32)
    (h1 : pushes_scope v v1) (h2 : same_scopes v1 v2) (h3 : pops_scope v2 v3) :
    v3.current_scope = v.current_scope ∧ v3.scope_depth = v.scope_depth := by
  constructor
  · have := h3.2.symm.trans (h2.2.1.trans h1.2)
    exact Option.some.inj this
  · rw [h3.1, h2.1, h1.1]
    omega

theorem VScope.chain_length (scope : VScope) :
    (VScope.chain (some scope)).length = (VScope.chain scope.prev).length + 1 := by
  obtain ⟨p, o, i⟩ := scope
  rw [VScope.chain_some_eq]
  rfl

theorem chain_length_of_prev (a b : Option VScope) (h : a.map VScope.prev = some b) :
    (VScope.chain a).length = (VScope.chain b).length + 1 := by
  cases a with
  | none => simp at h
  | some s =>
    simp only [Option.map_some', Option.some.injEq] at h
    rw [VScope.chain_length, h]

theorem chain_length_of_same (a b : Option VScope)
    (h : b.map VScope.prev = a.map VScope.prev) :
    (VScope.chain b).length = (VScope.chain a).length := by
  cases a with
  | none =>
    cases b with
    | none => rfl
    | some s => simp at h
  | some s =>
    cases b with
    | none => simp at h
    | some t =>
      simp only [Option.map_some', Option.some.injEq] at h
      rw [VScope.chain_length, VScope.chain_length, h]

theorem scopes_counted_push {v w : Validator} (hv : scopes_counted v)
    (h : pushes_scope v w) : scopes_counted w := by
  unfold scopes_counted at *
  rw [h.1, hv, chain_length_of_prev _ _ h.2]
  omega

theorem scopes_counted_pop {v w : Validator} (hv : scopes_counted v)
    (h : pops_scope v w) : scopes_counted w := by
  unfold scopes_counted at *
  rw [h.1, hv, chain_length_of_prev _ _ h.2]
  omega

theorem scopes_counted_same {v w : Validator} (hv : scopes_counted v)
    (h : same_scopes v w) : scopes_counted w := by
  unfold scopes_counted at *
  rw [h.1, hv, chain_length_of_same _ _ h.2.1]

theorem scopes_counted_step {f : Callback} {v w : Validator} (hv : scopes_counted v)
    (h : scope_step f v w) : scopes_counted w := by
  unfold scope_step at h
  split at h
  · exact scopes_counted_push hv h
  · split at h
    · exact scopes_counted_pop hv h
    · exact scopes_counted_same hv h

theorem scopes_counted_trace :
    ∀ (trace : List (Visit Callback)) (v w : Validator),
      scopes_counted v → scope_trace trace v w → scopes_counted w
  | [], v, w, hv, h => by
    simp only [scope_trace] at h
    rw [h]
    exact hv
  | visit :: rest, v, w, hv, h => by
    simp only [scope_trace] at h
    obtain ⟨u, hstep, hrest⟩ := h
    exact scopes_counted_trace rest u w (scopes_counted_step hv hstep) hrest
theorem fn_start_pushes (v w : Validator) (fn : ASTObj) (va_area : Option ASTObj)
    (h : (fn_start v fn va_area).out = .ok w) : pushes_scope v w := by
  have hp : pushes_scope v { begin_scope v (some fn.id) with current_function := some fn } :=
    ⟨rfl, rfl⟩
  unfold fn_start at h
  cases hd : fn.data_type with
  | none => simp [hd, Run.null_deref] at h
  | some data_type =>
    simp only [hd] at h
    split at h
    · cases va_area with
      | none => simp [Run.null_deref] at h
      | some va_area => exact pushes_scope_of_same hp (scope_add_obj_same _ _ _ h)
    · simp only [pure, Run.ret, Outcome.ok.injEq] at h
      subst h
      exact hp

theorem with_start_pushes (v : Validator) (obj : ASTObj) :
    ∃ w, (with_start v (some obj)).value? = some w ∧ pushes_scope v w := by
  have hout := scope_add_obj_out (begin_scope v none) (VScope.mk v.current_scope [] none) obj rfl
  exact ⟨_, (Run.value?_eq_some _ _).2 hout,
    pushes_scope_of_same (begin_scope_pushes v none) (scope_add_obj_same _ _ _ hout)⟩

theorem fn_end_main_scopes (fuel : Nat) (v : Validator) (ast : ASTProg) (fn : ASTObj)
    (r : Validator × ASTProg × ASTObj) (h : (fn_end_main fuel v ast fn).out = .ok r) :
    r.1.current_scope = v.current_scope ∧ r.1.scope_depth = v.scope_depth := by
  unfold fn_end_main at h
  split at h
  · simp only [Run.bind_eq] at h
    obtain ⟨checked, _, h⟩ := Run.andThen_ok_inv _ _ _ h
    simp only [pure, Run.ret, Outcome.ok.injEq] at h
    subst h
    exact ⟨rfl, rfl⟩
  · simp only [pure, Run.ret, Outcome.ok.injEq] at h
    subst h
    exact ⟨rfl, rfl⟩

theorem fn_end_pops (fuel : Nat) (v : Validator) (ast : ASTProg) (fn : ASTObj)
    (r : Validator × ASTProg × ASTObj) (h : (fn_end fuel v ast fn).out = .ok r) :
    pops_scope v r.1 := by
  unfold fn_end at h
  obtain ⟨checked, hc, h⟩ := Run.andThen_ok_inv _ _ _ h
  have hs := fn_end_main_scopes fuel v ast fn checked hc
  simp only [] at h
  obtain ⟨return_type, _, h⟩ := Run.andThen_ok_inv _ _ _ h
  cases return_type with
  | none => simp [Run.null_deref] at h
  | some return_type =>
    cases hw : checked.2.2.return_type with
    | none => simp [hw, Run.null_deref] at h
    | some written =>
      simp only [hw] at h
      obtain ⟨_, _, h⟩ := Run.andThen_ok_inv _ _ _ h
      obtain ⟨v1, hv1, h⟩ := Run.andThen_ok_inv _ _ _ h
      obtain ⟨_, _, h⟩ := Run.andThen_ok_inv _ _ _ h
      obtain ⟨_, _, h⟩ := Run.andThen_ok_inv _ _ _ h
      obtain ⟨_, _, h⟩ := Run.andThen_ok_inv _ _ _ h
      simp only [pure, Run.ret, Outcome.ok.injEq] at h
      subst h
      have hp := end_scope_pops _ _ hv1
      exact ⟨by rw [← hs.2]; exact hp.1, by rw [← hs.1]; exact hp.2⟩

theorem block_end_pops (v w : Validator) (block : ASTNode)
    (h : (block_end v block).out = .ok w) : pops_scope v w := by
  unfold block_end at h
  obtain ⟨v1, hv1, h⟩ := Run.andThen_ok_inv _ _ _ h
  obtain ⟨_, _, h⟩ := Run.andThen_ok_inv _ _ _ h
  simp only [pure, Run.ret, Outcome.ok.injEq] at h
  subst h
  exact end_scope_pops _ _ hv1

theorem with_end_pops (P : Platform) (v : Validator) (ast : ASTProg) (with_stmt : ASTNode)
    (obj : Option ASTObj) (r : Validator × Option ASTObj)
    (h : (with_end P v ast with_stmt obj).out = .ok r) : pops_scope v r.1 := by
  unfold with_end at h
  cases hc : with_stmt.condition with
  | none => simp [hc, Run.null_deref] at h
  | some condition =>
    simp only [hc] at h
    obtain ⟨_, _, h⟩ := Run.andThen_ok_inv _ _ _ h
    obtain ⟨handle, _, h⟩ := Run.andThen_ok_inv _ _ _ h
    cases handle with
    | none =>
      simp only [] at h
      obtain ⟨_, _, h⟩ := Run.andThen_ok_inv _ _ _ h
      simp [Run.null_deref] at h
    | some handle =>
      simp only [] at h
      obtain ⟨v1, hv1, h⟩ := Run.andThen_ok_inv _ _ _ h
      simp only [pure, Run.ret, Outcome.ok.injEq] at h
      subst h
      exact end_scope_pops _ _ hv1

theorem lambda_end_pops (P : Platform) (fuel : Nat) (v w : Validator) (lambda : ASTNode)
    (h : (lambda_end P fuel v lambda).out = .ok w) : pops_scope v w := by
  unfold lambda_end at h
  obtain ⟨v1, hv1, h⟩ := Run.andThen_ok_inv _ _ _ h
  have hp := end_scope_pops _ _ hv1
  split at h
  · cases hd : lambda.data_type with
    | none => simp [hd, Run.null_deref] at h
    | some data_type =>
      simp only [hd] at h
      obtain ⟨return_type, _, h⟩ := Run.andThen_ok_inv _ _ _ h
      cases return_type with
      | none => simp [Run.null_deref] at h
      | some return_type =>
        simp only [] at h
        obtain ⟨_, _, h⟩ := Run.andThen_ok_inv _ _ _ h
        simp only [pure, Run.ret, Outcome.ok.injEq] at h
        subst h
        exact hp
  · simp only [pure, Run.ret, Outcome.ok.injEq] at h
    subst h
    exact hp
theorem ast_members_as_nodes_closed {fn : Type} {list : ASTIteratorList fn}
    {Q : List (Visit fn) → Prop} (h : TraceClosed list Q) :
    ∀ objs : List ASTObj, Q (ast_members_as_nodes list objs)
  | [] => h.nil
  | obj :: rest => by
    rw [ast_members_as_nodes_cons]
    refine h.append _ _ ?_ (ast_members_as_nodes_closed h rest)
    have hn := h.node obj.as_node [] h.nil
    rw [List.append_nil] at hn
    exact hn

mutual
theorem ast_type_closed {fn : Type} {list : ASTIteratorList fn} {Q : List (Visit fn) → Prop}
    (h : TraceClosed list Q) : ∀ type : ASTType, Q (ast_type list type)
  | .mk info base num_indices members enum_members arg_types => by
    rw [ast_type_eq]
    cases hk : info.kind <;> simp only [] <;>
      repeat' first
        | exact h.nil
        | exact h.type_fn _ _
        | exact h.id _ _
        | exact ast_members_as_nodes_closed h enum_members
        | exact ast_type_ptr_closed h base
        | exact ast_types_closed h arg_types
        | exact ast_node_ptr_closed h num_indices
        | exact ast_nodes_closed h members
        | apply h.append
theorem ast_types_closed {fn : Type} {list : ASTIteratorList fn} {Q : List (Visit fn) → Prop}
    (h : TraceClosed list Q) : ∀ types : List ASTType, Q (ast_types list types)
  | [] => h.nil
  | type :: rest => by
    rw [ast_types_cons]
    exact h.append _ _ (ast_type_closed h type) (ast_types_closed h rest)
theorem ast_type_ptr_closed {fn : Type} {list : ASTIteratorList fn}
    {Q : List (Visit fn) → Prop} (h : TraceClosed list Q) :
    ∀ type : Option ASTType, Q (ast_type_ptr list type)
  | none => h.nil
  | some type => ast_type_closed h type
theorem ast_obj_closed {fn : Type} {list : ASTIteratorList fn} {Q : List (Visit fn) → Prop}
    (h : TraceClosed list Q) : ∀ obj : ASTObj, Q (ast_obj list obj)
  | .mk info data_type objs args return_type value body => by
    rw [ast_obj_eq]
    refine h.obj (.mk info data_type objs args return_type value body) _ ?_
    cases hk : info.kind <;> simp only [] <;>
      repeat' first
        | exact h.nil
        | exact h.id _ _
        | exact ast_type_ptr_closed h data_type
        | exact ast_type_ptr_closed h return_type
        | exact ast_node_ptr_closed h body
        | exact ast_objs_closed h objs
        | exact ast_objs_closed h args
        | apply h.append
theorem ast_objs_closed {fn : Type} {list : ASTIteratorList fn} {Q : List (Visit fn) → Prop}
    (h : TraceClosed list Q) : ∀ objs : List ASTObj, Q (ast_objs list objs)
  | [] => h.nil
  | obj :: rest => by
    rw [ast_objs_cons]
    exact h.append _ _ (ast_obj_closed h obj) (ast_objs_closed h rest)
theorem ast_node_closed {fn : Type} {list : ASTIteratorList fn} {Q : List (Visit fn) → Prop}
    (h : TraceClosed list Q) : ∀ node : ASTNode, Q (ast_node list node)
  | .mk info data_type expr args left right body init_stmt stmts locals => by
    rw [ast_node_eq]
    refine h.node (.mk info data_type expr args left right body init_stmt stmts locals) _ ?_
    cases hk : info.kind <;> simp only [] <;>
      first
      | (repeat' first
          | exact h.nil
          | exact h.id _ _
          | exact ast_type_ptr_closed h data_type
          | exact ast_node_ptr_closed h left
          | exact ast_node_ptr_closed h right
          | exact ast_node_ptr_closed h expr
          | exact ast_node_ptr_closed h body
          | exact ast_node_ptr_closed h init_stmt
          | exact ast_nodes_closed h args
          | exact ast_nodes_closed h stmts
          | exact ast_objs_closed h locals
          | apply h.append) <;> done
      | (cases data_type with
         | none => exact h.append _ _ (ast_node_ptr_closed h left) h.nil
         | some type =>
           exact h.append _ _ (ast_node_ptr_closed h left)
             (h.append _ _ (ast_node_ptr_closed h right) (ast_type_closed h type)))
theorem ast_node_ptr_closed {fn : Type} {list : ASTIteratorList fn}
    {Q : List (Visit fn) → Prop} (h : TraceClosed list Q) :
    ∀ node : Option ASTNode, Q (ast_node_ptr list node)
  | none => h.nil
  | some node => ast_node_closed h node
theorem ast_nodes_closed {fn : Type} {list : ASTIteratorList fn} {Q : List (Visit fn) → Prop}
    (h : TraceClosed list Q) : ∀ nodes : List ASTNode, Q (ast_nodes list nodes)
  | [] => h.nil
  | node :: rest => by
    rw [ast_nodes_cons]
    exact h.append _ _ (ast_node_closed h node) (ast_nodes_closed h rest)
end

/-- The trace of a node is the start callback, a trace with the property, the end
callback. -/
theorem ast_node_children_closed {fn : Type} {list : ASTIteratorList fn}
    {Q : List (Visit fn) → Prop} (h : TraceClosed list Q) (node : ASTNode) :
    ∃ children, Q children ∧
      ast_node list node
        = list_fn Visit.node_start (list.node_start_fns node.kind) node ++ children ++
            list_fn Visit.node_end (list.node_end_fns node.kind) node := by
  obtain ⟨info, data_type, expr, args, left, right, body, init_stmt, stmts, locals⟩ := node
  rw [ast_node_eq]
  refine ⟨_, ?_, rfl⟩
  cases hk : info.kind <;> simp only [] <;>
    first
    | (repeat' first
        | exact h.nil
        | exact h.id _ _
        | exact ast_type_ptr_closed h _
        | exact ast_node_ptr_closed h _
        | exact ast_nodes_closed h _
        | exact ast_objs_closed h _
        | apply h.append) <;> done
    | (cases data_type with
       | none => exact h.append _ _ (ast_node_ptr_closed h left) h.nil
       | some type =>
         exact h.append _ _ (ast_node_ptr_closed h left)
           (h.append _ _ (ast_node_ptr_closed h right) (ast_type_closed h type)))

/-- The trace of a declaration is the start callback, a trace with the property, the end
callback. -/
theorem ast_obj_children_closed {fn : Type} {list : ASTIteratorList fn}
    {Q : List (Visit fn) → Prop} (h : TraceClosed list Q) (obj : ASTObj) :
    ∃ children, Q children ∧
      ast_obj list obj
        = list_fn Visit.obj_start (list.obj_start_fns obj.kind) obj ++ children ++
            list_fn Visit.obj_end (list.obj_end_fns obj.kind) obj := by
  obtain ⟨info, data_type, objs, args, return_type, value, body⟩ := obj
  rw [ast_obj_eq]
  refine ⟨_, ?_, rfl⟩
  cases hk : info.kind <;> simp only [] <;>
    repeat' first
      | exact h.nil
      | exact h.id _ _
      | exact ast_type_ptr_closed h _
      | exact ast_node_ptr_closed h _
      | exact ast_objs_closed h _
      | apply h.append

theorem scope_trace_append (a b : List (Visit Callback)) :
    ∀ v w : Validator,
      scope_trace (a ++ b) v w ↔ ∃ u, scope_trace a v u ∧ scope_trace b u w := by
  induction a with
  | nil =>
    intro v w
    simp [scope_trace]
  | cons visit rest ih =>
    intro v w
    constructor
    · intro h
      have h : ∃ u, scope_step visit.callback v u ∧ scope_trace (rest ++ b) u w := h
      obtain ⟨u, hstep, hr⟩ := h
      obtain ⟨x, hx, hb⟩ := (ih u w).1 hr
      exact ⟨x, ⟨u, hstep, hx⟩, hb⟩
    · rintro ⟨x, hx, hb⟩
      have hx : ∃ u, scope_step visit.callback v u ∧ scope_trace rest u x := hx
      obtain ⟨u, hstep, hx⟩ := hx
      exact ⟨u, hstep, (ih u w).2 ⟨x, hx, hb⟩⟩

theorem scope_trace_single (visit : Visit Callback) (v w : Validator) :
    scope_trace [visit] v w ↔ scope_step visit.callback v w := by
  simp [scope_trace]

theorem scope_neutral_nil : scope_neutral [] := by
  intro v w _ h
  simp only [scope_trace] at h
  rw [h]
  exact same_scopes_refl v

theorem scope_neutral_append (a b : List (Visit Callback)) (ha : scope_neutral a)
    (hb : scope_neutral b) : scope_neutral (a ++ b) := by
  intro v w hd h
  obtain ⟨u, h1, h2⟩ := (scope_trace_append a b v w).1 h
  have hu := ha v u hd h1
  exact same_scopes_trans hu (hb u w (by rw [hu.1]; exact hd) h2)

/-- The invocation of a slot whose callback, if any, leaves the scopes alone. -/
theorem scope_neutral_slot {α : Type} (visit : Callback → α → Visit Callback)
    (hvisit : ∀ f x, (visit f x).callback = f) (slot : Option Callback) (x : α)
    (h : ∀ f, slot = some f → f.scope_effect = 0) : scope_neutral (list_fn visit slot x) := by
  cases slot with
  | none => exact scope_neutral_nil
  | some f =>
    intro v w _ ht
    have h0 := h f rfl
    simp only [list_fn, scope_trace_single, hvisit, scope_step, h0] at ht
    simpa using ht

/-- A trace between a callback that opens a scope and one that closes a scope leaves the
scopes exactly as it finds them, if the trace between them leaves them alone. -/
theorem scope_bracket_restores (s e : Visit Callback) (inner : List (Visit Callback))
    (hs : s.callback.scope_effect = 1) (he : e.callback.scope_effect = -1)
    (hinner : scope_neutral inner) (v w : Validator) (hd : v.scope_depth < 2 ^ 32)
    (h : scope_trace ([s] ++ inner ++ [e]) v w) :
    w.current_scope = v.current_scope ∧ w.scope_depth = v.scope_depth := by
  obtain ⟨v2, h12, h3⟩ := (scope_trace_append _ _ v w).1 h
  obtain ⟨v1, h1, h2⟩ := (scope_trace_append _ _ v v2).1 h12
  rw [scope_trace_single] at h1 h3
  simp only [scope_step, hs, he] at h1 h3
  simp only [if_true] at h1
  have h3 : pops_scope v2 w := by simpa using h3
  have hd1 : v1.scope_depth < 2 ^ 32 := by
    rw [h1.1]
    exact Nat.mod_lt _ (by norm_num)
  exact push_pop_restores v v1 v2 w hd h1 (hinner v1 v2 hd1 h2) h3

/-- In the table of the validator a node kind has either a start callback that opens a
scope and an end callback that closes one, or no callback that touches the scopes. -/
theorem main_node_slots (kind : ASTNodeKind) :
    (∃ s e, main_iterator_list.node_start_fns kind = some s ∧
        main_iterator_list.node_end_fns kind = some e ∧
        s.scope_effect = 1 ∧ e.scope_effect = -1) ∨
    ((∀ f, main_iterator_list.node_start_fns kind = some f → f.scope_effect = 0) ∧
     (∀ f, main_iterator_list.node_end_fns kind = some f → f.scope_effect = 0)) := by
  cases kind <;>
    first
    | exact Or.inl ⟨_, _, rfl, rfl, rfl, rfl⟩
    | exact Or.inr ⟨by intro f hf; cases hf <;> rfl, by intro f hf; cases hf <;> rfl⟩

theorem main_obj_slots (kind : ASTObjKind) :
    (∃ s e, main_iterator_list.obj_start_fns kind = some s ∧
        main_iterator_list.obj_end_fns kind = some e ∧
        s.scope_effect = 1 ∧ e.scope_effect = -1) ∨
    ((∀ f, main_iterator_list.obj_start_fns kind = some f → f.scope_effect = 0) ∧
     (∀ f, main_iterator_list.obj_end_fns kind = some f → f.scope_effect = 0)) := by
  cases kind <;>
    first
    | exact Or.inl ⟨_, _, rfl, rfl, rfl, rfl⟩
    | exact Or.inr ⟨by intro f hf; cases hf <;> rfl, by intro f hf; cases hf <;> rfl⟩

theorem same_scopes_of_eq {v w : Validator}
    (h : w.current_scope = v.current_scope ∧ w.scope_depth = v.scope_depth) :
    same_scopes v w := ⟨h.2, by rw [h.1], by rw [h.1]⟩

theorem scope_neutral_closed : TraceClosed main_iterator_list scope_neutral where
  nil := scope_neutral_nil
  append := scope_neutral_append
  type_fn := by
    intro kind type
    refine scope_neutral_slot Visit.type_fn (fun _ _ => rfl) _ type ?_
    cases kind <;> intro f hf <;> cases hf <;> rfl
  id := by
    intro is_definition id
    cases id with
    | none => exact scope_neutral_nil
    | some id =>
      cases is_definition
      · show scope_neutral (list_fn Visit.id_use main_iterator_list.id_use_fn id)
        refine scope_neutral_slot Visit.id_use (fun _ _ => rfl) _ id ?_
        intro f hf
        have hf : some Callback.id_use = some f := hf
        cases hf
        rfl
      · show scope_neutral (list_fn Visit.id_def main_iterator_list.id_def_fn id)
        refine scope_neutral_slot Visit.id_def (fun _ _ => rfl) _ id ?_
        intro f hf
        have hf : some Callback.id_def = some f := hf
        cases hf
        rfl
  node := by
    intro node inner hinner
    rcases main_node_slots node.kind with ⟨s, e, hs, he, hs1, he1⟩ | ⟨hs, he⟩
    · rw [hs, he]
      intro v w hd h
      exact same_scopes_of_eq
        (scope_bracket_restores (.node_start s node) (.node_end e node) inner hs1 he1 hinner
          v w hd h)
    · exact scope_neutral_append _ _
        (scope_neutral_append _ _
          (scope_neutral_slot Visit.node_start (fun _ _ => rfl) _ node hs) hinner)
        (scope_neutral_slot Visit.node_end (fun _ _ => rfl) _ node he)
  obj := by
    intro obj inner hinner
    rcases main_obj_slots obj.kind with ⟨s, e, hs, he, hs1, he1⟩ | ⟨hs, he⟩
    · rw [hs, he]
      intro v w hd h
      exact same_scopes_of_eq
        (scope_bracket_restores (.obj_start s obj) (.obj_end e obj) inner hs1 he1 hinner
          v w hd h)
    · exact scope_neutral_append _ _
        (scope_neutral_append _ _
          (scope_neutral_slot Visit.obj_start (fun _ _ => rfl) _ obj hs) hinner)
        (scope_neutral_slot Visit.obj_end (fun _ _ => rfl) _ obj he)

/-- The trace of a node of a kind whose start callback opens a scope leaves the current
scope and the depth exactly as it finds them. -/
theorem scoped_node_restores (node : ASTNode) (s e : Callback)
    (hs : main_iterator_list.node_start_fns node.kind = some s)
    (he : main_iterator_list.node_end_fns node.kind = some e)
    (hs1 : s.scope_effect = 1) (he1 : e.scope_effect = -1) (v w : Validator)
    (hd : v.scope_depth < 2 ^ 32) (h : scope_trace (ast_node main_iterator_list node) v w) :
    w.current_scope = v.current_scope ∧ w.scope_depth = v.scope_depth := by
  obtain ⟨children, hc, heq⟩ := ast_node_children_closed scope_neutral_closed node
  rw [heq, hs, he] at h
  exact scope_bracket_restores (.node_start s node) (.node_end e node) children hs1 he1 hc
    v w hd h

theorem scoped_obj_restores (obj : ASTObj) (s e : Callback)
    (hs : main_iterator_list.obj_start_fns obj.kind = some s)
    (he : main_iterator_list.obj_end_fns obj.kind = some e)
    (hs1 : s.scope_effect = 1) (he1 : e.scope_effect = -1) (v w : Validator)
    (hd : v.scope_depth < 2 ^ 32) (h : scope_trace (ast_obj main_iterator_list obj) v w) :
    w.current_scope = v.current_scope ∧ w.scope_depth = v.scope_depth := by
  obtain ⟨children, hc, heq⟩ := ast_obj_children_closed scope_neutral_closed obj
  rw [heq, hs, he] at h
  exact scope_bracket_restores (.obj_start s obj) (.obj_end e obj) children hs1 he1 hc
    v w hd h
/-- C32: in a state whose depth counter is a `u32` value, `begin_scope` followed by
`end_scope` returns the state itself, so the current scope and the depth are the previous
ones.  The counter `scope_depth` is the number of scopes on the stack modulo 2^32: this
holds for the fresh state, every push, pop and write into the innermost scope keeps it, so
it holds after every trace of callbacks, and the counter is the number itself while fewer
than 2^32 scopes are open.  Each of the six start callbacks `fn_start`, `namespace_start`,
`block_start`, `for_start`, `with_start` and `lambda_start` leaves exactly one scope on top
of the scopes it finds, and each of the six end callbacks, when it returns, takes exactly
the innermost scope off.  A push, callbacks that keep the scopes, and a pop give back the
current scope and the depth.  When the callbacks of the validator's table are run in the
order of the traversal of a node, of a declaration or of a whole program, the scopes after
the traversal are the ones before it (the innermost scope may have received objects), and
after a block, `for`, `with`, lambda, function or namespace the current scope and the depth
are exactly the ones before it. -/
theorem C32_scopes_strictly_nested (P : Platform) (fuel : Nat) (v : Validator)
    (ast : ASTProg) (hdepth : v.scope_depth < 2 ^ 32) :
    (∀ id, end_scope (begin_scope v id) = Run.ret v) ∧
    (∀ id, pushes_scope v (begin_scope v id)) ∧
    (∀ w, (end_scope v).value? = some w → pops_scope v w) ∧
    (scopes_counted init_validator ∧
      (scopes_counted v →
        ∀ w, pushes_scope v w ∨ pops_scope v w ∨ same_scopes v w → scopes_counted w) ∧
      (scopes_counted v → (VScope.chain v.current_scope).length < 2 ^ 32 →
        v.scope_depth = (VScope.chain v.current_scope).length) ∧
      (scopes_counted v → ∀ trace w, scope_trace trace v w → scopes_counted w)) ∧
    ((∀ fn va_area w, (fn_start v fn va_area).value? = some w → pushes_scope v w) ∧
      (∀ fn r, (fn_end fuel v ast fn).value? = some r → pops_scope v r.1)) ∧
    ((∀ ns, ∃ w, (namespace_start v ns).value? = some w ∧ pushes_scope v w) ∧
      (∀ ns w, (namespace_end v ns).value? = some w → pops_scope v w)) ∧
    ((∀ block, ∃ w, (block_start v block).value? = some w ∧ pushes_scope v w) ∧
      (∀ block w, (block_end v block).value? = some w → pops_scope v w)) ∧
    ((∀ for_stmt, ∃ w, (for_start v for_stmt).value? = some w ∧ pushes_scope v w) ∧
      (∀ for_stmt w, (for_end v for_stmt).value? = some w → pops_scope v w)) ∧
    ((∀ obj, ∃ w, (with_start v (some obj)).value? = some w ∧ pushes_scope v w) ∧
      (∀ with_stmt obj r, (with_end P v ast with_stmt obj).value? = some r →
        pops_scope v r.1)) ∧
    ((∀ lambda, pushes_scope v (lambda_start v lambda)) ∧
      (∀ lambda w, (lambda_end P fuel v lambda).value? = some w → pops_scope v w)) ∧
    (∀ v1 v2 v3, pushes_scope v v1 → same_scopes v1 v2 → pops_scope v2 v3 →
      v3.current_scope = v.current_scope ∧ v3.scope_depth = v.scope_depth) ∧
    (∀ node w, scope_trace (ast_node main_iterator_list node) v w → same_scopes v w) ∧
    (∀ obj w, scope_trace (ast_obj main_iterator_list obj) v w → same_scopes v w) ∧
    (∀ objs w, scope_trace (ast_iterate main_iterator_list objs) v w → same_scopes v w) ∧
    (∀ node w, node.kind ∈ [.ND_BLOCK, .ND_FOR, .ND_WITH, .ND_LAMBDA] →
      scope_trace (ast_node main_iterator_list node) v w →
      w.current_scope = v.current_scope ∧ w.scope_depth = v.scope_depth) ∧
    (∀ obj w, obj.kind ∈ [.OBJ_FUNCTION, .OBJ_NAMESPACE] →
      scope_trace (ast_obj main_iterator_list obj) v w →
      w.current_scope = v.current_scope ∧ w.scope_depth = v.scope_depth) := by
  refine ⟨fun id => end_begin_scope v id hdepth, begin_scope_pushes v,
    fun w h => end_scope_pops v w ((Run.value?_eq_some _ _).1 h),
    ⟨rfl, ?_, ?_, fun hv trace w h => scopes_counted_trace trace v w hv h⟩,
    ⟨fun fn va_area w h => fn_start_pushes v w fn va_area ((Run.value?_eq_some _ _).1 h),
      fun fn r h => fn_end_pops fuel v ast fn r ((Run.value?_eq_some _ _).1 h)⟩,
    ⟨fun ns => begin_obj_scope_pushes v _ _,
      fun ns w h => end_scope_pops v w ((Run.value?_eq_some _ _).1 h)⟩,
    ⟨fun block => begin_obj_scope_pushes v _ _,
      fun block w h => block_end_pops v w block ((Run.value?_eq_some _ _).1 h)⟩,
    ⟨fun for_stmt => begin_obj_scope_pushes v _ _,
      fun for_stmt w h => end_scope_pops v w ((Run.value?_eq_some _ _).1 h)⟩,
    ⟨with_start_pushes v,
      fun with_stmt obj r h =>
        with_end_pops P v ast with_stmt obj r ((Run.value?_eq_some _ _).1 h)⟩,
    ⟨fun _ => begin_scope_pushes v none,
      fun lambda w h => lambda_end_pops P fuel v w lambda ((Run.value?_eq_some _ _).1 h)⟩,
    fun v1 v2 v3 => push_pop_restores v v1 v2 v3 hdepth,
    fun node w => ast_node_closed scope_neutral_closed node v w hdepth,
    fun obj w => ast_obj_closed scope_neutral_closed obj v w hdepth,
    fun objs w => ast_objs_closed scope_neutral_closed objs v w hdepth, ?_, ?_⟩
  · rintro hv w (h | h | h)
    · exact scopes_counted_push hv h
    · exact scopes_counted_pop hv h
    · exact scopes_counted_same hv h
  · intro hv hlen
    rw [hv]
    exact Nat.mod_eq_of_lt hlen
  · intro node w hk h
    simp only [List.mem_cons, List.mem_singleton, List.not_mem_nil, or_false] at hk
    rcases hk with hk | hk | hk | hk
    · exact scoped_node_restores node .block_start .block_end (by rw [hk]; rfl)
        (by rw [hk]; rfl) rfl rfl v w hdepth h
    · exact scoped_node_restores node .for_start .for_end (by rw [hk]; rfl)
        (by rw [hk]; rfl) rfl rfl v w hdepth h
    · exact scoped_node_restores node .with_start .with_end (by rw [hk]; rfl)
        (by rw [hk]; rfl) rfl rfl v w hdepth h
    · exact scoped_node_restores node .lambda_start .lambda_end (by rw [hk]; rfl)
        (by rw [hk]; rfl) rfl rfl v w hdepth h
  · intro obj w hk h
    simp only [List.mem_cons, List.mem_singleton, List.not_mem_nil, or_false] at hk
    rcases hk with hk | hk
    · exact scoped_obj_restores obj .fn_start .fn_end (by rw [hk]; rfl)
        (by rw [hk]; rfl) rfl rfl v w hdepth h
    · exact scoped_obj_restores obj .namespace_start .namespace_end (by rw [hk]; rfl)
        (by rw [hk]; rfl) rfl rfl v w hdepth h

theorem C32_scopes_strictly_nested_witness :
    sample_validator.scope_depth < 2 ^ 32 ∧
    end_scope (begin_scope sample_validator none) = Run.ret sample_validator ∧
    (∀ w, scope_trace (ast_obj main_iterator_list sample_namespace_n) sample_validator w →
      w.current_scope = sample_validator.current_scope ∧
        w.scope_depth = sample_validator.scope_depth) ∧
    ((for_start sample_validator sample_for).andThen fun w => for_end w sample_for)
      = Run.ret sample_validator ∧
    ((fn_start sample_validator sample_fn_g none).andThen fun w =>
        (fn_end 3 w {} sample_fn_g).andThen fun r => pure r.1)
      = Run.ret sample_validator ∧
    ((pure (lambda_start sample_validator (stmt .ND_LAMBDA)) : Run Validator).andThen fun w =>
        lambda_end sample_platform 3 w (typed .ND_LAMBDA sample_fn1))
      = Run.ret sample_validator :=
  have h := C32_scopes_strictly_nested sample_platform 3 sample_validator {} (by decide)
  ⟨by decide, h.1 none,
    fun w => h.2.2.2.2.2.2.2.2.2.2.2.2.2.2.2 sample_namespace_n w (by decide),
    rfl, rfl, rfl⟩

end CSpydr
